import Mathlib

/-!
# CA2026 simulator: four MESI-coherent cores on a shared bus

A shallow embedding of `src/CA2026_project/src/{sim.h, instruction.c, cache.c,
bus.c, core.c, init.c}` and of the driver loop `run_simulator` (stubs.c).

Modelling conventions.

* C arrays are total maps `Nat → α`; an assignment `a[i] = v` is `upd a i v`.
  Whether an index stays inside the C array is a separate question, stated as an
  explicit hypothesis (or proved) where a statement depends on it.
* For one array that question is part of the model.  `bus_cycle` indexes
  `main_memory.data`, an array of `MAIN_MEM_SIZE` words, with a 32-bit address
  and no range test (bus.c:82 and bus.c:109).  An index at or above
  `MAIN_MEM_SIZE` is not a memory cell: the array is followed in `Simulator` by
  the rest of `MainMemory` and by the `BusArbiter`, so the C program reads or
  overwrites arbiter fields, or leaves the allocation.  The model does not
  follow the program there: it keeps the map as if the array went on and
  records the access in the flag `Simulator.mem_fault`, which stands for no C
  field.  In a state whose flag is set the cells of the map at indices
  `≥ MAIN_MEM_SIZE`, and every field that depends on a word read or overwritten
  out of range, are placeholders, not values of the program.  General
  statements about bus transactions are made for states whose flag is clear, or
  carry a bound on the address.
* Unsigned machine integers are `Nat`; wrap-around is written `% 2 ^ w` at the
  places where the C expression can wrap.  `int` variables (`owner`, `timer`,
  `last_granted`, `provider_id`) are `Int`; `int16_t imm` is an `Int`.
* A C function that mutates `*sim` is a function `Simulator → Simulator`.
  A pointer `&sim->cores[i]` (or `&sim->cores[i].cache`) is the index `i`.
* Struct fields that no function reads or writes after `memset` (the `Cache`
  request automaton fields, `MainMemory.pending…`, `upgrade_only`,
  `request_time`, `post_wb_reg_*`, `mem_read`, `mem_write`, `branch_resolved`,
  `imm_register`, `branch_source_pc`, …) are left out, and so is the text of the
  per-core trace lines (only `trace_count` is kept).
-/

namespace CA2026

/-! ## Constants (sim.h) -/

def NUM_CORES : Nat := 4
def NUM_REGISTERS : Nat := 16
def IMEM_SIZE : Nat := 1024
def MAIN_MEM_SIZE : Nat := 2 ^ 21
def CACHE_SIZE : Nat := 512
def CACHE_BLOCK_SIZE : Nat := 8
def NUM_CACHE_BLOCKS : Nat := 64
def MAX_TRACE_LINES : Nat := 100000

def OP_ADD : Nat := 0
def OP_SUB : Nat := 1
def OP_AND : Nat := 2
def OP_OR : Nat := 3
def OP_XOR : Nat := 4
def OP_MUL : Nat := 5
def OP_SLL : Nat := 6
def OP_SRA : Nat := 7
def OP_SRL : Nat := 8
def OP_BEQ : Nat := 9
def OP_BNE : Nat := 10
def OP_BLT : Nat := 11
def OP_BGT : Nat := 12
def OP_BLE : Nat := 13
def OP_BGE : Nat := 14
def OP_JAL : Nat := 15
def OP_LW : Nat := 16
def OP_SW : Nat := 17
def OP_HALT : Nat := 20

/-- Array assignment `a[i] = v`. -/
def upd {α : Type} (a : Nat → α) (i : Nat) (v : α) : Nat → α :=
  fun j => if j = i then v else a j

/-- Conversion `(uint32_t)x` of a signed value. -/
def toU32 (x : Int) : Nat := (x % 2 ^ 32).toNat

/-- Conversion `(int32_t)x` of a 32-bit unsigned value. -/
def toI32 (x : Nat) : Int :=
  if x % 2 ^ 32 < 2 ^ 31 then ((x % 2 ^ 32 : Nat) : Int) else ((x % 2 ^ 32 : Nat) : Int) - 2 ^ 32

/-! ## Data model (sim.h) -/

structure Instruction where
  opcode : Nat
  rd : Nat
  rs : Nat
  rt : Nat
  imm : Int
  deriving DecidableEq, Repr

inductive MESIState where
  | INVALID
  | SHARED
  | EXCLUSIVE
  | MODIFIED
  deriving DecidableEq, Repr

inductive BusCommand where
  | NO_CMD
  | RD
  | RDX
  | FLUSH
  deriving DecidableEq, Repr

inductive BusState where
  | IDLE
  | ARBITRATE
  | REQUEST
  | LATENCY
  | FLUSH
  deriving DecidableEq, Repr

structure BusTransaction where
  origid : Nat
  cmd : BusCommand
  addr : Nat
  data : Nat
  shared : Bool
  deriving DecidableEq, Repr

structure TSRAMEntry where
  tag : Nat
  mesi_state : MESIState
  valid : Bool
  deriving DecidableEq, Repr

structure Cache where
  dsram : Nat → Nat
  tsram : Nat → TSRAMEntry

structure PipelineReg where
  valid : Bool
  stall : Bool
  internal_stall : Bool
  pc : Nat
  inst : Instruction
  rs_value : Nat
  rt_value : Nat
  alu_result : Nat
  mem_data : Nat
  imm_val : Nat
  reg_write : Bool
  is_halt : Bool
  rw : Nat
  inst_word : Nat
  deriving DecidableEq, Repr

structure Pipeline where
  fetch : PipelineReg
  decode : PipelineReg
  execute : PipelineReg
  mem : PipelineReg
  writeback : PipelineReg
  deriving DecidableEq, Repr

structure Core where
  core_id : Nat
  pc : Nat
  registers : Nat → Nat
  imem : Nat → Nat
  cache : Cache
  pipeline : Pipeline
  halted : Bool
  halt_fetch : Bool
  branch_pending : Bool
  branch_target : Nat
  wb_reg_written : Nat
  pending_reg_write_addr : Nat
  pending_reg_write_val : Nat
  cycles : Nat
  instructions : Nat
  read_hit : Nat
  write_hit : Nat
  read_miss : Nat
  write_miss : Nat
  decode_stall : Nat
  mem_stall : Nat
  trace_count : Nat

/-- The array `uint32_t data[MAIN_MEM_SIZE]`.  Only the cells below
`MAIN_MEM_SIZE` are words of the memory; a cell at a higher index is a
placeholder that is read or written only in a step that sets
`Simulator.mem_fault`. -/
structure MainMemory where
  data : Nat → Nat

/-- One line of the bus trace: the six values `add_bus_trace_entry` prints. -/
structure BusTraceLine where
  cycle : Nat
  origid : Nat
  cmd : BusCommand
  addr : Nat
  data : Nat
  shared : Bool
  deriving DecidableEq, Repr

structure BusArbiter where
  current : BusTransaction
  last_granted : Int
  owner : Int
  state : BusState
  timer : Int
  provider_id : Int
  shared_at_request : Bool
  flush_data : Nat → Nat
  pending : Nat → Bool
  pending_trans : Nat → BusTransaction
  trace_lines : List BusTraceLine
  trace_count : Nat

/-- The struct `Simulator`, and one flag more: `mem_fault` is set by the bus
step that indexes `main_memory.data` at or above `MAIN_MEM_SIZE` and is never
cleared.  While it is `false` the other fields are those of the C struct; once
it is `true` the C program has left the array, and the fields that depend on
what it read or overwrote there no longer describe it.  A state with the flag
set plays the part of the error value of an `Except`-valued step function; it
is kept inside the state so that the step functions have one result type. -/
structure Simulator where
  cores : Nat → Core
  main_memory : MainMemory
  bus : BusArbiter
  global_cycle : Nat
  running : Bool
  mem_fault : Bool

/-! ## Instruction codec (instruction.c) -/

def decode_instruction (inst_word : Nat) : Instruction :=
  let imm : Int := ((inst_word &&& 0xFFF : Nat) : Int)
  { opcode := (inst_word >>> 24) &&& 0xFF
    rd := (inst_word >>> 20) &&& 0x0F
    rs := (inst_word >>> 16) &&& 0x0F
    rt := (inst_word >>> 12) &&& 0x0F
    imm := if (inst_word &&& 0xFFF) &&& 0x800 ≠ 0 then imm - 4096 else imm }

def encode_instruction (inst : Instruction) : Nat :=
  (((inst.opcode &&& 0xFF) <<< 24) ||| ((inst.rd &&& 0x0F) <<< 20) |||
    ((inst.rs &&& 0x0F) <<< 16) ||| ((inst.rt &&& 0x0F) <<< 12) |||
    (toU32 inst.imm &&& 0x0FFF)) % 2 ^ 32

def is_branch_instruction (inst : Instruction) : Bool :=
  (decide (OP_BEQ ≤ inst.opcode) && decide (inst.opcode ≤ OP_BGE)) || decide (inst.opcode = OP_JAL)

def is_load_instruction (inst : Instruction) : Bool := decide (inst.opcode = OP_LW)

def is_store_instruction (inst : Instruction) : Bool := decide (inst.opcode = OP_SW)

def is_register_write (inst : Instruction) : Bool :=
  if OP_BEQ ≤ inst.opcode ∧ inst.opcode ≤ OP_BGE then false
  else if inst.opcode = OP_SW then false
  else if inst.opcode = OP_HALT then false
  else if inst.opcode = OP_JAL then true
  else true

def get_dest_register (inst : Instruction) : Nat :=
  if inst.opcode = OP_JAL then 15
  else if is_register_write inst then inst.rd
  else 0

/-! ## Cache address parsing (cache.c) -/

def get_cache_index (addr : Nat) : Nat := (addr >>> 3) &&& 0x3F

def get_cache_tag (addr : Nat) : Nat := (addr >>> 9) &&& 0xFFF

def get_block_offset (addr : Nat) : Nat := addr &&& 0x7

/-- The C expression `addr & ~0x7` on a `uint32_t`. -/
def get_block_base_addr (addr : Nat) : Nat := addr &&& 0xFFFFFFF8

def get_dsram_index (cache_index block_offset : Nat) : Nat :=
  (cache_index * CACHE_BLOCK_SIZE + block_offset) % 2 ^ 16

def get_addr_from_tag_index (tag index : Nat) : Nat := (tag <<< 9) ||| (index <<< 3)

/-! ## Small state setters -/

/-- Replace the cache of core `i` (a write through `&sim->cores[i].cache`). -/
def Simulator.setCache (sim : Simulator) (i : Nat) (c : Cache) : Simulator :=
  { sim with cores := upd sim.cores i { sim.cores i with cache := c } }

/-- Replace core `i` (a write through `&sim->cores[i]`). -/
def Simulator.setCore (sim : Simulator) (i : Nat) (c : Core) : Simulator :=
  { sim with cores := upd sim.cores i c }

/-! ## Cache operations (cache.c) -/

/-- The line test shared by `cache_read`, `cache_snoop` and the MEM stage:
`entry->valid && entry->tag == tag`. -/
def TSRAMEntry.matches (e : TSRAMEntry) (tag : Nat) : Bool := e.valid && decide (e.tag = tag)

/-- `cache_read(&sim->cores[ci].cache, addr, &data, sim, core_id)`: the result is
`some data` on a hit (`return true` with `*data` written) and `none` on a miss. -/
def cache_read (sim : Simulator) (ci : Nat) (addr : Nat) (core_id : Nat) :
    Option Nat × Simulator :=
  let index := get_cache_index addr
  let tag := get_cache_tag addr
  let block_offset := get_block_offset addr
  let entry := (sim.cores ci).cache.tsram index
  if entry.valid && decide (entry.tag = tag) && decide (entry.mesi_state ≠ MESIState.INVALID) then
    let dsram_idx := (index * CACHE_BLOCK_SIZE + block_offset) % 2 ^ 16
    (some ((sim.cores ci).cache.dsram dsram_idx), sim)
  else if !sim.bus.pending core_id && decide (sim.bus.owner ≠ (core_id : Int)) then
    (none,
      { sim with bus := { sim.bus with
          pending_trans := upd sim.bus.pending_trans core_id
            { sim.bus.pending_trans core_id with
                cmd := BusCommand.RD, addr := addr, origid := core_id % 256 }
          pending := upd sim.bus.pending core_id true } })
  else (none, sim)

/-- `cache_write(&sim->cores[ci].cache, addr, data, sim, core_id)`. -/
def cache_write (sim : Simulator) (ci : Nat) (addr data : Nat) (core_id : Nat) :
    Bool × Simulator :=
  let index := get_cache_index addr
  let tag := get_cache_tag addr
  let block_offset := get_block_offset addr
  let cache := (sim.cores ci).cache
  let entry := cache.tsram index
  if entry.valid && decide (entry.tag = tag) &&
      (decide (entry.mesi_state = MESIState.MODIFIED) ||
        decide (entry.mesi_state = MESIState.EXCLUSIVE)) then
    let dsram_idx := (index * CACHE_BLOCK_SIZE + block_offset) % 2 ^ 16
    (true, sim.setCache ci
      { dsram := upd cache.dsram dsram_idx data
        tsram := upd cache.tsram index { entry with mesi_state := MESIState.MODIFIED } })
  else if !sim.bus.pending core_id && decide (sim.bus.owner ≠ (core_id : Int)) then
    (false,
      { sim with bus := { sim.bus with
          pending_trans := upd sim.bus.pending_trans core_id
            { sim.bus.pending_trans core_id with
                cmd := BusCommand.RDX, addr := addr, origid := core_id % 256 }
          pending := upd sim.bus.pending core_id true } })
  else (false, sim)

/-- The loop `for (i = 0; i < 8; i++) flush_data[i] = dsram[dsram_base + i]`. -/
def copy_block_to_flush (flush_data dsram : Nat → Nat) (dsram_base : Nat) : Nat → Nat :=
  upd (upd (upd (upd (upd (upd (upd (upd flush_data
    0 (dsram (dsram_base + 0))) 1 (dsram (dsram_base + 1))) 2 (dsram (dsram_base + 2)))
    3 (dsram (dsram_base + 3))) 4 (dsram (dsram_base + 4))) 5 (dsram (dsram_base + 5)))
    6 (dsram (dsram_base + 6))) 7 (dsram (dsram_base + 7))

/-- `cache_snoop(&sim->cores[core_id].cache, trans, core_id, sim)`; the transaction
is passed by pointer, so the (possibly updated) transaction is returned too. -/
def cache_snoop (sim : Simulator) (trans : BusTransaction) (core_id : Nat) :
    Simulator × BusTransaction :=
  let index := get_cache_index trans.addr
  let tag := get_cache_tag trans.addr
  let cache := (sim.cores core_id).cache
  let entry := cache.tsram index
  if !entry.valid || decide (entry.tag ≠ tag) then (sim, trans)
  else if trans.cmd = BusCommand.RD then
    if entry.mesi_state = MESIState.MODIFIED then
      let dsram_base := (index * CACHE_BLOCK_SIZE) % 2 ^ 16
      let sim1 : Simulator :=
        { sim with bus := { sim.bus with
            provider_id := (core_id : Int)
            flush_data := copy_block_to_flush sim.bus.flush_data cache.dsram dsram_base } }
      (sim1.setCache core_id
          { cache with tsram := upd cache.tsram index { entry with mesi_state := MESIState.SHARED } },
        { trans with shared := true })
    else if entry.mesi_state = MESIState.EXCLUSIVE then
      (sim.setCache core_id
          { cache with tsram := upd cache.tsram index { entry with mesi_state := MESIState.SHARED } },
        { trans with shared := true })
    else if entry.mesi_state = MESIState.SHARED then
      (sim, { trans with shared := true })
    else (sim, trans)
  else if trans.cmd = BusCommand.RDX then
    let sim1 : Simulator :=
      if entry.mesi_state = MESIState.MODIFIED then
        let dsram_base := (index * CACHE_BLOCK_SIZE) % 2 ^ 16
        { sim with bus := { sim.bus with
            provider_id := (core_id : Int)
            flush_data := copy_block_to_flush sim.bus.flush_data cache.dsram dsram_base } }
      else sim
    (sim1.setCache core_id
        { cache with
            tsram := upd cache.tsram index
              { entry with mesi_state := MESIState.INVALID, valid := false } },
      trans)
  else (sim, trans)

/-- `cache_handle_bus_response(&sim->cores[core_id].cache, trans, core_id, sim)`. -/
def cache_handle_bus_response (sim : Simulator) (trans : BusTransaction) (core_id : Nat) :
    Simulator :=
  if trans.cmd ≠ BusCommand.FLUSH then sim
  else if sim.bus.owner = (core_id : Int) then
    let cache := (sim.cores core_id).cache
    let index := get_cache_index trans.addr
    let block_offset := get_block_offset trans.addr
    let dsram_idx := (index * CACHE_BLOCK_SIZE + block_offset) % 2 ^ 16
    let dsram1 := upd cache.dsram dsram_idx trans.data
    if block_offset = 7 then
      let tag := get_cache_tag trans.addr
      let st : MESIState :=
        if (sim.bus.pending_trans core_id).cmd = BusCommand.RD then
          (if sim.bus.shared_at_request then MESIState.SHARED else MESIState.EXCLUSIVE)
        else MESIState.MODIFIED
      let core := sim.cores core_id
      sim.setCore core_id
        { core with
            cache := { dsram := dsram1
                       tsram := upd cache.tsram index { tag := tag, mesi_state := st, valid := true } }
            pipeline := { core.pipeline with
              mem := { core.pipeline.mem with internal_stall := false } } }
    else
      sim.setCache core_id { cache with dsram := dsram1 }
  else sim

/-! ## Bus arbiter (bus.c) -/

/-- `add_bus_trace_entry(bus, trans, cycle)`; the printed address is
`trans->addr & 0xFFFFF`. -/
def add_bus_trace_entry (bus : BusArbiter) (trans : BusTransaction) (cycle : Nat) : BusArbiter :=
  if trans.cmd = BusCommand.NO_CMD then bus
  else if MAX_TRACE_LINES ≤ bus.trace_count then bus
  else
    { bus with
        trace_lines := bus.trace_lines ++
          [{ cycle := cycle, origid := trans.origid, cmd := trans.cmd,
             addr := trans.addr &&& 0xFFFFF, data := trans.data, shared := trans.shared }]
        trace_count := bus.trace_count + 1 }

/-- The scan loop of `bus_arbitrate`: iteration `i`, with `n` iterations left. -/
def bus_arbitrate_loop (bus : BusArbiter) (start : Int) (i : Nat) : Nat → BusArbiter
  | 0 => bus
  | n + 1 =>
    let core_id : Int := Int.tmod (start + (i : Int)) 4
    if bus.pending core_id.toNat then
      { bus with
          owner := core_id
          last_granted := core_id
          current := bus.pending_trans core_id.toNat
          pending := upd bus.pending core_id.toNat false }
    else bus_arbitrate_loop bus start (i + 1) n

def bus_arbitrate (bus : BusArbiter) : BusArbiter :=
  bus_arbitrate_loop bus (Int.tmod (bus.last_granted + 1) 4) 0 NUM_CORES

/-- The snoop loop of the Request step over the core indices in `l`:
`if (i != bus->owner) cache_snoop(&sim->cores[i].cache, &output, i, sim)`. -/
def snoop_loop (sim : Simulator) (output : BusTransaction) : List Nat → Simulator × BusTransaction
  | [] => (sim, output)
  | i :: rest =>
    if (i : Int) ≠ sim.bus.owner then
      snoop_loop (cache_snoop sim output i).1 (cache_snoop sim output i).2 rest
    else snoop_loop sim output rest

/-- The loop `for (j = 0; j < 8; j++) flush_data[j] = main_memory.data[block_addr + j]`
for a block inside the array, `block_addr + 7 < MAIN_MEM_SIZE`.  The loop has no
range test; `request_finish` sets `mem_fault` when it runs on any other block,
and the eight values are then placeholders, not what the program reads. -/
def copy_block_from_memory (flush_data data : Nat → Nat) (block_addr : Nat) : Nat → Nat :=
  upd (upd (upd (upd (upd (upd (upd (upd flush_data
    0 (data (block_addr + 0))) 1 (data (block_addr + 1))) 2 (data (block_addr + 2)))
    3 (data (block_addr + 3))) 4 (data (block_addr + 4))) 5 (data (block_addr + 5)))
    6 (data (block_addr + 6))) 7 (data (block_addr + 7))

/-- Second half of `case BUS_STATE_REQUEST`, after the snoop loop: latch the
shared bit, log the request and start the Flush or the memory latency.  The
memory-sourced branch reads `main_memory.data[block_addr + j]`, `j = 0 … 7`,
with no range test (bus.c:82): when one of these indices is outside the array
the step sets `mem_fault`. -/
def request_finish (sim2 : Simulator) (output : BusTransaction) :
    Simulator × BusTransaction :=
  let bus3 := add_bus_trace_entry { sim2.bus with shared_at_request := output.shared }
    output sim2.global_cycle
  if bus3.provider_id ≠ 4 then
    ({ sim2 with bus := { bus3 with state := BusState.FLUSH, timer := 8 } }, output)
  else
    let block_addr := output.addr &&& 0xFFFFFFF8
    ({ sim2 with
        bus := { bus3 with
          state := BusState.LATENCY
          timer := 15
          flush_data := copy_block_from_memory bus3.flush_data sim2.main_memory.data block_addr }
        mem_fault := sim2.mem_fault || decide (MAIN_MEM_SIZE ≤ block_addr + 7) },
      output)

/-- Body of `case BUS_STATE_REQUEST` of `bus_cycle`; the second component is the
local variable `output` when the function returns. -/
def bus_request_step (sim : Simulator) : Simulator × BusTransaction :=
  let output0 : BusTransaction :=
    { sim.bus.pending_trans sim.bus.owner.toNat with shared := false }
  let sim1 : Simulator := { sim with bus := { sim.bus with provider_id := 4 } }
  let r := snoop_loop sim1 output0 [0, 1, 2, 3]
  request_finish r.1 r.2

/-- The loop delivering the Flush word to the fill handler of every cache in `l`. -/
def response_loop (sim : Simulator) (output : BusTransaction) : List Nat → Simulator
  | [] => sim
  | i :: rest => response_loop (cache_handle_bus_response sim output i) output rest

/-- The Flush word put on the bus by `case BUS_STATE_FLUSH`. -/
def flush_word (bus : BusArbiter) : BusTransaction :=
  let base := (bus.pending_trans bus.owner.toNat).addr &&& 0xFFFFFFF8
  let offset : Int := 8 - bus.timer
  { origid := (bus.provider_id % 256).toNat
    cmd := BusCommand.FLUSH
    addr := toU32 ((base : Int) + offset)
    data := bus.flush_data offset.toNat
    shared := bus.shared_at_request }

/-- Body of `case BUS_STATE_FLUSH` of `bus_cycle`.  The store
`main_memory.data[output.addr] = output.data` of a cache-sourced Flush has no
range test (bus.c:109): when `output.addr` is outside the array the step sets
`mem_fault`, and the cell the model updates is a placeholder (the C program
overwrites whatever lies at that index, or faults). -/
def bus_flush_step (sim : Simulator) : Simulator × BusTransaction :=
  let output := flush_word sim.bus
  let bus1 := add_bus_trace_entry sim.bus output sim.global_cycle
  let mem1 : MainMemory :=
    if bus1.provider_id ≠ 4 then { data := upd sim.main_memory.data output.addr output.data }
    else sim.main_memory
  let fault1 : Bool :=
    sim.mem_fault || (decide (bus1.provider_id ≠ 4) && decide (MAIN_MEM_SIZE ≤ output.addr))
  let sim2 := response_loop { sim with bus := bus1, main_memory := mem1, mem_fault := fault1 }
    output [0, 1, 2, 3]
  let timer := sim2.bus.timer - 1
  if timer = 0 then
    ({ sim2 with bus := { sim2.bus with timer := timer, state := BusState.IDLE, owner := -1 } },
      output)
  else ({ sim2 with bus := { sim2.bus with timer := timer } }, output)

/-- The value `BusTransaction output = { 0 }` with `cmd = BUS_NO_CMD`. -/
def no_output : BusTransaction :=
  { origid := 0, cmd := BusCommand.NO_CMD, addr := 0, data := 0, shared := false }

/-- `bus_cycle(sim)` together with the final value of its local `output`, the
transaction driven on the bus in this cycle (`cmd = NO_CMD` when there is none). -/
def bus_cycle_out (sim : Simulator) : Simulator × BusTransaction :=
  match sim.bus.state with
  | BusState.IDLE =>
    let bus1 := bus_arbitrate { sim.bus with owner := -1 }
    if bus1.owner ≠ -1 then
      ({ sim with bus := { bus1 with state := BusState.ARBITRATE } }, no_output)
    else ({ sim with bus := bus1 }, no_output)
  | BusState.ARBITRATE =>
    bus_request_step { sim with bus := { sim.bus with state := BusState.REQUEST } }
  | BusState.REQUEST => bus_request_step sim
  | BusState.LATENCY =>
    if 0 < sim.bus.timer then
      ({ sim with bus := { sim.bus with timer := sim.bus.timer - 1 } }, no_output)
    else
      bus_flush_step { sim with bus := { sim.bus with state := BusState.FLUSH, timer := 8 } }
  | BusState.FLUSH => bus_flush_step sim

def bus_cycle (sim : Simulator) : Simulator := (bus_cycle_out sim).1

/-- `memory_cycle` has an empty body. -/
def memory_cycle (sim : Simulator) : Simulator := sim

def memory_read_word (mem : MainMemory) (addr : Nat) : Nat :=
  if addr < MAIN_MEM_SIZE then mem.data addr else 0

def memory_write_word (mem : MainMemory) (addr data : Nat) : MainMemory :=
  if addr < MAIN_MEM_SIZE then { data := upd mem.data addr data } else mem

/-! ## Register file (core.c) -/

def read_register (core : Core) (reg_num : Nat) (imm_val : Nat) : Nat :=
  if reg_num = 0 then 0
  else if reg_num = 1 then imm_val
  else if reg_num < NUM_REGISTERS then core.registers reg_num
  else 0

def write_register (core : Core) (reg_num : Nat) (value : Nat) : Core :=
  if 2 ≤ reg_num ∧ reg_num < NUM_REGISTERS then
    { core with registers := upd core.registers reg_num value }
  else core

/-! ## Pipeline stages (core.c) -/

def check_data_hazard (core : Core) (reg_index : Nat) : Bool :=
  if reg_index ≤ 1 then false
  else if core.pipeline.execute.valid && core.pipeline.execute.reg_write &&
      decide (core.pipeline.execute.rw = reg_index) then true
  else if core.pipeline.mem.valid && core.pipeline.mem.reg_write &&
      decide (core.pipeline.mem.rw = reg_index) then true
  else if core.pipeline.writeback.valid && core.pipeline.writeback.reg_write &&
      decide (core.pipeline.writeback.rw = reg_index) then true
  else false

/-- `resolve_branch_condition`, on the operands already converted to `int32_t`. -/
def resolve_branch_condition (inst : Instruction) (rs_val rt_val : Int) : Bool :=
  if inst.opcode = OP_BEQ then decide (rs_val = rt_val)
  else if inst.opcode = OP_BNE then decide (rs_val ≠ rt_val)
  else if inst.opcode = OP_BLT then decide (rs_val < rt_val)
  else if inst.opcode = OP_BGT then decide (rs_val > rt_val)
  else if inst.opcode = OP_BLE then decide (rs_val ≤ rt_val)
  else if inst.opcode = OP_BGE then decide (rs_val ≥ rt_val)
  else false

def stage_fetch (core : Core) : Core :=
  if core.halted || core.halt_fetch then core
  else if !core.pipeline.decode.stall && !core.pipeline.fetch.valid then
    if core.pc < IMEM_SIZE then
      let inst_word := core.imem core.pc
      let inst := decode_instruction inst_word
      { core with
          pipeline := { core.pipeline with
            fetch := { core.pipeline.fetch with
              inst_word := inst_word
              inst := inst
              pc := core.pc
              valid := true
              is_halt := decide (inst.opcode = OP_HALT) } }
          pc := (core.pc + 1) % 2 ^ 16 }
    else core
  else core

/-- First part of `stage_decode`: ID pulls the instruction out of IF. -/
def decode_pull (core : Core) : Core :=
  let dec := core.pipeline.decode
  let fet := core.pipeline.fetch
  if !dec.valid && fet.valid && !fet.stall then
    { core with
        pipeline := { core.pipeline with
          decode := { dec with
            inst := fet.inst, pc := fet.pc, inst_word := fet.inst_word
            is_halt := fet.is_halt, valid := true }
          fetch := { fet with valid := false } } }
  else core

/-- Second part of `stage_decode`: the body of `if (dec->valid)`. -/
def decode_body (core0 : Core) : Core :=
  let inst := core0.pipeline.decode.inst
  let imm_val := toU32 inst.imm
  let core : Core :=
    { core0 with pipeline := { core0.pipeline with
        decode := { core0.pipeline.decode with imm_val := imm_val } } }
  if check_data_hazard core inst.rs || check_data_hazard core inst.rt then
    { core with
        pipeline := { core.pipeline with
          decode := { core.pipeline.decode with internal_stall := true } }
        decode_stall := (core.decode_stall + 1) % 2 ^ 64 }
  else if (is_branch_instruction inst || decide (inst.opcode = OP_JAL) ||
      decide (inst.opcode = OP_SW)) && check_data_hazard core inst.rd then
    { core with
        pipeline := { core.pipeline with
          decode := { core.pipeline.decode with internal_stall := true } }
        decode_stall := (core.decode_stall + 1) % 2 ^ 64 }
  else
    let rs_value := read_register core inst.rs imm_val
    let rt_value := read_register core inst.rt imm_val
    let dec : PipelineReg :=
      { core.pipeline.decode with
          internal_stall := false, rs_value := rs_value, rt_value := rt_value }
    let core1 : Core := { core with pipeline := { core.pipeline with decode := dec } }
    if is_branch_instruction inst then
      if resolve_branch_condition inst (toI32 rs_value) (toI32 rt_value) then
        let rd_val := read_register core1 inst.rd imm_val
        { core1 with branch_target := rd_val &&& 0x3FF, branch_pending := true }
      else core1
    else if inst.opcode = OP_JAL then
      let rd_val := read_register core1 inst.rd imm_val
      { core1 with
          pipeline := { core1.pipeline with
            decode := { dec with alu_result := (dec.pc + 2) &&& 0x3FF, reg_write := true, rw := 15 } }
          branch_target := rd_val &&& 0x3FF
          branch_pending := true }
    else if inst.opcode = OP_HALT then
      { core1 with
          pipeline := { core1.pipeline with
            decode := { dec with is_halt := true }
            fetch := { core1.pipeline.fetch with valid := false } }
          halt_fetch := true }
    else core1

def stage_decode (core : Core) : Core :=
  let core1 := decode_pull core
  if core1.pipeline.decode.valid then decode_body core1 else core1

/-- The `switch (inst.opcode)` of `stage_execute`: `(result, write_result)`. -/
def alu (inst : Instruction) (pc rs_val rt_val : Nat) : Nat × Bool :=
  if inst.opcode = OP_ADD then ((rs_val + rt_val) % 2 ^ 32, true)
  else if inst.opcode = OP_SUB then (toU32 ((rs_val : Int) - (rt_val : Int)), true)
  else if inst.opcode = OP_AND then (rs_val &&& rt_val, true)
  else if inst.opcode = OP_OR then (rs_val ||| rt_val, true)
  else if inst.opcode = OP_XOR then (rs_val ^^^ rt_val, true)
  else if inst.opcode = OP_MUL then ((rs_val * rt_val) % 2 ^ 32, true)
  else if inst.opcode = OP_SLL then ((rs_val <<< (rt_val &&& 0x1F)) % 2 ^ 32, true)
  else if inst.opcode = OP_SRA then (toU32 (toI32 rs_val >>> (rt_val &&& 0x1F)), true)
  else if inst.opcode = OP_SRL then (rs_val >>> (rt_val &&& 0x1F), true)
  else if inst.opcode = OP_JAL then (pc + 2, true)
  else if inst.opcode = OP_LW then ((rs_val + rt_val) % 2 ^ 32, true)
  else if inst.opcode = OP_SW then ((rs_val + rt_val) % 2 ^ 32, false)
  else (0, false)

/-- First part of `stage_execute`: EX pulls the instruction out of ID. -/
def execute_pull (core : Core) : Core :=
  let p := core.pipeline
  if !p.execute.valid && p.decode.valid && !p.decode.internal_stall then
    { core with
        pipeline := { p with
          execute := { p.execute with
            inst := p.decode.inst, inst_word := p.decode.inst_word, pc := p.decode.pc
            rs_value := p.decode.rs_value, rt_value := p.decode.rt_value
            is_halt := p.decode.is_halt, valid := true }
          decode := { p.decode with valid := false } } }
  else core

/-- Second part of `stage_execute`: the body of `if (p->execute.valid)`. -/
def execute_body (core : Core) : Core :=
  let ex := core.pipeline.execute
  let inst := ex.inst
  let sw_data : Nat :=
    if inst.opcode = OP_SW then read_register core inst.rd (toU32 inst.imm) else 0
  let r := alu inst ex.pc ex.rs_value ex.rt_value
  { core with
      pipeline := { core.pipeline with
        execute := { ex with
          alu_result := r.1
          reg_write := r.2
          mem_data := sw_data
          rw := if inst.opcode = OP_JAL then 15 else inst.rd } } }

def stage_execute (core : Core) : Core :=
  let core1 := execute_pull core
  if core1.pipeline.execute.valid then execute_body core1 else core1

/-- The eager probe of `stage_memory` on pull-in: the value given to
`p->mem.internal_stall`. -/
def mem_probe_stall (cache : Cache) (m : PipelineReg) : Bool :=
  if m.inst.opcode = 16 ∨ m.inst.opcode = 17 then
    let addr := m.alu_result
    let index := (addr >>> 3) &&& 0x3F
    let tag := (addr >>> 9) &&& 0xFFF
    let entry := cache.tsram index
    let hit := entry.valid && decide (entry.tag = tag) &&
      decide (entry.mesi_state ≠ MESIState.INVALID)
    let hit1 :=
      if m.inst.opcode = 17 ∧ hit = true ∧ entry.mesi_state = MESIState.SHARED then false
      else hit
    !hit1
  else false

/-- First part of `stage_memory`: MEM pulls the instruction out of EX. -/
def memory_pull (core : Core) : Core :=
  let p := core.pipeline
  if !p.mem.valid && p.execute.valid && !p.execute.stall then
    { core with
        pipeline := { p with
          mem := { p.execute with internal_stall := mem_probe_stall core.cache p.execute }
          execute := { p.execute with valid := false } } }
  else core

/-- The statistics update of `stage_memory` (`if (!is_retry) …`). -/
def memory_stats (core : Core) (is_retry : Bool) (opcode : Nat) (hit : Bool) : Core :=
  if is_retry then core
  else if opcode = 16 then
    if hit then { core with read_hit := (core.read_hit + 1) % 2 ^ 64 }
    else { core with read_miss := (core.read_miss + 1) % 2 ^ 64 }
  else
    if hit then { core with write_hit := (core.write_hit + 1) % 2 ^ 64 }
    else { core with write_miss := (core.write_miss + 1) % 2 ^ 64 }

/-- The end of `stage_memory`, after the cache call: latch or keep stalling. -/
def memory_finish (core : Core) (opcode : Nat) (hit : Bool) (loaded_data : Nat) : Core :=
  if hit then
    { core with
        pipeline := { core.pipeline with
          mem := { core.pipeline.mem with
            mem_data := if opcode = 16 then loaded_data else core.pipeline.mem.mem_data
            internal_stall := false } } }
  else
    { core with
        pipeline := { core.pipeline with
          mem := { core.pipeline.mem with internal_stall := true } }
        mem_stall := (core.mem_stall + 1) % 2 ^ 64 }

/-- `stage_memory(&sim->cores[i], sim)`. -/
def stage_memory (sim : Simulator) (i : Nat) : Simulator :=
  let is_retry := (sim.cores i).pipeline.mem.valid
  let sim1 := sim.setCore i (memory_pull (sim.cores i))
  let core := sim1.cores i
  if core.pipeline.mem.valid then
    let inst := core.pipeline.mem.inst
    if inst.opcode = 16 then
      let r := cache_read sim1 i core.pipeline.mem.alu_result core.core_id
      let core2 := memory_stats (r.2.cores i) is_retry inst.opcode r.1.isSome
      r.2.setCore i (memory_finish core2 inst.opcode r.1.isSome (r.1.getD 0))
    else if inst.opcode = 17 then
      let r := cache_write sim1 i core.pipeline.mem.alu_result core.pipeline.mem.mem_data
        core.core_id
      let core2 := memory_stats (r.2.cores i) is_retry inst.opcode r.1
      r.2.setCore i (memory_finish core2 inst.opcode r.1 0)
    else sim1
  else sim1

/-- The first half of `stage_writeback`: WB pulls the instruction out of MEM
(re-probing the cache for a load), or empties its slot. -/
def writeback_pull (sim : Simulator) (i : Nat) : Simulator :=
  let core0 := sim.cores i
  let core : Core := { core0 with wb_reg_written := 0, pending_reg_write_addr := 0 }
  let sim0 := sim.setCore i core
  let p := core.pipeline
  if p.mem.valid && !p.mem.internal_stall then
    let r : Option Nat × Simulator :=
      if p.mem.inst.opcode = OP_LW then cache_read sim0 i p.mem.alu_result core.core_id
      else (none, sim0)
    let core1 := r.2.cores i
    let m : PipelineReg :=
      match r.1 with
      | some fresh_data => { core1.pipeline.mem with mem_data := fresh_data }
      | none => core1.pipeline.mem
    r.2.setCore i
      { core1 with
          pipeline := { core1.pipeline with
            writeback := m
            mem := { m with valid := false } } }
  else
    sim0.setCore i
      { core with pipeline := { p with writeback := { p.writeback with valid := false } } }

/-- The second half of `stage_writeback`: stage the register write and count. -/
def writeback_commit (core : Core) : Core :=
  let wb := core.pipeline.writeback
  if wb.valid then
    let core1 : Core :=
      if wb.reg_write then
        let val := if wb.inst.opcode = OP_LW then wb.mem_data else wb.alu_result
        let dst := wb.rw
        if dst ≠ 0 ∧ dst ≠ 1 then
          { core with
              pending_reg_write_addr := dst
              pending_reg_write_val := val
              wb_reg_written := dst }
        else core
      else core
    { core1 with instructions := (core1.instructions + 1) % 2 ^ 64 }
  else core

/-- `stage_writeback(&sim->cores[i], sim)`. -/
def stage_writeback (sim : Simulator) (i : Nat) : Simulator :=
  let sim1 := writeback_pull sim i
  sim1.setCore i (writeback_commit (sim1.cores i))

/-- `log_cycle_trace`: the line text is not modelled, only the line count. -/
def log_cycle_trace (core : Core) : Core :=
  if MAX_TRACE_LINES ≤ core.trace_count then core
  else { core with trace_count := core.trace_count + 1 }

/-- The end-of-cycle block of `execute_core_cycle` (`if (!core->halted) { … }`). -/
def end_of_cycle (core0 : Core) : Core :=
  if core0.halted then core0
  else
    let core1 := log_cycle_trace core0
    let core2 : Core :=
      if 2 ≤ core1.pending_reg_write_addr then
        { core1 with
            registers := upd core1.registers core1.pending_reg_write_addr
              core1.pending_reg_write_val }
      else core1
    let core3 : Core := { core2 with cycles := (core2.cycles + 1) % 2 ^ 64 }
    let core4 : Core :=
      if core3.branch_pending then
        { core3 with pc := core3.branch_target, branch_pending := false }
      else core3
    let p := core4.pipeline
    let mem1 : PipelineReg := { p.mem with stall := p.mem.internal_stall }
    let ex1 : PipelineReg := { p.execute with stall := p.mem.internal_stall }
    let exe_busy := ex1.valid && ex1.stall
    let dec1 : PipelineReg := { p.decode with stall := exe_busy || p.decode.internal_stall }
    let id_busy := dec1.valid && dec1.stall
    let fet1 : PipelineReg := { p.fetch with stall := id_busy }
    { core4 with
        pipeline := { p with mem := mem1, execute := ex1, decode := dec1, fetch := fet1 }
        halted := if p.writeback.valid && p.writeback.is_halt then true else core4.halted }

/-- `execute_core_cycle(&sim->cores[i], sim)`. -/
def execute_core_cycle (sim : Simulator) (i : Nat) : Simulator :=
  if (sim.cores i).halted then sim
  else
    let sim1 := stage_writeback sim i
    let sim2 := stage_memory sim1 i
    sim2.setCore i (end_of_cycle (stage_fetch (stage_decode (stage_execute (sim2.cores i)))))

/-! ## Initialisation (init.c) and the driver loop (stubs.c) -/

def init_pipeline_reg : PipelineReg :=
  { valid := false, stall := false, internal_stall := false, pc := 0
    inst := { opcode := 0, rd := 0, rs := 0, rt := 0, imm := 0 }
    rs_value := 0, rt_value := 0, alu_result := 0, mem_data := 0, imm_val := 0
    reg_write := false, is_halt := false, rw := 0, inst_word := 0 }

def init_cache : Cache :=
  { dsram := fun _ => 0
    tsram := fun _ => { tag := 0, mesi_state := MESIState.INVALID, valid := false } }

def init_core (core_id : Nat) : Core :=
  { core_id := core_id, pc := 0, registers := fun _ => 0, imem := fun _ => 0
    cache := init_cache
    pipeline :=
      { fetch := init_pipeline_reg, decode := init_pipeline_reg, execute := init_pipeline_reg
        mem := init_pipeline_reg, writeback := init_pipeline_reg }
    halted := false, halt_fetch := false, branch_pending := false, branch_target := 0
    wb_reg_written := 0, pending_reg_write_addr := 0, pending_reg_write_val := 0
    cycles := 0, instructions := 0, read_hit := 0, write_hit := 0, read_miss := 0
    write_miss := 0, decode_stall := 0, mem_stall := 0, trace_count := 0 }

def init_main_memory : MainMemory := { data := fun _ => 0 }

def init_bus_arbiter : BusArbiter :=
  { current := no_output
    last_granted := (NUM_CORES : Int) - 1
    owner := -1
    state := BusState.IDLE
    timer := 0
    provider_id := 4
    shared_at_request := false
    flush_data := fun _ => 0
    pending := fun _ => false
    pending_trans := fun _ => no_output
    trace_lines := []
    trace_count := 0 }

def init_simulator : Simulator :=
  { cores := fun i => init_core i
    main_memory := init_main_memory
    bus := init_bus_arbiter
    global_cycle := 0
    running := true
    mem_fault := false }

/-- The state `main` hands to `run_simulator`: `init_simulator` followed by
`load_imem` for each core and `load_memin`.  The files are given by their
contents: `imems i a` is the word on line `a` of core `i`'s image and `memin a`
the word on line `a` of the memory image; unlisted addresses stay zero. -/
def load_images (imems : Nat → Nat → Nat) (memin : Nat → Nat) : Simulator :=
  { init_simulator with
      cores := fun i =>
        { init_core i with imem := fun a => if a < IMEM_SIZE then imems i a else 0 }
      main_memory := { data := fun a => if a < MAIN_MEM_SIZE then memin a else 0 } }

/-- The loop `for (i = 0; i < NUM_CORES; i++) execute_core_cycle(&sim->cores[i], sim)`. -/
def cores_cycle (sim : Simulator) : Simulator :=
  execute_core_cycle (execute_core_cycle (execute_core_cycle (execute_core_cycle sim 0) 1) 2) 3

/-- One iteration of the `while` loop of `run_simulator`: bus, memory, the four
cores, then `global_cycle++`. -/
def sim_cycle (sim : Simulator) : Simulator :=
  let sim1 := cores_cycle (memory_cycle (bus_cycle sim))
  { sim1 with global_cycle := (sim1.global_cycle + 1) % 2 ^ 64 }

/-- The state after `n` global cycles. -/
def run_cycles : Nat → Simulator → Simulator
  | 0, sim => sim
  | n + 1, sim => run_cycles n (sim_cycle sim)

/-! ## Predicates used in the statements -/

/-- The MESI state in which cache `c` holds the block with set index `idx` and tag
`tag`: the state of the line when it is valid and carries that tag, Invalid
otherwise. -/
def line_state (c : Cache) (idx tag : Nat) : MESIState :=
  if (c.tsram idx).valid = true ∧ (c.tsram idx).tag = tag then (c.tsram idx).mesi_state
  else MESIState.INVALID

/-- The admissible combinations of MESI states of one block over the caches: all
Invalid; exactly one Modified, the others Invalid; exactly one Exclusive, the
others Invalid; one or more Shared, the others Invalid. -/
def mesi_coherent (l : List MESIState) : Prop :=
  (∀ x ∈ l, x = MESIState.INVALID) ∨
  (l.count MESIState.MODIFIED = 1 ∧ ∀ x ∈ l, x = MESIState.MODIFIED ∨ x = MESIState.INVALID) ∨
  (l.count MESIState.EXCLUSIVE = 1 ∧ ∀ x ∈ l, x = MESIState.EXCLUSIVE ∨ x = MESIState.INVALID) ∨
  (1 ≤ l.count MESIState.SHARED ∧ ∀ x ∈ l, x = MESIState.SHARED ∨ x = MESIState.INVALID)

/-- The states in which the four caches of `s` hold block `(idx, tag)`. -/
def block_states (s : Simulator) (idx tag : Nat) : List MESIState :=
  [line_state (s.cores 0).cache idx tag, line_state (s.cores 1).cache idx tag,
   line_state (s.cores 2).cache idx tag, line_state (s.cores 3).cache idx tag]

/-- What a core's own pipeline may do to one of its TSRAM entries in a cycle:
nothing, or a write hit turning a valid Exclusive/Modified line into Modified. -/
def TsramStep (e e' : TSRAMEntry) : Prop :=
  e' = e ∨ (e.valid = true ∧
    (e.mesi_state = MESIState.EXCLUSIVE ∨ e.mesi_state = MESIState.MODIFIED) ∧
    e' = { e with mesi_state := MESIState.MODIFIED })

/-- What a core with id `cid` may do to the arbiter in a cycle: nothing, or fill
its own free pending slot with a BusRd/BusRdX while it does not own the bus.
Every field other than `pending` and `pending_trans` is kept. -/
structure BusStep (cid : Nat) (b b' : BusArbiter) : Prop where
  current : b'.current = b.current
  last_granted : b'.last_granted = b.last_granted
  owner : b'.owner = b.owner
  state : b'.state = b.state
  timer : b'.timer = b.timer
  provider_id : b'.provider_id = b.provider_id
  shared_at_request : b'.shared_at_request = b.shared_at_request
  flush_data : b'.flush_data = b.flush_data
  trace_lines : b'.trace_lines = b.trace_lines
  trace_count : b'.trace_count = b.trace_count
  others : ∀ j, j ≠ cid → b'.pending j = b.pending j ∧ b'.pending_trans j = b.pending_trans j
  slot : (b'.pending cid = b.pending cid ∧ b'.pending_trans cid = b.pending_trans cid) ∨
    (b.pending cid = false ∧ b.owner ≠ (cid : Int) ∧ b'.pending cid = true ∧
      ((b'.pending_trans cid).cmd = BusCommand.RD ∨
        (b'.pending_trans cid).cmd = BusCommand.RDX))

/-- The footprint of the pipeline of core `i` on the simulator: main memory, the
cycle counter and the other cores are untouched, the core keeps its id, its TSRAM
moves by `TsramStep` and the arbiter by `BusStep`. -/
structure CoreFrame (i : Nat) (s s' : Simulator) : Prop where
  mem : s'.main_memory = s.main_memory
  cyc : s'.global_cycle = s.global_cycle
  others : ∀ j, j ≠ i → s'.cores j = s.cores j
  cid : (s'.cores i).core_id = (s.cores i).core_id
  ts : ∀ k, TsramStep ((s.cores i).cache.tsram k) ((s'.cores i).cache.tsram k)
  bus : BusStep (s.cores i).core_id s.bus s'.bus

/-- What a snoop may do to the state in which a cache holds a block: nothing, or
take a held block to Shared or Invalid. -/
def SnoopStep (ls ls' : MESIState) : Prop :=
  ls' = ls ∨ (ls ≠ MESIState.INVALID ∧ (ls' = MESIState.SHARED ∨ ls' = MESIState.INVALID))

/-- The arbiter fields a snoop never writes (all but `provider_id` and
`flush_data`). -/
structure SnoopBusFrame (b b' : BusArbiter) : Prop where
  current : b'.current = b.current
  last_granted : b'.last_granted = b.last_granted
  owner : b'.owner = b.owner
  state : b'.state = b.state
  timer : b'.timer = b.timer
  shared_at_request : b'.shared_at_request = b.shared_at_request
  trace_lines : b'.trace_lines = b.trace_lines
  trace_count : b'.trace_count = b.trace_count
  pending : b'.pending = b.pending
  pending_trans : b'.pending_trans = b.pending_trans

/-- The condition the Request step leaves on a snooped cache holding the
requested block in state `ls`, for command `cmd` and final shared bit `sh`. -/
def snooped_ok (cmd : BusCommand) (sh : Bool) (ls : MESIState) : Prop :=
  (cmd = BusCommand.RDX → ls = MESIState.INVALID) ∧
  (cmd = BusCommand.RD →
    (ls = MESIState.SHARED ∨ ls = MESIState.INVALID) ∧ (sh = false → ls = MESIState.INVALID))

/-- Core 0 runs `LW R2, R0, R0` then HALT; the other cores only HALT. -/
def demo_lw_imems : Nat → Nat → Nat := fun i a =>
  if i = 0 ∧ a = 0 then 0x10200000 else 0x14000000

/-- The loaded simulator for `demo_lw_imems`, memory word `a` holding `1000 + a`. -/
def demo_lw : Simulator := load_images demo_lw_imems (fun a => 1000 + a)

/-- Core 0 runs `SW R1, R1, R0` with immediate 8 (store the value 8 to address 8)
then HALT; the other cores only HALT. -/
def sw_miss_imems : Nat → Nat → Nat := fun i a =>
  if i = 0 ∧ a = 0 then 0x11110008 else 0x14000000

/-- The loaded simulator for `sw_miss_imems`, memory word `a` holding `1000 + a`. -/
def sw_miss : Simulator := load_images sw_miss_imems (fun a => 1000 + a)

/-- Core 0: `LW R5 <- [8]`, `LW R2 <- [0]`, `LW R3 <- [0]`, `LW R4 <- [520]`, then
at word 24 `SW [8] <- 8` and at word 40 HALT, with no-ops (`ADD R0`) in between.
Core 1: no-ops, at word 30 `SW [0] <- 0`, then HALT.  Cores 2 and 3 only HALT. -/
def fill_race_imems : Nat → Nat → Nat := fun i a =>
  if i = 0 then
    (if a = 0 then 0x10510008 else if a = 1 then 0x10200000 else if a = 2 then 0x10300000
     else if a = 3 then 0x10410208 else if a = 24 then 0x11110008
     else if a = 40 then 0x14000000 else 0)
  else if i = 1 then
    (if a = 30 then 0x11000000 else if a = 31 then 0x14000000 else 0)
  else 0x14000000

/-- The loaded simulator for `fill_race_imems`, memory word `a` holding `1000 + a`. -/
def fill_race : Simulator := load_images fill_race_imems (fun a => 1000 + a)

/-- A simulator in which cache 0 holds block 8..15 (set 1, tag 0) Modified, with
DSRAM word `a` holding `100 + a`; everything else as initialised. -/
def snoop_demo : Simulator :=
  { init_simulator with
      cores := fun i =>
        if i = 0 then
          { init_core 0 with
              cache :=
                { dsram := fun a => 100 + a
                  tsram := fun k =>
                    if k = 1 then { tag := 0, mesi_state := MESIState.MODIFIED, valid := true }
                    else init_cache.tsram k } }
        else init_core i }

/-- A BusRd of core 1 for address 8. -/
def snoop_demo_rd : BusTransaction :=
  { origid := 1, cmd := BusCommand.RD, addr := 8, data := 0, shared := false }

/-- A BusRdX of core 1 for address 8. -/
def snoop_demo_rdx : BusTransaction :=
  { origid := 1, cmd := BusCommand.RDX, addr := 8, data := 0, shared := false }

/-- The initial arbiter with a BusRd pending in each of the four slots. -/
def arb_demo : BusArbiter :=
  { init_bus_arbiter with
      pending := fun _ => true
      pending_trans := fun i =>
        { origid := i, cmd := BusCommand.RD, addr := 8 * i, data := 0, shared := false } }

/-- The command of a pending request is BusRd or BusRdX. -/
def is_request (cmd : BusCommand) : Prop := cmd = BusCommand.RD ∨ cmd = BusCommand.RDX

/-- The invariant behind MESI coherence.  `pair`: a block held Modified or
Exclusive by one cache is held by no other.  `own`, `fl`: outside IDLE the owner
is a core with a BusRd/BusRdX request, and a Flush has 1 to 8 words left.
`post`: between the Request step and the last Flush word every other cache
still satisfies what the snoop left (`snooped_ok`) for the requested block.
`lg`, `pend`: the round-robin pointer is a core and pending slots hold requests. -/
structure CohInv (s : Simulator) : Prop where
  lg : 0 ≤ s.bus.last_granted ∧ s.bus.last_granted ≤ 3
  pend : ∀ i, s.bus.pending i = true → is_request (s.bus.pending_trans i).cmd
  pair : ∀ i j, i < 4 → j < 4 → i ≠ j → ∀ idx tag,
    (line_state (s.cores i).cache idx tag = MESIState.MODIFIED ∨
      line_state (s.cores i).cache idx tag = MESIState.EXCLUSIVE) →
    line_state (s.cores j).cache idx tag = MESIState.INVALID
  own : s.bus.state ≠ BusState.IDLE →
    0 ≤ s.bus.owner ∧ s.bus.owner ≤ 3 ∧
      is_request (s.bus.pending_trans s.bus.owner.toNat).cmd
  fl : s.bus.state = BusState.FLUSH → 1 ≤ s.bus.timer ∧ s.bus.timer ≤ 8
  post : s.bus.state = BusState.LATENCY ∨ s.bus.state = BusState.FLUSH →
    ∀ j : Nat, j < 4 → (j : Int) ≠ s.bus.owner →
      snooped_ok (s.bus.pending_trans s.bus.owner.toNat).cmd s.bus.shared_at_request
        (line_state (s.cores j).cache
          (get_cache_index (s.bus.pending_trans s.bus.owner.toNat).addr)
          (get_cache_tag (s.bus.pending_trans s.bus.owner.toNat).addr))

/-! ## Predicates for the decode stage -/

/-- The hazard predicate `H(r)`: `r ≥ 2` and one of the EX, MEM, WB slots is valid
with `reg_write` set and destination `r`. -/
def hazard_on (core : Core) (r : Nat) : Prop :=
  2 ≤ r ∧
    ((core.pipeline.execute.valid = true ∧ core.pipeline.execute.reg_write = true ∧
        core.pipeline.execute.rw = r) ∨
     (core.pipeline.mem.valid = true ∧ core.pipeline.mem.reg_write = true ∧
        core.pipeline.mem.rw = r) ∨
     (core.pipeline.writeback.valid = true ∧ core.pipeline.writeback.reg_write = true ∧
        core.pipeline.writeback.rw = r))

/-- The opcode is one of BEQ, BNE, BLT, BGT, BLE, BGE. -/
def is_conditional_branch (inst : Instruction) : Prop :=
  OP_BEQ ≤ inst.opcode ∧ inst.opcode ≤ OP_BGE

/-- The stall condition of the decode stage for instruction `inst`. -/
def decode_must_stall (core : Core) (inst : Instruction) : Prop :=
  hazard_on core inst.rs ∨ hazard_on core inst.rt ∨
    ((is_conditional_branch inst ∨ inst.opcode = OP_JAL ∨ inst.opcode = OP_SW) ∧
      hazard_on core inst.rd)

/-- The ID slot after the operand read of an unstalled instruction. -/
def decode_latched (core : Core) : PipelineReg :=
  { core.pipeline.decode with
      imm_val := toU32 core.pipeline.decode.inst.imm
      internal_stall := false
      rs_value := read_register core core.pipeline.decode.inst.rs
        (toU32 core.pipeline.decode.inst.imm)
      rt_value := read_register core core.pipeline.decode.inst.rt
        (toU32 core.pipeline.decode.inst.imm) }

/-- The comparison a conditional branch makes on its operands. -/
def branch_condition (inst : Instruction) (a b : Int) : Prop :=
  (inst.opcode = OP_BEQ ∧ a = b) ∨ (inst.opcode = OP_BNE ∧ a ≠ b) ∨
  (inst.opcode = OP_BLT ∧ a < b) ∨ (inst.opcode = OP_BGT ∧ a > b) ∨
  (inst.opcode = OP_BLE ∧ a ≤ b) ∨ (inst.opcode = OP_BGE ∧ a ≥ b)
/-- A cache-sourced BusRd in its Flush phase: the arbiter is flushing with timer
`t` for owner `o`, the provider is core `p`, the request is a BusRd for address
`a` with the shared bit latched, the fill buffer holds `m 0 … m 7`, core `p` holds
the block Shared, and the words already flushed (`8 - t` of them) are in main
memory. -/
structure CacheTxn (o p : Nat) (a : Nat) (m : Nat → Nat) (t : Int) (s : Simulator) : Prop where
  state : s.bus.state = BusState.FLUSH
  timer : s.bus.timer = t
  owner : s.bus.owner = (o : Int)
  provider : s.bus.provider_id = (p : Int)
  addr : (s.bus.pending_trans o).addr = a
  cmd : (s.bus.pending_trans o).cmd = BusCommand.RD
  shared : s.bus.shared_at_request = true
  data : ∀ i, i < 8 → s.bus.flush_data i = m i
  pline : line_state (s.cores p).cache (get_cache_index a) (get_cache_tag a) = MESIState.SHARED
  memd : ∀ i : Nat, (i : Int) < 8 - t → s.main_memory.data ((a &&& 0xFFFFFFF8) + i) = m i
/-- A granted transaction in flight: the arbiter is in state `st` with timer `t`,
owned by core `c`, whose pending slot holds the granted request `tr`; the latched
shared bit is `sh` and the provider is `pv`. -/
structure BusTxn (c : Int) (tr : BusTransaction) (sh : Bool) (pv : Int) (st : BusState) (t : Int)
    (s : Simulator) : Prop where
  state : s.bus.state = st
  timer : s.bus.timer = t
  owner : s.bus.owner = c
  trans : s.bus.pending_trans c.toNat = tr
  shared : s.bus.shared_at_request = sh
  provider : s.bus.provider_id = pv
/-! ## Stage logs: the instructions that entered each pipeline stage

The five guards below are the conditions under which the stage functions move an
instruction (the `if` of each pull in core.c); `log_core_cycle` evaluates them on
the states the stages actually see during one `execute_core_cycle` and records
the address and word of every instruction that moves. -/

/-- What a log records of an instruction: its address and its word. -/
def slot_entry (r : PipelineReg) : Nat × Nat := (r.pc, r.inst_word)

/-- The content of a slot as a list: its entry when valid, nothing otherwise. -/
def slot_list (r : PipelineReg) : List (Nat × Nat) := if r.valid then [slot_entry r] else []

/-- The instructions that entered IF, ID, EX, MEM and WB, oldest first. -/
structure StageLog where
  fetched : List (Nat × Nat)
  decoded : List (Nat × Nat)
  executed : List (Nat × Nat)
  memory : List (Nat × Nat)
  written : List (Nat × Nat)
  deriving DecidableEq, Repr

def StageLog.empty : StageLog :=
  { fetched := [], decoded := [], executed := [], memory := [], written := [] }

/-- The guard of the pull in `stage_writeback`. -/
def wb_pull_guard (c : Core) : Bool := c.pipeline.mem.valid && !c.pipeline.mem.internal_stall

/-- The guard of the pull in `stage_memory`. -/
def mem_pull_guard (c : Core) : Bool :=
  !c.pipeline.mem.valid && c.pipeline.execute.valid && !c.pipeline.execute.stall

/-- The guard of the pull in `stage_execute`. -/
def ex_pull_guard (c : Core) : Bool :=
  !c.pipeline.execute.valid && c.pipeline.decode.valid && !c.pipeline.decode.internal_stall

/-- The guard of the pull in `stage_decode`. -/
def id_pull_guard (c : Core) : Bool :=
  !c.pipeline.decode.valid && c.pipeline.fetch.valid && !c.pipeline.fetch.stall

/-- The condition under which `stage_fetch` fetches. -/
def fetch_guard (c : Core) : Bool :=
  !(c.halted || c.halt_fetch) && (!c.pipeline.decode.stall && !c.pipeline.fetch.valid) &&
    decide (c.pc < IMEM_SIZE)

def log_wb (c : Core) (l : StageLog) : StageLog :=
  if wb_pull_guard c then { l with written := l.written ++ [slot_entry c.pipeline.mem] } else l

def log_mem (c : Core) (l : StageLog) : StageLog :=
  if mem_pull_guard c then { l with memory := l.memory ++ [slot_entry c.pipeline.execute] } else l

def log_ex (c : Core) (l : StageLog) : StageLog :=
  if ex_pull_guard c then { l with executed := l.executed ++ [slot_entry c.pipeline.decode] }
  else l

def log_id (c : Core) (l : StageLog) : StageLog :=
  if id_pull_guard c then { l with decoded := l.decoded ++ [slot_entry c.pipeline.fetch] } else l

def log_if (c : Core) (l : StageLog) : StageLog :=
  if fetch_guard c then { l with fetched := l.fetched ++ [(c.pc, c.imem c.pc)] } else l

/-- The log after `execute_core_cycle(&sim->cores[i], sim)`: each guard is
evaluated on the core as its stage finds it. -/
def log_core_cycle (sim : Simulator) (i : Nat) (l : StageLog) : StageLog :=
  if (sim.cores i).halted then l
  else
    let sim1 := stage_writeback sim i
    let sim2 := stage_memory sim1 i
    let c3 := stage_execute (sim2.cores i)
    let c4 := stage_decode c3
    log_if c4 (log_id c3 (log_ex (sim2.cores i) (log_mem (sim1.cores i) (log_wb (sim.cores i) l))))

/-- The simulator just before core `i` runs in the global cycle that starts in
state `s`: after `bus_cycle` and the cycles of cores `0 … i-1`. -/
def pre_core (s : Simulator) : Nat → Simulator
  | 0 => bus_cycle s
  | i + 1 => execute_core_cycle (pre_core s i) i

/-- State and log of core `i` after `n` more global cycles. -/
def run_logged (i : Nat) : Nat → Simulator × StageLog → Simulator × StageLog
  | 0, x => x
  | n + 1, x => run_logged i n (sim_cycle x.1, log_core_cycle (pre_core x.1 i) i x.2)

/-- The stage log of core `i` over the first `n` global cycles from `s0`. -/
def core_log (i : Nat) (s0 : Simulator) (n : Nat) : StageLog :=
  (run_logged i n (s0, StageLog.empty)).2

/-- What the bus may do to a core: replace its cache and its MEM slot's
`internal_stall`; everything else is kept. -/
def BusTouch (c c' : Core) : Prop :=
  c' = { c with
    cache := c'.cache
    pipeline := { c.pipeline with
      mem := { c.pipeline.mem with internal_stall := c'.pipeline.mem.internal_stall } } }
/-! ## Further programs used as worked instances -/

/-- The core state on which `stage_decode` runs during the cycle of core `i` that
starts from `s`: WB, MEM and EX of that cycle have already run. -/
def decode_entry (s : Simulator) (i : Nat) : Core :=
  stage_execute ((stage_memory (stage_writeback (pre_core s i) i) i).cores i)

/-- Core 0 runs `JAL` with target 5 at address 0, a no-op at 1, `R2 := 7` at 2 and
HALT everywhere else; the other cores halt at once. -/
def jal_demo_imems : Nat → Nat → Nat := fun i a =>
  if i = 0 then
    (if a = 0 then 0x0F100005 else if a = 1 then 0 else if a = 2 then 0x00210007
     else 0x14000000)
  else 0x14000000

def jal_demo : Simulator := load_images jal_demo_imems (fun _ => 0)

/-- Core 0: a taken `BEQ` to 1022 at address 0 with its delay slot at 1; at 1022 a
load that misses, at 1023 a taken `BEQ` to 100; at 100 a taken `BEQ` to 200 whose
delay slot at 101 would set `R3 := 7`; HALT at 200.  The other cores halt at
once; memory word `a` holds `1000 + a`. -/
def slot_race_imems : Nat → Nat → Nat := fun i a =>
  if i = 0 then
    (if a = 0 then 0x091003FE else if a = 1 then 0
     else if a = 1022 then 0x10200000 else if a = 1023 then 0x09100064
     else if a = 100 then 0x091000C8 else if a = 101 then 0x00310007
     else if a = 200 then 0x14000000 else 0)
  else 0x14000000

def slot_race : Simulator := load_images slot_race_imems (fun a => 1000 + a)

/-- Core 0 stores 8 to address 8 twice (the block ends Modified in its cache) and
halts; core 1 idles for 40 instructions, then loads address 8 into `R2`; cores 2
and 3 halt at once; memory word `a` holds `1000 + a`. -/
def c2c_demo_imems : Nat → Nat → Nat := fun i a =>
  if i = 0 then
    (if a = 0 then 0x11110008 else if a = 1 then 0x11110008 else 0x14000000)
  else if i = 1 then
    (if a = 40 then 0x10210008 else if a = 41 then 0x14000000 else 0)
  else 0x14000000

def c2c_demo : Simulator := load_images c2c_demo_imems (fun a => 1000 + a)

/-- Core 0: `R2 := 7` at address 0, `R3 := R2 + R0` at 1 (reads `R2` while the
first instruction is still in flight), a `BEQ R0, R0` to 5 at 2, HALT elsewhere. -/
def hazard_demo_imems : Nat → Nat → Nat := fun i a =>
  if i = 0 then
    (if a = 0 then 0x00210007 else if a = 1 then 0x00320000
     else if a = 2 then 0x09100005 else 0x14000000)
  else 0x14000000

def hazard_demo : Simulator := load_images hazard_demo_imems (fun _ => 0)

/-- Core 0: a load from address 0 that misses, then `R3 := 7`, then HALT; the other
cores halt at once.  The HALT is decoded while the load waits for the bus. -/
def halt_stall_imems : Nat → Nat → Nat := fun i a =>
  if i = 0 then
    (if a = 0 then 0x10200000 else if a = 1 then 0x00310007 else 0x14000000)
  else 0x14000000

def halt_stall : Simulator := load_images halt_stall_imems (fun _ => 0)
/-! ## Control state of a pipeline

`Ctl` collects the flags that decide which stage moves in a core cycle; the
`*_ctl` functions are the stage functions of core.c read on these flags alone.
What a stage decides from data (a cache miss, a hazard, a taken branch, the
fetched word) enters as a Boolean argument. -/

structure Ctl where
  fv : Bool
  fs : Bool
  fh : Bool
  dv : Bool
  di : Bool
  ds : Bool
  dh : Bool
  ev : Bool
  es : Bool
  eh : Bool
  mv : Bool
  mi : Bool
  mh : Bool
  wv : Bool
  wh : Bool
  hf : Bool
  hl : Bool
  bp : Bool
  deriving DecidableEq, Repr

/-- The control flags of a core: `fv fs fh` are `valid`, `stall`, `is_halt` of the
IF slot, `dv di ds dh` are `valid`, `internal_stall`, `stall`, `is_halt` of ID,
`ev es eh` and `mv mi mh` those of EX and MEM, `wv wh` those of WB; `hf`, `hl`,
`bp` are `halt_fetch`, `halted`, `branch_pending`. -/
def ctl (c : Core) : Ctl :=
  { fv := c.pipeline.fetch.valid, fs := c.pipeline.fetch.stall, fh := c.pipeline.fetch.is_halt
    dv := c.pipeline.decode.valid, di := c.pipeline.decode.internal_stall
    ds := c.pipeline.decode.stall, dh := c.pipeline.decode.is_halt
    ev := c.pipeline.execute.valid, es := c.pipeline.execute.stall
    eh := c.pipeline.execute.is_halt
    mv := c.pipeline.mem.valid, mi := c.pipeline.mem.internal_stall
    mh := c.pipeline.mem.is_halt
    wv := c.pipeline.writeback.valid, wh := c.pipeline.writeback.is_halt
    hf := c.halt_fetch, hl := c.halted, bp := c.branch_pending }

/-- The flags after `stage_writeback`. -/
def wb_ctl (k : Ctl) : Ctl :=
  if k.mv && !k.mi then { k with wv := true, wh := k.mh, mv := false }
  else { k with wv := false }

/-- The flags after `stage_memory`; `x` is the `internal_stall` it leaves. -/
def mem_ctl (k : Ctl) (x : Bool) : Ctl :=
  if !k.mv && k.ev && !k.es then { k with mv := true, mi := x, mh := k.eh, ev := false }
  else if k.mv then { k with mi := x }
  else k

/-- The flags after `stage_execute`. -/
def ex_ctl (k : Ctl) : Ctl :=
  if !k.ev && k.dv && !k.di then { k with ev := true, eh := k.dh, dv := false }
  else k

/-- The flags after the pull of `stage_decode`. -/
def id_pull_ctl (k : Ctl) : Ctl :=
  if !k.dv && k.fv && !k.fs then { k with dv := true, dh := k.fh, fv := false }
  else k

/-- The flags after `stage_decode`; `st` says that a hazard stalls the
instruction, `br` that it is a taken branch, the HALT test is read off `is_halt`. -/
def id_ctl (k : Ctl) (st br : Bool) : Ctl :=
  if (id_pull_ctl k).dv then
    if st then { id_pull_ctl k with di := true }
    else if (id_pull_ctl k).dh then
      { id_pull_ctl k with di := false, dh := true, fv := false, hf := true }
    else { id_pull_ctl k with di := false, bp := (id_pull_ctl k).bp || br }
  else id_pull_ctl k

/-- The flags after `stage_fetch`; `can` is `pc < IMEM_SIZE`, `h` says that the
fetched word is a HALT. -/
def if_ctl (k : Ctl) (can h : Bool) : Ctl :=
  if k.hl || k.hf then k
  else if !k.ds && !k.fv && can then { k with fv := true, fh := h }
  else k

/-- The flags after the end-of-cycle block of `execute_core_cycle`. -/
def end_ctl (k : Ctl) : Ctl :=
  if k.hl then k
  else
    { k with
        bp := false
        es := k.mi
        ds := (k.ev && k.mi) || k.di
        fs := k.dv && ((k.ev && k.mi) || k.di)
        hl := k.wv && k.wh }

/-- The flags after one `execute_core_cycle` of a running core. -/
def cycle_ctl (k : Ctl) (x st br can h : Bool) : Ctl :=
  end_ctl (if_ctl (id_ctl (ex_ctl (mem_ctl (wb_ctl k) x)) st br) can h)

/-- The `is_halt` flag of the IF and ID slots tells a HALT opcode. -/
def HaltFlag (c : Core) : Prop :=
  (c.pipeline.fetch.valid = true →
    c.pipeline.fetch.is_halt = decide (c.pipeline.fetch.inst.opcode = OP_HALT)) ∧
  (c.pipeline.decode.valid = true →
    c.pipeline.decode.is_halt = decide (c.pipeline.decode.inst.opcode = OP_HALT))

/-- The flags after the WB, MEM and EX stages of a cycle. -/
def front_ctl (k : Ctl) (x : Bool) : Ctl := ex_ctl (mem_ctl (wb_ctl k) x)

/-- A stalled MEM slot holds a load or a store. -/
def StallOp (c : Core) : Prop :=
  c.pipeline.mem.valid = true → c.pipeline.mem.internal_stall = true →
    c.pipeline.mem.inst.opcode = 16 ∨ c.pipeline.mem.inst.opcode = 17
/-- What holds of the control flags of a core at every cycle boundary.  No branch
is pending; an empty MEM slot is not stalled.  Before a HALT has been decoded
(`hf` false) a HALT in ID is stalled, no slot past ID carries `is_halt` and the
core runs.  Once a HALT has been decoded IF is empty and the HALT is the youngest
instruction in the pipeline: it is in ID, or in EX with ID empty, or in MEM with ID
and EX empty, or it is in WB, the core is halted and ID, EX, MEM are empty. -/
def ctl_inv (k : Ctl) : Bool :=
  !k.bp && (k.mv || !k.mi) &&
  (k.hf || ((!(k.dv && k.dh) || k.di) && (!k.ev || !k.eh) && (!k.mv || !k.mh) && !k.hl)) &&
  (!k.hf || (!k.fv &&
    ((k.dv && k.dh && (!k.ev || !k.eh) && (!k.mv || !k.mh) && !k.hl) ||
      (!k.dv && k.ev && k.eh && (!k.mv || !k.mh) && !k.hl) ||
      (!k.dv && !k.ev && k.mv && k.mh && !k.hl) ||
      (!k.dv && !k.ev && !k.mv && k.hl && k.wv && k.wh))))

/-- The stall decision `st` of the decode stage needs a valid slot in EX, MEM or
WB. -/
def stall_ok (k : Ctl) (st : Bool) : Bool := !st || k.ev || k.mv || k.wv

/-- An upper bound on the number of `bus_cycle` calls until the arbiter is IDLE
again. -/
def bus_rem (b : BusArbiter) : Nat :=
  match b.state with
  | BusState.IDLE => 0
  | BusState.ARBITRATE => 24
  | BusState.REQUEST => 24
  | BusState.LATENCY => b.timer.toNat + 8
  | BusState.FLUSH => b.timer.toNat

/-- The place of core `i` in the round-robin scan that starts after
`last_granted`. -/
def rr_dist (b : BusArbiter) (i : Nat) : Nat := (i + 3 - b.last_granted.toNat) % 4

/-- A bound on the cycles until the transaction of core `i` has delivered its
last word: the rest of its own transaction when it owns the bus, else the rest
of the current one and a full transaction for each core scanned up to `i`. -/
def bus_wait (b : BusArbiter) (i : Nat) : Nat :=
  if b.owner = (i : Int) then bus_rem b else bus_rem b + 26 * (rr_dist b i + 1)

/-- The bus never sets the MEM `internal_stall` of a core: it can only clear it. -/
def StallKept (c c' : Core) : Prop :=
  c'.pipeline.mem.internal_stall = true → c.pipeline.mem.internal_stall = true

/-- What the bus leaves alone in a core: everything outside the cache and the MEM
`internal_stall`; listed are the parts the HALT argument reads. -/
def HaltFlagKept (c c' : Core) : Prop :=
  c'.pipeline.fetch = c.pipeline.fetch ∧ c'.pipeline.decode = c.pipeline.decode ∧
  c'.pipeline.execute = c.pipeline.execute ∧ c'.pipeline.writeback = c.pipeline.writeback ∧
  c'.pc = c.pc ∧ c'.core_id = c.core_id ∧
  c'.pipeline.mem.inst = c.pipeline.mem.inst ∧ c'.pipeline.mem.valid = c.pipeline.mem.valid

/-- Two more facts about the arbiter in reachable states: an IDLE bus has no
owner, and the latency timer runs from 15 down to 0. -/
def BusAux (s : Simulator) : Prop :=
  (s.bus.state = BusState.IDLE → s.bus.owner = -1) ∧
  (s.bus.state = BusState.LATENCY → 0 ≤ s.bus.timer ∧ s.bus.timer ≤ 15)

/-- The invariant behind HALT handling, for core `i` at a cycle boundary: the
control invariant, the meaning of the `is_halt` flags, a stalled MEM slot holds a
load or store whose request is pending or granted, cores carry their index as
id, and the arbiter facts `BusAux`. -/
structure HaltInv (s : Simulator) (i : Nat) : Prop where
  flags : ctl_inv (ctl (s.cores i)) = true
  flag : HaltFlag (s.cores i)
  op : StallOp (s.cores i)
  ids : ∀ j, (s.cores j).core_id = j
  req : (s.cores i).pipeline.mem.valid = true →
    (s.cores i).pipeline.mem.internal_stall = true →
    s.bus.pending i = true ∨ s.bus.owner = (i : Int)
  aux : BusAux s
/-- The core state on which `stage_execute` runs during the cycle of core `i` that
starts from `s`: WB and MEM of that cycle have already run. -/
def execute_entry (s : Simulator) (i : Nat) : Core :=
  (stage_memory (stage_writeback (pre_core s i) i) i).cores i

/-- Core 0: `R3 := 31`, `R2 := 1 << R3` (that is `0x80000000`), `R4 := R2 >> 4`
arithmetically (`SRA` with `rt = R1 = 4`), HALT; the other cores halt at once. -/
def sra_demo_imems : Nat → Nat → Nat := fun i a =>
  if i = 0 then
    (if a = 0 then 0x0031001F else if a = 1 then 0x06213001 else if a = 2 then 0x07421004
     else 0x14000000)
  else 0x14000000

def sra_demo : Simulator := load_images sra_demo_imems (fun _ => 0)

/-! ## The driver loop (stubs.c) -/

/-- `all_cores_halted(sim)`: the loop over the four cores returns false at the
first core that is not halted. -/
def all_cores_halted (sim : Simulator) : Bool :=
  [0, 1, 2, 3].all fun i => (sim.cores i).halted

/-- `all_pipelines_empty(sim)`: false at the first core with a valid slot. -/
def all_pipelines_empty (sim : Simulator) : Bool :=
  [0, 1, 2, 3].all fun i =>
    !((sim.cores i).pipeline.fetch.valid || (sim.cores i).pipeline.decode.valid ||
      (sim.cores i).pipeline.execute.valid || (sim.cores i).pipeline.mem.valid ||
      (sim.cores i).pipeline.writeback.valid)

/-- The condition of the `while` loop of `run_simulator`. -/
def loop_condition (sim : Simulator) : Bool :=
  !all_cores_halted sim || !all_pipelines_empty sim

/-- The `while` loop of `run_simulator`, run for at most `fuel` iterations: the
state in which the loop is left and the number of iterations made, or `none` when
`fuel` iterations do not leave the loop.  One iteration is `sim_cycle` (which ends
with `global_cycle++`) followed by the test `global_cycle > 100000`. -/
def run_simulator : Nat → Simulator → Option (Simulator × Nat)
  | 0, sim => if loop_condition sim then none else some (sim, 0)
  | fuel + 1, sim =>
    if loop_condition sim then
      if 100000 < (sim_cycle sim).global_cycle then some (sim_cycle sim, 1)
      else (run_simulator fuel (sim_cycle sim)).map fun r => (r.1, r.2 + 1)
    else some (sim, 0)

/-- All four cores hold HALT at every address. -/
def halt_only : Simulator := load_images (fun _ _ => 0x14000000) (fun _ => 0)

/-- Core 0 stores `R1 = 0xFFFFFFFF` to address `R1 + R0 = 0xFFFFFFFF` twice (the
second store hits and leaves the block Modified) and halts; core 1 idles for 40
instructions, then loads address `0xFFFFFFFF`; cores 2 and 3 halt at once; memory
is all zero. -/
def oob_demo_imems : Nat → Nat → Nat := fun i a =>
  if i = 0 then
    (if a = 0 then 0x11110FFF else if a = 1 then 0x11110FFF else 0x14000000)
  else if i = 1 then
    (if a = 40 then 0x10210FFF else if a = 41 then 0x14000000 else 0)
  else 0x14000000

def oob_demo : Simulator := load_images oob_demo_imems (fun _ => 0)

/-- The state `s` with main-memory word `a` replaced by `v`. -/
def Simulator.pokeMemory (s : Simulator) (a v : Nat) : Simulator :=
  { s with main_memory := { data := upd s.main_memory.data a v } }

/-- Core 0 stores 8 to address 8 twice (the second store hits: the block of set 1
is Modified and holds the 8), loads address 520 (same set, another tag) into
`R2`, loads address 8 again into `R3` and halts; the other cores halt at once;
memory word `a` holds `1000 + a`. -/
def evict_demo_imems : Nat → Nat → Nat := fun i a =>
  if i = 0 then
    (if a = 0 then 0x11110008 else if a = 1 then 0x11110008
     else if a = 2 then 0x10210208 else if a = 3 then 0x10310008 else 0x14000000)
  else 0x14000000

def evict_demo : Simulator := load_images evict_demo_imems (fun a => 1000 + a)

/-! ## Memory statistics -/

/-- The sum of the four hit/miss counters of a core. -/
def Core.accesses (c : Core) : Nat := c.read_hit + c.read_miss + c.write_hit + c.write_miss

/-- The result of the cache call `stage_memory(&sim->cores[i], sim)` makes: `some hit`
when MEM, after the pull, holds a valid LW or SW (`cache_read` for LW,
`cache_write` for SW), `none` when no call is made. -/
def mem_access (sim : Simulator) (i : Nat) : Option Bool :=
  let sim1 := sim.setCore i (memory_pull (sim.cores i))
  let core := sim1.cores i
  if core.pipeline.mem.valid then
    if core.pipeline.mem.inst.opcode = 16 then
      some (cache_read sim1 i core.pipeline.mem.alu_result core.core_id).1.isSome
    else if core.pipeline.mem.inst.opcode = 17 then
      some (cache_write sim1 i core.pipeline.mem.alu_result core.pipeline.mem.mem_data
        core.core_id).1
    else none
  else none

/-- The simulator on which `stage_memory` runs during the cycle of core `i` that
starts from `s`: the WB stage of that cycle has already run. -/
def memory_entry (s : Simulator) (i : Nat) : Simulator := stage_writeback (pre_core s i) i

/-- Whether core `i`, in the cycle that starts from `s`, pulls an LW or SW into
MEM: it runs, the pull guard of `stage_memory` holds and the instruction in EX is
an LW or SW. -/
def mem_enters (s : Simulator) (i : Nat) : Bool :=
  !((pre_core s i).cores i).halted && mem_pull_guard ((memory_entry s i).cores i) &&
    (decide (((memory_entry s i).cores i).pipeline.execute.inst.opcode = 16) ||
      decide (((memory_entry s i).cores i).pipeline.execute.inst.opcode = 17))

/-- The number of LW and SW instructions core `i` has pulled into MEM in the first
`n` cycles of the run from `s0`. -/
def mem_entered (i : Nat) (s0 : Simulator) : Nat → Nat
  | 0 => 0
  | n + 1 => mem_entered i s0 n + (if mem_enters (run_cycles n s0) i then 1 else 0)

/-- The five memory counters of a core: `read_hit`, `read_miss`, `write_hit`,
`write_miss`, `mem_stall`. -/
def Core.mem_counters (c : Core) : Nat × Nat × Nat × Nat × Nat :=
  (c.read_hit, c.read_miss, c.write_hit, c.write_miss, c.mem_stall)

/-! ## Illegal opcodes -/

/-- An opcode outside the instruction set: not one of 0 … 17 and not 20. -/
def illegal_opcode (op : Nat) : Prop := ¬ op ≤ 17 ∧ op ≠ 20

/-- A valid slot that holds an instruction with an illegal opcode has `reg_write`
clear. -/
def SlotQuiet (r : PipelineReg) : Prop :=
  r.valid = true → illegal_opcode r.inst.opcode → r.reg_write = false

/-- The slots past ID never carry a register write for an illegal opcode. -/
structure QuietInv (c : Core) : Prop where
  ex : SlotQuiet c.pipeline.execute
  mem : SlotQuiet c.pipeline.mem
  wb : SlotQuiet c.pipeline.writeback

/-- Core 0 runs a word with opcode 21 (`rd = 2`, `rs = 1`, immediate 7), then
HALT; the other cores halt at once. -/
def illegal_demo_imems : Nat → Nat → Nat := fun i a =>
  if i = 0 then (if a = 0 then 0x15210007 else 0x14000000) else 0x14000000

def illegal_demo : Simulator := load_images illegal_demo_imems (fun _ => 0)
/-! ## Programs and predicates for the frame, order and fairness statements -/

/-- Core 0 loads address 8 into `R2` (a miss that fills set 1) and, at word 40,
loads address 8 again into `R3`, then halts; core 1 idles and at word 64 stores
to address 8, then halts; cores 2 and 3 halt at once; memory word `a` holds
`1000 + a`.  The second load of core 0 hits in MEM one cycle before the BusRdX of
core 1's store is put on the bus. -/
def reprobe_demo_imems : Nat → Nat → Nat := fun i a =>
  if i = 0 then
    (if a = 0 then 0x10210008 else if a = 40 then 0x10310008
     else if a = 41 then 0x14000000 else 0)
  else if i = 1 then
    (if a = 64 then 0x11110008 else if a = 65 then 0x14000000 else 0)
  else 0x14000000

def reprobe_demo : Simulator := load_images reprobe_demo_imems (fun a => 1000 + a)

/-- Core 0: `R3 := 20`, `R2 := 1 << R3` (that is `0x100000`), `LW R4 <- [R2]`,
HALT; the other cores halt at once; memory word `a` holds `1000 + a`. -/
def trace_demo_imems : Nat → Nat → Nat := fun i a =>
  if i = 0 then
    (if a = 0 then 0x00301014 else if a = 1 then 0x06213001 else if a = 2 then 0x10420000
     else 0x14000000)
  else 0x14000000

def trace_demo : Simulator := load_images trace_demo_imems (fun a => 1000 + a)

/-- What `execute_core_cycle` for core `i` (with id `cid`) reads of a simulator:
two simulators agree on core `i`, on the pending slot `cid` and on the bus
owner. -/
structure SameView (i cid : Nat) (s t : Simulator) : Prop where
  core : s.cores i = t.cores i
  pend : s.bus.pending cid = t.bus.pending cid
  ptrans : s.bus.pending_trans cid = t.bus.pending_trans cid
  owner : s.bus.owner = t.bus.owner

/-- What happens to the arbiter between two arbitrations, as far as a waiting
core `c` is concerned: other cores may fill their pending slots in any way, but
the round-robin pointer and the pending flag of `c` are as the last arbitration
left them. -/
def Enqueued (c : Nat) (b b' : BusArbiter) : Prop :=
  b'.last_granted = b.last_granted ∧ b'.pending c = b.pending c

/-- The arbiter after `n` arbitrations, `env k` being what the cores do to it
before arbitration number `k + 1`. -/
def arbitrations (env : Nat → BusArbiter → BusArbiter) : Nat → BusArbiter → BusArbiter
  | 0, b => b
  | n + 1, b => bus_arbitrate (env n (arbitrations env n b))

/-- The place of core `x` in the scan order that starts after core `g`. -/
def scan_pos (g : Nat) (x : Int) : Nat := (x.toNat + 3 - g) % 4

/-- An environment for `arbitrations` in which every core other than `c` requests
the bus again before each arbitration. -/
def others_request (c : Nat) : Nat → BusArbiter → BusArbiter := fun _ b =>
  { b with pending := fun j => if j = c then b.pending c else true }

/-- The cycle and instruction counters of a core. -/
def Core.tally (c : Core) : Nat × Nat := (c.cycles, c.instructions)

/-- Every core runs `LW R2, R0, R0` at every address: all four cores miss on
address 0 in the same cycle. -/
def all_load : Simulator := load_images (fun _ _ => 0x10200000) (fun _ => 0)

/-! ## Programs whose bus transactions leave the memory array -/

/-- Cores 0 and 1 compute `R2 := 1 << 21 = 0x200000`, the first word index past
`main_memory.data`.  Core 0 then stores to the block `0x200010 … 0x200017`
(`R6 := R2 + 16`): `R5 = 8` to word 0 (twice, the second store hits) and 0 to
words 1 and 2, and halts; core 1 idles and at word 60 loads address `0x200010`,
then halts; cores 2 and 3 halt at once; memory word `a` holds `1000 + a`. -/
def shared_alias_imems : Nat → Nat → Nat := fun i a =>
  if i = 0 then
    (if a = 0 then 0x00301015 else if a = 1 then 0x06213001 else if a = 2 then 0x00621010
     else if a = 3 then 0x00501008 else if a = 4 then 0x11560000
     else if a = 5 then 0x11560000 else if a = 6 then 0x11061001
     else if a = 7 then 0x11061002 else 0x14000000)
  else if i = 1 then
    (if a = 0 then 0x00301015 else if a = 1 then 0x06213001 else if a = 60 then 0x10421010
     else if a = 61 then 0x14000000 else 0)
  else 0x14000000

def shared_alias : Simulator := load_images shared_alias_imems (fun a => 1000 + a)

/-- Cores 0 and 1 compute `R2 := 1 << 21 = 0x200000`.  Core 0 then stores to
address `0x200008` and halts; core 1 idles and at word 40 loads address
`0x200008`, then halts; cores 2 and 3 halt at once; memory word `a` holds
`1000 + a`. -/
def arbiter_alias_imems : Nat → Nat → Nat := fun i a =>
  if i = 0 then
    (if a = 0 then 0x00301015 else if a = 1 then 0x06213001 else if a = 2 then 0x11121008
     else 0x14000000)
  else if i = 1 then
    (if a = 0 then 0x00301015 else if a = 1 then 0x06213001 else if a = 40 then 0x10421008
     else if a = 41 then 0x14000000 else 0)
  else 0x14000000

def arbiter_alias : Simulator := load_images arbiter_alias_imems (fun a => 1000 + a)

/-- Cores 0 and 1 compute `R2 := (1818 + 1819) << 12 = 0xE35000`.  Core 0 then
stores 0 to address `0xE3503C` twice (the second store hits) and halts; core 1
idles and at word 60 loads address `0xE3503C`, then halts; cores 2 and 3 halt at
once; memory word `a` holds `1000 + a`. -/
def counter_alias_imems : Nat → Nat → Nat := fun i a =>
  if i = 0 then
    (if a = 0 then 0x0020171A else if a = 1 then 0x0022171B else if a = 2 then 0x0030100C
     else if a = 3 then 0x06223000 else if a = 4 then 0x1102103C
     else if a = 5 then 0x1102103C else 0x14000000)
  else if i = 1 then
    (if a = 0 then 0x0020171A else if a = 1 then 0x0022171B else if a = 2 then 0x0030100C
     else if a = 3 then 0x06223000 else if a = 60 then 0x1042103C
     else if a = 61 then 0x14000000 else 0)
  else 0x14000000

def counter_alias : Simulator := load_images counter_alias_imems (fun a => 1000 + a)
/-! # Theorems -/

/-! ## Arithmetic of the address decode -/

theorem get_cache_index_eq (a : Nat) : get_cache_index a = a / 8 % 64 := by
  unfold get_cache_index
  rw [Nat.shiftRight_eq_div_pow]
  exact Nat.and_pow_two_sub_one_eq_mod _ 6

theorem get_cache_tag_eq (a : Nat) : get_cache_tag a = a / 512 % 4096 := by
  unfold get_cache_tag
  rw [Nat.shiftRight_eq_div_pow]
  exact Nat.and_pow_two_sub_one_eq_mod _ 12

theorem get_block_offset_eq (a : Nat) : get_block_offset a = a % 8 := by
  unfold get_block_offset
  exact Nat.and_pow_two_sub_one_eq_mod _ 3

theorem get_cache_index_lt (a : Nat) : get_cache_index a < 64 := by
  rw [get_cache_index_eq]; omega

theorem get_block_offset_lt (a : Nat) : get_block_offset a < 8 := by
  rw [get_block_offset_eq]; omega

theorem dsram_idx_eq (a : Nat) :
    (get_cache_index a * CACHE_BLOCK_SIZE + get_block_offset a) % 2 ^ 16 =
      get_cache_index a * 8 + get_block_offset a := by
  have h1 := get_cache_index_lt a
  have h2 := get_block_offset_lt a
  simp only [CACHE_BLOCK_SIZE]
  omega

theorem dsram_base_eq (a : Nat) :
    (get_cache_index a * CACHE_BLOCK_SIZE) % 2 ^ 16 = get_cache_index a * 8 := by
  have h1 := get_cache_index_lt a
  simp only [CACHE_BLOCK_SIZE]
  omega

@[simp] theorem upd_same {α : Type} (a : Nat → α) (i : Nat) (v : α) : upd a i v i = v := by
  simp [upd]

theorem upd_other {α : Type} (a : Nat → α) (i j : Nat) (v : α) (h : j ≠ i) :
    upd a i v j = a j := by
  simp [upd, h]

theorem upd_apply {α : Type} (a : Nat → α) (i j : Nat) (v : α) :
    upd a i v j = if j = i then v else a j := rfl

theorem testBit_block_mask (i : Nat) :
    Nat.testBit 0xFFFFFFF8 i = (decide (3 ≤ i) && decide (i < 32)) := by
  have h : (0xFFFFFFF8 : Nat) = 2 ^ 3 * (2 ^ 29 - 1) := by norm_num
  rw [h, Nat.testBit_mul_pow_two, Nat.testBit_two_pow_sub_one]
  by_cases h3 : 3 ≤ i
  · simp [h3]; omega
  · simp [h3]

theorem and_block_mask (a : Nat) : a &&& 0xFFFFFFF8 = a % 2 ^ 32 / 8 * 8 := by
  apply Nat.eq_of_testBit_eq
  intro i
  rw [Nat.testBit_and, testBit_block_mask]
  have h : a % 2 ^ 32 / 8 * 8 = 2 ^ 3 * (a % 2 ^ 32 / 2 ^ 3) := by
    norm_num [Nat.mul_comm]
  rw [h, Nat.testBit_mul_pow_two, ← Nat.shiftRight_eq_div_pow, Nat.testBit_shiftRight,
    Nat.testBit_mod_two_pow]
  by_cases h3 : 3 ≤ i
  · have : 3 + (i - 3) = i := by omega
    simp [h3, this, Bool.and_comm]
  · simp [h3]

theorem toU32_add (b : Nat) (t : Int) (hb : b % 8 = 0) (hb2 : b < 2 ^ 32) (h1 : 1 ≤ t)
    (h8 : t ≤ 8) : toU32 ((b : Int) + (8 - t)) = b + (8 - t).toNat := by
  unfold toU32
  omega

theorem flush_addr_decode (a : Nat) (t : Int) (h1 : 1 ≤ t) (h8 : t ≤ 8) :
    get_cache_index (toU32 (((a &&& 0xFFFFFFF8 : Nat) : Int) + (8 - t))) = get_cache_index a ∧
    get_cache_tag (toU32 (((a &&& 0xFFFFFFF8 : Nat) : Int) + (8 - t))) = get_cache_tag a ∧
    get_block_offset (toU32 (((a &&& 0xFFFFFFF8 : Nat) : Int) + (8 - t))) = (8 - t).toNat ∧
    toU32 (((a &&& 0xFFFFFFF8 : Nat) : Int) + (8 - t)) = (a &&& 0xFFFFFFF8) + (8 - t).toNat := by
  rw [and_block_mask]
  have e := toU32_add (a % 2 ^ 32 / 8 * 8) t (by omega) (by omega) h1 h8
  rw [e, get_cache_index_eq, get_cache_index_eq, get_cache_tag_eq, get_cache_tag_eq,
    get_block_offset_eq]
  refine ⟨?_, ?_, ?_, rfl⟩ <;> omega
/-! ## Contracts of the cache operations -/

theorem cache_write_hit_eq (sim : Simulator) (ci addr data core_id : Nat)
    (hc : (((sim.cores ci).cache.tsram (get_cache_index addr)).valid &&
      decide (((sim.cores ci).cache.tsram (get_cache_index addr)).tag = get_cache_tag addr) &&
      (decide (((sim.cores ci).cache.tsram (get_cache_index addr)).mesi_state
          = MESIState.MODIFIED) ||
        decide (((sim.cores ci).cache.tsram (get_cache_index addr)).mesi_state
          = MESIState.EXCLUSIVE))) = true) :
    cache_write sim ci addr data core_id = (true, sim.setCache ci
      { dsram := upd (sim.cores ci).cache.dsram
          (get_cache_index addr * 8 + get_block_offset addr) data
        tsram := upd (sim.cores ci).cache.tsram (get_cache_index addr)
          { (sim.cores ci).cache.tsram (get_cache_index addr) with
              mesi_state := MESIState.MODIFIED } }) := by
  simp only [cache_write]
  rw [if_pos hc, dsram_idx_eq addr]

theorem cache_write_miss_eq (sim : Simulator) (ci addr data core_id : Nat)
    (hc : ¬ (((sim.cores ci).cache.tsram (get_cache_index addr)).valid &&
      decide (((sim.cores ci).cache.tsram (get_cache_index addr)).tag = get_cache_tag addr) &&
      (decide (((sim.cores ci).cache.tsram (get_cache_index addr)).mesi_state
          = MESIState.MODIFIED) ||
        decide (((sim.cores ci).cache.tsram (get_cache_index addr)).mesi_state
          = MESIState.EXCLUSIVE))) = true) :
    cache_write sim ci addr data core_id =
      (if (!sim.bus.pending core_id && decide (sim.bus.owner ≠ (core_id : Int))) = true
        then (false,
          { sim with bus := { sim.bus with
              pending_trans := upd sim.bus.pending_trans core_id
                { sim.bus.pending_trans core_id with
                    cmd := BusCommand.RDX, addr := addr, origid := core_id % 256 }
              pending := upd sim.bus.pending core_id true } })
        else (false, sim)) := by
  simp only [cache_write]
  rw [if_neg hc]

theorem cache_read_hit_eq (sim : Simulator) (ci addr core_id : Nat)
    (hc : (((sim.cores ci).cache.tsram (get_cache_index addr)).valid &&
      decide (((sim.cores ci).cache.tsram (get_cache_index addr)).tag = get_cache_tag addr) &&
      decide (((sim.cores ci).cache.tsram (get_cache_index addr)).mesi_state
        ≠ MESIState.INVALID)) = true) :
    cache_read sim ci addr core_id = (some ((sim.cores ci).cache.dsram
      (get_cache_index addr * 8 + get_block_offset addr)), sim) := by
  simp only [cache_read]
  rw [if_pos hc, dsram_idx_eq addr]

theorem cache_read_miss_eq (sim : Simulator) (ci addr core_id : Nat)
    (hc : ¬ (((sim.cores ci).cache.tsram (get_cache_index addr)).valid &&
      decide (((sim.cores ci).cache.tsram (get_cache_index addr)).tag = get_cache_tag addr) &&
      decide (((sim.cores ci).cache.tsram (get_cache_index addr)).mesi_state
        ≠ MESIState.INVALID)) = true) :
    cache_read sim ci addr core_id =
      (if (!sim.bus.pending core_id && decide (sim.bus.owner ≠ (core_id : Int))) = true
        then (none,
          { sim with bus := { sim.bus with
              pending_trans := upd sim.bus.pending_trans core_id
                { sim.bus.pending_trans core_id with
                    cmd := BusCommand.RD, addr := addr, origid := core_id % 256 }
              pending := upd sim.bus.pending core_id true } })
        else (none, sim)) := by
  simp only [cache_read]
  rw [if_neg hc]

/-- C3 (`cache_write` contract).  The call hits exactly when the line at
`index(addr)` is valid, carries `tag(addr)` and is Exclusive or Modified.  On a hit
the DSRAM word `index*8 + offset` becomes `data`, the line becomes Modified (tag and
valid flag kept), every other DSRAM word and TSRAM entry is unchanged and the bus
is unchanged.  On a miss (a matching Shared line included) the caches are
unchanged; a BusRdX for `addr` is put in `pending_trans[core_id]` and
`pending[core_id]` is set when the core has no pending request and does not own
the bus, and otherwise the bus is unchanged.  Main memory, the other cores and
the rest of the core are never touched. -/
theorem cache_write_contract (sim : Simulator) (ci addr data core_id : Nat) :
    let e := (sim.cores ci).cache.tsram (get_cache_index addr)
    let r := cache_write sim ci addr data core_id
    let c' := (r.2.cores ci).cache
    (r.1 = true ↔ (e.valid = true ∧ e.tag = get_cache_tag addr ∧
        (e.mesi_state = MESIState.EXCLUSIVE ∨ e.mesi_state = MESIState.MODIFIED))) ∧
    (r.1 = true →
      c'.dsram (get_cache_index addr * 8 + get_block_offset addr) = data ∧
      (∀ j, j ≠ get_cache_index addr * 8 + get_block_offset addr →
        c'.dsram j = (sim.cores ci).cache.dsram j) ∧
      c'.tsram (get_cache_index addr) = { e with mesi_state := MESIState.MODIFIED } ∧
      (∀ k, k ≠ get_cache_index addr → c'.tsram k = (sim.cores ci).cache.tsram k) ∧
      r.2.bus = sim.bus) ∧
    (r.1 = false →
      r.2.cores = sim.cores ∧
      (sim.bus.pending core_id = false ∧ sim.bus.owner ≠ (core_id : Int) →
        r.2.bus.pending core_id = true ∧
        r.2.bus.pending_trans core_id =
          { sim.bus.pending_trans core_id with
              cmd := BusCommand.RDX, addr := addr, origid := core_id % 256 } ∧
        (∀ j, j ≠ core_id → r.2.bus.pending j = sim.bus.pending j ∧
          r.2.bus.pending_trans j = sim.bus.pending_trans j) ∧
        r.2.bus = { sim.bus with
          pending := r.2.bus.pending, pending_trans := r.2.bus.pending_trans }) ∧
      (¬ (sim.bus.pending core_id = false ∧ sim.bus.owner ≠ (core_id : Int)) →
        r.2.bus = sim.bus)) ∧
    r.2.main_memory = sim.main_memory ∧
    r.2.global_cycle = sim.global_cycle ∧
    (∀ j, j ≠ ci → r.2.cores j = sim.cores j) ∧
    r.2.cores ci = { sim.cores ci with cache := c' } := by
  intro e r c'
  by_cases hc : (e.valid && decide (e.tag = get_cache_tag addr) &&
      (decide (e.mesi_state = MESIState.MODIFIED) ||
        decide (e.mesi_state = MESIState.EXCLUSIVE))) = true
  · have hr := cache_write_hit_eq sim ci addr data core_id hc
    change r = _ at hr
    simp only [Bool.and_eq_true, Bool.or_eq_true, decide_eq_true_eq] at hc
    simp only [c', hr, Simulator.setCache, upd_same]
    simp +contextual [upd_apply, hc.1.1, hc.1.2, hc.2.symm, e]
    tauto
  · have hr := cache_write_miss_eq sim ci addr data core_id hc
    change r = _ at hr
    simp only [Bool.and_eq_true, Bool.or_eq_true, decide_eq_true_eq] at hc
    by_cases hp : (!sim.bus.pending core_id && decide (sim.bus.owner ≠ (core_id : Int))) = true
    · rw [if_pos hp] at hr
      simp only [Bool.and_eq_true, Bool.not_eq_true', decide_eq_true_eq] at hp
      simp only [c', hr]
      simp +contextual [upd_apply, hp.1, hp.2, e]
      simp only [e] at hc
      tauto
    · rw [if_neg hp] at hr
      simp only [Bool.and_eq_true, Bool.not_eq_true', decide_eq_true_eq] at hp
      simp only [c', hr]
      simp +contextual [e]
      simp only [e] at hc
      tauto

/-- C4 (`cache_read` contract).  The call hits exactly when the line at
`index(addr)` is valid, carries `tag(addr)` and is not Invalid; a hit returns
`DSRAM[index*8 + offset]` and leaves the whole simulator unchanged.  A miss leaves
the caches unchanged; it puts a BusRd for `addr` in `pending_trans[core_id]` and
sets `pending[core_id]` when the core has no pending request and does not own the
bus, and otherwise leaves the bus unchanged. -/
theorem cache_read_contract (sim : Simulator) (ci addr core_id : Nat) :
    let e := (sim.cores ci).cache.tsram (get_cache_index addr)
    let r := cache_read sim ci addr core_id
    (r.1.isSome = true ↔ (e.valid = true ∧ e.tag = get_cache_tag addr ∧
        e.mesi_state ≠ MESIState.INVALID)) ∧
    (r.1.isSome = true →
      r.1 = some ((sim.cores ci).cache.dsram
        (get_cache_index addr * 8 + get_block_offset addr)) ∧
      r.2 = sim) ∧
    (r.1.isSome = false →
      r.1 = none ∧
      r.2.cores = sim.cores ∧
      (sim.bus.pending core_id = false ∧ sim.bus.owner ≠ (core_id : Int) →
        r.2.bus.pending core_id = true ∧
        r.2.bus.pending_trans core_id =
          { sim.bus.pending_trans core_id with
              cmd := BusCommand.RD, addr := addr, origid := core_id % 256 } ∧
        (∀ j, j ≠ core_id → r.2.bus.pending j = sim.bus.pending j ∧
          r.2.bus.pending_trans j = sim.bus.pending_trans j) ∧
        r.2.bus = { sim.bus with
          pending := r.2.bus.pending, pending_trans := r.2.bus.pending_trans }) ∧
      (¬ (sim.bus.pending core_id = false ∧ sim.bus.owner ≠ (core_id : Int)) →
        r.2 = sim)) ∧
    r.2.main_memory = sim.main_memory ∧
    r.2.global_cycle = sim.global_cycle := by
  intro e r
  by_cases hc : (e.valid && decide (e.tag = get_cache_tag addr) &&
      decide (e.mesi_state ≠ MESIState.INVALID)) = true
  · have hr := cache_read_hit_eq sim ci addr core_id hc
    change r = _ at hr
    simp only [Bool.and_eq_true, decide_eq_true_eq] at hc
    simp only [hr]
    simp +contextual [hc.1.1, hc.1.2, hc.2, e]
    simp only [e] at hc
    tauto
  · have hr := cache_read_miss_eq sim ci addr core_id hc
    change r = _ at hr
    simp only [Bool.and_eq_true, decide_eq_true_eq] at hc
    by_cases hp : (!sim.bus.pending core_id && decide (sim.bus.owner ≠ (core_id : Int))) = true
    · rw [if_pos hp] at hr
      simp only [Bool.and_eq_true, Bool.not_eq_true', decide_eq_true_eq] at hp
      simp only [hr]
      simp +contextual [upd_apply, hp.1, hp.2, e]
      simp only [e] at hc
      tauto
    · rw [if_neg hp] at hr
      simp only [Bool.and_eq_true, Bool.not_eq_true', decide_eq_true_eq] at hp
      simp only [hr]
      simp +contextual [e]
      simp only [e] at hc
      tauto

/-! ## Snoop -/

theorem cache_snoop_miss (sim : Simulator) (trans : BusTransaction) (core_id : Nat)
    (h : ¬ (((sim.cores core_id).cache.tsram (get_cache_index trans.addr)).valid = true ∧
      ((sim.cores core_id).cache.tsram (get_cache_index trans.addr)).tag
        = get_cache_tag trans.addr)) :
    cache_snoop sim trans core_id = (sim, trans) := by
  have h1 : (!((sim.cores core_id).cache.tsram (get_cache_index trans.addr)).valid ||
      decide (((sim.cores core_id).cache.tsram (get_cache_index trans.addr)).tag
        ≠ get_cache_tag trans.addr)) = true := by
    simp only [Bool.or_eq_true, Bool.not_eq_true', decide_eq_true_eq]
    by_cases hv : ((sim.cores core_id).cache.tsram (get_cache_index trans.addr)).valid = true
    · exact Or.inr (fun ht => h ⟨hv, ht⟩)
    · exact Or.inl (by simpa using hv)
  simp only [cache_snoop]
  rw [if_pos h1]

theorem cache_snoop_match (sim : Simulator) (trans : BusTransaction) (core_id : Nat)
    (hv : ((sim.cores core_id).cache.tsram (get_cache_index trans.addr)).valid = true)
    (ht : ((sim.cores core_id).cache.tsram (get_cache_index trans.addr)).tag
        = get_cache_tag trans.addr) :
    ¬ ((!((sim.cores core_id).cache.tsram (get_cache_index trans.addr)).valid ||
      decide (((sim.cores core_id).cache.tsram (get_cache_index trans.addr)).tag
        ≠ get_cache_tag trans.addr)) = true) := by
  simp [hv, ht]

theorem cache_snoop_rd_modified (sim : Simulator) (trans : BusTransaction) (core_id : Nat)
    (hv : ((sim.cores core_id).cache.tsram (get_cache_index trans.addr)).valid = true)
    (ht : ((sim.cores core_id).cache.tsram (get_cache_index trans.addr)).tag
        = get_cache_tag trans.addr)
    (hcmd : trans.cmd = BusCommand.RD)
    (hs : ((sim.cores core_id).cache.tsram (get_cache_index trans.addr)).mesi_state
        = MESIState.MODIFIED) :
    cache_snoop sim trans core_id =
      (Simulator.setCache
          { sim with bus := { sim.bus with
              provider_id := (core_id : Int)
              flush_data := copy_block_to_flush sim.bus.flush_data
                (sim.cores core_id).cache.dsram (get_cache_index trans.addr * 8) } }
          core_id
          { (sim.cores core_id).cache with
              tsram := upd (sim.cores core_id).cache.tsram (get_cache_index trans.addr)
                { (sim.cores core_id).cache.tsram (get_cache_index trans.addr) with
                    mesi_state := MESIState.SHARED } },
        { trans with shared := true }) := by
  simp only [cache_snoop]
  rw [if_neg (cache_snoop_match sim trans core_id hv ht), if_pos hcmd, if_pos hs,
    dsram_base_eq]

theorem cache_snoop_rd_exclusive (sim : Simulator) (trans : BusTransaction) (core_id : Nat)
    (hv : ((sim.cores core_id).cache.tsram (get_cache_index trans.addr)).valid = true)
    (ht : ((sim.cores core_id).cache.tsram (get_cache_index trans.addr)).tag
        = get_cache_tag trans.addr)
    (hcmd : trans.cmd = BusCommand.RD)
    (hs : ((sim.cores core_id).cache.tsram (get_cache_index trans.addr)).mesi_state
        = MESIState.EXCLUSIVE) :
    cache_snoop sim trans core_id =
      (sim.setCache core_id
          { (sim.cores core_id).cache with
              tsram := upd (sim.cores core_id).cache.tsram (get_cache_index trans.addr)
                { (sim.cores core_id).cache.tsram (get_cache_index trans.addr) with
                    mesi_state := MESIState.SHARED } },
        { trans with shared := true }) := by
  simp only [cache_snoop]
  rw [if_neg (cache_snoop_match sim trans core_id hv ht), if_pos hcmd,
    if_neg (by rw [hs]; decide), if_pos hs]

theorem cache_snoop_rd_shared (sim : Simulator) (trans : BusTransaction) (core_id : Nat)
    (hv : ((sim.cores core_id).cache.tsram (get_cache_index trans.addr)).valid = true)
    (ht : ((sim.cores core_id).cache.tsram (get_cache_index trans.addr)).tag
        = get_cache_tag trans.addr)
    (hcmd : trans.cmd = BusCommand.RD)
    (hs : ((sim.cores core_id).cache.tsram (get_cache_index trans.addr)).mesi_state
        = MESIState.SHARED) :
    cache_snoop sim trans core_id = (sim, { trans with shared := true }) := by
  simp only [cache_snoop]
  rw [if_neg (cache_snoop_match sim trans core_id hv ht), if_pos hcmd,
    if_neg (by rw [hs]; decide), if_neg (by rw [hs]; decide), if_pos hs]

theorem cache_snoop_rd_invalid (sim : Simulator) (trans : BusTransaction) (core_id : Nat)
    (hcmd : trans.cmd = BusCommand.RD)
    (hs : ((sim.cores core_id).cache.tsram (get_cache_index trans.addr)).mesi_state
        = MESIState.INVALID) :
    cache_snoop sim trans core_id = (sim, trans) := by
  simp only [cache_snoop]
  split_ifs <;> first | rfl | (exfalso; simp_all)

theorem cache_snoop_rdx (sim : Simulator) (trans : BusTransaction) (core_id : Nat)
    (hv : ((sim.cores core_id).cache.tsram (get_cache_index trans.addr)).valid = true)
    (ht : ((sim.cores core_id).cache.tsram (get_cache_index trans.addr)).tag
        = get_cache_tag trans.addr)
    (hcmd : trans.cmd = BusCommand.RDX) :
    cache_snoop sim trans core_id =
      (Simulator.setCache
          (if ((sim.cores core_id).cache.tsram (get_cache_index trans.addr)).mesi_state
              = MESIState.MODIFIED then
            { sim with bus := { sim.bus with
                provider_id := (core_id : Int)
                flush_data := copy_block_to_flush sim.bus.flush_data
                  (sim.cores core_id).cache.dsram (get_cache_index trans.addr * 8) } }
          else sim)
          core_id
          { (sim.cores core_id).cache with
              tsram := upd (sim.cores core_id).cache.tsram (get_cache_index trans.addr)
                { (sim.cores core_id).cache.tsram (get_cache_index trans.addr) with
                    mesi_state := MESIState.INVALID, valid := false } },
        trans) := by
  simp only [cache_snoop]
  rw [if_neg (cache_snoop_match sim trans core_id hv ht), if_neg (by rw [hcmd]; decide),
    if_pos hcmd, dsram_base_eq]

theorem cache_snoop_other_cmd (sim : Simulator) (trans : BusTransaction) (core_id : Nat)
    (h1 : trans.cmd ≠ BusCommand.RD) (h2 : trans.cmd ≠ BusCommand.RDX) :
    cache_snoop sim trans core_id = (sim, trans) := by
  simp only [cache_snoop]
  split_ifs <;> rfl

theorem copy_block_to_flush_apply (fd dsram : Nat → Nat) (base i : Nat) :
    copy_block_to_flush fd dsram base i = if i < 8 then dsram (base + i) else fd i := by
  simp only [copy_block_to_flush, upd_apply]
  by_cases h : i < 8
  · have : i = 0 ∨ i = 1 ∨ i = 2 ∨ i = 3 ∨ i = 4 ∨ i = 5 ∨ i = 6 ∨ i = 7 := by omega
    rcases this with h | h | h | h | h | h | h | h <;> subst h <;> simp
  · rw [if_neg h]
    have h0 : ¬ i = 0 := by omega
    have h1 : ¬ i = 1 := by omega
    have h2 : ¬ i = 2 := by omega
    have h3 : ¬ i = 3 := by omega
    have h4 : ¬ i = 4 := by omega
    have h5 : ¬ i = 5 := by omega
    have h6 : ¬ i = 6 := by omega
    have h7 : ¬ i = 7 := by omega
    simp only [h0, h1, h2, h3, h4, h5, h6, h7, if_false]

theorem copy_block_from_memory_apply (fd data : Nat → Nat) (base i : Nat) :
    copy_block_from_memory fd data base i = if i < 8 then data (base + i) else fd i :=
  copy_block_to_flush_apply fd data base i

/-- The DSRAM of the snooped cache is never written by `cache_snoop`. -/
theorem cache_snoop_dsram (sim : Simulator) (trans : BusTransaction) (core_id : Nat) :
    ((cache_snoop sim trans core_id).1.cores core_id).cache.dsram
      = (sim.cores core_id).cache.dsram := by
  simp only [cache_snoop]
  split_ifs <;> simp [Simulator.setCache]

/-- C5 (`cache_snoop` on BusRd).  For a BusRd transaction and a valid line with the
transaction's tag: a Modified line copies the 8 DSRAM words of its set to
`bus.flush_data`, makes this core the provider, becomes Shared and asserts
`shared`; an Exclusive line becomes Shared and asserts `shared` (bus unchanged); a
Shared line only asserts `shared`.  If the line is invalid or the tag differs,
simulator and transaction are unchanged.  In every case the DSRAM of the snooped
cache is unchanged. -/
theorem cache_snoop_busrd (sim : Simulator) (trans : BusTransaction) (core_id : Nat)
    (hcmd : trans.cmd = BusCommand.RD) :
    let idx := get_cache_index trans.addr
    let c := (sim.cores core_id).cache
    let e := c.tsram idx
    let r := cache_snoop sim trans core_id
    let c' := (r.1.cores core_id).cache
    (e.valid = true ∧ e.tag = get_cache_tag trans.addr ∧ e.mesi_state = MESIState.MODIFIED →
      (∀ i, i < 8 → r.1.bus.flush_data i = c.dsram (idx * 8 + i)) ∧
      r.1.bus.provider_id = (core_id : Int) ∧
      r.1.bus = { sim.bus with
        provider_id := r.1.bus.provider_id, flush_data := r.1.bus.flush_data } ∧
      c'.tsram idx = { e with mesi_state := MESIState.SHARED } ∧
      (∀ k, k ≠ idx → c'.tsram k = c.tsram k) ∧
      r.2 = { trans with shared := true }) ∧
    (e.valid = true ∧ e.tag = get_cache_tag trans.addr ∧ e.mesi_state = MESIState.EXCLUSIVE →
      c'.tsram idx = { e with mesi_state := MESIState.SHARED } ∧
      (∀ k, k ≠ idx → c'.tsram k = c.tsram k) ∧
      r.1.bus = sim.bus ∧
      r.2 = { trans with shared := true }) ∧
    (e.valid = true ∧ e.tag = get_cache_tag trans.addr ∧ e.mesi_state = MESIState.SHARED →
      r.1 = sim ∧ r.2 = { trans with shared := true }) ∧
    (¬ (e.valid = true ∧ e.tag = get_cache_tag trans.addr) → r.1 = sim ∧ r.2 = trans) ∧
    c'.dsram = c.dsram ∧
    r.1.main_memory = sim.main_memory ∧
    (∀ j, j ≠ core_id → r.1.cores j = sim.cores j) ∧
    r.1.cores core_id = { sim.cores core_id with cache := c' } := by
  intro idx c e r c'
  refine ⟨?_, ?_, ?_, ?_, cache_snoop_dsram sim trans core_id, ?_, ?_, ?_⟩
  · rintro ⟨hv, ht, hs⟩
    have hr : r = _ := cache_snoop_rd_modified sim trans core_id hv ht hcmd hs
    simp only [c', hr, Simulator.setCache, upd_same]
    simp +contextual [upd_apply, copy_block_to_flush_apply, c, e, idx]
  · rintro ⟨hv, ht, hs⟩
    have hr : r = _ := cache_snoop_rd_exclusive sim trans core_id hv ht hcmd hs
    simp only [c', hr, Simulator.setCache, upd_same]
    simp +contextual [upd_apply, c, e, idx]
  · rintro ⟨hv, ht, hs⟩
    have hr : r = _ := cache_snoop_rd_shared sim trans core_id hv ht hcmd hs
    simp only [hr, and_self]
  · intro h
    have hr : r = _ := cache_snoop_miss sim trans core_id h
    simp only [hr, and_self]
  · simp only [r, cache_snoop]
    split_ifs <;> rfl
  · intro j hj
    simp only [r, cache_snoop]
    split_ifs <;> simp [Simulator.setCache, upd_other _ _ _ _ hj]
  · simp only [c', r, cache_snoop]
    split_ifs <;> simp [Simulator.setCache]

/-- C6 (`cache_snoop` on BusRdX).  For a BusRdX transaction, a valid line with the
transaction's tag ends Invalid with `valid = false` whatever its state was; when
it was Modified the 8-word block is copied to `bus.flush_data` and this core
becomes the provider, and otherwise the bus is unchanged.  The transaction (its
`shared` bit included) is returned unchanged.  A line that is invalid or has
another tag leaves the simulator unchanged. -/
theorem cache_snoop_busrdx (sim : Simulator) (trans : BusTransaction) (core_id : Nat)
    (hcmd : trans.cmd = BusCommand.RDX) :
    let idx := get_cache_index trans.addr
    let c := (sim.cores core_id).cache
    let e := c.tsram idx
    let r := cache_snoop sim trans core_id
    let c' := (r.1.cores core_id).cache
    (e.valid = true ∧ e.tag = get_cache_tag trans.addr →
      (c'.tsram idx).mesi_state = MESIState.INVALID ∧
      (c'.tsram idx).valid = false ∧
      (c'.tsram idx).tag = e.tag ∧
      (∀ k, k ≠ idx → c'.tsram k = c.tsram k) ∧
      (e.mesi_state = MESIState.MODIFIED →
        (∀ i, i < 8 → r.1.bus.flush_data i = c.dsram (idx * 8 + i)) ∧
        r.1.bus.provider_id = (core_id : Int) ∧
        r.1.bus = { sim.bus with
          provider_id := r.1.bus.provider_id, flush_data := r.1.bus.flush_data }) ∧
      (e.mesi_state ≠ MESIState.MODIFIED → r.1.bus = sim.bus)) ∧
    (¬ (e.valid = true ∧ e.tag = get_cache_tag trans.addr) → r.1 = sim) ∧
    r.2 = trans ∧
    c'.dsram = c.dsram ∧
    r.1.main_memory = sim.main_memory ∧
    (∀ j, j ≠ core_id → r.1.cores j = sim.cores j) ∧
    r.1.cores core_id = { sim.cores core_id with cache := c' } := by
  intro idx c e r c'
  refine ⟨?_, ?_, ?_, cache_snoop_dsram sim trans core_id, ?_, ?_, ?_⟩
  · rintro ⟨hv, ht⟩
    have hr : r = _ := cache_snoop_rdx sim trans core_id hv ht hcmd
    simp only [c', hr, Simulator.setCache, upd_same]
    simp +contextual [upd_apply, copy_block_to_flush_apply, c, e, idx]
  · intro h
    have hr : r = _ := cache_snoop_miss sim trans core_id h
    simp only [hr]
  · simp only [r, cache_snoop]
    split_ifs <;> first | rfl | simp_all
  · simp only [r, cache_snoop]
    split_ifs <;> rfl
  · intro j hj
    simp only [r, cache_snoop]
    split_ifs <;> simp [Simulator.setCache, upd_other _ _ _ _ hj]
  · simp only [c', r, cache_snoop]
    split_ifs <;> simp [Simulator.setCache]

/-! ## Fill handler -/

theorem cache_handle_bus_response_not_flush (sim : Simulator) (trans : BusTransaction)
    (core_id : Nat) (h : trans.cmd ≠ BusCommand.FLUSH) :
    cache_handle_bus_response sim trans core_id = sim := by
  simp only [cache_handle_bus_response]
  rw [if_pos h]

theorem cache_handle_bus_response_not_owner (sim : Simulator) (trans : BusTransaction)
    (core_id : Nat) (h : sim.bus.owner ≠ (core_id : Int)) :
    cache_handle_bus_response sim trans core_id = sim := by
  simp only [cache_handle_bus_response]
  split_ifs <;> rfl

theorem cache_handle_bus_response_word (sim : Simulator) (trans : BusTransaction)
    (core_id : Nat) (hf : trans.cmd = BusCommand.FLUSH) (ho : sim.bus.owner = (core_id : Int))
    (h7 : get_block_offset trans.addr ≠ 7) :
    cache_handle_bus_response sim trans core_id =
      sim.setCache core_id
        { (sim.cores core_id).cache with
            dsram := upd (sim.cores core_id).cache.dsram
              (get_cache_index trans.addr * 8 + get_block_offset trans.addr) trans.data } := by
  simp only [cache_handle_bus_response]
  rw [if_neg (by simp [hf]), if_pos ho, if_neg h7, dsram_idx_eq]

theorem cache_handle_bus_response_last (sim : Simulator) (trans : BusTransaction)
    (core_id : Nat) (hf : trans.cmd = BusCommand.FLUSH) (ho : sim.bus.owner = (core_id : Int))
    (h7 : get_block_offset trans.addr = 7) :
    cache_handle_bus_response sim trans core_id =
      sim.setCore core_id
        { sim.cores core_id with
            cache :=
              { dsram := upd (sim.cores core_id).cache.dsram
                  (get_cache_index trans.addr * 8 + get_block_offset trans.addr) trans.data
                tsram := upd (sim.cores core_id).cache.tsram (get_cache_index trans.addr)
                  { tag := get_cache_tag trans.addr
                    mesi_state :=
                      if (sim.bus.pending_trans core_id).cmd = BusCommand.RD then
                        (if sim.bus.shared_at_request then MESIState.SHARED
                          else MESIState.EXCLUSIVE)
                      else MESIState.MODIFIED
                    valid := true } }
            pipeline := { (sim.cores core_id).pipeline with
              mem := { (sim.cores core_id).pipeline.mem with internal_stall := false } } } := by
  simp only [cache_handle_bus_response]
  rw [if_neg (by simp [hf]), if_pos ho, if_pos h7, dsram_idx_eq]

/-- C7 (fill handler).  `cache_handle_bus_response` changes nothing for a
transaction that is not a Flush and nothing for a core that is not the bus owner.
For a Flush word delivered to the owner, the word is written to
`DSRAM[index*8 + offset]` and no other DSRAM word changes; with `offset < 7` the
TSRAM and the rest of the core are unchanged; with `offset = 7` the line gets
`tag(addr)`, `valid = true` and the state Modified when the owner's command
(`pending_trans[owner].cmd`) is BusRdX, Shared for a BusRd with `shared_at_request`
and Exclusive for a BusRd without it, and the owner's MEM `internal_stall` is
cleared.  Bus, main memory and the other cores are unchanged. -/
theorem cache_handle_bus_response_contract (sim : Simulator) (trans : BusTransaction)
    (core_id : Nat) :
    let r := cache_handle_bus_response sim trans core_id
    let idx := get_cache_index trans.addr
    let off := get_block_offset trans.addr
    let c := (sim.cores core_id).cache
    let c' := (r.cores core_id).cache
    (trans.cmd ≠ BusCommand.FLUSH → r = sim) ∧
    (sim.bus.owner ≠ (core_id : Int) → r = sim) ∧
    (trans.cmd = BusCommand.FLUSH ∧ sim.bus.owner = (core_id : Int) →
      c'.dsram (idx * 8 + off) = trans.data ∧
      (∀ j, j ≠ idx * 8 + off → c'.dsram j = c.dsram j) ∧
      (off < 7 → c'.tsram = c.tsram ∧
        r.cores core_id = { sim.cores core_id with cache := c' }) ∧
      (off = 7 →
        (c'.tsram idx).tag = get_cache_tag trans.addr ∧
        (c'.tsram idx).valid = true ∧
        ((sim.bus.pending_trans core_id).cmd = BusCommand.RDX →
          (c'.tsram idx).mesi_state = MESIState.MODIFIED) ∧
        ((sim.bus.pending_trans core_id).cmd = BusCommand.RD →
          sim.bus.shared_at_request = true →
          (c'.tsram idx).mesi_state = MESIState.SHARED) ∧
        ((sim.bus.pending_trans core_id).cmd = BusCommand.RD →
          sim.bus.shared_at_request = false →
          (c'.tsram idx).mesi_state = MESIState.EXCLUSIVE) ∧
        (∀ k, k ≠ idx → c'.tsram k = c.tsram k) ∧
        (r.cores core_id).pipeline.mem.internal_stall = false ∧
        r.cores core_id = { sim.cores core_id with
          cache := c'
          pipeline := { (sim.cores core_id).pipeline with
            mem := { (sim.cores core_id).pipeline.mem with internal_stall := false } } })) ∧
    r.bus = sim.bus ∧
    r.main_memory = sim.main_memory ∧
    r.global_cycle = sim.global_cycle ∧
    (∀ j, j ≠ core_id → r.cores j = sim.cores j) := by
  intro r idx off c c'
  refine ⟨fun h => cache_handle_bus_response_not_flush sim trans core_id h,
    fun h => cache_handle_bus_response_not_owner sim trans core_id h, ?_, ?_, ?_, ?_, ?_⟩
  · rintro ⟨hf, ho⟩
    have hoff : off < 8 := get_block_offset_lt trans.addr
    by_cases h7 : off = 7
    · have hr : r = _ := cache_handle_bus_response_last sim trans core_id hf ho h7
      simp only [c', hr, Simulator.setCore, upd_same]
      simp +contextual [upd_apply, h7, c, idx, off]
      simp only [off] at h7
      simp [h7]
    · have hr : r = _ := cache_handle_bus_response_word sim trans core_id hf ho h7
      simp only [c', hr, Simulator.setCache, upd_same]
      simp +contextual [upd_apply, h7, c, idx, off]
  · simp only [r, cache_handle_bus_response]
    split_ifs <;> rfl
  · simp only [r, cache_handle_bus_response]
    split_ifs <;> rfl
  · simp only [r, cache_handle_bus_response]
    split_ifs <;> rfl
  · intro j hj
    simp only [r, cache_handle_bus_response]
    split_ifs <;> simp [Simulator.setCache, Simulator.setCore, upd_other _ _ _ _ hj]

/-! ## Round-robin arbitration -/

theorem tmod_four_cast (n : Nat) : Int.tmod (n : Int) 4 = ((n % 4 : Nat) : Int) := by
  rw [Int.tmod_eq_emod (by omega) (by omega)]
  omega

/-- The core examined at iteration `k` of the scan, for `last_granted = g`. -/
theorem arbitrate_candidate (g k : Nat) :
    (Int.tmod (Int.tmod ((g : Int) + 1) 4 + (k : Int)) 4).toNat = (g + 1 + k) % 4 := by
  have h1 : ((g : Int) + 1) = ((g + 1 : Nat) : Int) := by push_cast; rfl
  rw [h1, tmod_four_cast]
  have h2 : (((g + 1) % 4 : Nat) : Int) + (k : Int) = (((g + 1) % 4 + k : Nat) : Int) := by
    push_cast; rfl
  rw [h2, tmod_four_cast, Int.toNat_ofNat]
  omega

theorem arbitrate_candidate_int (g k : Nat) :
    Int.tmod (Int.tmod ((g : Int) + 1) 4 + (k : Int)) 4 = (((g + 1 + k) % 4 : Nat) : Int) := by
  have h1 : ((g : Int) + 1) = ((g + 1 : Nat) : Int) := by push_cast; rfl
  rw [h1, tmod_four_cast]
  have h2 : (((g + 1) % 4 : Nat) : Int) + (k : Int) = (((g + 1) % 4 + k : Nat) : Int) := by
    push_cast; rfl
  rw [h2, tmod_four_cast]
  congr 1
  omega

/-- The state `bus_arbitrate` produces when it grants core `c`. -/
theorem bus_arbitrate_loop_grant (bus : BusArbiter) (g : Nat) (hlg : bus.last_granted = (g : Int))
    (n i k : Nat) (hk : k < n)
    (hp : bus.pending ((g + 1 + (i + k)) % 4) = true)
    (hmin : ∀ k', k' < k → bus.pending ((g + 1 + (i + k')) % 4) = false) :
    bus_arbitrate_loop bus (Int.tmod (bus.last_granted + 1) 4) i n =
      { bus with
          owner := (((g + 1 + (i + k)) % 4 : Nat) : Int)
          last_granted := (((g + 1 + (i + k)) % 4 : Nat) : Int)
          current := bus.pending_trans ((g + 1 + (i + k)) % 4)
          pending := upd bus.pending ((g + 1 + (i + k)) % 4) false } := by
  induction n generalizing i k with
  | zero => omega
  | succ n ih =>
    simp only [bus_arbitrate_loop, hlg]
    rw [arbitrate_candidate, arbitrate_candidate_int]
    cases k with
    | zero =>
      simp only [Nat.add_zero] at hp ⊢
      rw [if_pos hp]
    | succ k =>
      have h0 := hmin 0 (by omega)
      simp only [Nat.add_zero] at h0
      rw [if_neg (by simp [h0])]
      have := ih (i + 1) k (by omega)
        (by rw [show i + 1 + k = i + (k + 1) by omega]; exact hp)
        (by
          intro k' hk'
          have := hmin (k' + 1) (by omega)
          rw [show i + 1 + k' = i + (k' + 1) by omega]; exact this)
      rw [hlg] at this
      rw [this, show i + 1 + k = i + (k + 1) by omega]

theorem bus_arbitrate_loop_none (bus : BusArbiter) (g : Nat) (hlg : bus.last_granted = (g : Int))
    (n i : Nat) (hnone : ∀ k, k < n → bus.pending ((g + 1 + (i + k)) % 4) = false) :
    bus_arbitrate_loop bus (Int.tmod (bus.last_granted + 1) 4) i n = bus := by
  induction n generalizing i with
  | zero => rfl
  | succ n ih =>
    simp only [bus_arbitrate_loop, hlg]
    rw [arbitrate_candidate]
    have h0 := hnone 0 (by omega)
    simp only [Nat.add_zero] at h0
    rw [if_neg (by simp [h0])]
    have := ih (i + 1) (by
      intro k hk
      have := hnone (k + 1) (by omega)
      rw [show i + 1 + k = i + (k + 1) by omega]; exact this)
    rw [hlg] at this
    exact this

theorem bus_arbitrate_grant (bus : BusArbiter) (g : Nat) (hlg : bus.last_granted = (g : Int))
    (k : Nat) (hk : k < 4)
    (hp : bus.pending ((g + 1 + k) % 4) = true)
    (hmin : ∀ k', k' < k → bus.pending ((g + 1 + k') % 4) = false) :
    bus_arbitrate bus =
      { bus with
          owner := (((g + 1 + k) % 4 : Nat) : Int)
          last_granted := (((g + 1 + k) % 4 : Nat) : Int)
          current := bus.pending_trans ((g + 1 + k) % 4)
          pending := upd bus.pending ((g + 1 + k) % 4) false } := by
  have := bus_arbitrate_loop_grant bus g hlg 4 0 k hk (by simpa using hp)
    (by intro k' hk'; simpa using hmin k' hk')
  simpa [bus_arbitrate, NUM_CORES] using this

theorem bus_arbitrate_none (bus : BusArbiter) (g : Nat) (hlg : bus.last_granted = (g : Int))
    (hnone : ∀ i, i < 4 → bus.pending i = false) :
    bus_arbitrate bus = bus := by
  have := bus_arbitrate_loop_none bus g hlg 4 0
    (by intro k _; exact hnone _ (Nat.mod_lt _ (by omega)))
  simpa [bus_arbitrate, NUM_CORES] using this

/-- C9 (round-robin arbitration).  With `last_granted = g` in `0..3`: if slot
`(g + 1 + k) mod 4` is pending and no slot `(g + 1 + k') mod 4` with `k' < k` is,
`bus_arbitrate` sets `owner` and `last_granted` to that core, copies its pending
transaction to `current`, clears its pending flag and changes nothing else; if no
slot of `0..3` is pending the arbiter is unchanged.  From `last_granted = 3` with
all four slots pending, four successive arbitrations grant 0, 1, 2, 3. -/
theorem bus_arbitrate_round_robin (bus : BusArbiter) (g : Nat) (hg : g < 4)
    (hlg : bus.last_granted = (g : Int)) :
    (∀ k, k < 4 → bus.pending ((g + 1 + k) % 4) = true →
      (∀ k', k' < k → bus.pending ((g + 1 + k') % 4) = false) →
      bus_arbitrate bus =
        { bus with
            owner := (((g + 1 + k) % 4 : Nat) : Int)
            last_granted := (((g + 1 + k) % 4 : Nat) : Int)
            current := bus.pending_trans ((g + 1 + k) % 4)
            pending := upd bus.pending ((g + 1 + k) % 4) false } ∧
      (∀ j, j ≠ (g + 1 + k) % 4 → (bus_arbitrate bus).pending j = bus.pending j) ∧
      (bus_arbitrate bus).pending ((g + 1 + k) % 4) = false) ∧
    ((∀ i, i < 4 → bus.pending i = false) → bus_arbitrate bus = bus) ∧
    (g = 3 → (∀ i, i < 4 → bus.pending i = true) →
      (bus_arbitrate bus).owner = 0 ∧
      (bus_arbitrate (bus_arbitrate bus)).owner = 1 ∧
      (bus_arbitrate (bus_arbitrate (bus_arbitrate bus))).owner = 2 ∧
      (bus_arbitrate (bus_arbitrate (bus_arbitrate (bus_arbitrate bus)))).owner = 3) := by
  refine ⟨?_, bus_arbitrate_none bus g hlg, ?_⟩
  · intro k hk hp hmin
    have h := bus_arbitrate_grant bus g hlg k hk hp hmin
    refine ⟨h, ?_, ?_⟩
    · intro j hj
      rw [h]
      exact upd_other _ _ _ _ hj
    · rw [h]
      exact upd_same _ _ _
  · intro h3 hall
    subst h3
    have e1 := bus_arbitrate_grant bus 3 hlg 0 (by omega) (hall _ (by omega))
      (by intro k' hk'; omega)
    have e2 := bus_arbitrate_grant (bus_arbitrate bus) 0 (by rw [e1]) 0 (by omega)
      (by rw [e1]; simp [upd_apply, hall 1 (by omega)]) (by intro k' hk'; omega)
    have e3 := bus_arbitrate_grant (bus_arbitrate (bus_arbitrate bus)) 1 (by rw [e2]) 0
      (by omega) (by rw [e2, e1]; simp [upd_apply, hall 2 (by omega)])
      (by intro k' hk'; omega)
    have e4 := bus_arbitrate_grant (bus_arbitrate (bus_arbitrate (bus_arbitrate bus))) 2
      (by rw [e3]) 0 (by omega)
      (by rw [e3, e2, e1]; simp [upd_apply, hall 3 (by omega)])
      (by intro k' hk'; omega)
    refine ⟨?_, ?_, ?_, ?_⟩
    · rw [e1]; rfl
    · rw [e2]; rfl
    · rw [e3]; rfl
    · rw [e4]; rfl

/-! ## Footprint of a core cycle -/

theorem TsramStep.ts_refl (e : TSRAMEntry) : TsramStep e e := Or.inl rfl

theorem TsramStep.ts_trans {e1 e2 e3 : TSRAMEntry} (h1 : TsramStep e1 e2) (h2 : TsramStep e2 e3) :
    TsramStep e1 e3 := by
  rcases h1 with h1 | ⟨hv, hs, h1⟩
  · rw [h1] at h2; exact h2
  · rcases h2 with h2 | ⟨_, _, h2⟩
    · rw [h2]; exact Or.inr ⟨hv, hs, h1⟩
    · refine Or.inr ⟨hv, hs, ?_⟩
      rw [h2, h1]

theorem BusStep.bs_refl (cid : Nat) (b : BusArbiter) : BusStep cid b b :=
  ⟨rfl, rfl, rfl, rfl, rfl, rfl, rfl, rfl, rfl, rfl, fun _ _ => ⟨rfl, rfl⟩, Or.inl ⟨rfl, rfl⟩⟩

theorem BusStep.bs_trans {cid : Nat} {b1 b2 b3 : BusArbiter} (h1 : BusStep cid b1 b2)
    (h2 : BusStep cid b2 b3) : BusStep cid b1 b3 where
  current := h2.current.trans h1.current
  last_granted := h2.last_granted.trans h1.last_granted
  owner := h2.owner.trans h1.owner
  state := h2.state.trans h1.state
  timer := h2.timer.trans h1.timer
  provider_id := h2.provider_id.trans h1.provider_id
  shared_at_request := h2.shared_at_request.trans h1.shared_at_request
  flush_data := h2.flush_data.trans h1.flush_data
  trace_lines := h2.trace_lines.trans h1.trace_lines
  trace_count := h2.trace_count.trans h1.trace_count
  others := fun j hj =>
    ⟨(h2.others j hj).1.trans (h1.others j hj).1, (h2.others j hj).2.trans (h1.others j hj).2⟩
  slot := by
    rcases h1.slot with ⟨p1, t1⟩ | ⟨p1, w1, q1, r1⟩
    · rcases h2.slot with ⟨p2, t2⟩ | ⟨p2, w2, q2, r2⟩
      · exact Or.inl ⟨p2.trans p1, t2.trans t1⟩
      · exact Or.inr ⟨p1 ▸ p2, h1.owner ▸ w2, q2, r2⟩
    · rcases h2.slot with ⟨p2, t2⟩ | ⟨p2, w2, q2, r2⟩
      · exact Or.inr ⟨p1, w1, p2.trans q1, t2 ▸ r1⟩
      · rw [q1] at p2; cases p2

/-- The bus after a miss that enqueues a request with command `cmd`. -/
theorem BusStep.enqueue_ (cid : Nat) (b : BusArbiter) (t : BusTransaction)
    (hp : b.pending cid = false) (ho : b.owner ≠ (cid : Int))
    (ht : t.cmd = BusCommand.RD ∨ t.cmd = BusCommand.RDX) :
    BusStep cid b { b with pending_trans := upd b.pending_trans cid t
                           pending := upd b.pending cid true } where
  current := rfl
  last_granted := rfl
  owner := rfl
  state := rfl
  timer := rfl
  provider_id := rfl
  shared_at_request := rfl
  flush_data := rfl
  trace_lines := rfl
  trace_count := rfl
  others := fun j hj => ⟨upd_other _ _ _ _ hj, upd_other _ _ _ _ hj⟩
  slot := Or.inr ⟨hp, ho, upd_same _ _ _, by simpa only [upd_same] using ht⟩

theorem CoreFrame.cf_refl (i : Nat) (s : Simulator) : CoreFrame i s s :=
  ⟨rfl, rfl, fun _ _ => rfl, rfl, fun _ => TsramStep.ts_refl _, BusStep.bs_refl _ _⟩

theorem CoreFrame.cf_trans {i : Nat} {s1 s2 s3 : Simulator} (h1 : CoreFrame i s1 s2)
    (h2 : CoreFrame i s2 s3) : CoreFrame i s1 s3 where
  mem := h2.mem.trans h1.mem
  cyc := h2.cyc.trans h1.cyc
  others := fun j hj => (h2.others j hj).trans (h1.others j hj)
  cid := h2.cid.trans h1.cid
  ts := fun k => (h1.ts k).ts_trans (h2.ts k)
  bus := h1.bus.bs_trans (h1.cid ▸ h2.bus)

/-- Writing back a core whose cache and id are those already stored changes
nothing the frame looks at. -/
theorem CoreFrame.setCore_ (i : Nat) (s : Simulator) (c : Core)
    (hc : c.cache = (s.cores i).cache) (hid : c.core_id = (s.cores i).core_id) :
    CoreFrame i s (s.setCore i c) where
  mem := rfl
  cyc := rfl
  others := fun j hj => upd_other _ _ _ _ hj
  cid := by simp only [Simulator.setCore, upd_same, hid]
  ts := fun k => by simp only [Simulator.setCore, upd_same, hc]; exact TsramStep.ts_refl _
  bus := BusStep.bs_refl _ _

theorem cache_read_frame (s : Simulator) (i addr : Nat) :
    CoreFrame i s (cache_read s i addr (s.cores i).core_id).2 := by
  by_cases hc : (((s.cores i).cache.tsram (get_cache_index addr)).valid &&
      decide (((s.cores i).cache.tsram (get_cache_index addr)).tag = get_cache_tag addr) &&
      decide (((s.cores i).cache.tsram (get_cache_index addr)).mesi_state
        ≠ MESIState.INVALID)) = true
  · rw [cache_read_hit_eq s i addr _ hc]
    exact CoreFrame.cf_refl i s
  · rw [cache_read_miss_eq s i addr _ hc]
    by_cases hp : (!s.bus.pending (s.cores i).core_id &&
        decide (s.bus.owner ≠ ((s.cores i).core_id : Int))) = true
    · rw [if_pos hp]
      simp only [Bool.and_eq_true, Bool.not_eq_true', decide_eq_true_eq] at hp
      exact ⟨rfl, rfl, fun _ _ => rfl, rfl, fun _ => TsramStep.ts_refl _,
        BusStep.enqueue_ _ _ _ hp.1 hp.2 (Or.inl rfl)⟩
    · rw [if_neg hp]
      exact CoreFrame.cf_refl i s

theorem cache_write_frame (s : Simulator) (i addr data : Nat) :
    CoreFrame i s (cache_write s i addr data (s.cores i).core_id).2 := by
  by_cases hc : (((s.cores i).cache.tsram (get_cache_index addr)).valid &&
      decide (((s.cores i).cache.tsram (get_cache_index addr)).tag = get_cache_tag addr) &&
      (decide (((s.cores i).cache.tsram (get_cache_index addr)).mesi_state
          = MESIState.MODIFIED) ||
        decide (((s.cores i).cache.tsram (get_cache_index addr)).mesi_state
          = MESIState.EXCLUSIVE))) = true
  · rw [cache_write_hit_eq s i addr data _ hc]
    simp only [Bool.and_eq_true, Bool.or_eq_true, decide_eq_true_eq] at hc
    refine ⟨rfl, rfl, fun j hj => upd_other _ _ _ _ hj, ?_, ?_, BusStep.bs_refl _ _⟩
    · simp only [Simulator.setCache, upd_same]
    · intro k
      simp only [Simulator.setCache, upd_same, upd_apply]
      by_cases hk : k = get_cache_index addr
      · subst hk
        rw [if_pos rfl]
        exact Or.inr ⟨hc.1.1, hc.2.symm, rfl⟩
      · rw [if_neg hk]
        exact TsramStep.ts_refl _
  · rw [cache_write_miss_eq s i addr data _ hc]
    by_cases hp : (!s.bus.pending (s.cores i).core_id &&
        decide (s.bus.owner ≠ ((s.cores i).core_id : Int))) = true
    · rw [if_pos hp]
      simp only [Bool.and_eq_true, Bool.not_eq_true', decide_eq_true_eq] at hp
      exact ⟨rfl, rfl, fun _ _ => rfl, rfl, fun _ => TsramStep.ts_refl _,
        BusStep.enqueue_ _ _ _ hp.1 hp.2 (Or.inr rfl)⟩
    · rw [if_neg hp]
      exact CoreFrame.cf_refl i s

theorem stage_fetch_cache (c : Core) :
    (stage_fetch c).cache = c.cache ∧ (stage_fetch c).core_id = c.core_id := by
  unfold stage_fetch
  dsimp only
  split_ifs <;> exact ⟨rfl, rfl⟩

theorem decode_pull_cache (c : Core) :
    (decode_pull c).cache = c.cache ∧ (decode_pull c).core_id = c.core_id := by
  unfold decode_pull
  dsimp only
  split_ifs <;> exact ⟨rfl, rfl⟩

theorem decode_body_cache (c : Core) :
    (decode_body c).cache = c.cache ∧ (decode_body c).core_id = c.core_id := by
  unfold decode_body
  dsimp only
  split_ifs <;> exact ⟨rfl, rfl⟩

theorem stage_decode_cache (c : Core) :
    (stage_decode c).cache = c.cache ∧ (stage_decode c).core_id = c.core_id := by
  unfold stage_decode
  dsimp only
  split_ifs
  · exact ⟨(decode_body_cache _).1.trans (decode_pull_cache c).1,
      (decode_body_cache _).2.trans (decode_pull_cache c).2⟩
  · exact decode_pull_cache c

theorem execute_pull_cache (c : Core) :
    (execute_pull c).cache = c.cache ∧ (execute_pull c).core_id = c.core_id := by
  unfold execute_pull
  dsimp only
  split_ifs <;> exact ⟨rfl, rfl⟩

theorem stage_execute_cache (c : Core) :
    (stage_execute c).cache = c.cache ∧ (stage_execute c).core_id = c.core_id := by
  unfold stage_execute
  dsimp only
  split_ifs
  · unfold execute_body
    exact ⟨(execute_pull_cache c).1, (execute_pull_cache c).2⟩
  · exact execute_pull_cache c

theorem end_of_cycle_cache (c : Core) :
    (end_of_cycle c).cache = c.cache ∧ (end_of_cycle c).core_id = c.core_id := by
  unfold end_of_cycle log_cycle_trace
  dsimp only
  split_ifs <;> exact ⟨rfl, rfl⟩

theorem memory_pull_cache (c : Core) :
    (memory_pull c).cache = c.cache ∧ (memory_pull c).core_id = c.core_id := by
  unfold memory_pull
  dsimp only
  split_ifs <;> exact ⟨rfl, rfl⟩

theorem memory_stats_cache (c : Core) (r : Bool) (op : Nat) (h : Bool) :
    (memory_stats c r op h).cache = c.cache ∧ (memory_stats c r op h).core_id = c.core_id := by
  unfold memory_stats
  split_ifs <;> exact ⟨rfl, rfl⟩

theorem memory_finish_cache (c : Core) (op : Nat) (h : Bool) (d : Nat) :
    (memory_finish c op h d).cache = c.cache ∧
      (memory_finish c op h d).core_id = c.core_id := by
  unfold memory_finish
  split_ifs <;> exact ⟨rfl, rfl⟩

theorem writeback_commit_cache (c : Core) :
    (writeback_commit c).cache = c.cache ∧ (writeback_commit c).core_id = c.core_id := by
  unfold writeback_commit
  dsimp only
  split_ifs <;> exact ⟨rfl, rfl⟩

theorem stage_memory_frame (s : Simulator) (i : Nat) : CoreFrame i s (stage_memory s i) := by
  have h1 : CoreFrame i s (s.setCore i (memory_pull (s.cores i))) :=
    CoreFrame.setCore_ i s _ (memory_pull_cache _).1 (memory_pull_cache _).2
  have h2 := cache_read_frame (s.setCore i (memory_pull (s.cores i))) i
    ((s.setCore i (memory_pull (s.cores i))).cores i).pipeline.mem.alu_result
  have h3 := cache_write_frame (s.setCore i (memory_pull (s.cores i))) i
    ((s.setCore i (memory_pull (s.cores i))).cores i).pipeline.mem.alu_result
    ((s.setCore i (memory_pull (s.cores i))).cores i).pipeline.mem.mem_data
  unfold stage_memory
  dsimp only
  split_ifs
  · exact h1.cf_trans (h2.cf_trans (CoreFrame.setCore_ i _ _
      ((memory_finish_cache _ _ _ _).1.trans (memory_stats_cache _ _ _ _).1)
      ((memory_finish_cache _ _ _ _).2.trans (memory_stats_cache _ _ _ _).2)))
  · exact h1.cf_trans (h3.cf_trans (CoreFrame.setCore_ i _ _
      ((memory_finish_cache _ _ _ _).1.trans (memory_stats_cache _ _ _ _).1)
      ((memory_finish_cache _ _ _ _).2.trans (memory_stats_cache _ _ _ _).2)))
  · exact h1
  · exact h1

theorem writeback_pull_frame (s : Simulator) (i : Nat) :
    CoreFrame i s (writeback_pull s i) := by
  have h0 : CoreFrame i s (s.setCore i
      { s.cores i with wb_reg_written := 0, pending_reg_write_addr := 0 }) :=
    CoreFrame.setCore_ i s _ rfl rfl
  have h2 := cache_read_frame (s.setCore i
      { s.cores i with wb_reg_written := 0, pending_reg_write_addr := 0 }) i
    (s.cores i).pipeline.mem.alu_result
  have hid : ((s.setCore i
      { s.cores i with wb_reg_written := 0, pending_reg_write_addr := 0 }).cores i).core_id
      = (s.cores i).core_id := by
    simp only [Simulator.setCore, upd_same]
  rw [hid] at h2
  unfold writeback_pull
  dsimp only
  split_ifs
  · exact h0.cf_trans (h2.cf_trans (CoreFrame.setCore_ i _ _ rfl rfl))
  · exact h0.cf_trans (CoreFrame.setCore_ i _ _ rfl rfl)
  · exact h0.cf_trans (CoreFrame.setCore_ i _ _ (by simp [Simulator.setCore])
      (by simp [Simulator.setCore]))

theorem stage_writeback_frame (s : Simulator) (i : Nat) :
    CoreFrame i s (stage_writeback s i) := by
  unfold stage_writeback
  exact (writeback_pull_frame s i).cf_trans
    (CoreFrame.setCore_ i _ _ (writeback_commit_cache _).1 (writeback_commit_cache _).2)

theorem execute_core_cycle_frame (s : Simulator) (i : Nat) :
    CoreFrame i s (execute_core_cycle s i) := by
  unfold execute_core_cycle
  split_ifs
  · exact CoreFrame.cf_refl i s
  · refine (stage_writeback_frame s i).cf_trans ((stage_memory_frame _ i).cf_trans ?_)
    refine CoreFrame.setCore_ i _ _ ?_ ?_
    · exact (end_of_cycle_cache _).1.trans ((stage_fetch_cache _).1.trans
        ((stage_decode_cache _).1.trans (stage_execute_cache _).1))
    · exact (end_of_cycle_cache _).2.trans ((stage_fetch_cache _).2.trans
        ((stage_decode_cache _).2.trans (stage_execute_cache _).2))
/-! ## One snoop, seen through `line_state` -/

theorem SnoopBusFrame.sbf_refl (b : BusArbiter) : SnoopBusFrame b b :=
  ⟨rfl, rfl, rfl, rfl, rfl, rfl, rfl, rfl, rfl, rfl⟩

theorem SnoopBusFrame.sbf_trans {b1 b2 b3 : BusArbiter} (h1 : SnoopBusFrame b1 b2)
    (h2 : SnoopBusFrame b2 b3) : SnoopBusFrame b1 b3 :=
  ⟨h2.current.trans h1.current, h2.last_granted.trans h1.last_granted,
    h2.owner.trans h1.owner, h2.state.trans h1.state, h2.timer.trans h1.timer,
    h2.shared_at_request.trans h1.shared_at_request, h2.trace_lines.trans h1.trace_lines,
    h2.trace_count.trans h1.trace_count, h2.pending.trans h1.pending,
    h2.pending_trans.trans h1.pending_trans⟩

theorem cache_snoop_others (sim : Simulator) (trans : BusTransaction) (j : Nat) :
    (∀ j', j' ≠ j → (cache_snoop sim trans j).1.cores j' = sim.cores j') ∧
    (cache_snoop sim trans j).1.main_memory = sim.main_memory ∧
    (cache_snoop sim trans j).1.global_cycle = sim.global_cycle ∧
    SnoopBusFrame sim.bus (cache_snoop sim trans j).1.bus ∧
    (cache_snoop sim trans j).2.cmd = trans.cmd ∧
    (cache_snoop sim trans j).2.addr = trans.addr ∧
    (cache_snoop sim trans j).2.origid = trans.origid ∧
    (cache_snoop sim trans j).2.data = trans.data ∧
    (trans.shared = true → (cache_snoop sim trans j).2.shared = true) := by
  simp only [cache_snoop]
  split_ifs <;>
    refine ⟨fun j' hj' => ?_, rfl, rfl, ⟨rfl, rfl, rfl, rfl, rfl, rfl, rfl, rfl, rfl, rfl⟩,
      rfl, rfl, rfl, rfl, fun h => ?_⟩ <;>
    first
    | rfl
    | exact h
    | exact upd_other _ _ _ _ hj'

theorem line_state_setCache (sim : Simulator) (j : Nat) (c : Cache) (idx tag : Nat) :
    line_state ((sim.setCache j c).cores j).cache idx tag = line_state c idx tag := by
  simp only [Simulator.setCache, upd_same]

theorem cache_snoop_lines (sim : Simulator) (trans : BusTransaction) (j : Nat) :
    (line_state (sim.cores j).cache (get_cache_index trans.addr) (get_cache_tag trans.addr)
        ≠ MESIState.MODIFIED → (cache_snoop sim trans j).1.bus = sim.bus) ∧
    (∀ idx tag, SnoopStep (line_state (sim.cores j).cache idx tag)
      (line_state ((cache_snoop sim trans j).1.cores j).cache idx tag)) ∧
    snooped_ok trans.cmd (cache_snoop sim trans j).2.shared
      (line_state ((cache_snoop sim trans j).1.cores j).cache
        (get_cache_index trans.addr) (get_cache_tag trans.addr)) := by
  by_cases hm : ((sim.cores j).cache.tsram (get_cache_index trans.addr)).valid = true ∧
      ((sim.cores j).cache.tsram (get_cache_index trans.addr)).tag = get_cache_tag trans.addr
  · obtain ⟨hv, ht⟩ := hm
    cases hcmd : trans.cmd with
    | NO_CMD =>
      rw [cache_snoop_other_cmd sim trans j (by simp [hcmd]) (by simp [hcmd])]
      simp [SnoopStep, snooped_ok]
    | FLUSH =>
      rw [cache_snoop_other_cmd sim trans j (by simp [hcmd]) (by simp [hcmd])]
      simp [SnoopStep, snooped_ok]
    | RDX =>
      rw [cache_snoop_rdx sim trans j hv ht hcmd]
      simp only [line_state_setCache]
      refine ⟨?_, ?_, ?_⟩
      · intro hne
        have : ((sim.cores j).cache.tsram (get_cache_index trans.addr)).mesi_state
            ≠ MESIState.MODIFIED := by
          simpa [line_state, hv, ht] using hne
        simp [Simulator.setCache, this]
      · intro idx tag
        simp only [line_state, upd_apply, SnoopStep]
        by_cases hi : idx = get_cache_index trans.addr
        · subst hi
          by_cases htg : ((sim.cores j).cache.tsram (get_cache_index trans.addr)).tag = tag <;>
          by_cases hI : ((sim.cores j).cache.tsram (get_cache_index trans.addr)).mesi_state
            = MESIState.INVALID <;>
          simp [hv, htg, hI]
        · simp [hi]
      · simp [snooped_ok, line_state, upd_apply]
    | RD =>
      cases hs : ((sim.cores j).cache.tsram (get_cache_index trans.addr)).mesi_state with
      | INVALID =>
        rw [cache_snoop_rd_invalid sim trans j hcmd hs]
        simp [SnoopStep, snooped_ok, line_state, hv, ht, hs]
      | SHARED =>
        rw [cache_snoop_rd_shared sim trans j hv ht hcmd hs]
        simp [SnoopStep, snooped_ok, line_state, hv, ht, hs]
      | EXCLUSIVE =>
        rw [cache_snoop_rd_exclusive sim trans j hv ht hcmd hs]
        simp only [line_state_setCache]
        refine ⟨?_, ?_, ?_⟩
        · intro _; rfl
        · intro idx tag
          simp only [line_state, upd_apply, SnoopStep]
          by_cases hi : idx = get_cache_index trans.addr
          · subst hi
            by_cases htg : ((sim.cores j).cache.tsram (get_cache_index trans.addr)).tag = tag <;>
            simp [hv, htg, hs]
          · simp [hi]
        · simp [snooped_ok, line_state, upd_apply, hv, ht]
      | MODIFIED =>
        rw [cache_snoop_rd_modified sim trans j hv ht hcmd hs]
        simp only [line_state_setCache]
        refine ⟨?_, ?_, ?_⟩
        · intro hne
          exact absurd (by simp [line_state, hv, ht, hs]) hne
        · intro idx tag
          simp only [line_state, upd_apply, SnoopStep]
          by_cases hi : idx = get_cache_index trans.addr
          · subst hi
            by_cases htg : ((sim.cores j).cache.tsram (get_cache_index trans.addr)).tag = tag <;>
            simp [hv, htg, hs]
          · simp [hi]
        · simp [snooped_ok, line_state, upd_apply, hv, ht]
  · rw [cache_snoop_miss sim trans j hm]
    have hI : line_state (sim.cores j).cache (get_cache_index trans.addr)
        (get_cache_tag trans.addr) = MESIState.INVALID := by
      simp only [line_state, if_neg hm]
    simp [SnoopStep, snooped_ok, hI]
theorem SnoopStep.ss_refl (a : MESIState) : SnoopStep a a := Or.inl rfl

theorem SnoopStep.ss_trans {a b c : MESIState} (h1 : SnoopStep a b) (h2 : SnoopStep b c) :
    SnoopStep a c := by
  rcases h1 with h1 | ⟨ha, _⟩
  · rw [h1] at h2; exact h2
  · rcases h2 with h2 | ⟨_, hc⟩
    · rw [h2]; exact Or.inr ⟨ha, by assumption⟩
    · exact Or.inr ⟨ha, hc⟩

theorem snooped_ok_mono {cmd : BusCommand} {sh sh' : Bool} {ls : MESIState}
    (h : snooped_ok cmd sh ls) (hs : sh = true → sh' = true) : snooped_ok cmd sh' ls := by
  refine ⟨h.1, fun hc => ⟨(h.2 hc).1, fun hf => (h.2 hc).2 ?_⟩⟩
  cases sh
  · rfl
  · rw [hs rfl] at hf; cases hf

/-- The Request step's snoop loop over a list of distinct cores. -/
theorem snoop_loop_spec (l : List Nat) (hnd : l.Nodup) (sim : Simulator)
    (out : BusTransaction) :
    (∀ j, j ∉ l → (snoop_loop sim out l).1.cores j = sim.cores j) ∧
    (∀ j : Nat, (j : Int) = sim.bus.owner → (snoop_loop sim out l).1.cores j = sim.cores j) ∧
    (snoop_loop sim out l).1.main_memory = sim.main_memory ∧
    (snoop_loop sim out l).1.global_cycle = sim.global_cycle ∧
    SnoopBusFrame sim.bus (snoop_loop sim out l).1.bus ∧
    (snoop_loop sim out l).2.cmd = out.cmd ∧
    (snoop_loop sim out l).2.addr = out.addr ∧
    (snoop_loop sim out l).2.origid = out.origid ∧
    (snoop_loop sim out l).2.data = out.data ∧
    (out.shared = true → (snoop_loop sim out l).2.shared = true) ∧
    (∀ j idx tag, SnoopStep (line_state (sim.cores j).cache idx tag)
      (line_state ((snoop_loop sim out l).1.cores j).cache idx tag)) ∧
    (∀ j : Nat, j ∈ l → (j : Int) ≠ sim.bus.owner →
      snooped_ok out.cmd (snoop_loop sim out l).2.shared
        (line_state ((snoop_loop sim out l).1.cores j).cache
          (get_cache_index out.addr) (get_cache_tag out.addr))) ∧
    ((∀ j : Nat, j ∈ l → (j : Int) ≠ sim.bus.owner →
        line_state (sim.cores j).cache (get_cache_index out.addr) (get_cache_tag out.addr)
          ≠ MESIState.MODIFIED) →
      (snoop_loop sim out l).1.bus = sim.bus) := by
  induction l generalizing sim out with
  | nil =>
    exact ⟨fun _ _ => rfl, fun _ _ => rfl, rfl, rfl, SnoopBusFrame.sbf_refl _, rfl, rfl, rfl, rfl,
      fun h => h, fun _ _ _ => SnoopStep.ss_refl _, fun j hj => absurd hj (List.not_mem_nil j),
      fun _ => rfl⟩
  | cons i rest ih =>
    have hi : i ∉ rest := (List.nodup_cons.mp hnd).1
    have hrest : rest.Nodup := (List.nodup_cons.mp hnd).2
    by_cases ho : (i : Int) ≠ sim.bus.owner
    · have e : snoop_loop sim out (i :: rest)
          = snoop_loop (cache_snoop sim out i).1 (cache_snoop sim out i).2 rest := by
        simp only [snoop_loop, if_pos ho]
      rw [e]
      obtain ⟨a1, a2, a3, a4, a5, a6, a7, a8, a9⟩ := cache_snoop_others sim out i
      obtain ⟨b1, b2, b3⟩ := cache_snoop_lines sim out i
      obtain ⟨c1, c2, c3, c4, c5, c6, c7, c8, c9, c10, c11, c12, c13⟩ :=
        ih hrest (cache_snoop sim out i).1 (cache_snoop sim out i).2
      have hown : (cache_snoop sim out i).1.bus.owner = sim.bus.owner := a4.owner
      refine ⟨?_, ?_, c3.trans a2, c4.trans a3, a4.sbf_trans c5, c6.trans a5, c7.trans a6,
        c8.trans a7, c9.trans a8, fun h => c10 (a9 h), ?_, ?_, ?_⟩
      · intro j hj
        have hji : j ≠ i := fun h => hj (h ▸ List.mem_cons_self _ _)
        have hjr : j ∉ rest := fun h => hj (List.mem_cons_of_mem _ h)
        rw [c1 j hjr, a1 j hji]
      · intro j hj
        have hji : j ≠ i := fun h => ho (h ▸ hj)
        rw [c2 j (by rw [hown]; exact hj), a1 j hji]
      · intro j idx tag
        by_cases hji : j = i
        · subst hji
          exact (b2 idx tag).ss_trans (c11 j idx tag)
        · have := c11 j idx tag
          rw [a1 j hji] at this
          exact this
      · intro j hj hjo
        rcases List.mem_cons.mp hj with hji | hjr
        · subst hji
          rw [c1 j hi]
          exact snooped_ok_mono b3 c10
        · have := c12 j hjr (by rw [hown]; exact hjo)
          rw [a5, a6] at this
          exact this
      · intro hM
        have h1 := b1 (hM i (List.mem_cons_self _ _) ho)
        rw [c13 ?_, h1]
        intro j hj hjo
        have hji : j ≠ i := fun h => hi (h ▸ hj)
        rw [a1 j hji, a6]
        exact hM j (List.mem_cons_of_mem _ hj) (by rw [← hown]; exact hjo)
    · have e : snoop_loop sim out (i :: rest) = snoop_loop sim out rest := by
        simp only [snoop_loop, if_neg ho]
      rw [e]
      obtain ⟨c1, c2, c3, c4, c5, c6, c7, c8, c9, c10, c11, c12, c13⟩ := ih hrest sim out
      refine ⟨?_, c2, c3, c4, c5, c6, c7, c8, c9, c10, c11, ?_, ?_⟩
      · intro j hj
        exact c1 j (fun h => hj (List.mem_cons_of_mem _ h))
      · intro j hj hjo
        rcases List.mem_cons.mp hj with hji | hjr
        · subst hji; exact absurd hjo ho
        · exact c12 j hjr hjo
      · intro hM
        exact c13 (fun j hj hjo => hM j (List.mem_cons_of_mem _ hj) hjo)
/-! ## The Flush step -/

theorem cache_handle_bus_response_frame (sim : Simulator) (out : BusTransaction) (i : Nat) :
    (cache_handle_bus_response sim out i).bus = sim.bus ∧
    (cache_handle_bus_response sim out i).main_memory = sim.main_memory ∧
    (cache_handle_bus_response sim out i).global_cycle = sim.global_cycle ∧
    (∀ j, j ≠ i → (cache_handle_bus_response sim out i).cores j = sim.cores j) := by
  simp only [cache_handle_bus_response]
  split_ifs <;> refine ⟨rfl, rfl, rfl, fun j hj => ?_⟩ <;>
    first
    | rfl
    | exact upd_other _ _ _ _ hj

theorem response_loop_frame (l : List Nat) (sim : Simulator) (out : BusTransaction) :
    (response_loop sim out l).bus = sim.bus ∧
    (response_loop sim out l).main_memory = sim.main_memory ∧
    (response_loop sim out l).global_cycle = sim.global_cycle ∧
    (∀ j, j ∉ l → (response_loop sim out l).cores j = sim.cores j) := by
  induction l generalizing sim with
  | nil => exact ⟨rfl, rfl, rfl, fun _ _ => rfl⟩
  | cons i rest ih =>
    obtain ⟨a1, a2, a3, a4⟩ := cache_handle_bus_response_frame sim out i
    obtain ⟨b1, b2, b3, b4⟩ := ih (cache_handle_bus_response sim out i)
    refine ⟨b1.trans a1, b2.trans a2, b3.trans a3, fun j hj => ?_⟩
    have hji : j ≠ i := fun h => hj (h ▸ List.mem_cons_self _ _)
    have hjr : j ∉ rest := fun h => hj (List.mem_cons_of_mem _ h)
    exact (b4 j hjr).trans (a4 j hji)

/-- Only the handler of the bus owner acts in the delivery loop. -/
theorem response_loop_cores (l : List Nat) (hnd : l.Nodup) (sim : Simulator)
    (out : BusTransaction) (j : Nat) :
    (response_loop sim out l).cores j =
      if j ∈ l ∧ sim.bus.owner = (j : Int) then (cache_handle_bus_response sim out j).cores j
      else sim.cores j := by
  induction l generalizing sim with
  | nil => simp [response_loop]
  | cons i rest ih =>
    have hi : i ∉ rest := (List.nodup_cons.mp hnd).1
    have hrest : rest.Nodup := (List.nodup_cons.mp hnd).2
    obtain ⟨a1, a2, a3, a4⟩ := cache_handle_bus_response_frame sim out i
    show (response_loop (cache_handle_bus_response sim out i) out rest).cores j = _
    rw [ih hrest, a1]
    by_cases hji : j = i
    · subst hji
      have h1 : ¬ (j ∈ rest ∧ sim.bus.owner = (j : Int)) := fun h => hi h.1
      rw [if_neg h1]
      by_cases ho : sim.bus.owner = (j : Int)
      · rw [if_pos ⟨List.mem_cons_self _ _, ho⟩]
      · rw [if_neg (fun h => ho h.2), cache_handle_bus_response_not_owner sim out j ho]
    · by_cases hc : j ∈ rest ∧ sim.bus.owner = (j : Int)
      · rw [if_pos hc, if_pos ⟨List.mem_cons_of_mem _ hc.1, hc.2⟩]
        have hio : sim.bus.owner ≠ (i : Int) := by
          rw [hc.2]
          exact fun h => hji (by exact_mod_cast h)
        rw [cache_handle_bus_response_not_owner sim out i hio]
      · rw [if_neg hc, a4 j hji]
        have : ¬ (j ∈ i :: rest ∧ sim.bus.owner = (j : Int)) := by
          rintro ⟨hm, ho⟩
          rcases List.mem_cons.mp hm with h | h
          · exact hji h
          · exact hc ⟨h, ho⟩
        rw [if_neg this]

theorem add_bus_trace_entry_frame (bus : BusArbiter) (t : BusTransaction) (cycle : Nat) :
    (add_bus_trace_entry bus t cycle).current = bus.current ∧
    (add_bus_trace_entry bus t cycle).last_granted = bus.last_granted ∧
    (add_bus_trace_entry bus t cycle).owner = bus.owner ∧
    (add_bus_trace_entry bus t cycle).state = bus.state ∧
    (add_bus_trace_entry bus t cycle).timer = bus.timer ∧
    (add_bus_trace_entry bus t cycle).provider_id = bus.provider_id ∧
    (add_bus_trace_entry bus t cycle).shared_at_request = bus.shared_at_request ∧
    (add_bus_trace_entry bus t cycle).flush_data = bus.flush_data ∧
    (add_bus_trace_entry bus t cycle).pending = bus.pending ∧
    (add_bus_trace_entry bus t cycle).pending_trans = bus.pending_trans := by
  simp only [add_bus_trace_entry]
  split_ifs <;> exact ⟨rfl, rfl, rfl, rfl, rfl, rfl, rfl, rfl, rfl, rfl⟩

/-- The arbiter, main memory and cycle counter after the Flush step. -/
theorem bus_flush_step_bus (s : Simulator) :
    (bus_flush_step s).2 = flush_word s.bus ∧
    (bus_flush_step s).1.bus.timer = s.bus.timer - 1 ∧
    (bus_flush_step s).1.bus.state
      = (if s.bus.timer - 1 = 0 then BusState.IDLE else s.bus.state) ∧
    (bus_flush_step s).1.bus.owner = (if s.bus.timer - 1 = 0 then -1 else s.bus.owner) ∧
    (bus_flush_step s).1.bus.pending = s.bus.pending ∧
    (bus_flush_step s).1.bus.pending_trans = s.bus.pending_trans ∧
    (bus_flush_step s).1.bus.last_granted = s.bus.last_granted ∧
    (bus_flush_step s).1.bus.provider_id = s.bus.provider_id ∧
    (bus_flush_step s).1.bus.shared_at_request = s.bus.shared_at_request ∧
    (bus_flush_step s).1.bus.flush_data = s.bus.flush_data ∧
    (bus_flush_step s).1.bus.trace_lines
      = (add_bus_trace_entry s.bus (flush_word s.bus) s.global_cycle).trace_lines ∧
    (bus_flush_step s).1.bus.trace_count
      = (add_bus_trace_entry s.bus (flush_word s.bus) s.global_cycle).trace_count ∧
    (bus_flush_step s).1.main_memory =
      (if s.bus.provider_id ≠ 4 then
        { data := upd s.main_memory.data (flush_word s.bus).addr (flush_word s.bus).data }
      else s.main_memory) ∧
    (bus_flush_step s).1.global_cycle = s.global_cycle := by
  obtain ⟨t1, t2, t3, t4, t5, t6, t7, t8, t9, t10⟩ :=
    add_bus_trace_entry_frame s.bus (flush_word s.bus) s.global_cycle
  have hf := fun (m : MainMemory) (f : Bool) => response_loop_frame [0, 1, 2, 3]
    { s with bus := add_bus_trace_entry s.bus (flush_word s.bus) s.global_cycle
             main_memory := m, mem_fault := f } (flush_word s.bus)
  simp only [bus_flush_step]
  split_ifs with h1 h2 h2 h3 h3 <;>
    simp only [(hf _ _).1, (hf _ _).2.1, (hf _ _).2.2.1, t2, t3, t4, t5, t6, t7, t8, t9, t10]
      at * <;>
    simp_all
/-! ## The Request step -/

theorem add_bus_trace_entry_trace (b b' : BusArbiter) (t : BusTransaction) (g : Nat)
    (h1 : b.trace_lines = b'.trace_lines) (h2 : b.trace_count = b'.trace_count) :
    (add_bus_trace_entry b t g).trace_lines = (add_bus_trace_entry b' t g).trace_lines ∧
    (add_bus_trace_entry b t g).trace_count = (add_bus_trace_entry b' t g).trace_count := by
  simp only [add_bus_trace_entry]
  split_ifs <;> simp_all

theorem request_finish_spec (s2 : Simulator) (out : BusTransaction) :
    (request_finish s2 out).2 = out ∧
    (request_finish s2 out).1.cores = s2.cores ∧
    (request_finish s2 out).1.main_memory = s2.main_memory ∧
    (request_finish s2 out).1.global_cycle = s2.global_cycle ∧
    (request_finish s2 out).1.bus.owner = s2.bus.owner ∧
    (request_finish s2 out).1.bus.pending = s2.bus.pending ∧
    (request_finish s2 out).1.bus.pending_trans = s2.bus.pending_trans ∧
    (request_finish s2 out).1.bus.last_granted = s2.bus.last_granted ∧
    (request_finish s2 out).1.bus.provider_id = s2.bus.provider_id ∧
    (request_finish s2 out).1.bus.shared_at_request = out.shared ∧
    (request_finish s2 out).1.bus.trace_lines
      = (add_bus_trace_entry s2.bus out s2.global_cycle).trace_lines ∧
    (request_finish s2 out).1.bus.trace_count
      = (add_bus_trace_entry s2.bus out s2.global_cycle).trace_count ∧
    (s2.bus.provider_id ≠ 4 →
      (request_finish s2 out).1.bus.state = BusState.FLUSH ∧
      (request_finish s2 out).1.bus.timer = 8 ∧
      (request_finish s2 out).1.bus.flush_data = s2.bus.flush_data) ∧
    (s2.bus.provider_id = 4 →
      (request_finish s2 out).1.bus.state = BusState.LATENCY ∧
      (request_finish s2 out).1.bus.timer = 15 ∧
      ∀ i, i < 8 → (request_finish s2 out).1.bus.flush_data i =
        s2.main_memory.data ((out.addr &&& 0xFFFFFFF8) + i)) := by
  obtain ⟨t1, t2, t3, t4, t5, t6, t7, t8, t9, t10⟩ := add_bus_trace_entry_frame
    { s2.bus with shared_at_request := out.shared } out s2.global_cycle
  obtain ⟨u1, u2⟩ := add_bus_trace_entry_trace
    { s2.bus with shared_at_request := out.shared } s2.bus out s2.global_cycle rfl rfl
  simp only [request_finish]
  split_ifs with hp
  · exact ⟨rfl, rfl, rfl, rfl, t3, t9, t10, t2, t6, t7, u1, u2, fun _ => ⟨rfl, rfl, t8⟩,
      fun h => absurd (t6.trans h) hp⟩
  · refine ⟨rfl, rfl, rfl, rfl, t3, t9, t10, t2, t6, t7, u1, u2,
      fun h => absurd (fun h' => h (t6.symm.trans h')) hp,
      fun _ => ⟨rfl, rfl, fun i hi => ?_⟩⟩
    show copy_block_from_memory _ _ _ i = _
    rw [copy_block_from_memory_apply, if_pos hi]

/-- The Request step: what it leaves in the arbiter, in main memory and in the
snooped caches.  `A` is the address of the owner's pending transaction. -/
theorem bus_request_step_spec (s : Simulator) :
    (bus_request_step s).2.cmd = (s.bus.pending_trans s.bus.owner.toNat).cmd ∧
    (bus_request_step s).2.addr = (s.bus.pending_trans s.bus.owner.toNat).addr ∧
    (bus_request_step s).2.origid = (s.bus.pending_trans s.bus.owner.toNat).origid ∧
    (bus_request_step s).2.data = (s.bus.pending_trans s.bus.owner.toNat).data ∧
    (bus_request_step s).1.bus.owner = s.bus.owner ∧
    (bus_request_step s).1.bus.pending = s.bus.pending ∧
    (bus_request_step s).1.bus.pending_trans = s.bus.pending_trans ∧
    (bus_request_step s).1.bus.last_granted = s.bus.last_granted ∧
    (bus_request_step s).1.bus.shared_at_request = (bus_request_step s).2.shared ∧
    ((bus_request_step s).1.bus.state = BusState.FLUSH ∧ (bus_request_step s).1.bus.timer = 8 ∨
      (bus_request_step s).1.bus.state = BusState.LATENCY ∧
        (bus_request_step s).1.bus.timer = 15) ∧
    (bus_request_step s).1.main_memory = s.main_memory ∧
    (bus_request_step s).1.global_cycle = s.global_cycle ∧
    (bus_request_step s).1.bus.trace_lines =
      (add_bus_trace_entry s.bus (bus_request_step s).2 s.global_cycle).trace_lines ∧
    (bus_request_step s).1.bus.trace_count =
      (add_bus_trace_entry s.bus (bus_request_step s).2 s.global_cycle).trace_count ∧
    ((∀ j : Nat, j < 4 → (j : Int) ≠ s.bus.owner →
        line_state (s.cores j).cache
          (get_cache_index (s.bus.pending_trans s.bus.owner.toNat).addr)
          (get_cache_tag (s.bus.pending_trans s.bus.owner.toNat).addr) ≠ MESIState.MODIFIED) →
      (bus_request_step s).1.bus.state = BusState.LATENCY ∧
      (bus_request_step s).1.bus.timer = 15 ∧
      (bus_request_step s).1.bus.provider_id = 4 ∧
      ∀ i, i < 8 → (bus_request_step s).1.bus.flush_data i =
        s.main_memory.data
          (((s.bus.pending_trans s.bus.owner.toNat).addr &&& 0xFFFFFFF8) + i)) ∧
    (∀ j : Nat, (j : Int) = s.bus.owner → (bus_request_step s).1.cores j = s.cores j) ∧
    (∀ j, 4 ≤ j → (bus_request_step s).1.cores j = s.cores j) ∧
    (∀ j idx tag, SnoopStep (line_state (s.cores j).cache idx tag)
      (line_state ((bus_request_step s).1.cores j).cache idx tag)) ∧
    (∀ j : Nat, j < 4 → (j : Int) ≠ s.bus.owner →
      snooped_ok (s.bus.pending_trans s.bus.owner.toNat).cmd (bus_request_step s).2.shared
        (line_state ((bus_request_step s).1.cores j).cache
          (get_cache_index (s.bus.pending_trans s.bus.owner.toNat).addr)
          (get_cache_tag (s.bus.pending_trans s.bus.owner.toNat).addr))) := by
  obtain ⟨c1, c2, c3, c4, c5, c6, c7, c8, c9, -, c11, c12, c13⟩ :=
    snoop_loop_spec [0, 1, 2, 3] (by decide)
      { s with bus := { s.bus with provider_id := 4 } }
      { s.bus.pending_trans s.bus.owner.toNat with shared := false }
  have hmem : ∀ j : Nat, j < 4 → j ∈ [0, 1, 2, 3] := by
    intro j hj
    have : j = 0 ∨ j = 1 ∨ j = 2 ∨ j = 3 := by omega
    rcases this with h | h | h | h <;> subst h <;> simp
  have hnmem : ∀ j : Nat, 4 ≤ j → j ∉ [0, 1, 2, 3] := by
    intro j hj hm
    simp only [List.mem_cons, List.mem_singleton, List.not_mem_nil, or_false] at hm
    omega
  obtain ⟨f1, f2, f3, f4, f5, f6, f7, f8, f9, f10, f11, f12, f13, f14⟩ := request_finish_spec
    (snoop_loop { s with bus := { s.bus with provider_id := 4 } }
      { s.bus.pending_trans s.bus.owner.toNat with shared := false } [0, 1, 2, 3]).1
    (snoop_loop { s with bus := { s.bus with provider_id := 4 } }
      { s.bus.pending_trans s.bus.owner.toNat with shared := false } [0, 1, 2, 3]).2
  obtain ⟨u1, u2⟩ := add_bus_trace_entry_trace
    (snoop_loop { s with bus := { s.bus with provider_id := 4 } }
      { s.bus.pending_trans s.bus.owner.toNat with shared := false } [0, 1, 2, 3]).1.bus s.bus
    (snoop_loop { s with bus := { s.bus with provider_id := 4 } }
      { s.bus.pending_trans s.bus.owner.toNat with shared := false } [0, 1, 2, 3]).2
    s.global_cycle c5.trace_lines c5.trace_count
  rw [c4] at f11 f12
  have hb : bus_request_step s = request_finish
    (snoop_loop { s with bus := { s.bus with provider_id := 4 } }
      { s.bus.pending_trans s.bus.owner.toNat with shared := false } [0, 1, 2, 3]).1
    (snoop_loop { s with bus := { s.bus with provider_id := 4 } }
      { s.bus.pending_trans s.bus.owner.toNat with shared := false } [0, 1, 2, 3]).2 := rfl
  rw [hb, f1, f2]
  refine ⟨c6, c7, c8, c9, f5.trans c5.owner, f6.trans c5.pending, f7.trans c5.pending_trans,
    f8.trans c5.last_granted, f10, ?_, f3.trans c3, f4.trans c4, f11.trans u1, f12.trans u2,
    ?_, c2, fun j hj => c1 j (hnmem j hj), c11, fun j hj hjo => c12 j (hmem j hj) hjo⟩
  · by_cases hp : (snoop_loop { s with bus := { s.bus with provider_id := 4 } }
        { s.bus.pending_trans s.bus.owner.toNat with shared := false }
        [0, 1, 2, 3]).1.bus.provider_id ≠ 4
    · exact Or.inl ⟨(f13 hp).1, (f13 hp).2.1⟩
    · exact Or.inr ⟨(f14 (not_not.mp hp)).1, (f14 (not_not.mp hp)).2.1⟩
  · intro hM
    have hbus := c13 (fun j _ hjo => hM j (by
      rename_i hj
      simp only [List.mem_cons, List.mem_singleton, List.not_mem_nil, or_false] at hj
      omega) hjo)
    have hprov : (snoop_loop { s with bus := { s.bus with provider_id := 4 } }
        { s.bus.pending_trans s.bus.owner.toNat with shared := false }
        [0, 1, 2, 3]).1.bus.provider_id = 4 := by rw [hbus]
    refine ⟨(f14 hprov).1, (f14 hprov).2.1, f9.trans hprov, fun i hi => ?_⟩
    rw [(f14 hprov).2.2 i hi, c3, c7]
/-! ## Timing of a memory-sourced transaction -/

theorem run_cycles_succ (n : Nat) (s : Simulator) :
    run_cycles (n + 1) s = sim_cycle (run_cycles n s) := by
  induction n generalizing s with
  | zero => rfl
  | succ n ih =>
    show run_cycles (n + 1) (sim_cycle s) = _
    rw [ih]
    rfl

theorem cores_cycle_memory (s : Simulator) :
    (cores_cycle s).main_memory = s.main_memory ∧
    (cores_cycle s).global_cycle = s.global_cycle ∧
    (cores_cycle s).bus.trace_lines = s.bus.trace_lines ∧
    (cores_cycle s).bus.trace_count = s.bus.trace_count := by
  have f0 := execute_core_cycle_frame s 0
  have f1 := execute_core_cycle_frame (execute_core_cycle s 0) 1
  have f2 := execute_core_cycle_frame (execute_core_cycle (execute_core_cycle s 0) 1) 2
  have f3 := execute_core_cycle_frame
    (execute_core_cycle (execute_core_cycle (execute_core_cycle s 0) 1) 2) 3
  exact ⟨f3.mem.trans (f2.mem.trans (f1.mem.trans f0.mem)),
    f3.cyc.trans (f2.cyc.trans (f1.cyc.trans f0.cyc)),
    f3.bus.trace_lines.trans (f2.bus.trace_lines.trans
      (f1.bus.trace_lines.trans f0.bus.trace_lines)),
    f3.bus.trace_count.trans (f2.bus.trace_count.trans
      (f1.bus.trace_count.trans f0.bus.trace_count))⟩

theorem bus_cycle_out_idle (s : Simulator) (h : s.bus.state = BusState.IDLE) :
    bus_cycle_out s =
      (if (bus_arbitrate { s.bus with owner := -1 }).owner ≠ -1 then
        ({ s with bus := { bus_arbitrate { s.bus with owner := -1 } with
            state := BusState.ARBITRATE } }, no_output)
      else ({ s with bus := bus_arbitrate { s.bus with owner := -1 } }, no_output)) := by
  simp only [bus_cycle_out, h]

theorem bus_cycle_out_arbitrate (s : Simulator) (h : s.bus.state = BusState.ARBITRATE) :
    bus_cycle_out s =
      bus_request_step { s with bus := { s.bus with state := BusState.REQUEST } } := by
  simp only [bus_cycle_out, h]

theorem bus_cycle_out_request (s : Simulator) (h : s.bus.state = BusState.REQUEST) :
    bus_cycle_out s = bus_request_step s := by
  simp only [bus_cycle_out, h]

theorem bus_cycle_out_latency_wait (s : Simulator) (h : s.bus.state = BusState.LATENCY)
    (ht : 0 < s.bus.timer) :
    bus_cycle_out s =
      ({ s with bus := { s.bus with timer := s.bus.timer - 1 } }, no_output) := by
  simp only [bus_cycle_out, h, if_pos ht]

theorem bus_cycle_out_latency_done (s : Simulator) (h : s.bus.state = BusState.LATENCY)
    (ht : ¬ 0 < s.bus.timer) :
    bus_cycle_out s =
      bus_flush_step { s with bus := { s.bus with state := BusState.FLUSH, timer := 8 } } := by
  simp only [bus_cycle_out, h, if_neg ht]

theorem bus_cycle_out_flush (s : Simulator) (h : s.bus.state = BusState.FLUSH) :
    bus_cycle_out s = bus_flush_step s := by
  simp only [bus_cycle_out, h]

theorem bus_cycle_global_cycle (s : Simulator) : (bus_cycle s).global_cycle = s.global_cycle := by
  unfold bus_cycle
  cases h : s.bus.state with
  | IDLE =>
    rw [bus_cycle_out_idle s h]
    split_ifs <;> rfl
  | ARBITRATE =>
    rw [bus_cycle_out_arbitrate s h]
    exact (bus_request_step_spec _).2.2.2.2.2.2.2.2.2.2.2.1
  | REQUEST =>
    rw [bus_cycle_out_request s h]
    exact (bus_request_step_spec _).2.2.2.2.2.2.2.2.2.2.2.1
  | LATENCY =>
    by_cases ht : 0 < s.bus.timer
    · rw [bus_cycle_out_latency_wait s h ht]
    · rw [bus_cycle_out_latency_done s h ht]
      exact (bus_flush_step_bus _).2.2.2.2.2.2.2.2.2.2.2.2.2
  | FLUSH =>
    rw [bus_cycle_out_flush s h]
    exact (bus_flush_step_bus _).2.2.2.2.2.2.2.2.2.2.2.2.2

theorem sim_cycle_global_cycle (s : Simulator) :
    (sim_cycle s).global_cycle = (s.global_cycle + 1) % 2 ^ 64 := by
  show ((cores_cycle (memory_cycle (bus_cycle s))).global_cycle + 1) % 2 ^ 64 = _
  rw [(cores_cycle_memory _).2.1]
  show ((bus_cycle s).global_cycle + 1) % 2 ^ 64 = _
  rw [bus_cycle_global_cycle]

theorem run_cycles_global_cycle (n : Nat) (s : Simulator) :
    (run_cycles n s).global_cycle % 2 ^ 64 = (s.global_cycle + n) % 2 ^ 64 := by
  induction n with
  | zero => rfl
  | succ n ih =>
    rw [run_cycles_succ, sim_cycle_global_cycle]
    omega

theorem CohInv.init_ (imems : Nat → Nat → Nat) (memin : Nat → Nat) :
    CohInv (load_images imems memin) where
  lg := by
    show (0 : Int) ≤ ((NUM_CORES : Nat) : Int) - 1 ∧ ((NUM_CORES : Nat) : Int) - 1 ≤ 3
    decide
  pend := fun i h => by cases h
  pair := fun _ _ _ _ _ _ _ _ => rfl
  own := fun h => absurd rfl h
  fl := fun h => by cases h
  post := fun h => by rcases h with h | h <;> cases h

/-- A core's own cycle moves the state in which it holds a block only from
Exclusive/Modified to Modified. -/
theorem line_state_tsramStep {c c' : Cache} {idx tag : Nat}
    (h : TsramStep (c.tsram idx) (c'.tsram idx)) :
    line_state c' idx tag = line_state c idx tag ∨
      ((line_state c idx tag = MESIState.EXCLUSIVE ∨ line_state c idx tag = MESIState.MODIFIED) ∧
        line_state c' idx tag = MESIState.MODIFIED) := by
  rcases h with h | ⟨hv, hs, h⟩
  · left; simp only [line_state, h]
  · simp only [line_state, h]
    by_cases ht : (c.tsram idx).tag = tag
    · right
      simp only [hv, ht, and_self, if_true]
      exact ⟨hs, trivial⟩
    · left
      simp [ht]

theorem CohInv.core_step_ {s : Simulator} (h : CohInv s) (i : Nat) :
    CohInv (execute_core_cycle s i) := by
  have f := execute_core_cycle_frame s i
  have hls : ∀ j idx tag,
      line_state ((execute_core_cycle s i).cores j).cache idx tag
          = line_state (s.cores j).cache idx tag ∨
        ((line_state (s.cores j).cache idx tag = MESIState.EXCLUSIVE ∨
            line_state (s.cores j).cache idx tag = MESIState.MODIFIED) ∧
          line_state ((execute_core_cycle s i).cores j).cache idx tag
            = MESIState.MODIFIED) := by
    intro j idx tag
    by_cases hj : j = i
    · subst hj; exact line_state_tsramStep (f.ts idx)
    · left; rw [f.others j hj]
  have hpt : 0 ≤ s.bus.owner → (execute_core_cycle s i).bus.pending_trans s.bus.owner.toNat
      = s.bus.pending_trans s.bus.owner.toNat := by
    intro ho
    by_cases hc : s.bus.owner.toNat = (s.cores i).core_id
    · rcases f.bus.slot with ⟨_, h2⟩ | ⟨_, h2, _⟩
      · rw [hc, h2]
      · exfalso; apply h2; rw [← hc]; omega
    · exact (f.bus.others _ hc).2
  refine ⟨?_, ?_, ?_, ?_, ?_, ?_⟩
  · rw [f.bus.last_granted]; exact h.lg
  · intro k hk
    by_cases hc : k = (s.cores i).core_id
    · subst hc
      rcases f.bus.slot with ⟨h1, h2⟩ | ⟨_, _, _, h2⟩
      · rw [h2]; exact h.pend _ (h1 ▸ hk)
      · exact h2
    · rw [(f.bus.others k hc).2]
      exact h.pend k ((f.bus.others k hc).1 ▸ hk)
  · intro a b ha hb hab idx tag hME
    have ha' : line_state (s.cores a).cache idx tag = MESIState.MODIFIED ∨
        line_state (s.cores a).cache idx tag = MESIState.EXCLUSIVE := by
      rcases hls a idx tag with e | ⟨e, _⟩
      · rw [e] at hME; exact hME
      · exact e.symm
    have hb' := h.pair a b ha hb hab idx tag ha'
    rcases hls b idx tag with e | ⟨e, _⟩
    · rw [e]; exact hb'
    · rw [hb'] at e; rcases e with e | e <;> cases e
  · intro hst
    rw [f.bus.state] at hst
    obtain ⟨o1, o2, o3⟩ := h.own hst
    rw [f.bus.owner, hpt o1]
    exact ⟨o1, o2, o3⟩
  · intro hst
    rw [f.bus.state] at hst
    rw [f.bus.timer]
    exact h.fl hst
  · intro hst j hj hjo
    rw [f.bus.state] at hst
    have ho := (h.own (by rcases hst with e | e <;> rw [e] <;> decide)).1
    rw [f.bus.owner] at hjo ⊢
    rw [hpt ho, f.bus.shared_at_request]
    have hp := h.post hst j hj hjo
    rcases hls j _ _ with e | ⟨e, _⟩
    · rw [e]; exact hp
    · exfalso
      cases hcmd : (s.bus.pending_trans s.bus.owner.toNat).cmd with
      | RD =>
        rcases (hp.2 hcmd).1 with e2 | e2 <;> rw [e2] at e <;> rcases e with e | e <;> cases e
      | RDX =>
        have e2 := hp.1 hcmd
        rw [e2] at e
        rcases e with e | e <;> cases e
      | NO_CMD =>
        have := (h.own (by rcases hst with e | e <;> rw [e] <;> decide)).2.2
        rw [hcmd] at this
        rcases this with e | e <;> cases e
      | FLUSH =>
        have := (h.own (by rcases hst with e | e <;> rw [e] <;> decide)).2.2
        rw [hcmd] at this
        rcases this with e | e <;> cases e
/-- `bus_arbitrate` either finds nothing and changes nothing, or grants a
pending core `c < 4`. -/
theorem bus_arbitrate_cases (bus : BusArbiter)
    (hlg : 0 ≤ bus.last_granted ∧ bus.last_granted ≤ 3) :
    bus_arbitrate bus = bus ∨
    ∃ c : Nat, c < 4 ∧ bus.pending c = true ∧
      bus_arbitrate bus =
        { bus with
            owner := (c : Int)
            last_granted := (c : Int)
            current := bus.pending_trans c
            pending := upd bus.pending c false } := by
  have hg : bus.last_granted = ((bus.last_granted.toNat : Nat) : Int) := by omega
  generalize bus.last_granted.toNat = g at hg
  have grant := bus_arbitrate_grant bus g hg
  by_cases h0 : bus.pending ((g + 1 + 0) % 4) = true
  · exact Or.inr ⟨_, Nat.mod_lt _ (by omega), h0, grant 0 (by omega) h0 (by intro k hk; omega)⟩
  by_cases h1 : bus.pending ((g + 1 + 1) % 4) = true
  · refine Or.inr ⟨_, Nat.mod_lt _ (by omega), h1, grant 1 (by omega) h1 ?_⟩
    intro k hk
    have : k = 0 := by omega
    subst this
    simpa using h0
  by_cases h2 : bus.pending ((g + 1 + 2) % 4) = true
  · refine Or.inr ⟨_, Nat.mod_lt _ (by omega), h2, grant 2 (by omega) h2 ?_⟩
    intro k hk
    have : k = 0 ∨ k = 1 := by omega
    rcases this with e | e <;> subst e
    · simpa using h0
    · simpa using h1
  by_cases h3 : bus.pending ((g + 1 + 3) % 4) = true
  · refine Or.inr ⟨_, Nat.mod_lt _ (by omega), h3, grant 3 (by omega) h3 ?_⟩
    intro k hk
    have : k = 0 ∨ k = 1 ∨ k = 2 := by omega
    rcases this with e | e | e <;> subst e
    · simpa using h0
    · simpa using h1
    · simpa using h2
  · left
    have := bus_arbitrate_loop_none bus g hg 4 0 (by
      intro k hk
      have : k = 0 ∨ k = 1 ∨ k = 2 ∨ k = 3 := by omega
      rcases this with e | e | e | e <;> subst e
      · simpa using h0
      · simpa using h1
      · simpa using h2
      · simpa using h3)
    simpa [bus_arbitrate, NUM_CORES] using this

theorem CohInv.idle_ {s : Simulator} (h : CohInv s) (hst : s.bus.state = BusState.IDLE) :
    CohInv (bus_cycle s) := by
  unfold bus_cycle
  rw [bus_cycle_out_idle s hst]
  rcases bus_arbitrate_cases { s.bus with owner := -1 } h.lg with e | ⟨c, hc, hp, e⟩
  · rw [e]
    rw [if_neg (by simp)]
    exact ⟨h.lg, h.pend, h.pair, fun h' => absurd hst h',
      fun h' => (by rw [hst] at h'; cases h'),
      fun h' => (by rcases h' with h' | h' <;> rw [hst] at h' <;> cases h')⟩
  · have hc0 : (0 : Int) ≤ (c : Int) := by omega
    have hc3 : (c : Int) ≤ 3 := by omega
    have hcn : (c : Int) ≠ -1 := by omega
    rw [e]
    rw [if_pos hcn]
    refine ⟨⟨hc0, hc3⟩, ?_, h.pair, fun _ => ⟨hc0, hc3, ?_⟩,
      fun h' => (by cases h'), fun h' => (by rcases h' with h' | h' <;> cases h')⟩
    · intro i hi
      have hi' : upd s.bus.pending c false i = true := hi
      rw [upd_apply] at hi'
      by_cases hic : i = c
      · rw [if_pos hic] at hi'; cases hi'
      · rw [if_neg hic] at hi'
        exact h.pend i hi'
    · show is_request (s.bus.pending_trans ((c : Int).toNat)).cmd
      rw [Int.toNat_ofNat]
      exact h.pend c hp
theorem SnoopStep.keeps_invalid {a b : MESIState} (h : SnoopStep a b)
    (ha : a = MESIState.INVALID) : b = MESIState.INVALID := by
  rcases h with h | ⟨h, _⟩
  · rw [h, ha]
  · exact absurd ha h

theorem SnoopStep.owned_unchanged {a b : MESIState} (h : SnoopStep a b)
    (hb : b = MESIState.MODIFIED ∨ b = MESIState.EXCLUSIVE) : a = b := by
  rcases h with h | ⟨_, h⟩
  · exact h.symm
  · rcases h with h | h <;> rw [h] at hb <;> rcases hb with e | e <;> cases e

/-- The Request step re-establishes the invariant, whatever the arbiter state
field held before. -/
theorem CohInv.request_step_ (s : Simulator)
    (hlg : 0 ≤ s.bus.last_granted ∧ s.bus.last_granted ≤ 3)
    (hpend : ∀ i, s.bus.pending i = true → is_request (s.bus.pending_trans i).cmd)
    (hpair : ∀ i j, i < 4 → j < 4 → i ≠ j → ∀ idx tag,
      (line_state (s.cores i).cache idx tag = MESIState.MODIFIED ∨
        line_state (s.cores i).cache idx tag = MESIState.EXCLUSIVE) →
      line_state (s.cores j).cache idx tag = MESIState.INVALID)
    (hown : 0 ≤ s.bus.owner ∧ s.bus.owner ≤ 3 ∧
      is_request (s.bus.pending_trans s.bus.owner.toNat).cmd) :
    CohInv (bus_request_step s).1 := by
  obtain ⟨_, _, _, _, p5, p6, p7, p8, p9, p10, _, _, _, _, _, _, _, p18, p19⟩ :=
    bus_request_step_spec s
  refine ⟨by rw [p8]; exact hlg, by rw [p6, p7]; exact hpend, ?_, ?_, ?_, ?_⟩
  · intro a b ha hb hab idx tag hME
    have e := (p18 a idx tag).owned_unchanged hME
    exact (p18 b idx tag).keeps_invalid (hpair a b ha hb hab idx tag (e ▸ hME))
  · intro _
    rw [p5, p7]
    exact hown
  · intro hst
    rcases p10 with ⟨_, ht⟩ | ⟨hs, _⟩
    · rw [ht]; decide
    · rw [hs] at hst; cases hst
  · intro _ j hj hjo
    rw [p5] at hjo
    rw [p5, p7, p9]
    exact p19 j hj hjo

theorem CohInv.request_case_ {s : Simulator} (h : CohInv s)
    (hst : s.bus.state = BusState.ARBITRATE ∨ s.bus.state = BusState.REQUEST) :
    CohInv (bus_cycle s) := by
  have hown := h.own (by rcases hst with e | e <;> rw [e] <;> decide)
  unfold bus_cycle
  rcases hst with hst | hst
  · rw [bus_cycle_out_arbitrate s hst]
    exact CohInv.request_step_ _ h.lg h.pend h.pair hown
  · rw [bus_cycle_out_request s hst]
    exact CohInv.request_step_ _ h.lg h.pend h.pair hown
/-- The caches after the Flush step: only the owner's fill handler acts, on a
simulator `s1` that differs from `s` in the trace and in main memory only. -/
theorem bus_flush_step_cores (s : Simulator) (j : Nat) :
    ∃ s1 : Simulator, s1.cores = s.cores ∧
      s1.bus = add_bus_trace_entry s.bus (flush_word s.bus) s.global_cycle ∧
      (bus_flush_step s).1.cores j =
        if j < 4 ∧ s.bus.owner = (j : Int) then
          (cache_handle_bus_response s1 (flush_word s.bus) j).cores j
        else s.cores j := by
  refine ⟨{ s with
      bus := add_bus_trace_entry s.bus (flush_word s.bus) s.global_cycle
      main_memory :=
        if (add_bus_trace_entry s.bus (flush_word s.bus) s.global_cycle).provider_id ≠ 4
        then ⟨upd s.main_memory.data (flush_word s.bus).addr (flush_word s.bus).data⟩
        else s.main_memory
      mem_fault := s.mem_fault ||
        (decide ((add_bus_trace_entry s.bus (flush_word s.bus) s.global_cycle).provider_id ≠ 4)
          && decide (MAIN_MEM_SIZE ≤ (flush_word s.bus).addr)) }, rfl, rfl, ?_⟩
  have hc := response_loop_cores [0, 1, 2, 3] (by decide)
    { s with
      bus := add_bus_trace_entry s.bus (flush_word s.bus) s.global_cycle
      main_memory :=
        if (add_bus_trace_entry s.bus (flush_word s.bus) s.global_cycle).provider_id ≠ 4
        then ⟨upd s.main_memory.data (flush_word s.bus).addr (flush_word s.bus).data⟩
        else s.main_memory
      mem_fault := s.mem_fault ||
        (decide ((add_bus_trace_entry s.bus (flush_word s.bus) s.global_cycle).provider_id ≠ 4)
          && decide (MAIN_MEM_SIZE ≤ (flush_word s.bus).addr)) }
    (flush_word s.bus) j
  have hown := (add_bus_trace_entry_frame s.bus (flush_word s.bus) s.global_cycle).2.2.1
  have hmem : j ∈ [0, 1, 2, 3] ↔ j < 4 := by
    simp only [List.mem_cons, List.mem_singleton, List.not_mem_nil, or_false]
    omega
  have e : (bus_flush_step s).1.cores j = (response_loop
      { s with
        bus := add_bus_trace_entry s.bus (flush_word s.bus) s.global_cycle
        main_memory :=
          if (add_bus_trace_entry s.bus (flush_word s.bus) s.global_cycle).provider_id ≠ 4
          then ⟨upd s.main_memory.data (flush_word s.bus).addr (flush_word s.bus).data⟩
          else s.main_memory
        mem_fault := s.mem_fault ||
          (decide ((add_bus_trace_entry s.bus (flush_word s.bus) s.global_cycle).provider_id ≠ 4)
            && decide (MAIN_MEM_SIZE ≤ (flush_word s.bus).addr)) }
      (flush_word s.bus) [0, 1, 2, 3]).cores j := by
    simp only [bus_flush_step]
    split_ifs <;> rfl
  rw [e, hc]
  simp only [hmem, hown]

/-- The state in which the fill would leave the requested block. -/
theorem fill_line_state (c : Cache) (idxA tagA : Nat) (st : MESIState) (d : Nat → Nat)
    (idx tag : Nat) :
    line_state { dsram := d
                 tsram := upd c.tsram idxA { tag := tagA, mesi_state := st, valid := true } }
        idx tag =
      if idx = idxA then (if tag = tagA then st else MESIState.INVALID)
      else line_state c idx tag := by
  simp only [line_state, upd_apply]
  by_cases h : idx = idxA
  · simp only [h, if_true, true_and]
    by_cases ht : tagA = tag
    · simp [ht]
    · have : ¬ tag = tagA := fun e => ht e.symm
      simp [ht, this]
  · simp only [h, if_false]

/-- Line states after the Flush step, for a Flush with `timer` words left. -/
theorem bus_flush_step_lines (s : Simulator) (o : Nat) (ho : s.bus.owner = (o : Int))
    (ho4 : o < 4) (h1 : 1 ≤ s.bus.timer) (h8 : s.bus.timer ≤ 8) :
    (∀ j, j ≠ o → (bus_flush_step s).1.cores j = s.cores j) ∧
    (s.bus.timer ≠ 1 → ∀ idx tag,
      line_state ((bus_flush_step s).1.cores o).cache idx tag
        = line_state (s.cores o).cache idx tag) ∧
    (s.bus.timer = 1 → ∀ idx tag,
      line_state ((bus_flush_step s).1.cores o).cache idx tag =
        if idx = get_cache_index (s.bus.pending_trans o).addr then
          (if tag = get_cache_tag (s.bus.pending_trans o).addr then
            (if (s.bus.pending_trans o).cmd = BusCommand.RD then
              (if s.bus.shared_at_request then MESIState.SHARED else MESIState.EXCLUSIVE)
            else MESIState.MODIFIED)
          else MESIState.INVALID)
        else line_state (s.cores o).cache idx tag) := by
  obtain ⟨t1, t2, t3, t4, t5, t6, t7, t8, t9, t10⟩ :=
    add_bus_trace_entry_frame s.bus (flush_word s.bus) s.global_cycle
  have hdec := flush_addr_decode (s.bus.pending_trans o).addr s.bus.timer h1 h8
  have haddr : (flush_word s.bus).addr =
      toU32 ((((s.bus.pending_trans o).addr &&& 0xFFFFFFF8 : Nat) : Int) + (8 - s.bus.timer)) := by
    simp only [flush_word, ho, Int.toNat_ofNat]
  have hcmd : (flush_word s.bus).cmd = BusCommand.FLUSH := rfl
  refine ⟨?_, ?_, ?_⟩
  · intro j hj
    obtain ⟨s1, hs1, hb1, e⟩ := bus_flush_step_cores s j
    rw [e, if_neg]
    rintro ⟨_, e⟩
    rw [ho] at e
    exact hj (by exact_mod_cast e.symm)
  · intro hne idx tag
    obtain ⟨s1, hs1, hb1, e⟩ := bus_flush_step_cores s o
    rw [e, if_pos ⟨ho4, ho⟩]
    rw [cache_handle_bus_response_word _ _ _ hcmd (by rw [hb1, ← ho]; exact t3)
      (by rw [haddr, hdec.2.2.1]; omega)]
    simp only [Simulator.setCache, upd_same, line_state, hs1]
  · intro h1' idx tag
    obtain ⟨s1, hs1, hb1, e⟩ := bus_flush_step_cores s o
    rw [e, if_pos ⟨ho4, ho⟩]
    rw [cache_handle_bus_response_last _ _ _ hcmd (by rw [hb1, ← ho]; exact t3)
      (by rw [haddr, hdec.2.2.1]; omega)]
    simp only [Simulator.setCore, upd_same]
    rw [fill_line_state, haddr, hdec.1, hdec.2.1]
    simp only [hb1, t10, t7, hs1]
/-- The Flush step keeps the invariant; the hypotheses are those the invariant
gives in state FLUSH (and, with `timer = 8`, when the latency has just expired). -/
theorem CohInv.flush_step_ (s : Simulator)
    (hlg : 0 ≤ s.bus.last_granted ∧ s.bus.last_granted ≤ 3)
    (hpend : ∀ i, s.bus.pending i = true → is_request (s.bus.pending_trans i).cmd)
    (hpair : ∀ i j, i < 4 → j < 4 → i ≠ j → ∀ idx tag,
      (line_state (s.cores i).cache idx tag = MESIState.MODIFIED ∨
        line_state (s.cores i).cache idx tag = MESIState.EXCLUSIVE) →
      line_state (s.cores j).cache idx tag = MESIState.INVALID)
    (hown : 0 ≤ s.bus.owner ∧ s.bus.owner ≤ 3 ∧
      is_request (s.bus.pending_trans s.bus.owner.toNat).cmd)
    (hst : s.bus.state = BusState.FLUSH)
    (hfl : 1 ≤ s.bus.timer ∧ s.bus.timer ≤ 8)
    (hpost : ∀ j : Nat, j < 4 → (j : Int) ≠ s.bus.owner →
      snooped_ok (s.bus.pending_trans s.bus.owner.toNat).cmd s.bus.shared_at_request
        (line_state (s.cores j).cache
          (get_cache_index (s.bus.pending_trans s.bus.owner.toNat).addr)
          (get_cache_tag (s.bus.pending_trans s.bus.owner.toNat).addr))) :
    CohInv (bus_flush_step s).1 := by
  obtain ⟨-, b2, b3, b4, b5, b6, b7, -, b9, -, -, -, -, -⟩ := bus_flush_step_bus s
  obtain ⟨ho0, ho3, hreq⟩ := hown
  have ho : s.bus.owner = ((s.bus.owner.toNat : Nat) : Int) := by omega
  have ho4 : s.bus.owner.toNat < 4 := by omega
  generalize s.bus.owner.toNat = o at ho ho4 hreq hpost
  obtain ⟨l1, l2, l3⟩ := bus_flush_step_lines s o ho ho4 hfl.1 hfl.2
  by_cases ht : s.bus.timer = 1
  · -- last word: the line is installed and the arbiter goes idle
    have hstate : (bus_flush_step s).1.bus.state = BusState.IDLE := by
      rw [b3, ht]; rfl
    refine ⟨by rw [b7]; exact hlg, by rw [b5, b6]; exact hpend, ?_,
      fun h => absurd hstate h, fun h => (by rw [hstate] at h; cases h),
      fun h => (by rcases h with h | h <;> rw [hstate] at h <;> cases h)⟩
    intro a b ha hb hab idx tag hME
    by_cases hao : a = o
    · subst hao
      have hbo : b ≠ a := fun e => hab e.symm
      rw [l1 b hbo]
      rw [l3 ht idx tag] at hME
      by_cases hi : idx = get_cache_index (s.bus.pending_trans a).addr
      · rw [if_pos hi] at hME
        by_cases htg : tag = get_cache_tag (s.bus.pending_trans a).addr
        · rw [if_pos htg] at hME
          have hp := hpost b hb (by rw [ho]; exact_mod_cast hbo)
          rw [hi, htg]
          rcases hreq with hc | hc
          · rw [if_pos hc] at hME
            cases hsh : s.bus.shared_at_request with
            | true =>
              rw [hsh] at hME
              rcases hME with e | e <;> cases e
            | false => exact (hp.2 hc).2 hsh
          · exact hp.1 hc
        · rw [if_neg htg] at hME
          rcases hME with e | e <;> cases e
      · rw [if_neg hi] at hME
        exact hpair a b ha hb hab idx tag hME
    · rw [l1 a hao] at hME
      by_cases hbo : b = o
      · subst hbo
        rw [l3 ht idx tag]
        by_cases hi : idx = get_cache_index (s.bus.pending_trans b).addr
        · rw [if_pos hi]
          by_cases htg : tag = get_cache_tag (s.bus.pending_trans b).addr
          · exfalso
            have hp := hpost a ha (by rw [ho]; exact_mod_cast hao)
            rw [hi, htg] at hME
            rcases hreq with hc | hc
            · rcases (hp.2 hc).1 with e | e <;> rw [e] at hME <;>
                rcases hME with e2 | e2 <;> cases e2
            · rw [hp.1 hc] at hME
              rcases hME with e2 | e2 <;> cases e2
          · rw [if_neg htg]
        · rw [if_neg hi]
          exact hpair a b ha hb hab idx tag hME
      · rw [l1 b hbo]
        exact hpair a b ha hb hab idx tag hME
  · -- an intermediate word: line states are unchanged
    have hstate : (bus_flush_step s).1.bus.state = BusState.FLUSH := by
      rw [b3, if_neg (by omega), hst]
    have hown' : (bus_flush_step s).1.bus.owner = s.bus.owner := by
      rw [b4, if_neg (by omega)]
    have hls : ∀ j idx tag, line_state ((bus_flush_step s).1.cores j).cache idx tag
        = line_state (s.cores j).cache idx tag := by
      intro j idx tag
      by_cases hj : j = o
      · subst hj; exact l2 ht idx tag
      · rw [l1 j hj]
    refine ⟨by rw [b7]; exact hlg, by rw [b5, b6]; exact hpend, ?_, ?_, ?_, ?_⟩
    · intro a b ha hb hab idx tag hME
      rw [hls] at hME ⊢
      exact hpair a b ha hb hab idx tag hME
    · intro _
      rw [hown', b6, ho, Int.toNat_ofNat]
      exact ⟨by omega, by omega, hreq⟩
    · intro _
      rw [b2]
      omega
    · intro _ j hj hjo
      rw [hown'] at hjo
      rw [hown', b6, b9, hls, ho, Int.toNat_ofNat]
      exact hpost j hj hjo

theorem CohInv.bus_ {s : Simulator} (h : CohInv s) : CohInv (bus_cycle s) := by
  cases hst : s.bus.state with
  | IDLE => exact h.idle_ hst
  | ARBITRATE => exact h.request_case_ (Or.inl hst)
  | REQUEST => exact h.request_case_ (Or.inr hst)
  | LATENCY =>
    have hown := h.own (by rw [hst]; decide)
    have hpost := h.post (Or.inl hst)
    unfold bus_cycle
    by_cases ht : 0 < s.bus.timer
    · rw [bus_cycle_out_latency_wait s hst ht]
      exact ⟨h.lg, h.pend, h.pair, fun _ => hown,
        fun h' => (by rw [show ({ s with bus := { s.bus with timer := s.bus.timer - 1 } }
          : Simulator).bus.state = s.bus.state from rfl, hst] at h'; cases h'),
        fun _ => hpost⟩
    · rw [bus_cycle_out_latency_done s hst ht]
      exact CohInv.flush_step_ _ h.lg h.pend h.pair hown rfl
        ⟨show (1 : Int) ≤ 8 by decide, show (8 : Int) ≤ 8 by decide⟩ hpost
  | FLUSH =>
    unfold bus_cycle
    rw [bus_cycle_out_flush s hst]
    exact CohInv.flush_step_ s h.lg h.pend h.pair (h.own (by rw [hst]; decide)) hst (h.fl hst)
      (h.post (Or.inr hst))

theorem CohInv.global_cycle_ {s : Simulator} (h : CohInv s) : CohInv (sim_cycle s) := by
  have h1 : CohInv (cores_cycle (memory_cycle (bus_cycle s))) :=
    (((h.bus_.core_step_ 0).core_step_ 1).core_step_ 2).core_step_ 3
  exact ⟨h1.lg, h1.pend, h1.pair, h1.own, h1.fl, h1.post⟩

theorem CohInv.run_ {s : Simulator} (h : CohInv s) (n : Nat) : CohInv (run_cycles n s) := by
  induction n generalizing s with
  | zero => exact h
  | succ n ih => exact ih h.global_cycle_

/-- Pairwise exclusion gives the admissible state combinations of the claim. -/
theorem mesi_coherent_of_pairwise (a b c d : MESIState)
    (hab : (a = MESIState.MODIFIED ∨ a = MESIState.EXCLUSIVE) → b = MESIState.INVALID)
    (hac : (a = MESIState.MODIFIED ∨ a = MESIState.EXCLUSIVE) → c = MESIState.INVALID)
    (had : (a = MESIState.MODIFIED ∨ a = MESIState.EXCLUSIVE) → d = MESIState.INVALID)
    (hba : (b = MESIState.MODIFIED ∨ b = MESIState.EXCLUSIVE) → a = MESIState.INVALID)
    (hbc : (b = MESIState.MODIFIED ∨ b = MESIState.EXCLUSIVE) → c = MESIState.INVALID)
    (hbd : (b = MESIState.MODIFIED ∨ b = MESIState.EXCLUSIVE) → d = MESIState.INVALID)
    (hca : (c = MESIState.MODIFIED ∨ c = MESIState.EXCLUSIVE) → a = MESIState.INVALID)
    (hcb : (c = MESIState.MODIFIED ∨ c = MESIState.EXCLUSIVE) → b = MESIState.INVALID)
    (hcd : (c = MESIState.MODIFIED ∨ c = MESIState.EXCLUSIVE) → d = MESIState.INVALID)
    (hda : (d = MESIState.MODIFIED ∨ d = MESIState.EXCLUSIVE) → a = MESIState.INVALID)
    (hdb : (d = MESIState.MODIFIED ∨ d = MESIState.EXCLUSIVE) → b = MESIState.INVALID)
    (hdc : (d = MESIState.MODIFIED ∨ d = MESIState.EXCLUSIVE) → c = MESIState.INVALID) :
    mesi_coherent [a, b, c, d] := by
  cases a <;> cases b <;> cases c <;> cases d <;>
    simp [mesi_coherent] at * 

theorem CohInv.coherent_ {s : Simulator} (h : CohInv s) (idx tag : Nat) :
    mesi_coherent (block_states s idx tag) := by
  have p := fun a b (ha : a < 4) (hb : b < 4) (hab : a ≠ b) => h.pair a b ha hb hab idx tag
  exact mesi_coherent_of_pairwise _ _ _ _
    (p 0 1 (by decide) (by decide) (by decide)) (p 0 2 (by decide) (by decide) (by decide))
    (p 0 3 (by decide) (by decide) (by decide)) (p 1 0 (by decide) (by decide) (by decide))
    (p 1 2 (by decide) (by decide) (by decide)) (p 1 3 (by decide) (by decide) (by decide))
    (p 2 0 (by decide) (by decide) (by decide)) (p 2 1 (by decide) (by decide) (by decide))
    (p 2 3 (by decide) (by decide) (by decide)) (p 3 0 (by decide) (by decide) (by decide))
    (p 3 1 (by decide) (by decide) (by decide)) (p 3 2 (by decide) (by decide) (by decide))

/-! ## Worked instances -/

/-- Instance of `cache_snoop_busrd`: core 0 holds block 8..15 Modified and snoops a
BusRd for address 8. -/
theorem cache_snoop_busrd_witness :
    snoop_demo_rd.cmd = BusCommand.RD ∧
    (∀ i, i < 8 → (cache_snoop snoop_demo snoop_demo_rd 0).1.bus.flush_data i = 100 + (8 + i)) ∧
    (cache_snoop snoop_demo snoop_demo_rd 0).1.bus.provider_id = 0 ∧
    (((cache_snoop snoop_demo snoop_demo_rd 0).1.cores 0).cache.tsram 1).mesi_state
      = MESIState.SHARED ∧
    (cache_snoop snoop_demo snoop_demo_rd 0).2.shared = true ∧
    ((cache_snoop snoop_demo snoop_demo_rd 0).1.cores 0).cache.dsram
      = (snoop_demo.cores 0).cache.dsram :=
  have h := cache_snoop_busrd snoop_demo snoop_demo_rd 0 rfl
  have hM := h.1 ⟨rfl, rfl, rfl⟩
  ⟨rfl, hM.1, hM.2.1, congrArg TSRAMEntry.mesi_state hM.2.2.2.1,
    congrArg BusTransaction.shared hM.2.2.2.2.2, h.2.2.2.2.1⟩

/-- Instance of `cache_snoop_busrdx`: core 0 holds block 8..15 Modified and snoops a
BusRdX for address 8. -/
theorem cache_snoop_busrdx_witness :
    snoop_demo_rdx.cmd = BusCommand.RDX ∧
    (((cache_snoop snoop_demo snoop_demo_rdx 0).1.cores 0).cache.tsram 1).mesi_state
      = MESIState.INVALID ∧
    (((cache_snoop snoop_demo snoop_demo_rdx 0).1.cores 0).cache.tsram 1).valid = false ∧
    (∀ i, i < 8 → (cache_snoop snoop_demo snoop_demo_rdx 0).1.bus.flush_data i = 100 + (8 + i)) ∧
    (cache_snoop snoop_demo snoop_demo_rdx 0).1.bus.provider_id = 0 ∧
    (cache_snoop snoop_demo snoop_demo_rdx 0).2 = snoop_demo_rdx :=
  have h := cache_snoop_busrdx snoop_demo snoop_demo_rdx 0 rfl
  have hV := h.1 ⟨rfl, rfl⟩
  have hM := hV.2.2.2.2.1 rfl
  ⟨rfl, hV.1, hV.2.1, hM.1, hM.2.1, h.2.2.1⟩

/-- Instance of `bus_arbitrate_round_robin`: from the initial pointer 3 with all
four slots pending, the grants are 0, 1, 2, 3, and the first grant copies slot 0. -/
theorem bus_arbitrate_round_robin_witness :
    (3 < 4) ∧ arb_demo.last_granted = ((3 : Nat) : Int) ∧
    (bus_arbitrate arb_demo).current = arb_demo.pending_trans 0 ∧
    (bus_arbitrate arb_demo).pending 0 = false ∧
    (bus_arbitrate arb_demo).owner = 0 ∧
    (bus_arbitrate (bus_arbitrate arb_demo)).owner = 1 ∧
    (bus_arbitrate (bus_arbitrate (bus_arbitrate arb_demo))).owner = 2 ∧
    (bus_arbitrate (bus_arbitrate (bus_arbitrate (bus_arbitrate arb_demo)))).owner = 3 :=
  have h := bus_arbitrate_round_robin arb_demo 3 (by decide) rfl
  have h0 := h.1 0 (by decide) rfl (fun k' hk' => absurd hk' (Nat.not_lt_zero k'))
  have h4 := h.2.2 rfl (fun _ _ => rfl)
  ⟨by decide, rfl, congrArg BusArbiter.current h0.1, h0.2.2, h4.1, h4.2.1, h4.2.2.1, h4.2.2.2⟩

/-! ## Evaluations of the simulator on concrete programs -/

/-- C2, evaluated on `sw_miss` (core 0 stores the value 8 to address 8 from a cold
cache, memory word 8 holding 1008).  After 29 global cycles the SW has moved from
MEM into WB with address 8 and data 8 and is counted as executed, the BusRdX
fill has installed set 1 as Modified, yet no `cache_write` has hit
(`write_hit = 0`) and DSRAM word 8 holds the memory word 1008.  Two cycles later
the core has halted with DSRAM word 8 still 1008. -/
theorem sw_miss_store_lost :
    ((run_cycles 28 sw_miss).cores 0).pipeline.mem.valid = true ∧
    ((run_cycles 28 sw_miss).cores 0).pipeline.mem.inst.opcode = OP_SW ∧
    ((run_cycles 28 sw_miss).cores 0).pipeline.mem.internal_stall = true ∧
    ((run_cycles 29 sw_miss).cores 0).pipeline.mem.valid = false ∧
    ((run_cycles 29 sw_miss).cores 0).pipeline.writeback.valid = true ∧
    ((run_cycles 29 sw_miss).cores 0).pipeline.writeback.inst.opcode = OP_SW ∧
    ((run_cycles 29 sw_miss).cores 0).pipeline.writeback.alu_result = 8 ∧
    ((run_cycles 29 sw_miss).cores 0).pipeline.writeback.mem_data = 8 ∧
    ((run_cycles 29 sw_miss).cores 0).instructions = 1 ∧
    ((run_cycles 29 sw_miss).cores 0).write_hit = 0 ∧
    ((run_cycles 29 sw_miss).cores 0).write_miss = 1 ∧
    ((run_cycles 29 sw_miss).cores 0).cache.tsram 1
      = { tag := 0, mesi_state := MESIState.MODIFIED, valid := true } ∧
    ((run_cycles 29 sw_miss).cores 0).cache.dsram 8 = 1008 ∧
    ((run_cycles 31 sw_miss).cores 0).halted = true ∧
    ((run_cycles 31 sw_miss).cores 0).write_hit = 0 ∧
    ((run_cycles 31 sw_miss).cores 0).cache.tsram 1
      = { tag := 0, mesi_state := MESIState.MODIFIED, valid := true } ∧
    ((run_cycles 31 sw_miss).cores 0).cache.dsram 8 = 1008 := by
  decide!

/-- C8, evaluated on `fill_race`.  In the state after 91 global cycles the arbiter
has granted core 0 a BusRd for address 520 (block 520..527, set 1, tag 1); the
next `bus_cycle` performs the Request step, no cache holds the block Modified
and memory word 520 is 1520.  The `bus_cycle` of cycle 114 delivers the eighth
Flush word (address 527).  Right after it core 0's set 1 is valid with tag 1, but
its DSRAM word 8 is 8, not 1520: during the fill core 0's own SW to address 8 hit
the old line of that set (`write_hit = 1` after 111 cycles). -/
theorem fill_race_word_differs :
    (run_cycles 91 fill_race).bus.state = BusState.ARBITRATE ∧
    (run_cycles 91 fill_race).bus.owner = 0 ∧
    (bus_cycle_out (run_cycles 91 fill_race)).2
      = { origid := 0, cmd := BusCommand.RD, addr := 520, data := 0, shared := false } ∧
    (∀ j, j < 4 → line_state ((run_cycles 91 fill_race).cores j).cache
        (get_cache_index 520) (get_cache_tag 520) ≠ MESIState.MODIFIED) ∧
    (run_cycles 91 fill_race).main_memory.data 520 = 1520 ∧
    ((run_cycles 110 fill_race).cores 0).write_hit = 0 ∧
    ((run_cycles 111 fill_race).cores 0).write_hit = 1 ∧
    (bus_cycle_out (run_cycles 114 fill_race)).2
      = { origid := 4, cmd := BusCommand.FLUSH, addr := 527, data := 1527, shared := false } ∧
    ((bus_cycle (run_cycles 114 fill_race)).cores 0).cache.tsram (get_cache_index 520)
      = { tag := get_cache_tag 520, mesi_state := MESIState.EXCLUSIVE, valid := true } ∧
    ((bus_cycle (run_cycles 114 fill_race)).cores 0).cache.dsram
      (get_cache_index 520 * 8 + 0) = 8 ∧
    ((bus_cycle (run_cycles 114 fill_race)).cores 0).cache.dsram
      (get_cache_index 520 * 8 + 7) = 1527 ∧
    (bus_cycle (run_cycles 114 fill_race)).bus.state = BusState.IDLE := by
  decide!

/-! ## The decode stage: hazards, branches, JAL -/

theorem check_data_hazard_iff (core : Core) (r : Nat) :
    check_data_hazard core r = true ↔ hazard_on core r := by
  unfold check_data_hazard hazard_on
  by_cases h1 : r ≤ 1
  · simp [h1]; omega
  · have h2 : 2 ≤ r := by omega
    simp only [h1, if_false, h2, true_and]
    split_ifs with a b c <;> simp_all

theorem check_data_hazard_imm (core : Core) (v : Nat) (r : Nat) :
    check_data_hazard
      { core with pipeline := { core.pipeline with
          decode := { core.pipeline.decode with imm_val := v } } } r
      = check_data_hazard core r := rfl

theorem decode_body_stall (core : Core)
    (h : decode_must_stall core core.pipeline.decode.inst) :
    decode_body core =
      { core with
          pipeline := { core.pipeline with
            decode := { core.pipeline.decode with
              imm_val := toU32 core.pipeline.decode.inst.imm, internal_stall := true } }
          decode_stall := (core.decode_stall + 1) % 2 ^ 64 } := by
  unfold decode_body
  dsimp only
  simp only [check_data_hazard_imm]
  by_cases h1 : (check_data_hazard core core.pipeline.decode.inst.rs ||
      check_data_hazard core core.pipeline.decode.inst.rt) = true
  · rw [if_pos h1]
  · rw [if_neg h1]
    have h2 : ((is_branch_instruction core.pipeline.decode.inst ||
        decide (core.pipeline.decode.inst.opcode = OP_JAL) ||
        decide (core.pipeline.decode.inst.opcode = OP_SW)) &&
        check_data_hazard core core.pipeline.decode.inst.rd) = true := by
      simp only [Bool.or_eq_true, check_data_hazard_iff, not_or] at h1
      rcases h with h | h | ⟨hk, hd⟩
      · exact absurd h h1.1
      · exact absurd h h1.2
      · simp only [Bool.and_eq_true, Bool.or_eq_true, decide_eq_true_eq, check_data_hazard_iff]
        refine ⟨?_, hd⟩
        rcases hk with hk | hk | hk
        · left; left
          simp only [is_branch_instruction, Bool.or_eq_true, Bool.and_eq_true, decide_eq_true_eq]
          exact Or.inl hk
        · exact Or.inl (Or.inr hk)
        · exact Or.inr hk
    rw [if_pos h2]

theorem decode_no_stall_guards (core : Core)
    (h : ¬ decode_must_stall core core.pipeline.decode.inst) :
    ¬ (check_data_hazard core core.pipeline.decode.inst.rs ||
      check_data_hazard core core.pipeline.decode.inst.rt) = true ∧
    ¬ ((is_branch_instruction core.pipeline.decode.inst ||
        decide (core.pipeline.decode.inst.opcode = OP_JAL) ||
        decide (core.pipeline.decode.inst.opcode = OP_SW)) &&
        check_data_hazard core core.pipeline.decode.inst.rd) = true := by
  unfold decode_must_stall at h
  simp only [not_or, not_and] at h
  constructor
  · simp only [Bool.or_eq_true, check_data_hazard_iff, not_or]
    exact ⟨h.1, h.2.1⟩
  · simp only [Bool.and_eq_true, Bool.or_eq_true, decide_eq_true_eq, check_data_hazard_iff,
      not_and]
    intro hk
    apply h.2.2
    rcases hk with (hk | hk) | hk
    · simp only [is_branch_instruction, Bool.or_eq_true, Bool.and_eq_true,
        decide_eq_true_eq] at hk
      rcases hk with hk | hk
      · exact Or.inl hk
      · exact Or.inr (Or.inl hk)
    · exact Or.inr (Or.inl hk)
    · exact Or.inr (Or.inr hk)
theorem decode_body_no_stall (core : Core)
    (h : ¬ decode_must_stall core core.pipeline.decode.inst) :
    decode_body core =
      (if is_branch_instruction core.pipeline.decode.inst then
        if resolve_branch_condition core.pipeline.decode.inst
            (toI32 (decode_latched core).rs_value) (toI32 (decode_latched core).rt_value) then
          { core with
              pipeline := { core.pipeline with decode := decode_latched core }
              branch_target :=
                read_register core core.pipeline.decode.inst.rd
                  (toU32 core.pipeline.decode.inst.imm) &&& 0x3FF
              branch_pending := true }
        else { core with pipeline := { core.pipeline with decode := decode_latched core } }
      else if core.pipeline.decode.inst.opcode = OP_JAL then
        { core with
            pipeline := { core.pipeline with
              decode := { decode_latched core with
                alu_result := (core.pipeline.decode.pc + 2) &&& 0x3FF
                reg_write := true, rw := 15 } }
            branch_target :=
              read_register core core.pipeline.decode.inst.rd
                (toU32 core.pipeline.decode.inst.imm) &&& 0x3FF
            branch_pending := true }
      else if core.pipeline.decode.inst.opcode = OP_HALT then
        { core with
            pipeline := { core.pipeline with
              decode := { decode_latched core with is_halt := true }
              fetch := { core.pipeline.fetch with valid := false } }
            halt_fetch := true }
      else { core with pipeline := { core.pipeline with decode := decode_latched core } }) := by
  obtain ⟨g1, g2⟩ := decode_no_stall_guards core h
  unfold decode_body
  dsimp only
  simp only [check_data_hazard_imm]
  rw [if_neg g1, if_neg g2]
  rfl

theorem decode_pull_of_valid (core : Core) (hv : core.pipeline.decode.valid = true) :
    decode_pull core = core := by
  unfold decode_pull
  simp [hv]

theorem decode_pull_hazard (core : Core) (r : Nat) :
    hazard_on (decode_pull core) r ↔ hazard_on core r := by
  unfold decode_pull hazard_on
  dsimp only
  split_ifs <;> rfl

/-- C13 (decode hazard rule).  `hazard_on core r` is `H(r)`.  Let ID hold a valid
instruction `inst` when the body of `stage_decode` runs (it was valid on entry, in
which case the pull does nothing, or it was just pulled out of IF).  If `H(rs)`
or `H(rt)` or (`inst` is a conditional branch, JAL or SW, and `H(rd)`), then
`stage_decode` sets ID's `internal_stall`, stores `decode_stall + 1` (as a 64-bit
counter) and, apart from latching `imm_val`, changes nothing else: no operand
is read, no branch resolved, no HALT acted on.  Otherwise it clears
`internal_stall`, leaves `decode_stall` unchanged and latches
`rs_value = read(rs, imm)` and `rt_value = read(rt, imm)`. -/
theorem stage_decode_hazard_rule (core : Core)
    (hv : (decode_pull core).pipeline.decode.valid = true) :
    (core.pipeline.decode.valid = true → decode_pull core = core) ∧
    (decode_must_stall core (decode_pull core).pipeline.decode.inst →
      stage_decode core =
        { decode_pull core with
            pipeline := { (decode_pull core).pipeline with
              decode := { (decode_pull core).pipeline.decode with
                imm_val := toU32 (decode_pull core).pipeline.decode.inst.imm
                internal_stall := true } }
            decode_stall := ((decode_pull core).decode_stall + 1) % 2 ^ 64 } ∧
      (decode_pull core).decode_stall = core.decode_stall ∧
      (core.decode_stall + 1 < 2 ^ 64 →
        (stage_decode core).decode_stall = core.decode_stall + 1)) ∧
    (¬ decode_must_stall core (decode_pull core).pipeline.decode.inst →
      (stage_decode core).pipeline.decode.internal_stall = false ∧
      (stage_decode core).decode_stall = core.decode_stall ∧
      (stage_decode core).pipeline.decode.rs_value =
        read_register core (decode_pull core).pipeline.decode.inst.rs
          (toU32 (decode_pull core).pipeline.decode.inst.imm) ∧
      (stage_decode core).pipeline.decode.rt_value =
        read_register core (decode_pull core).pipeline.decode.inst.rt
          (toU32 (decode_pull core).pipeline.decode.inst.imm)) := by
  have hds : (decode_pull core).decode_stall = core.decode_stall := by
    unfold decode_pull; dsimp only; split_ifs <;> rfl
  have hreg : ∀ r v, read_register (decode_pull core) r v = read_register core r v := by
    intro r v; unfold decode_pull; dsimp only; split_ifs <;> rfl
  have hH : ∀ i, decode_must_stall (decode_pull core) i ↔ decode_must_stall core i := by
    intro i
    simp only [decode_must_stall, decode_pull_hazard]
  have hsd : stage_decode core = decode_body (decode_pull core) := by
    unfold stage_decode
    simp only [hv, if_true]
  refine ⟨decode_pull_of_valid core, ?_, ?_⟩
  · intro h
    have e := decode_body_stall (decode_pull core) ((hH _).2 h)
    refine ⟨hsd.trans e, hds, ?_⟩
    intro hlt
    rw [hsd, e]
    show ((decode_pull core).decode_stall + 1) % 2 ^ 64 = _
    rw [hds, Nat.mod_eq_of_lt hlt]
  · intro h
    have e := decode_body_no_stall (decode_pull core) (fun h' => h ((hH _).1 h'))
    rw [hsd, e]
    split_ifs <;> simp [decode_latched, hds, hreg]

theorem resolve_branch_condition_iff (inst : Instruction) (a b : Int) :
    resolve_branch_condition inst a b = true ↔ branch_condition inst a b := by
  unfold resolve_branch_condition branch_condition
  simp only [OP_BEQ, OP_BNE, OP_BLT, OP_BGT, OP_BLE, OP_BGE]
  split_ifs with h1 h2 h3 h4 h5 h6 <;> simp_all

theorem is_branch_of_conditional (inst : Instruction) (h : is_conditional_branch inst) :
    is_branch_instruction inst = true := by
  simp only [is_branch_instruction, Bool.or_eq_true, Bool.and_eq_true, decide_eq_true_eq]
  exact Or.inl h

theorem is_branch_of_jal (inst : Instruction) (h : inst.opcode = OP_JAL) :
    is_branch_instruction inst = true := by
  simp only [is_branch_instruction, Bool.or_eq_true, Bool.and_eq_true, decide_eq_true_eq]
  exact Or.inr h

theorem resolve_branch_condition_jal (inst : Instruction) (h : inst.opcode = OP_JAL) (a b : Int) :
    resolve_branch_condition inst a b = false := by
  unfold resolve_branch_condition
  simp [h, OP_BEQ, OP_BNE, OP_BLT, OP_BGT, OP_BLE, OP_BGE, OP_JAL]

theorem stage_fetch_branch (c : Core) :
    (stage_fetch c).branch_pending = c.branch_pending ∧
    (stage_fetch c).branch_target = c.branch_target ∧
    (stage_fetch c).halted = c.halted := by
  unfold stage_fetch
  dsimp only
  split_ifs <;> exact ⟨rfl, rfl, rfl⟩

theorem end_of_cycle_branch (c : Core) (hh : c.halted = false) (hp : c.branch_pending = true) :
    (end_of_cycle c).pc = c.branch_target ∧ (end_of_cycle c).branch_pending = false := by
  unfold end_of_cycle log_cycle_trace
  simp only [hh, Bool.false_eq_true, if_false]
  split_ifs <;> simp_all

theorem stage_decode_pc (c : Core) :
    (stage_decode c).pc = c.pc ∧ (stage_decode c).halted = c.halted := by
  have hp : (decode_pull c).pc = c.pc ∧ (decode_pull c).halted = c.halted := by
    unfold decode_pull; dsimp only; split_ifs <;> exact ⟨rfl, rfl⟩
  unfold stage_decode
  dsimp only
  split_ifs
  · rw [← hp.1, ← hp.2]
    generalize decode_pull c = d
    unfold decode_body
    dsimp only
    split_ifs <;> exact ⟨rfl, rfl⟩
  · exact hp

theorem stage_execute_halted (c : Core) : (stage_execute c).halted = c.halted := by
  unfold stage_execute execute_pull execute_body
  dsimp only
  split_ifs <;> rfl

theorem setCore_cores_same (s : Simulator) (i : Nat) (c : Core) : (s.setCore i c).cores i = c := by
  simp [Simulator.setCore]

theorem cache_read_cores (s : Simulator) (ci addr cid : Nat) :
    (cache_read s ci addr cid).2.cores = s.cores := by
  unfold cache_read
  dsimp only
  split_ifs <;> rfl

theorem cache_write_core (s : Simulator) (ci addr data cid : Nat) :
    (cache_write s ci addr data cid).2.cores ci =
      { s.cores ci with cache := ((cache_write s ci addr data cid).2.cores ci).cache } := by
  unfold cache_write
  dsimp only
  split_ifs <;> simp [Simulator.setCache]

theorem memory_pull_halted (c : Core) : (memory_pull c).halted = c.halted := by
  unfold memory_pull; dsimp only; split_ifs <;> rfl

theorem stage_memory_halted (s : Simulator) (i : Nat) :
    ((stage_memory s i).cores i).halted = (s.cores i).halted := by
  unfold stage_memory
  dsimp only
  simp only [setCore_cores_same]
  split_ifs
  · simp only [setCore_cores_same, cache_read_cores]
    unfold memory_finish memory_stats
    dsimp only
    split_ifs <;> simp [memory_pull_halted]
  · simp only [setCore_cores_same]
    rw [cache_write_core]
    unfold memory_finish memory_stats
    dsimp only
    split_ifs <;> simp [memory_pull_halted, setCore_cores_same]
  · simp [memory_pull_halted, setCore_cores_same]
  · simp [memory_pull_halted, setCore_cores_same]

theorem stage_writeback_halted (s : Simulator) (i : Nat) :
    ((stage_writeback s i).cores i).halted = (s.cores i).halted := by
  unfold stage_writeback writeback_pull writeback_commit
  dsimp only
  simp only [setCore_cores_same]
  split_ifs <;> simp [setCore_cores_same, cache_read_cores]

theorem execute_core_cycle_core (sim : Simulator) (i : Nat) (hh : (sim.cores i).halted = false) :
    (execute_core_cycle sim i).cores i =
      end_of_cycle (stage_fetch (stage_decode (stage_execute
        ((stage_memory (stage_writeback sim i) i).cores i)))) ∧
    (stage_fetch (stage_decode (stage_execute
        ((stage_memory (stage_writeback sim i) i).cores i)))).halted = false := by
  constructor
  · unfold execute_core_cycle
    simp only [hh, Bool.false_eq_true, if_false, setCore_cores_same]
  · rw [(stage_fetch_branch _).2.2, (stage_decode_pc _).2, stage_execute_halted,
      stage_memory_halted, stage_writeback_halted, hh]

theorem stage_decode_taken (core : Core)
    (hv : (decode_pull core).pipeline.decode.valid = true)
    (hb : is_branch_instruction (decode_pull core).pipeline.decode.inst = true)
    (hns : ¬ decode_must_stall core (decode_pull core).pipeline.decode.inst) :
    stage_decode core =
      (if resolve_branch_condition (decode_pull core).pipeline.decode.inst
          (toI32 (decode_latched (decode_pull core)).rs_value)
          (toI32 (decode_latched (decode_pull core)).rt_value) then
        { decode_pull core with
            pipeline := { (decode_pull core).pipeline with
              decode := decode_latched (decode_pull core) }
            branch_target :=
              read_register (decode_pull core) (decode_pull core).pipeline.decode.inst.rd
                (toU32 (decode_pull core).pipeline.decode.inst.imm) &&& 0x3FF
            branch_pending := true }
      else { decode_pull core with
        pipeline := { (decode_pull core).pipeline with
          decode := decode_latched (decode_pull core) } }) := by
  have hH : ¬ decode_must_stall (decode_pull core) (decode_pull core).pipeline.decode.inst := by
    intro h'
    apply hns
    simpa only [decode_must_stall, decode_pull_hazard] using h'
  have hsd : stage_decode core = decode_body (decode_pull core) := by
    unfold stage_decode
    simp only [hv, if_true]
  rw [hsd, decode_body_no_stall _ hH, if_pos hb]

theorem decode_pull_regs (core : Core) :
    (∀ r v, read_register (decode_pull core) r v = read_register core r v) ∧
    (decode_pull core).branch_pending = core.branch_pending ∧
    (decode_pull core).branch_target = core.branch_target ∧
    (decode_pull core).pc = core.pc := by
  unfold decode_pull
  dsimp only
  split_ifs <;> exact ⟨fun _ _ => rfl, rfl, rfl, rfl⟩

/-- C14 (conditional branch resolution).  Let ID hold, after its pull, a valid
conditional branch (opcode BEQ … BGE) that the hazard rule does not stall.  If
the branch comparison holds between the operands `read(rs, imm)` and
`read(rt, imm)` taken as signed 32-bit integers, `stage_decode` sets
`branch_pending` and `branch_target = read(rd, imm) & 0x3FF`; if it does not
hold, both fields are unchanged.  `stage_decode` never writes `pc`.  At the end of
a cycle of a running core a pending branch gives `pc = branch_target` and
`branch_pending = false`; in particular the `execute_core_cycle` whose decode
stage resolved the branch as taken ends with `pc` at that target. -/
theorem stage_decode_branch_resolution (core : Core)
    (hv : (decode_pull core).pipeline.decode.valid = true)
    (hb : is_conditional_branch (decode_pull core).pipeline.decode.inst)
    (hns : ¬ decode_must_stall core (decode_pull core).pipeline.decode.inst) :
    (branch_condition (decode_pull core).pipeline.decode.inst
        (toI32 (read_register core (decode_pull core).pipeline.decode.inst.rs
          (toU32 (decode_pull core).pipeline.decode.inst.imm)))
        (toI32 (read_register core (decode_pull core).pipeline.decode.inst.rt
          (toU32 (decode_pull core).pipeline.decode.inst.imm))) →
      (stage_decode core).branch_pending = true ∧
      (stage_decode core).branch_target =
        read_register core (decode_pull core).pipeline.decode.inst.rd
          (toU32 (decode_pull core).pipeline.decode.inst.imm) &&& 0x3FF ∧
      (∀ sim i, (sim.cores i).halted = false →
        stage_execute ((stage_memory (stage_writeback sim i) i).cores i) = core →
        ((execute_core_cycle sim i).cores i).pc =
          read_register core (decode_pull core).pipeline.decode.inst.rd
            (toU32 (decode_pull core).pipeline.decode.inst.imm) &&& 0x3FF ∧
        ((execute_core_cycle sim i).cores i).branch_pending = false)) ∧
    (¬ branch_condition (decode_pull core).pipeline.decode.inst
        (toI32 (read_register core (decode_pull core).pipeline.decode.inst.rs
          (toU32 (decode_pull core).pipeline.decode.inst.imm)))
        (toI32 (read_register core (decode_pull core).pipeline.decode.inst.rt
          (toU32 (decode_pull core).pipeline.decode.inst.imm))) →
      (stage_decode core).branch_pending = core.branch_pending ∧
      (stage_decode core).branch_target = core.branch_target) ∧
    (stage_decode core).pc = core.pc ∧
    (∀ c : Core, c.halted = false → c.branch_pending = true →
      (end_of_cycle c).pc = c.branch_target ∧ (end_of_cycle c).branch_pending = false) := by
  obtain ⟨hreg, hbp, hbt, -⟩ := decode_pull_regs core
  have e := stage_decode_taken core hv (is_branch_of_conditional _ hb) hns
  have hiff : resolve_branch_condition (decode_pull core).pipeline.decode.inst
      (toI32 (decode_latched (decode_pull core)).rs_value)
      (toI32 (decode_latched (decode_pull core)).rt_value) = true ↔
      branch_condition (decode_pull core).pipeline.decode.inst
        (toI32 (read_register core (decode_pull core).pipeline.decode.inst.rs
          (toU32 (decode_pull core).pipeline.decode.inst.imm)))
        (toI32 (read_register core (decode_pull core).pipeline.decode.inst.rt
          (toU32 (decode_pull core).pipeline.decode.inst.imm))) := by
    rw [resolve_branch_condition_iff]
    simp only [decode_latched, hreg]
  refine ⟨?_, ?_, (stage_decode_pc core).1, end_of_cycle_branch⟩
  · intro hc
    rw [if_pos (hiff.2 hc)] at e
    have h1 : (stage_decode core).branch_pending = true := by rw [e]
    have h2 : (stage_decode core).branch_target =
        read_register core (decode_pull core).pipeline.decode.inst.rd
          (toU32 (decode_pull core).pipeline.decode.inst.imm) &&& 0x3FF := by
      rw [e, ← hreg]
    refine ⟨h1, h2, ?_⟩
    intro sim i hh hcore
    obtain ⟨c1, c2⟩ := execute_core_cycle_core sim i hh
    rw [hcore] at c1 c2
    have := end_of_cycle_branch _ c2 (by rw [(stage_fetch_branch _).1]; exact h1)
    rw [c1, this.1, this.2, (stage_fetch_branch _).2.1, h2]
    exact ⟨rfl, rfl⟩
  · intro hc
    rw [if_neg (fun h => hc (hiff.1 h))] at e
    rw [e]
    exact ⟨hbp, hbt⟩

/-! ## The writeback stage and the end-of-cycle register write -/

theorem stage_memory_wbview (s : Simulator) (i : Nat) :
    ((stage_memory s i).cores i).registers = (s.cores i).registers ∧
    ((stage_memory s i).cores i).instructions = (s.cores i).instructions ∧
    ((stage_memory s i).cores i).pipeline.writeback = (s.cores i).pipeline.writeback ∧
    ((stage_memory s i).cores i).pending_reg_write_addr = (s.cores i).pending_reg_write_addr ∧
    ((stage_memory s i).cores i).pending_reg_write_val = (s.cores i).pending_reg_write_val := by
  have hp : (memory_pull (s.cores i)).registers = (s.cores i).registers ∧
      (memory_pull (s.cores i)).instructions = (s.cores i).instructions ∧
      (memory_pull (s.cores i)).pipeline.writeback = (s.cores i).pipeline.writeback ∧
      (memory_pull (s.cores i)).pending_reg_write_addr = (s.cores i).pending_reg_write_addr ∧
      (memory_pull (s.cores i)).pending_reg_write_val = (s.cores i).pending_reg_write_val := by
    unfold memory_pull; dsimp only; split_ifs <;> exact ⟨rfl, rfl, rfl, rfl, rfl⟩
  unfold stage_memory
  dsimp only
  simp only [setCore_cores_same]
  split_ifs
  · simp only [setCore_cores_same, cache_read_cores]
    unfold memory_finish memory_stats
    dsimp only
    split_ifs <;> simpa using hp
  · simp only [setCore_cores_same]
    rw [cache_write_core]
    unfold memory_finish memory_stats
    dsimp only
    split_ifs <;> simpa [setCore_cores_same] using hp
  · simpa [setCore_cores_same] using hp
  · simpa [setCore_cores_same] using hp

theorem front_stages_wbview (c : Core) :
    (stage_fetch (stage_decode (stage_execute c))).registers = c.registers ∧
    (stage_fetch (stage_decode (stage_execute c))).instructions = c.instructions ∧
    (stage_fetch (stage_decode (stage_execute c))).pipeline.writeback = c.pipeline.writeback ∧
    (stage_fetch (stage_decode (stage_execute c))).pending_reg_write_addr
      = c.pending_reg_write_addr ∧
    (stage_fetch (stage_decode (stage_execute c))).pending_reg_write_val
      = c.pending_reg_write_val := by
  have hf : ∀ c : Core, (stage_fetch c).registers = c.registers ∧
      (stage_fetch c).instructions = c.instructions ∧
      (stage_fetch c).pipeline.writeback = c.pipeline.writeback ∧
      (stage_fetch c).pending_reg_write_addr = c.pending_reg_write_addr ∧
      (stage_fetch c).pending_reg_write_val = c.pending_reg_write_val := by
    intro c; unfold stage_fetch; dsimp only; split_ifs <;> exact ⟨rfl, rfl, rfl, rfl, rfl⟩
  have hd : ∀ c : Core, (stage_decode c).registers = c.registers ∧
      (stage_decode c).instructions = c.instructions ∧
      (stage_decode c).pipeline.writeback = c.pipeline.writeback ∧
      (stage_decode c).pending_reg_write_addr = c.pending_reg_write_addr ∧
      (stage_decode c).pending_reg_write_val = c.pending_reg_write_val := by
    intro c
    unfold stage_decode decode_body decode_pull
    dsimp only
    split_ifs <;> exact ⟨rfl, rfl, rfl, rfl, rfl⟩
  have he : ∀ c : Core, (stage_execute c).registers = c.registers ∧
      (stage_execute c).instructions = c.instructions ∧
      (stage_execute c).pipeline.writeback = c.pipeline.writeback ∧
      (stage_execute c).pending_reg_write_addr = c.pending_reg_write_addr ∧
      (stage_execute c).pending_reg_write_val = c.pending_reg_write_val := by
    intro c
    unfold stage_execute execute_body execute_pull
    dsimp only
    split_ifs <;> exact ⟨rfl, rfl, rfl, rfl, rfl⟩
  obtain ⟨f1, f2, f3, f4, f5⟩ := hf (stage_decode (stage_execute c))
  obtain ⟨d1, d2, d3, d4, d5⟩ := hd (stage_execute c)
  obtain ⟨e1, e2, e3, e4, e5⟩ := he c
  exact ⟨f1.trans (d1.trans e1), f2.trans (d2.trans e2), f3.trans (d3.trans e3),
    f4.trans (d4.trans e4), f5.trans (d5.trans e5)⟩

theorem end_of_cycle_wbview (c : Core) (hh : c.halted = false) :
    (end_of_cycle c).registers =
      (if 2 ≤ c.pending_reg_write_addr then
        upd c.registers c.pending_reg_write_addr c.pending_reg_write_val
      else c.registers) ∧
    (end_of_cycle c).instructions = c.instructions ∧
    (end_of_cycle c).pipeline.writeback = c.pipeline.writeback := by
  unfold end_of_cycle log_cycle_trace
  simp only [hh, Bool.false_eq_true, if_false]
  split_ifs <;> exact ⟨rfl, rfl, rfl⟩

theorem cache_read_result_congr (s s' : Simulator) (ci a cid cid' : Nat)
    (h : (s.cores ci).cache = (s'.cores ci).cache) :
    (cache_read s ci a cid).1 = (cache_read s' ci a cid').1 := by
  unfold cache_read
  dsimp only
  rw [h]
  split_ifs <;> rfl

theorem writeback_commit_spec (c : Core) (hv : c.pipeline.writeback.valid = true) :
    (writeback_commit c).pipeline = c.pipeline ∧
    (writeback_commit c).registers = c.registers ∧
    (writeback_commit c).instructions = (c.instructions + 1) % 2 ^ 64 ∧
    (writeback_commit c).pending_reg_write_addr =
      (if c.pipeline.writeback.reg_write = true ∧ 2 ≤ c.pipeline.writeback.rw
        then c.pipeline.writeback.rw else c.pending_reg_write_addr) ∧
    (c.pipeline.writeback.reg_write = true ∧ 2 ≤ c.pipeline.writeback.rw →
      (writeback_commit c).pending_reg_write_val =
        (if c.pipeline.writeback.inst.opcode = OP_LW then c.pipeline.writeback.mem_data
        else c.pipeline.writeback.alu_result)) := by
  unfold writeback_commit
  simp only [hv, if_true]
  by_cases h1 : c.pipeline.writeback.reg_write = true
  · by_cases h2 : c.pipeline.writeback.rw ≠ 0 ∧ c.pipeline.writeback.rw ≠ 1
    · have h3 : 2 ≤ c.pipeline.writeback.rw := by omega
      rw [if_pos h1, if_pos h2, if_pos (And.intro h1 h3)]
      exact ⟨rfl, rfl, rfl, rfl, fun _ => rfl⟩
    · have h3 : ¬ 2 ≤ c.pipeline.writeback.rw := by omega
      rw [if_pos h1, if_neg h2, if_neg (fun h => h3 h.2)]
      exact ⟨rfl, rfl, rfl, rfl, fun h => absurd h.2 h3⟩
  · rw [if_neg h1, if_neg (fun h => h1 h.1)]
    exact ⟨rfl, rfl, rfl, rfl, fun h => absurd h.1 h1⟩

theorem writeback_pull_pulled (sim : Simulator) (i : Nat)
    (hv : (sim.cores i).pipeline.mem.valid = true)
    (hs : (sim.cores i).pipeline.mem.internal_stall = false) :
    (writeback_pull sim i).cores i =
      { sim.cores i with
          wb_reg_written := 0
          pending_reg_write_addr := 0
          pipeline := { (sim.cores i).pipeline with
            writeback :=
              { (sim.cores i).pipeline.mem with
                mem_data :=
                  (if (sim.cores i).pipeline.mem.inst.opcode = OP_LW then
                    (cache_read sim i (sim.cores i).pipeline.mem.alu_result
                      (sim.cores i).core_id).1
                  else none).getD (sim.cores i).pipeline.mem.mem_data }
            mem :=
              { (sim.cores i).pipeline.mem with
                valid := false
                mem_data :=
                  (if (sim.cores i).pipeline.mem.inst.opcode = OP_LW then
                    (cache_read sim i (sim.cores i).pipeline.mem.alu_result
                      (sim.cores i).core_id).1
                  else none).getD (sim.cores i).pipeline.mem.mem_data } } } := by
  have hcr : ∀ a cid, (cache_read (sim.setCore i
      { sim.cores i with wb_reg_written := 0, pending_reg_write_addr := 0 }) i a cid).1
      = (cache_read sim i a cid).1 := by
    intro a cid
    apply cache_read_result_congr
    simp [Simulator.setCore]
  have hg : ((sim.cores i).pipeline.mem.valid && !(sim.cores i).pipeline.mem.internal_stall)
      = true := by rw [hv, hs]; rfl
  unfold writeback_pull
  dsimp only
  simp only [setCore_cores_same, hg, if_true]
  by_cases hlw : (sim.cores i).pipeline.mem.inst.opcode = OP_LW
  · simp only [hlw, if_true, cache_read_cores, setCore_cores_same, hcr]
    cases hr : (cache_read sim i (sim.cores i).pipeline.mem.alu_result (sim.cores i).core_id).1 with
    | none => rfl
    | some d => rfl
  · simp only [hlw, if_false, setCore_cores_same, Option.getD_none]

theorem stage_writeback_pulled (sim : Simulator) (i : Nat)
    (hv : (sim.cores i).pipeline.mem.valid = true)
    (hs : (sim.cores i).pipeline.mem.internal_stall = false) :
    ((stage_writeback sim i).cores i).pipeline.writeback =
      { (sim.cores i).pipeline.mem with
          mem_data :=
            (if (sim.cores i).pipeline.mem.inst.opcode = OP_LW then
              (cache_read sim i (sim.cores i).pipeline.mem.alu_result (sim.cores i).core_id).1
            else none).getD (sim.cores i).pipeline.mem.mem_data } ∧
    ((stage_writeback sim i).cores i).registers = (sim.cores i).registers ∧
    ((stage_writeback sim i).cores i).instructions
      = ((sim.cores i).instructions + 1) % 2 ^ 64 ∧
    ((stage_writeback sim i).cores i).pending_reg_write_addr =
      (if (sim.cores i).pipeline.mem.reg_write = true ∧ 2 ≤ (sim.cores i).pipeline.mem.rw
        then (sim.cores i).pipeline.mem.rw else 0) ∧
    ((sim.cores i).pipeline.mem.reg_write = true ∧ 2 ≤ (sim.cores i).pipeline.mem.rw →
      ((stage_writeback sim i).cores i).pending_reg_write_val =
        (if (sim.cores i).pipeline.mem.inst.opcode = OP_LW then
          ((stage_writeback sim i).cores i).pipeline.writeback.mem_data
        else ((stage_writeback sim i).cores i).pipeline.writeback.alu_result)) := by
  have hp := writeback_pull_pulled sim i hv hs
  have hc := writeback_commit_spec ((writeback_pull sim i).cores i) (by rw [hp]; exact hv)
  have e : (stage_writeback sim i).cores i = writeback_commit ((writeback_pull sim i).cores i) := by
    unfold stage_writeback
    simp only [setCore_cores_same]
  rw [e]
  obtain ⟨c1, c2, c3, c4, c5⟩ := hc
  rw [c1, c2, c3, c4]
  refine ⟨by rw [hp], by rw [hp], by rw [hp], by rw [hp], ?_⟩
  intro h
  rw [c5 (by rw [hp]; exact h), hp]

theorem stage_writeback_not_pulled (sim : Simulator) (i : Nat)
    (h : ¬ ((sim.cores i).pipeline.mem.valid = true ∧
      (sim.cores i).pipeline.mem.internal_stall = false)) :
    ((stage_writeback sim i).cores i).pipeline.writeback.valid = false ∧
    ((stage_writeback sim i).cores i).registers = (sim.cores i).registers ∧
    ((stage_writeback sim i).cores i).instructions = (sim.cores i).instructions ∧
    ((stage_writeback sim i).cores i).pending_reg_write_addr = 0 := by
  have hg : ((sim.cores i).pipeline.mem.valid && !(sim.cores i).pipeline.mem.internal_stall)
      = false := by
    cases h1 : (sim.cores i).pipeline.mem.valid <;>
      cases h2 : (sim.cores i).pipeline.mem.internal_stall <;> simp_all
  unfold stage_writeback writeback_pull writeback_commit
  dsimp only
  simp only [setCore_cores_same, hg, Bool.false_eq_true, if_false]
  simp

theorem execute_core_cycle_wbview (sim : Simulator) (i : Nat)
    (hh : (sim.cores i).halted = false) :
    ((execute_core_cycle sim i).cores i).registers =
      (if 2 ≤ ((stage_writeback sim i).cores i).pending_reg_write_addr then
        upd ((stage_writeback sim i).cores i).registers
          ((stage_writeback sim i).cores i).pending_reg_write_addr
          ((stage_writeback sim i).cores i).pending_reg_write_val
      else ((stage_writeback sim i).cores i).registers) ∧
    ((execute_core_cycle sim i).cores i).instructions
      = ((stage_writeback sim i).cores i).instructions ∧
    ((execute_core_cycle sim i).cores i).pipeline.writeback
      = ((stage_writeback sim i).cores i).pipeline.writeback := by
  obtain ⟨c1, c2⟩ := execute_core_cycle_core sim i hh
  obtain ⟨e1, e2, e3⟩ := end_of_cycle_wbview _ c2
  obtain ⟨f1, f2, f3, f4, f5⟩ :=
    front_stages_wbview ((stage_memory (stage_writeback sim i) i).cores i)
  obtain ⟨m1, m2, m3, m4, m5⟩ := stage_memory_wbview (stage_writeback sim i) i
  rw [c1, e1, e2, e3, f1, f2, f3, f4, f5, m1, m2, m3, m4, m5]
  exact ⟨rfl, rfl, rfl⟩

/-- C18 (writeback commit).  For a core that is not halted, one
`execute_core_cycle` pulls the MEM slot into WB iff MEM is valid and not
internally stalled.  When it pulls, the WB slot at the end of the cycle is the
MEM slot (for an LW with `mem_data` re-read from the cache when that read hits),
`instructions` is incremented (as a 64-bit counter), and if the instruction has
`reg_write` and `rw ≥ 2` then `registers[rw]` is the slot's `mem_data` for an LW
and its `alu_result` otherwise, every other register being unchanged; with
`reg_write` false or `rw` in {0, 1} the register file is unchanged.  When nothing
is pulled the WB slot is invalid and register file and `instructions` are
unchanged. -/
theorem writeback_commit_contract (sim : Simulator) (i : Nat)
    (hh : (sim.cores i).halted = false) :
    ((sim.cores i).pipeline.mem.valid = true ∧
        (sim.cores i).pipeline.mem.internal_stall = false →
      ((execute_core_cycle sim i).cores i).pipeline.writeback =
        { (sim.cores i).pipeline.mem with
            mem_data :=
              (if (sim.cores i).pipeline.mem.inst.opcode = OP_LW then
                (cache_read sim i (sim.cores i).pipeline.mem.alu_result
                  (sim.cores i).core_id).1
              else none).getD (sim.cores i).pipeline.mem.mem_data } ∧
      ((execute_core_cycle sim i).cores i).pipeline.writeback.valid = true ∧
      ((execute_core_cycle sim i).cores i).instructions
        = ((sim.cores i).instructions + 1) % 2 ^ 64 ∧
      ((sim.cores i).instructions + 1 < 2 ^ 64 →
        ((execute_core_cycle sim i).cores i).instructions = (sim.cores i).instructions + 1) ∧
      ((sim.cores i).pipeline.mem.reg_write = true ∧ 2 ≤ (sim.cores i).pipeline.mem.rw →
        ((execute_core_cycle sim i).cores i).registers (sim.cores i).pipeline.mem.rw =
          (if (sim.cores i).pipeline.mem.inst.opcode = OP_LW then
            ((execute_core_cycle sim i).cores i).pipeline.writeback.mem_data
          else ((execute_core_cycle sim i).cores i).pipeline.writeback.alu_result) ∧
        (∀ r, r ≠ (sim.cores i).pipeline.mem.rw →
          ((execute_core_cycle sim i).cores i).registers r = (sim.cores i).registers r)) ∧
      (¬ ((sim.cores i).pipeline.mem.reg_write = true ∧ 2 ≤ (sim.cores i).pipeline.mem.rw) →
        ((execute_core_cycle sim i).cores i).registers = (sim.cores i).registers)) ∧
    (¬ ((sim.cores i).pipeline.mem.valid = true ∧
        (sim.cores i).pipeline.mem.internal_stall = false) →
      ((execute_core_cycle sim i).cores i).pipeline.writeback.valid = false ∧
      ((execute_core_cycle sim i).cores i).registers = (sim.cores i).registers ∧
      ((execute_core_cycle sim i).cores i).instructions = (sim.cores i).instructions) := by
  obtain ⟨v1, v2, v3⟩ := execute_core_cycle_wbview sim i hh
  constructor
  · rintro ⟨hv, hs⟩
    obtain ⟨p1, p2, p3, p4, p5⟩ := stage_writeback_pulled sim i hv hs
    refine ⟨v3.trans p1, by rw [v3, p1]; exact hv, v2.trans p3, ?_, ?_, ?_⟩
    · intro hlt
      rw [v2, p3, Nat.mod_eq_of_lt hlt]
    · intro hw
      have hw2 := hw.2
      rw [v1, p4, if_pos hw, if_pos hw2, p2, p5 hw, v3]
      exact ⟨upd_same _ _ _, fun r hr => upd_other _ _ _ _ hr⟩
    · intro hw
      rw [v1, p4, if_neg hw, if_neg (by omega), p2]
  · intro hn
    obtain ⟨n1, n2, n3, n4⟩ := stage_writeback_not_pulled sim i hn
    refine ⟨by rw [v3]; exact n1, ?_, v2.trans n3⟩
    rw [v1, n4, if_neg (by omega), n2]

/-! ## Instruction codec -/

theorem or_eq_add_of_lt (a b i : Nat) (hb : b < 2 ^ i) : (a * 2 ^ i) ||| b = a * 2 ^ i + b := by
  rw [Nat.mul_comm]
  exact (Nat.mul_add_lt_is_or hb a).symm

theorem and_mask_eq_mod (x : Nat) :
    x &&& 0xFF = x % 2 ^ 8 ∧ x &&& 0x0F = x % 2 ^ 4 ∧ x &&& 0xFFF = x % 2 ^ 12 :=
  ⟨Nat.and_pow_two_sub_one_eq_mod x 8, Nat.and_pow_two_sub_one_eq_mod x 4,
    Nat.and_pow_two_sub_one_eq_mod x 12⟩

/-- The immediate field survives sign extension and the conversion back to
`uint32_t`: its low 12 bits are the low 12 bits of the word. -/
theorem decode_imm_low (w : Nat) :
    toU32 (decode_instruction w).imm &&& 0x0FFF = w % 2 ^ 12 := by
  have hm := (and_mask_eq_mod w).2.2
  have hlt : w % 2 ^ 12 < 2 ^ 12 := Nat.mod_lt _ (by norm_num)
  rw [(and_mask_eq_mod _).2.2]
  simp only [decode_instruction, toU32, hm]
  split_ifs with h
  · have e : (((w % 2 ^ 12 : Nat) : Int) - 4096) % 2 ^ 32
        = ((w % 2 ^ 12 + (2 ^ 32 - 4096) : Nat) : Int) := by
      omega
    rw [e, Int.toNat_ofNat]
    omega
  · have e : ((w % 2 ^ 12 : Nat) : Int) % 2 ^ 32 = ((w % 2 ^ 12 : Nat) : Int) := by
      omega
    rw [e, Int.toNat_ofNat]
    omega

/-- C20 (codec round trip on words).  For every 32-bit word `w` (a value of
`uint32_t`, that is `w < 2 ^ 32`), encoding the decoded instruction gives `w`
back: `encode_instruction (decode_instruction w) = w`. -/
theorem encode_decode_word (w : Nat) (hw : w < 2 ^ 32) :
    encode_instruction (decode_instruction w) = w := by
  have himm := decode_imm_low w
  unfold encode_instruction
  rw [himm]
  simp only [decode_instruction, (and_mask_eq_mod _).1, (and_mask_eq_mod _).2.1,
    Nat.shiftRight_eq_div_pow, Nat.shiftLeft_eq]
  simp only [Nat.mod_mod]
  have h1 : w / 2 ^ 24 % 2 ^ 8 * 2 ^ 24 ||| w / 2 ^ 20 % 2 ^ 4 * 2 ^ 20
      = (w / 2 ^ 24 % 2 ^ 8 * 2 ^ 4 + w / 2 ^ 20 % 2 ^ 4) * 2 ^ 20 := by
    have := or_eq_add_of_lt (w / 2 ^ 24 % 2 ^ 8) (w / 2 ^ 20 % 2 ^ 4 * 2 ^ 20) 24 (by omega)
    rw [this]; omega
  have h2 : (w / 2 ^ 24 % 2 ^ 8 * 2 ^ 4 + w / 2 ^ 20 % 2 ^ 4) * 2 ^ 20 |||
        w / 2 ^ 16 % 2 ^ 4 * 2 ^ 16
      = ((w / 2 ^ 24 % 2 ^ 8 * 2 ^ 4 + w / 2 ^ 20 % 2 ^ 4) * 2 ^ 4 + w / 2 ^ 16 % 2 ^ 4)
          * 2 ^ 16 := by
    have := or_eq_add_of_lt (w / 2 ^ 24 % 2 ^ 8 * 2 ^ 4 + w / 2 ^ 20 % 2 ^ 4)
      (w / 2 ^ 16 % 2 ^ 4 * 2 ^ 16) 20 (by omega)
    rw [this]; omega
  have h3 : ((w / 2 ^ 24 % 2 ^ 8 * 2 ^ 4 + w / 2 ^ 20 % 2 ^ 4) * 2 ^ 4 + w / 2 ^ 16 % 2 ^ 4)
          * 2 ^ 16 ||| w / 2 ^ 12 % 2 ^ 4 * 2 ^ 12
      = (((w / 2 ^ 24 % 2 ^ 8 * 2 ^ 4 + w / 2 ^ 20 % 2 ^ 4) * 2 ^ 4 + w / 2 ^ 16 % 2 ^ 4)
          * 2 ^ 4 + w / 2 ^ 12 % 2 ^ 4) * 2 ^ 12 := by
    have := or_eq_add_of_lt
      ((w / 2 ^ 24 % 2 ^ 8 * 2 ^ 4 + w / 2 ^ 20 % 2 ^ 4) * 2 ^ 4 + w / 2 ^ 16 % 2 ^ 4)
      (w / 2 ^ 12 % 2 ^ 4 * 2 ^ 12) 16 (by omega)
    rw [this]; omega
  rw [h1, h2, h3, or_eq_add_of_lt _ _ 12 (Nat.mod_lt _ (by norm_num))]
  omega

/-! ## Cache-to-cache transfer -/

theorem line_state_modified_iff (c : Cache) (idx tag : Nat) :
    line_state c idx tag = MESIState.MODIFIED ↔
      (c.tsram idx).valid = true ∧ (c.tsram idx).tag = tag ∧
        (c.tsram idx).mesi_state = MESIState.MODIFIED := by
  unfold line_state
  split_ifs with h
  · exact ⟨fun e => ⟨h.1, h.2, e⟩, fun e => e.2.2⟩
  · exact ⟨fun e => (by cases e), fun e => absurd ⟨e.1, e.2.1⟩ h⟩

/-- The snoop loop of a BusRd when exactly one snooped cache `p` holds the block
Modified: `p` becomes the provider with its block in the fill buffer, `shared` is
asserted and `p` keeps the block Shared. -/
theorem snoop_loop_provider (l : List Nat) (hnd : l.Nodup) (sim : Simulator)
    (out : BusTransaction) (p : Nat) (hp : p ∈ l) (hpo : (p : Int) ≠ sim.bus.owner)
    (hcmd : out.cmd = BusCommand.RD)
    (hM : line_state (sim.cores p).cache (get_cache_index out.addr) (get_cache_tag out.addr)
      = MESIState.MODIFIED)
    (hU : ∀ j : Nat, j ∈ l → j ≠ p → (j : Int) ≠ sim.bus.owner →
      line_state (sim.cores j).cache (get_cache_index out.addr) (get_cache_tag out.addr)
        ≠ MESIState.MODIFIED) :
    (snoop_loop sim out l).1.bus.provider_id = (p : Int) ∧
    (∀ i, i < 8 → (snoop_loop sim out l).1.bus.flush_data i =
      (sim.cores p).cache.dsram (get_cache_index out.addr * 8 + i)) ∧
    (snoop_loop sim out l).2.shared = true ∧
    line_state ((snoop_loop sim out l).1.cores p).cache
      (get_cache_index out.addr) (get_cache_tag out.addr) = MESIState.SHARED ∧
    ((snoop_loop sim out l).1.cores p).cache.dsram = (sim.cores p).cache.dsram := by
  induction l generalizing sim out with
  | nil => exact absurd hp (List.not_mem_nil p)
  | cons i rest ih =>
    have hi : i ∉ rest := (List.nodup_cons.mp hnd).1
    have hrest : rest.Nodup := (List.nodup_cons.mp hnd).2
    by_cases hip : i = p
    · subst hip
      have e : snoop_loop sim out (i :: rest)
          = snoop_loop (cache_snoop sim out i).1 (cache_snoop sim out i).2 rest := by
        simp only [snoop_loop, if_pos hpo]
      obtain ⟨hv, ht, hs⟩ := (line_state_modified_iff _ _ _).1 hM
      have hsn := cache_snoop_rd_modified sim out i hv ht hcmd hs
      obtain ⟨a1, a2, a3, a4, a5, a6, a7, a8, a9⟩ := cache_snoop_others sim out i
      obtain ⟨c1, c2, c3, c4, c5, c6, c7, c8, c9, c10, c11, c12, c13⟩ :=
        snoop_loop_spec rest hrest (cache_snoop sim out i).1 (cache_snoop sim out i).2
      have hbus := c13 (by
        intro j hj hjo
        have hji : j ≠ i := fun h => hi (h ▸ hj)
        rw [a1 j hji, a6]
        exact hU j (List.mem_cons_of_mem _ hj) hji (by rw [← a4.owner]; exact hjo))
      rw [e, hbus, c1 i hi]
      refine ⟨by rw [hsn]; rfl, ?_, c10 (by rw [hsn]), ?_, ?_⟩
      · intro k hk
        rw [hsn]
        show copy_block_to_flush _ _ _ k = _
        rw [copy_block_to_flush_apply, if_pos hk]
      · rw [hsn]
        simp [Simulator.setCache, line_state, upd_apply, hv, ht]
      · rw [hsn]
        simp [Simulator.setCache]
    · have hpr : p ∈ rest := by
        rcases List.mem_cons.mp hp with h | h
        · exact absurd h.symm hip
        · exact h
      obtain ⟨a1, a2, a3, a4, a5, a6, a7, a8, a9⟩ := cache_snoop_others sim out i
      by_cases ho : (i : Int) ≠ sim.bus.owner
      · have e : snoop_loop sim out (i :: rest)
            = snoop_loop (cache_snoop sim out i).1 (cache_snoop sim out i).2 rest := by
          simp only [snoop_loop, if_pos ho]
        have hpi : p ≠ i := fun h => hip h.symm
        have := ih hrest (cache_snoop sim out i).1 (cache_snoop sim out i).2 hpr
          (by rw [a4.owner]; exact hpo) (a5.trans hcmd)
          (by rw [a1 p hpi, a6]; exact hM)
          (by
            intro j hj hjp hjo
            have hji : j ≠ i := fun h => hi (h ▸ hj)
            rw [a1 j hji, a6]
            exact hU j (List.mem_cons_of_mem _ hj) hjp (by rw [← a4.owner]; exact hjo))
        rw [e]
        rw [a1 p hpi, a6] at this
        exact this
      · have e : snoop_loop sim out (i :: rest) = snoop_loop sim out rest := by
          simp only [snoop_loop, if_neg ho]
        rw [e]
        exact ih hrest sim out hpr hpo hcmd hM
          (fun j hj hjp hjo => hU j (List.mem_cons_of_mem _ hj) hjp hjo)

/-- The Request step of a BusRd that finds the block Modified in exactly one
snooped cache `p`. -/
theorem bus_request_step_provider (s : Simulator) (p : Nat) (hp4 : p < 4)
    (hpo : (p : Int) ≠ s.bus.owner)
    (hcmd : (s.bus.pending_trans s.bus.owner.toNat).cmd = BusCommand.RD)
    (hM : line_state (s.cores p).cache
      (get_cache_index (s.bus.pending_trans s.bus.owner.toNat).addr)
      (get_cache_tag (s.bus.pending_trans s.bus.owner.toNat).addr) = MESIState.MODIFIED)
    (hU : ∀ j : Nat, j < 4 → j ≠ p → (j : Int) ≠ s.bus.owner →
      line_state (s.cores j).cache
        (get_cache_index (s.bus.pending_trans s.bus.owner.toNat).addr)
        (get_cache_tag (s.bus.pending_trans s.bus.owner.toNat).addr) ≠ MESIState.MODIFIED) :
    (bus_request_step s).1.bus.state = BusState.FLUSH ∧
    (bus_request_step s).1.bus.timer = 8 ∧
    (bus_request_step s).1.bus.provider_id = (p : Int) ∧
    (∀ i, i < 8 → (bus_request_step s).1.bus.flush_data i =
      (s.cores p).cache.dsram
        (get_cache_index (s.bus.pending_trans s.bus.owner.toNat).addr * 8 + i)) ∧
    (bus_request_step s).1.bus.shared_at_request = true ∧
    (bus_request_step s).2 =
      { s.bus.pending_trans s.bus.owner.toNat with shared := true } ∧
    line_state ((bus_request_step s).1.cores p).cache
      (get_cache_index (s.bus.pending_trans s.bus.owner.toNat).addr)
      (get_cache_tag (s.bus.pending_trans s.bus.owner.toNat).addr) = MESIState.SHARED := by
  have hmem : ∀ j : Nat, j ∈ [0, 1, 2, 3] → j < 4 := by
    intro j hj
    simp only [List.mem_cons, List.mem_singleton, List.not_mem_nil, or_false] at hj
    omega
  have hpm : p ∈ [0, 1, 2, 3] := by
    have : p = 0 ∨ p = 1 ∨ p = 2 ∨ p = 3 := by omega
    rcases this with h | h | h | h <;> subst h <;> simp
  obtain ⟨q1, q2, q3, q4, -⟩ := snoop_loop_provider [0, 1, 2, 3] (by decide)
    { s with bus := { s.bus with provider_id := 4 } }
    { s.bus.pending_trans s.bus.owner.toNat with shared := false } p hpm hpo hcmd hM
    (fun j hj hjp hjo => hU j (hmem j hj) hjp hjo)
  obtain ⟨c1, c2, c3, c4, c5, c6, c7, c8, c9, -, c11, c12, c13⟩ :=
    snoop_loop_spec [0, 1, 2, 3] (by decide)
      { s with bus := { s.bus with provider_id := 4 } }
      { s.bus.pending_trans s.bus.owner.toNat with shared := false }
  obtain ⟨f1, f2, f3, f4, f5, f6, f7, f8, f9, f10, f11, f12, f13, f14⟩ := request_finish_spec
    (snoop_loop { s with bus := { s.bus with provider_id := 4 } }
      { s.bus.pending_trans s.bus.owner.toNat with shared := false } [0, 1, 2, 3]).1
    (snoop_loop { s with bus := { s.bus with provider_id := 4 } }
      { s.bus.pending_trans s.bus.owner.toNat with shared := false } [0, 1, 2, 3]).2
  have hb : bus_request_step s = request_finish
    (snoop_loop { s with bus := { s.bus with provider_id := 4 } }
      { s.bus.pending_trans s.bus.owner.toNat with shared := false } [0, 1, 2, 3]).1
    (snoop_loop { s with bus := { s.bus with provider_id := 4 } }
      { s.bus.pending_trans s.bus.owner.toNat with shared := false } [0, 1, 2, 3]).2 := rfl
  have hne : (snoop_loop { s with bus := { s.bus with provider_id := 4 } }
      { s.bus.pending_trans s.bus.owner.toNat with shared := false }
      [0, 1, 2, 3]).1.bus.provider_id ≠ 4 := by
    rw [q1]; omega
  obtain ⟨g1, g2, g3⟩ := f13 hne
  rw [hb]
  refine ⟨g1, g2, f9.trans q1, fun i hi => ?_, f10.trans q3, ?_, ?_⟩
  · rw [g3]; exact q2 i hi
  · rw [f1]
    have : ∀ t t' : BusTransaction, t.origid = t'.origid → t.cmd = t'.cmd → t.addr = t'.addr →
        t.data = t'.data → t.shared = t'.shared → t = t' := by
      intro t t' h1 h2 h3 h4 h5
      cases t; cases t'; simp_all
    exact this _ _ c8 c6 c7 c9 q3
  · rw [f2]; exact q4

theorem CacheTxn.c2c_core_ {o p a : Nat} {m : Nat → Nat} {t : Int} {s : Simulator}
    (h : CacheTxn o p a m t s) (i : Nat) : CacheTxn o p a m t (execute_core_cycle s i) := by
  have f := execute_core_cycle_frame s i
  have hpt : (execute_core_cycle s i).bus.pending_trans o = s.bus.pending_trans o := by
    by_cases hc : o = (s.cores i).core_id
    · rcases f.bus.slot with ⟨_, h2⟩ | ⟨_, h2, _⟩
      · rw [hc, h2]
      · exfalso
        apply h2
        rw [h.owner, ← hc]
    · exact (f.bus.others _ hc).2
  refine ⟨f.bus.state.trans h.state, f.bus.timer.trans h.timer, f.bus.owner.trans h.owner,
    f.bus.provider_id.trans h.provider, by rw [hpt]; exact h.addr, by rw [hpt]; exact h.cmd,
    f.bus.shared_at_request.trans h.shared,
    fun k hk => (congrFun f.bus.flush_data k).trans (h.data k hk), ?_,
    fun k hk => by rw [f.mem]; exact h.memd k hk⟩
  by_cases hj : p = i
  · subst hj
    rcases @line_state_tsramStep _ _ (get_cache_index a) (get_cache_tag a)
      (f.ts (get_cache_index a)) with e | ⟨e, _⟩
    · rw [e]; exact h.pline
    · rw [h.pline] at e
      rcases e with e | e <;> cases e
  · rw [f.others p hj]; exact h.pline

theorem CacheTxn.c2c_sim_cycle_ {o p a : Nat} {m : Nat → Nat} {t : Int} {s : Simulator}
    (h : CacheTxn o p a m t (bus_cycle s)) : CacheTxn o p a m t (sim_cycle s) := by
  have h2 : CacheTxn o p a m t (cores_cycle (memory_cycle (bus_cycle s))) :=
    (((h.c2c_core_ 0).c2c_core_ 1).c2c_core_ 2).c2c_core_ 3
  exact ⟨h2.state, h2.timer, h2.owner, h2.provider, h2.addr, h2.cmd, h2.shared, h2.data,
    h2.pline, h2.memd⟩

/-- The Flush word of a cache-sourced transaction with `t` words left. -/
theorem flush_word_cache {o p a : Nat} {m : Nat → Nat} {t : Int} {s : Simulator}
    (h : CacheTxn o p a m t s) (hp4 : p < 4) (h1 : 1 ≤ t) (h8 : t ≤ 8) :
    flush_word s.bus =
      { origid := p, cmd := BusCommand.FLUSH, addr := (a &&& 0xFFFFFFF8) + (8 - t).toNat,
        data := m (8 - t).toNat, shared := true } := by
  simp only [flush_word, h.owner, Int.toNat_ofNat, h.addr, h.timer, h.provider, h.shared]
  rw [(flush_addr_decode a t h1 h8).2.2.2, h.data _ (by omega)]
  have : ((p : Int) % 256).toNat = p := by omega
  rw [this]

/-- One Flush cycle of a cache-sourced transaction with `t` words left. -/
theorem CacheTxn.c2c_flush_ {o p a : Nat} {m : Nat → Nat} {t : Int} {s : Simulator}
    (h : CacheTxn o p a m t s) (ho4 : o < 4) (hp4 : p < 4) (hpo : p ≠ o)
    (h1 : 1 ≤ t) (h8 : t ≤ 8) :
    (bus_cycle_out s).2 =
      { origid := p, cmd := BusCommand.FLUSH, addr := (a &&& 0xFFFFFFF8) + (8 - t).toNat,
        data := m (8 - t).toNat, shared := true } ∧
    (1 < t → CacheTxn o p a m (t - 1) (bus_cycle s)) ∧
    (t = 1 →
      (bus_cycle s).bus.state = BusState.IDLE ∧ (bus_cycle s).bus.owner = -1 ∧
      (∀ i, i < 8 → (bus_cycle s).main_memory.data ((a &&& 0xFFFFFFF8) + i) = m i) ∧
      line_state ((bus_cycle s).cores p).cache (get_cache_index a) (get_cache_tag a)
        = MESIState.SHARED ∧
      line_state ((bus_cycle s).cores o).cache (get_cache_index a) (get_cache_tag a)
        = MESIState.SHARED) := by
  obtain ⟨b1, b2, b3, b4, b5, b6, b7, b8, b9, b10, b11, b12, b13, b14⟩ := bus_flush_step_bus s
  obtain ⟨l1, l2, l3⟩ := bus_flush_step_lines s o h.owner ho4 (by rw [h.timer]; exact h1)
    (by rw [h.timer]; exact h8)
  have hw := flush_word_cache h hp4 h1 h8
  have e : bus_cycle_out s = bus_flush_step s := bus_cycle_out_flush s h.state
  have hprov : s.bus.provider_id ≠ 4 := by rw [h.provider]; omega
  have hmem : ∀ i : Nat, (i : Int) < 8 - (t - 1) →
      (bus_flush_step s).1.main_memory.data ((a &&& 0xFFFFFFF8) + i) = m i := by
    intro i hi
    rw [b13, if_pos hprov, hw]
    show upd _ ((a &&& 0xFFFFFFF8) + (8 - t).toNat) (m (8 - t).toNat) _ = _
    by_cases hit : i = (8 - t).toNat
    · rw [hit, upd_same]
    · rw [upd_other _ _ _ _ (by omega)]
      exact h.memd i (by omega)
  unfold bus_cycle
  rw [e]
  refine ⟨b1.trans hw, ?_, ?_⟩
  · intro ht
    refine ⟨?_, by rw [b2, h.timer], ?_, b8.trans h.provider, by rw [b6]; exact h.addr,
      by rw [b6]; exact h.cmd, b9.trans h.shared,
      fun i hi => (congrFun b10 i).trans (h.data i hi), ?_, hmem⟩
    · rw [b3, h.timer, if_neg (by omega), h.state]
    · rw [b4, h.timer, if_neg (by omega), h.owner]
    · rw [l1 p hpo]; exact h.pline
  · intro ht
    refine ⟨?_, ?_, fun i hi => hmem i (by omega), ?_, ?_⟩
    · rw [b3, h.timer, ht]; rfl
    · rw [b4, h.timer, ht]; rfl
    · rw [l1 p hpo]; exact h.pline
    · rw [l3 (by rw [h.timer]; exact ht), h.addr, if_pos rfl, if_pos rfl, if_pos h.cmd, h.shared]
      rfl

/-- The Request step of a BusRd that finds the block Modified in cache `p` starts
the Flush phase directly. -/
theorem CacheTxn.c2c_request_ (s : Simulator) (o p : Nat)
    (hst : s.bus.state = BusState.ARBITRATE ∨ s.bus.state = BusState.REQUEST)
    (ho : s.bus.owner = (o : Int)) (hp4 : p < 4) (hpo : p ≠ o)
    (hcmd : (s.bus.pending_trans o).cmd = BusCommand.RD)
    (hM : line_state (s.cores p).cache (get_cache_index (s.bus.pending_trans o).addr)
      (get_cache_tag (s.bus.pending_trans o).addr) = MESIState.MODIFIED)
    (hU : ∀ j : Nat, j < 4 → j ≠ p → j ≠ o →
      line_state (s.cores j).cache (get_cache_index (s.bus.pending_trans o).addr)
        (get_cache_tag (s.bus.pending_trans o).addr) ≠ MESIState.MODIFIED) :
    CacheTxn o p (s.bus.pending_trans o).addr
      (fun i => (s.cores p).cache.dsram (get_cache_index (s.bus.pending_trans o).addr * 8 + i))
      8 (bus_cycle s) ∧
    (bus_cycle_out s).2 = { s.bus.pending_trans o with shared := true } ∧
    (bus_cycle s).main_memory = s.main_memory := by
  have key : ∀ s' : Simulator, s'.bus.owner = (o : Int) → s'.cores = s.cores →
      s'.bus.pending_trans = s.bus.pending_trans → s'.main_memory = s.main_memory →
      CacheTxn o p (s.bus.pending_trans o).addr
        (fun i => (s.cores p).cache.dsram
          (get_cache_index (s.bus.pending_trans o).addr * 8 + i))
        8 (bus_request_step s').1 ∧
      (bus_request_step s').2 = { s.bus.pending_trans o with shared := true } ∧
      (bus_request_step s').1.main_memory = s.main_memory := by
    intro s' ho' hc' hpt' hm'
    have hot : s'.bus.owner.toNat = o := by rw [ho']; rfl
    have sp := bus_request_step_spec s'
    obtain ⟨q1, q2, q3, q4, q5, q6, q7⟩ := bus_request_step_provider s' p hp4
      (by rw [ho']; exact_mod_cast hpo) (by rw [hot, hpt']; exact hcmd)
      (by rw [hot, hpt', hc']; exact hM)
      (by
        intro j hj hjp hjo
        rw [hot, hpt', hc']
        exact hU j hj hjp (by intro e; apply hjo; rw [ho', e]))
    rw [hot, hpt', hc'] at q4
    rw [hot, hpt'] at q6 q7
    refine ⟨⟨q1, q2, sp.2.2.2.2.1.trans ho', q3, ?_, ?_, q5, q4, q7, ?_⟩, q6,
      sp.2.2.2.2.2.2.2.2.2.2.1.trans hm'⟩
    · rw [sp.2.2.2.2.2.2.1, hpt']
    · rw [sp.2.2.2.2.2.2.1, hpt']; exact hcmd
    · intro i hi; omega
  rcases hst with hst | hst
  · have e := bus_cycle_out_arbitrate s hst
    unfold bus_cycle
    rw [e]
    exact key _ ho rfl rfl rfl
  · have e := bus_cycle_out_request s hst
    unfold bus_cycle
    rw [e]
    exact key _ ho rfl rfl rfl

/-- The eight Flush cycles that follow the Request step of a cache-sourced BusRd. -/
theorem cache_txn_phase (s : Simulator) (o p : Nat)
    (hst : s.bus.state = BusState.ARBITRATE ∨ s.bus.state = BusState.REQUEST)
    (ho : s.bus.owner = (o : Int)) (ho4 : o < 4) (hp4 : p < 4) (hpo : p ≠ o)
    (hcmd : (s.bus.pending_trans o).cmd = BusCommand.RD)
    (hM : line_state (s.cores p).cache (get_cache_index (s.bus.pending_trans o).addr)
      (get_cache_tag (s.bus.pending_trans o).addr) = MESIState.MODIFIED)
    (hU : ∀ j : Nat, j < 4 → j ≠ p → j ≠ o →
      line_state (s.cores j).cache (get_cache_index (s.bus.pending_trans o).addr)
        (get_cache_tag (s.bus.pending_trans o).addr) ≠ MESIState.MODIFIED)
    (k : Nat) (hk : k < 8) :
    CacheTxn o p (s.bus.pending_trans o).addr
      (fun i => (s.cores p).cache.dsram (get_cache_index (s.bus.pending_trans o).addr * 8 + i))
      (8 - (k : Int)) (run_cycles (k + 1) s) := by
  induction k with
  | zero =>
    have := (CacheTxn.c2c_request_ s o p hst ho hp4 hpo hcmd hM hU).1.c2c_sim_cycle_
    simpa using this
  | succ k ih =>
    have h := ih (by omega)
    rw [run_cycles_succ]
    have h2 := ((h.c2c_flush_ ho4 hp4 hpo (by omega) (by omega)).2.1 (by omega)).c2c_sim_cycle_
    have e : (8 : Int) - (k : Int) - 1 = 8 - ((k + 1 : Nat) : Int) := by push_cast; ring
    rw [e] at h2
    exact h2

theorem line_state_shared_core_step (s : Simulator) (i j idx tag : Nat)
    (h : line_state (s.cores j).cache idx tag = MESIState.SHARED) :
    line_state ((execute_core_cycle s i).cores j).cache idx tag = MESIState.SHARED := by
  have f := execute_core_cycle_frame s i
  by_cases hj : j = i
  · subst hj
    rcases @line_state_tsramStep _ _ idx tag (f.ts idx) with e | ⟨e, _⟩
    · rw [e]; exact h
    · rw [h] at e
      rcases e with e | e <;> cases e
  · rw [f.others j hj]; exact h

theorem line_state_shared_cores_cycle (s : Simulator) (j idx tag : Nat)
    (h : line_state (s.cores j).cache idx tag = MESIState.SHARED) :
    line_state ((cores_cycle s).cores j).cache idx tag = MESIState.SHARED :=
  line_state_shared_core_step _ 3 j idx tag
    (line_state_shared_core_step _ 2 j idx tag
      (line_state_shared_core_step _ 1 j idx tag
        (line_state_shared_core_step _ 0 j idx tag h)))

theorem sim_cycle_fields (s : Simulator) :
    (sim_cycle s).cores = (cores_cycle (bus_cycle s)).cores ∧
    (sim_cycle s).main_memory = (cores_cycle (bus_cycle s)).main_memory ∧
    (sim_cycle s).bus = (cores_cycle (bus_cycle s)).bus :=
  ⟨rfl, rfl, rfl⟩


/-! ## A bus grant is final -/

/-- A core cycle does not touch the arbiter state of a granted transaction. -/
theorem execute_core_cycle_grant (s : Simulator) (i : Nat) (ho : 0 ≤ s.bus.owner) :
    (execute_core_cycle s i).bus.owner = s.bus.owner ∧
    (execute_core_cycle s i).bus.state = s.bus.state ∧
    (execute_core_cycle s i).bus.timer = s.bus.timer ∧
    (execute_core_cycle s i).bus.shared_at_request = s.bus.shared_at_request ∧
    (execute_core_cycle s i).bus.provider_id = s.bus.provider_id ∧
    (execute_core_cycle s i).bus.flush_data = s.bus.flush_data ∧
    (execute_core_cycle s i).bus.last_granted = s.bus.last_granted ∧
    (execute_core_cycle s i).bus.current = s.bus.current ∧
    (execute_core_cycle s i).bus.pending_trans s.bus.owner.toNat
      = s.bus.pending_trans s.bus.owner.toNat ∧
    (execute_core_cycle s i).bus.pending s.bus.owner.toNat
      = s.bus.pending s.bus.owner.toNat := by
  have f := execute_core_cycle_frame s i
  refine ⟨f.bus.owner, f.bus.state, f.bus.timer, f.bus.shared_at_request, f.bus.provider_id,
    f.bus.flush_data, f.bus.last_granted, f.bus.current, ?_, ?_⟩
  · by_cases hc : s.bus.owner.toNat = (s.cores i).core_id
    · rcases f.bus.slot with ⟨_, h2⟩ | ⟨_, h2, _⟩
      · rw [hc, h2]
      · exfalso; apply h2; rw [← hc]; omega
    · exact (f.bus.others _ hc).2
  · by_cases hc : s.bus.owner.toNat = (s.cores i).core_id
    · rcases f.bus.slot with ⟨h1, _⟩ | ⟨_, h2, _⟩
      · rw [hc, h1]
      · exfalso; apply h2; rw [← hc]; omega
    · exact (f.bus.others _ hc).1

theorem BusTxn.grant_core_ {c : Int} {tr : BusTransaction} {sh : Bool} {pv : Int} {st : BusState}
    {t : Int} {s : Simulator} (h : BusTxn c tr sh pv st t s) (hc : 0 ≤ c) (i : Nat) :
    BusTxn c tr sh pv st t (execute_core_cycle s i) := by
  obtain ⟨g1, g2, g3, g4, g5, -, -, -, g9, -⟩ :=
    execute_core_cycle_grant s i (by rw [h.owner]; exact hc)
  rw [h.owner] at g9
  exact ⟨g2.trans h.state, g3.trans h.timer, g1.trans h.owner, g9.trans h.trans,
    g4.trans h.shared, g5.trans h.provider⟩

theorem BusTxn.grant_sim_cycle_ {c : Int} {tr : BusTransaction} {sh : Bool} {pv : Int}
    {st : BusState} {t : Int} {s : Simulator} (h : BusTxn c tr sh pv st t (bus_cycle s))
    (hc : 0 ≤ c) : BusTxn c tr sh pv st t (sim_cycle s) := by
  have h2 : BusTxn c tr sh pv st t (cores_cycle (memory_cycle (bus_cycle s))) :=
    (((h.grant_core_ hc 0).grant_core_ hc 1).grant_core_ hc 2).grant_core_ hc 3
  exact ⟨h2.state, h2.timer, h2.owner, h2.trans, h2.shared, h2.provider⟩

theorem BusTxn.grant_wait_ {c : Int} {tr : BusTransaction} {sh : Bool} {pv : Int} {t : Int}
    {s : Simulator} (h : BusTxn c tr sh pv BusState.LATENCY t s) (ht : 0 < t) :
    BusTxn c tr sh pv BusState.LATENCY (t - 1) (bus_cycle s) ∧
    (bus_cycle_out s).2 = no_output := by
  have e := bus_cycle_out_latency_wait s h.state (by rw [h.timer]; exact ht)
  unfold bus_cycle
  rw [e]
  exact ⟨⟨h.state, by simp only [h.timer], h.owner, h.trans, h.shared, h.provider⟩, rfl⟩

/-- One Flush cycle of a granted transaction with `t` words left. -/
theorem BusTxn.grant_flush_step_ {c : Int} {tr : BusTransaction} {sh : Bool} {pv : Int} {t : Int}
    {s : Simulator} (h : BusTxn c tr sh pv BusState.FLUSH t s) (h1 : 1 ≤ t) (h8 : t ≤ 8) :
    (bus_flush_step s).2.cmd = BusCommand.FLUSH ∧
    (bus_flush_step s).2.addr = (tr.addr &&& 0xFFFFFFF8) + (8 - t).toNat ∧
    (bus_flush_step s).2.shared = sh ∧
    (bus_flush_step s).2.origid = (pv % 256).toNat ∧
    (1 < t → BusTxn c tr sh pv BusState.FLUSH (t - 1) (bus_flush_step s).1) ∧
    (t = 1 → (bus_flush_step s).1.bus.state = BusState.IDLE ∧
      (bus_flush_step s).1.bus.owner = -1) ∧
    (bus_flush_step s).1.bus.shared_at_request = sh ∧
    (bus_flush_step s).1.bus.provider_id = pv := by
  obtain ⟨b1, b2, b3, b4, b5, b6, b7, b8, b9, b10, b11, b12, b13, b14⟩ := bus_flush_step_bus s
  have hw : (flush_word s.bus).addr = (tr.addr &&& 0xFFFFFFF8) + (8 - t).toNat := by
    simp only [flush_word, h.owner, h.trans, h.timer]
    exact (flush_addr_decode tr.addr t h1 h8).2.2.2
  refine ⟨by rw [b1]; rfl, by rw [b1]; exact hw, by rw [b1]; exact h.shared,
    by rw [b1]; simp only [flush_word, h.provider], ?_, ?_, b9.trans h.shared,
    b8.trans h.provider⟩
  · intro ht
    refine ⟨?_, by rw [b2, h.timer], ?_, by rw [b6]; exact h.trans, b9.trans h.shared,
      b8.trans h.provider⟩
    · rw [b3, h.timer, if_neg (by omega), h.state]
    · rw [b4, h.timer, if_neg (by omega), h.owner]
  · intro ht
    rw [b3, b4, h.timer, ht]
    simp

/-- The bus cycle that puts a Flush word on the bus, with `t` words left (`t = 8`
when the latency has just expired). -/
theorem BusTxn.grant_emit_ {c : Int} {tr : BusTransaction} {sh : Bool} {pv : Int} {t : Int}
    {s : Simulator}
    (h : (BusTxn c tr sh pv BusState.LATENCY 0 s ∧ t = 8) ∨ BusTxn c tr sh pv BusState.FLUSH t s)
    (h1 : 1 ≤ t) (h8 : t ≤ 8) :
    (bus_cycle_out s).2.cmd = BusCommand.FLUSH ∧
    (bus_cycle_out s).2.addr = (tr.addr &&& 0xFFFFFFF8) + (8 - t).toNat ∧
    (bus_cycle_out s).2.shared = sh ∧
    (bus_cycle_out s).2.origid = (pv % 256).toNat ∧
    (1 < t → BusTxn c tr sh pv BusState.FLUSH (t - 1) (bus_cycle s)) ∧
    (t = 1 → (bus_cycle s).bus.state = BusState.IDLE ∧ (bus_cycle s).bus.owner = -1) ∧
    (bus_cycle s).bus.shared_at_request = sh ∧
    (bus_cycle s).bus.provider_id = pv := by
  rcases h with ⟨h, ht⟩ | h
  · have e := bus_cycle_out_latency_done s h.state (by rw [h.timer]; omega)
    have h' : BusTxn c tr sh pv BusState.FLUSH t
        { s with bus := { s.bus with state := BusState.FLUSH, timer := 8 } } :=
      ⟨rfl, ht.symm, h.owner, h.trans, h.shared, h.provider⟩
    unfold bus_cycle
    rw [e]
    exact h'.grant_flush_step_ h1 h8
  · have e := bus_cycle_out_flush s h.state
    unfold bus_cycle
    rw [e]
    exact h.grant_flush_step_ h1 h8

/-- The Request step latches the shared bit and the provider and starts either
the Flush or the memory latency; it keeps the owner and its request. -/
theorem BusTxn.grant_request_ (s : Simulator)
    (hst : s.bus.state = BusState.ARBITRATE ∨ s.bus.state = BusState.REQUEST) :
    (BusTxn s.bus.owner (s.bus.pending_trans s.bus.owner.toNat)
        (bus_cycle s).bus.shared_at_request (bus_cycle s).bus.provider_id
        BusState.FLUSH 8 (bus_cycle s) ∨
      BusTxn s.bus.owner (s.bus.pending_trans s.bus.owner.toNat)
        (bus_cycle s).bus.shared_at_request (bus_cycle s).bus.provider_id
        BusState.LATENCY 15 (bus_cycle s)) ∧
    (bus_cycle_out s).2.cmd = (s.bus.pending_trans s.bus.owner.toNat).cmd ∧
    (bus_cycle_out s).2.addr = (s.bus.pending_trans s.bus.owner.toNat).addr ∧
    (bus_cycle s).bus.pending = s.bus.pending ∧
    (bus_cycle s).bus.pending_trans = s.bus.pending_trans ∧
    (bus_cycle s).bus.last_granted = s.bus.last_granted := by
  have key : ∀ s' : Simulator, s'.bus.owner = s.bus.owner →
      s'.bus.pending_trans = s.bus.pending_trans → s'.bus.pending = s.bus.pending →
      s'.bus.last_granted = s.bus.last_granted →
      (BusTxn s.bus.owner (s.bus.pending_trans s.bus.owner.toNat)
          (bus_request_step s').1.bus.shared_at_request (bus_request_step s').1.bus.provider_id
          BusState.FLUSH 8 (bus_request_step s').1 ∨
        BusTxn s.bus.owner (s.bus.pending_trans s.bus.owner.toNat)
          (bus_request_step s').1.bus.shared_at_request (bus_request_step s').1.bus.provider_id
          BusState.LATENCY 15 (bus_request_step s').1) ∧
      (bus_request_step s').2.cmd = (s.bus.pending_trans s.bus.owner.toNat).cmd ∧
      (bus_request_step s').2.addr = (s.bus.pending_trans s.bus.owner.toNat).addr ∧
      (bus_request_step s').1.bus.pending = s.bus.pending ∧
      (bus_request_step s').1.bus.pending_trans = s.bus.pending_trans ∧
      (bus_request_step s').1.bus.last_granted = s.bus.last_granted := by
    intro s' ho hpt hp hl
    obtain ⟨p1, p2, -, -, p5, p6, p7, p8, -, p10, -⟩ := bus_request_step_spec s'
    rw [ho, hpt] at p1 p2
    refine ⟨?_, p1, p2, p6.trans hp, p7.trans hpt, p8.trans hl⟩
    rcases p10 with ⟨a, b⟩ | ⟨a, b⟩
    · exact Or.inl ⟨a, b, p5.trans ho, by rw [p7, hpt], rfl, rfl⟩
    · exact Or.inr ⟨a, b, p5.trans ho, by rw [p7, hpt], rfl, rfl⟩
  rcases hst with hst | hst
  · have e := bus_cycle_out_arbitrate s hst
    unfold bus_cycle
    rw [e]
    exact key _ rfl rfl rfl rfl
  · have e := bus_cycle_out_request s hst
    unfold bus_cycle
    rw [e]
    exact key _ rfl rfl rfl rfl

theorem run_cycles_add (a b : Nat) (s : Simulator) :
    run_cycles (a + b) s = run_cycles b (run_cycles a s) := by
  induction a generalizing s with
  | zero => simp [run_cycles]
  | succ a ih =>
    rw [show a + 1 + b = (a + b) + 1 by omega]
    show run_cycles (a + b) (sim_cycle s) = run_cycles b (run_cycles a (sim_cycle s))
    exact ih (sim_cycle s)

/-- Outside IDLE `bus_cycle` does not arbitrate: pending flags, pending requests
and the round-robin pointer are left alone. -/
theorem bus_cycle_no_arbitration (s : Simulator) (h : s.bus.state ≠ BusState.IDLE) :
    (bus_cycle s).bus.pending = s.bus.pending ∧
    (bus_cycle s).bus.pending_trans = s.bus.pending_trans ∧
    (bus_cycle s).bus.last_granted = s.bus.last_granted := by
  cases hst : s.bus.state with
  | IDLE => exact absurd hst h
  | ARBITRATE =>
    obtain ⟨-, -, -, a, b, c⟩ := BusTxn.grant_request_ s (Or.inl hst)
    exact ⟨a, b, c⟩
  | REQUEST =>
    obtain ⟨-, -, -, a, b, c⟩ := BusTxn.grant_request_ s (Or.inr hst)
    exact ⟨a, b, c⟩
  | LATENCY =>
    unfold bus_cycle
    by_cases ht : 0 < s.bus.timer
    · rw [bus_cycle_out_latency_wait s hst ht]
      exact ⟨rfl, rfl, rfl⟩
    · rw [bus_cycle_out_latency_done s hst ht]
      obtain ⟨-, -, -, -, b5, b6, b7, -⟩ := bus_flush_step_bus
        { s with bus := { s.bus with state := BusState.FLUSH, timer := 8 } }
      exact ⟨b5, b6, b7⟩
  | FLUSH =>
    unfold bus_cycle
    rw [bus_cycle_out_flush s hst]
    obtain ⟨-, -, -, -, b5, b6, b7, -⟩ := bus_flush_step_bus s
    exact ⟨b5, b6, b7⟩

/-- The arbitration of an IDLE cycle that grants the bus. -/
theorem bus_cycle_grant (s : Simulator) (hlg : 0 ≤ s.bus.last_granted ∧ s.bus.last_granted ≤ 3)
    (hidle : s.bus.state = BusState.IDLE) (hgrant : (bus_cycle s).bus.owner ≠ -1) :
    ∃ c : Nat, c < 4 ∧ s.bus.pending c = true ∧
      BusTxn (c : Int) (s.bus.pending_trans c) s.bus.shared_at_request s.bus.provider_id
        BusState.ARBITRATE s.bus.timer (bus_cycle s) ∧
      (bus_cycle s).bus.pending c = false ∧
      (bus_cycle s).bus.last_granted = (c : Int) ∧
      (bus_cycle_out s).2 = no_output := by
  unfold bus_cycle at hgrant ⊢
  rw [bus_cycle_out_idle s hidle] at hgrant ⊢
  rcases bus_arbitrate_cases { s.bus with owner := -1 } hlg with e | ⟨c, hc, hp, e⟩
  · exfalso
    rw [e] at hgrant
    simp at hgrant
  · refine ⟨c, hc, hp, ?_⟩
    have hcn : (c : Int) ≠ -1 := by omega
    rw [e]
    rw [if_pos (show _ ≠ _ from hcn)]
    exact ⟨⟨rfl, rfl, rfl, by simp, rfl, rfl⟩, by simp, rfl, rfl⟩

theorem BusTxn.flush_phase_ {c : Int} {tr : BusTransaction} {sh : Bool} {pv : Int}
    {u : Simulator} (hc : 0 ≤ c) (h : BusTxn c tr sh pv BusState.FLUSH 8 u) (j : Nat)
    (hj : j < 8) : BusTxn c tr sh pv BusState.FLUSH (8 - (j : Int)) (run_cycles j u) := by
  induction j with
  | zero => simpa [run_cycles] using h
  | succ j ih =>
    have h1 := ih (by omega)
    rw [run_cycles_succ]
    have h2 := ((BusTxn.grant_emit_ (Or.inr h1) (by omega) (by omega)).2.2.2.2.1
      (by omega)).grant_sim_cycle_ hc
    have e : (8 : Int) - (j : Int) - 1 = 8 - ((j + 1 : Nat) : Int) := by push_cast; ring
    rw [e] at h2
    exact h2

theorem BusTxn.latency_phase_ {c : Int} {tr : BusTransaction} {sh : Bool} {pv : Int}
    {u : Simulator} (hc : 0 ≤ c) (h : BusTxn c tr sh pv BusState.LATENCY 15 u) (j : Nat)
    (hj : j < 16) : BusTxn c tr sh pv BusState.LATENCY (15 - (j : Int)) (run_cycles j u) := by
  induction j with
  | zero => simpa [run_cycles] using h
  | succ j ih =>
    have h1 := ih (by omega)
    rw [run_cycles_succ]
    have h2 := (h1.grant_wait_ (by omega)).1.grant_sim_cycle_ hc
    have e : (15 : Int) - (j : Int) - 1 = 15 - ((j + 1 : Nat) : Int) := by push_cast; ring
    rw [e] at h2
    exact h2

theorem BusTxn.late_flush_phase_ {c : Int} {tr : BusTransaction} {sh : Bool} {pv : Int}
    {u : Simulator} (hc : 0 ≤ c) (h : BusTxn c tr sh pv BusState.LATENCY 15 u) (j : Nat)
    (hj : j < 7) :
    BusTxn c tr sh pv BusState.FLUSH (7 - (j : Int)) (run_cycles (16 + j) u) := by
  induction j with
  | zero =>
    have h0 := h.latency_phase_ hc 15 (by omega)
    rw [show (15 : Int) - ((15 : Nat) : Int) = 0 by norm_num] at h0
    have h2 := ((BusTxn.grant_emit_ (t := 8) (Or.inl ⟨h0, rfl⟩) (by omega) (by omega)).2.2.2.2.1
      (by omega)).grant_sim_cycle_ hc
    rw [← run_cycles_succ] at h2
    simpa using h2
  | succ j ih =>
    have h1 := ih (by omega)
    have h2 := ((BusTxn.grant_emit_ (Or.inr h1) (by omega) (by omega)).2.2.2.2.1
      (by omega)).grant_sim_cycle_ hc
    rw [← run_cycles_succ] at h2
    have e : (7 : Int) - (j : Int) - 1 = 7 - ((j + 1 : Nat) : Int) := by push_cast; ring
    rw [e] at h2
    exact h2

theorem BusTouch.bt_refl (c : Core) : BusTouch c c := rfl

theorem BusTouch.bt_trans {a b c : Core} (h1 : BusTouch a b) (h2 : BusTouch b c) :
    BusTouch a c := by
  unfold BusTouch at *
  rw [h2, h1]

theorem BusTouch.of_cache (c : Core) (k : Cache) : BusTouch c { c with cache := k } := rfl

theorem cache_snoop_touch (sim : Simulator) (t : BusTransaction) (j k : Nat) :
    BusTouch (sim.cores k) ((cache_snoop sim t j).1.cores k) := by
  by_cases hk : k = j
  · subst hk
    simp only [cache_snoop]
    split_ifs <;> first
      | exact BusTouch.bt_refl _
      | (simp only [Simulator.setCache, upd_same]; exact BusTouch.of_cache _ _)
  · rw [(cache_snoop_others sim t j).1 k hk]
    exact BusTouch.bt_refl _

theorem snoop_loop_touch (l : List Nat) (sim : Simulator) (t : BusTransaction) (k : Nat) :
    BusTouch (sim.cores k) ((snoop_loop sim t l).1.cores k) := by
  induction l generalizing sim t with
  | nil => exact BusTouch.bt_refl _
  | cons i rest ih =>
    simp only [snoop_loop]
    split_ifs
    · exact (cache_snoop_touch sim t i k).bt_trans (ih _ _)
    · exact ih _ _

theorem bus_request_step_touch (s : Simulator) (k : Nat) :
    BusTouch (s.cores k) ((bus_request_step s).1.cores k) := by
  have hb : bus_request_step s = request_finish
    (snoop_loop { s with bus := { s.bus with provider_id := 4 } }
      { s.bus.pending_trans s.bus.owner.toNat with shared := false } [0, 1, 2, 3]).1
    (snoop_loop { s with bus := { s.bus with provider_id := 4 } }
      { s.bus.pending_trans s.bus.owner.toNat with shared := false } [0, 1, 2, 3]).2 := rfl
  rw [hb, (request_finish_spec _ _).2.1]
  exact snoop_loop_touch [0, 1, 2, 3] { s with bus := { s.bus with provider_id := 4 } } _ k

theorem cache_handle_bus_response_touch (sim : Simulator) (t : BusTransaction) (j k : Nat) :
    BusTouch (sim.cores k) ((cache_handle_bus_response sim t j).cores k) := by
  by_cases hk : k = j
  · subst hk
    simp only [cache_handle_bus_response]
    split_ifs <;> first
      | exact BusTouch.bt_refl _
      | (simp only [Simulator.setCache, Simulator.setCore, upd_same]; rfl)
  · rw [(cache_handle_bus_response_frame sim t j).2.2.2 k hk]
    exact BusTouch.bt_refl _

theorem bus_flush_step_touch (s : Simulator) (k : Nat) :
    BusTouch (s.cores k) ((bus_flush_step s).1.cores k) := by
  obtain ⟨s1, h1, -, e⟩ := bus_flush_step_cores s k
  rw [e]
  split_ifs
  · have := cache_handle_bus_response_touch s1 (flush_word s.bus) k k
    rw [h1] at this
    exact this
  · exact BusTouch.bt_refl _

/-- `bus_cycle` touches of a core only its cache and its MEM `internal_stall`. -/
theorem bus_cycle_touch (s : Simulator) (k : Nat) :
    BusTouch (s.cores k) ((bus_cycle s).cores k) := by
  unfold bus_cycle
  cases hst : s.bus.state with
  | IDLE =>
    rw [bus_cycle_out_idle s hst]
    split_ifs <;> exact BusTouch.bt_refl _
  | ARBITRATE =>
    rw [bus_cycle_out_arbitrate s hst]
    exact bus_request_step_touch _ k
  | REQUEST =>
    rw [bus_cycle_out_request s hst]
    exact bus_request_step_touch _ k
  | LATENCY =>
    by_cases ht : 0 < s.bus.timer
    · rw [bus_cycle_out_latency_wait s hst ht]
      exact BusTouch.bt_refl _
    · rw [bus_cycle_out_latency_done s hst ht]
      exact bus_flush_step_touch _ k
  | FLUSH =>
    rw [bus_cycle_out_flush s hst]
    exact bus_flush_step_touch _ k
theorem slot_list_valid (r : PipelineReg) (h : r.valid = true) : slot_list r = [slot_entry r] := by
  simp [slot_list, h]

theorem stage_execute_view (c : Core) :
    (stage_execute c).pipeline.fetch = c.pipeline.fetch ∧
    (stage_execute c).pipeline.mem = c.pipeline.mem ∧
    (stage_execute c).pipeline.writeback = c.pipeline.writeback ∧
    (stage_execute c).halt_fetch = c.halt_fetch ∧
    (ex_pull_guard c = true →
      slot_list c.pipeline.execute = [] ∧
      slot_list c.pipeline.decode = [slot_entry c.pipeline.decode] ∧
      slot_list (stage_execute c).pipeline.execute = [slot_entry c.pipeline.decode] ∧
      slot_list (stage_execute c).pipeline.decode = []) ∧
    (ex_pull_guard c = false →
      slot_list (stage_execute c).pipeline.execute = slot_list c.pipeline.execute ∧
      slot_list (stage_execute c).pipeline.decode = slot_list c.pipeline.decode) := by
  unfold stage_execute execute_pull execute_body ex_pull_guard
  dsimp only
  cases h1 : c.pipeline.execute.valid <;> cases h2 : c.pipeline.decode.valid <;>
    cases h3 : c.pipeline.decode.internal_stall <;>
    simp [slot_list, slot_entry, h1, h2, h3]

theorem decode_pull_view (c : Core) :
    (decode_pull c).pipeline.execute = c.pipeline.execute ∧
    (decode_pull c).pipeline.mem = c.pipeline.mem ∧
    (decode_pull c).pipeline.writeback = c.pipeline.writeback ∧
    (decode_pull c).halt_fetch = c.halt_fetch ∧
    (id_pull_guard c = true →
      slot_list c.pipeline.decode = [] ∧
      slot_list c.pipeline.fetch = [slot_entry c.pipeline.fetch] ∧
      slot_list (decode_pull c).pipeline.decode = [slot_entry c.pipeline.fetch] ∧
      slot_list (decode_pull c).pipeline.fetch = [] ∧
      (decode_pull c).pipeline.fetch.valid = false) ∧
    (id_pull_guard c = false → decode_pull c = c) := by
  unfold decode_pull id_pull_guard
  dsimp only
  cases h1 : c.pipeline.decode.valid <;> cases h2 : c.pipeline.fetch.valid <;>
    cases h3 : c.pipeline.fetch.stall <;>
    simp [slot_list, slot_entry, h1, h2, h3]

theorem decode_body_view (c : Core) :
    (decode_body c).pipeline.execute = c.pipeline.execute ∧
    (decode_body c).pipeline.mem = c.pipeline.mem ∧
    (decode_body c).pipeline.writeback = c.pipeline.writeback ∧
    slot_list (decode_body c).pipeline.decode = slot_list c.pipeline.decode ∧
    (((decode_body c).halt_fetch = c.halt_fetch ∧
        (decode_body c).pipeline.fetch = c.pipeline.fetch) ∨
      ((decode_body c).halt_fetch = true ∧ (decode_body c).pipeline.fetch.valid = false)) := by
  unfold decode_body
  dsimp only
  split_ifs <;> simp [slot_list, slot_entry]

theorem stage_fetch_view (c : Core) :
    (stage_fetch c).pipeline.decode = c.pipeline.decode ∧
    (stage_fetch c).pipeline.execute = c.pipeline.execute ∧
    (stage_fetch c).pipeline.mem = c.pipeline.mem ∧
    (stage_fetch c).pipeline.writeback = c.pipeline.writeback ∧
    (stage_fetch c).halt_fetch = c.halt_fetch ∧
    (fetch_guard c = true →
      c.halt_fetch = false ∧ slot_list c.pipeline.fetch = [] ∧
      slot_list (stage_fetch c).pipeline.fetch = [(c.pc, c.imem c.pc)]) ∧
    (fetch_guard c = false → stage_fetch c = c) := by
  unfold stage_fetch fetch_guard
  dsimp only
  cases h1 : c.halted <;> cases h2 : c.halt_fetch <;> cases h3 : c.pipeline.decode.stall <;>
    cases h4 : c.pipeline.fetch.valid <;> by_cases h5 : c.pc < IMEM_SIZE <;>
    simp [slot_list, slot_entry, h1, h2, h3, h4, h5]

theorem stage_writeback_view (sim : Simulator) (i : Nat) :
    ((stage_writeback sim i).cores i).pipeline.fetch = (sim.cores i).pipeline.fetch ∧
    ((stage_writeback sim i).cores i).pipeline.decode = (sim.cores i).pipeline.decode ∧
    ((stage_writeback sim i).cores i).pipeline.execute = (sim.cores i).pipeline.execute ∧
    ((stage_writeback sim i).cores i).halt_fetch = (sim.cores i).halt_fetch ∧
    (wb_pull_guard (sim.cores i) = true →
      slot_list (sim.cores i).pipeline.mem = [slot_entry (sim.cores i).pipeline.mem] ∧
      slot_list ((stage_writeback sim i).cores i).pipeline.mem = [] ∧
      ((stage_writeback sim i).cores i).pipeline.mem.valid = false ∧
      ((stage_writeback sim i).cores i).pipeline.mem.internal_stall = false ∧
      ((stage_writeback sim i).cores i).pipeline.writeback.valid = true ∧
      ((stage_writeback sim i).cores i).pipeline.writeback.is_halt
        = (sim.cores i).pipeline.mem.is_halt ∧
      slot_entry ((stage_writeback sim i).cores i).pipeline.writeback
        = slot_entry (sim.cores i).pipeline.mem) ∧
    (wb_pull_guard (sim.cores i) = false →
      ((stage_writeback sim i).cores i).pipeline.mem = (sim.cores i).pipeline.mem ∧
      ((stage_writeback sim i).cores i).pipeline.writeback.valid = false) := by
  have e : (stage_writeback sim i).cores i = writeback_commit ((writeback_pull sim i).cores i) := by
    unfold stage_writeback
    simp only [setCore_cores_same]
  have hc : ∀ c : Core, (writeback_commit c).pipeline = c.pipeline ∧
      (writeback_commit c).halt_fetch = c.halt_fetch := by
    intro c
    unfold writeback_commit
    dsimp only
    split_ifs <;> exact ⟨rfl, rfl⟩
  rw [e, (hc _).1, (hc _).2]
  by_cases hg : wb_pull_guard (sim.cores i) = true
  · have hg' := hg
    simp only [wb_pull_guard, Bool.and_eq_true, Bool.not_eq_true'] at hg'
    rw [writeback_pull_pulled sim i hg'.1 hg'.2]
    refine ⟨rfl, rfl, rfl, rfl, fun _ => ⟨slot_list_valid _ hg'.1, rfl, rfl, hg'.2, hg'.1, rfl, rfl⟩,
      fun h => ?_⟩
    rw [hg] at h
    cases h
  · have hg' : ((sim.cores i).pipeline.mem.valid && !(sim.cores i).pipeline.mem.internal_stall)
        = false := by simpa [wb_pull_guard] using hg
    unfold writeback_pull
    dsimp only
    simp only [setCore_cores_same, hg', Bool.false_eq_true, if_false]
    simp [hg]

/-- After `stage_memory` the core is the one `memory_pull` left, up to its cache,
its statistics and the `mem_data` and `internal_stall` of the MEM slot. -/
theorem stage_memory_core (s : Simulator) (i : Nat) :
    ((stage_memory s i).cores i).pipeline.fetch = (memory_pull (s.cores i)).pipeline.fetch ∧
    ((stage_memory s i).cores i).pipeline.decode = (memory_pull (s.cores i)).pipeline.decode ∧
    ((stage_memory s i).cores i).pipeline.execute = (memory_pull (s.cores i)).pipeline.execute ∧
    ((stage_memory s i).cores i).pipeline.writeback
      = (memory_pull (s.cores i)).pipeline.writeback ∧
    ((stage_memory s i).cores i).halt_fetch = (s.cores i).halt_fetch ∧
    ((stage_memory s i).cores i).pipeline.mem =
      { (memory_pull (s.cores i)).pipeline.mem with
          mem_data := ((stage_memory s i).cores i).pipeline.mem.mem_data
          internal_stall := ((stage_memory s i).cores i).pipeline.mem.internal_stall } := by
  have hp : (memory_pull (s.cores i)).halt_fetch = (s.cores i).halt_fetch := by
    unfold memory_pull; dsimp only; split_ifs <;> rfl
  unfold stage_memory
  dsimp only
  simp only [setCore_cores_same]
  split_ifs
  · simp only [setCore_cores_same, cache_read_cores]
    unfold memory_finish memory_stats
    dsimp only
    split_ifs <;> simp [hp]
  · simp only [setCore_cores_same]
    rw [cache_write_core]
    unfold memory_finish memory_stats
    dsimp only
    split_ifs <;> simp [hp, setCore_cores_same]
  · simp [hp, setCore_cores_same]
  · simp [hp, setCore_cores_same]

theorem memory_pull_view (c : Core) :
    (memory_pull c).pipeline.fetch = c.pipeline.fetch ∧
    (memory_pull c).pipeline.decode = c.pipeline.decode ∧
    (memory_pull c).pipeline.writeback = c.pipeline.writeback ∧
    (mem_pull_guard c = true →
      slot_list c.pipeline.mem = [] ∧
      slot_list c.pipeline.execute = [slot_entry c.pipeline.execute] ∧
      slot_list (memory_pull c).pipeline.mem = [slot_entry c.pipeline.execute] ∧
      slot_list (memory_pull c).pipeline.execute = []) ∧
    (mem_pull_guard c = false → memory_pull c = c) := by
  unfold memory_pull mem_pull_guard
  dsimp only
  cases h1 : c.pipeline.mem.valid <;> cases h2 : c.pipeline.execute.valid <;>
    cases h3 : c.pipeline.execute.stall <;>
    simp [slot_list, slot_entry, h1, h2, h3]

theorem pre_core_others (s : Simulator) (k i : Nat) (h : k ≤ i) :
    BusTouch (s.cores i) ((pre_core s k).cores i) := by
  induction k with
  | zero => exact bus_cycle_touch s i
  | succ k ih =>
    show BusTouch _ ((execute_core_cycle (pre_core s k) k).cores i)
    rw [(execute_core_cycle_frame (pre_core s k) k).others i (by omega)]
    exact ih (by omega)

theorem sim_cycle_pre_core (s : Simulator) : (sim_cycle s).cores = (pre_core s 4).cores := rfl

theorem pre_core_later (s : Simulator) (i k : Nat) (h : i < k) :
    (pre_core s k).cores i = (execute_core_cycle (pre_core s i) i).cores i := by
  induction k with
  | zero => omega
  | succ k ih =>
    by_cases hik : i = k
    · subst hik; rfl
    · show (execute_core_cycle (pre_core s k) k).cores i = _
      rw [(execute_core_cycle_frame (pre_core s k) k).others i hik]
      exact ih (by omega)

theorem sim_cycle_core (s : Simulator) (i : Nat) (hi : i < 4) :
    (sim_cycle s).cores i = (execute_core_cycle (pre_core s i) i).cores i := by
  rw [sim_cycle_pre_core]
  exact pre_core_later s i 4 hi

theorem bus_touch_halted {c c' : Core} (h : BusTouch c c') : c'.halted = c.halted := by
  unfold BusTouch at h
  rw [h]

/-- C15 (JAL jumps), evaluated on `jal_demo`: core 0 holds `JAL` with target 5 at
address 0.  In the cycle from state 1 the JAL is pulled into ID with no hazard
(`internal_stall` is cleared), yet `stage_decode` leaves `branch_pending` false and
does not set `reg_write`/`rw`: `is_branch_instruction` is true for JAL, so the
branch arm runs, where `resolve_branch_condition` has no case for JAL.  The pc
goes 1, 2, 3, 4 and never 5; the instruction at address 2 (`R2 := 7`) is
executed, four instructions commit from addresses 0, 1, 2, 3, and `R15` gets the
return address 2 from `stage_execute`. -/
theorem jal_falls_through :
    (decode_entry (run_cycles 1 jal_demo) 0).pipeline.fetch.valid = true ∧
    (stage_decode (decode_entry (run_cycles 1 jal_demo) 0)).pipeline.decode.valid = true ∧
    (stage_decode (decode_entry (run_cycles 1 jal_demo) 0)).pipeline.decode.inst.opcode = OP_JAL ∧
    (stage_decode (decode_entry (run_cycles 1 jal_demo) 0)).pipeline.decode.inst.rd = 1 ∧
    (stage_decode (decode_entry (run_cycles 1 jal_demo) 0)).pipeline.decode.imm_val = 5 ∧
    (stage_decode (decode_entry (run_cycles 1 jal_demo) 0)).pipeline.decode.internal_stall = false ∧
    (stage_decode (decode_entry (run_cycles 1 jal_demo) 0)).decode_stall = 0 ∧
    (stage_decode (decode_entry (run_cycles 1 jal_demo) 0)).branch_pending = false ∧
    (stage_decode (decode_entry (run_cycles 1 jal_demo) 0)).pipeline.decode.reg_write = false ∧
    (stage_decode (decode_entry (run_cycles 1 jal_demo) 0)).pipeline.decode.rw = 0 ∧
    ((run_cycles 2 jal_demo).cores 0).pc = 2 ∧
    ((run_cycles 3 jal_demo).cores 0).pc = 3 ∧
    ((run_cycles 4 jal_demo).cores 0).pc = 4 ∧
    (∀ n, n < 13 → ((run_cycles n jal_demo).cores 0).pc ≠ 5 ∧
      ((run_cycles n jal_demo).cores 0).branch_pending = false) ∧
    ((run_cycles 12 jal_demo).cores 0).halted = true ∧
    ((run_cycles 12 jal_demo).cores 0).registers 2 = 7 ∧
    ((run_cycles 12 jal_demo).cores 0).registers 15 = 2 ∧
    (core_log 0 jal_demo 12).fetched.map Prod.fst = [0, 1, 2, 3] := by
  decide!

/-- C16 (exactly one delay slot), evaluated on `slot_race`.  In the cycle from
state 6 the `BEQ` at address 100 (target 200) is pulled out of IF into the empty
ID slot and resolved as taken, while the ID slot's `stall` flag is still set from
the end of the previous cycle (EX is held behind the load miss in MEM).
`stage_fetch` tests that flag and fetches nothing, so the pc — still 101 after
`stage_fetch` — becomes 200 at the end of the cycle with IF empty.  The
instruction at 101 is never fetched: the fetch order of the whole run is
0, 1, 1022, 1023, 100, 200, and `R3`, which the instruction at 101 would set to
7, is 0 when the core has halted. -/
theorem branch_without_delay_slot :
    (decode_entry (run_cycles 6 slot_race) 0).pipeline.fetch.valid = true ∧
    (decode_entry (run_cycles 6 slot_race) 0).pipeline.fetch.pc = 100 ∧
    (decode_entry (run_cycles 6 slot_race) 0).pipeline.decode.valid = false ∧
    (decode_entry (run_cycles 6 slot_race) 0).pipeline.decode.stall = true ∧
    (decode_entry (run_cycles 6 slot_race) 0).branch_pending = false ∧
    (stage_decode (decode_entry (run_cycles 6 slot_race) 0)).pipeline.decode.valid = true ∧
    (stage_decode (decode_entry (run_cycles 6 slot_race) 0)).pipeline.decode.pc = 100 ∧
    (stage_decode (decode_entry (run_cycles 6 slot_race) 0)).pipeline.decode.inst.opcode = OP_BEQ ∧
    (stage_decode (decode_entry (run_cycles 6 slot_race) 0)).pipeline.decode.internal_stall = false ∧
    (stage_decode (decode_entry (run_cycles 6 slot_race) 0)).branch_pending = true ∧
    (stage_decode (decode_entry (run_cycles 6 slot_race) 0)).branch_target = 200 ∧
    (stage_fetch (stage_decode (decode_entry (run_cycles 6 slot_race) 0))).pc = 101 ∧
    (stage_fetch (stage_decode (decode_entry (run_cycles 6 slot_race) 0))).pipeline.fetch.valid
      = false ∧
    ((run_cycles 6 slot_race).cores 0).pc = 101 ∧
    ((run_cycles 7 slot_race).cores 0).pc = 200 ∧
    ((run_cycles 7 slot_race).cores 0).pipeline.fetch.valid = false ∧
    (core_log 0 slot_race 6).fetched.map Prod.fst = [0, 1, 1022, 1023, 100] ∧
    (core_log 0 slot_race 40).fetched.map Prod.fst = [0, 1, 1022, 1023, 100, 200] ∧
    ((run_cycles 40 slot_race).cores 0).halted = true ∧
    ((run_cycles 40 slot_race).cores 0).instructions = 6 ∧
    ((run_cycles 40 slot_race).cores 0).registers 3 = 0 := by
  decide!
/-! ## Worked instances of the pipeline and bus contracts -/

/-- Instance of `stage_decode_hazard_rule` on `hazard_demo`: in the cycle from
state 2 the instruction at address 1 (reading `R2`) is pulled into ID while the
instruction writing `R2` is in EX, and stalls. -/
theorem stage_decode_hazard_rule_witness :
    (decode_pull (decode_entry (run_cycles 2 hazard_demo) 0)).pipeline.decode.valid = true ∧
    (decode_pull (decode_entry (run_cycles 2 hazard_demo) 0)).pipeline.decode.inst.rs = 2 ∧
    hazard_on (decode_entry (run_cycles 2 hazard_demo) 0) 2 ∧
    (stage_decode (decode_entry (run_cycles 2 hazard_demo) 0)).decode_stall = 1 ∧
    (stage_decode (decode_entry (run_cycles 2 hazard_demo) 0)).pipeline.decode.internal_stall
      = true :=
  have hz : hazard_on (decode_entry (run_cycles 2 hazard_demo) 0) 2 :=
    ⟨by decide, Or.inl ⟨by decide!, by decide!, by decide!⟩⟩
  have hrs : (decode_pull (decode_entry (run_cycles 2 hazard_demo) 0)).pipeline.decode.inst.rs = 2 :=
    by decide!
  have h := (stage_decode_hazard_rule (decode_entry (run_cycles 2 hazard_demo) 0)
    (by decide!)).2.1 (Or.inl (hrs ▸ hz))
  ⟨by decide!, hrs, hz, h.2.2 (by decide!), congrArg (fun c => c.pipeline.decode.internal_stall) h.1⟩

/-- Instance of `stage_decode_branch_resolution` on `hazard_demo`: in the cycle
from state 6 the `BEQ R0, R0` at address 2 is pulled into ID, no hazard holds, the
comparison 0 = 0 succeeds and the target is the immediate 5. -/
theorem stage_decode_branch_resolution_witness :
    (decode_pull (decode_entry (run_cycles 6 hazard_demo) 0)).pipeline.decode.valid = true ∧
    is_conditional_branch (decode_pull (decode_entry (run_cycles 6 hazard_demo) 0)).pipeline.decode.inst ∧
    (stage_decode (decode_entry (run_cycles 6 hazard_demo) 0)).branch_pending = true ∧
    (stage_decode (decode_entry (run_cycles 6 hazard_demo) 0)).branch_target = 5 ∧
    (stage_decode (decode_entry (run_cycles 6 hazard_demo) 0)).pc
      = (decode_entry (run_cycles 6 hazard_demo) 0).pc :=
  have hb : is_conditional_branch
      (decode_pull (decode_entry (run_cycles 6 hazard_demo) 0)).pipeline.decode.inst :=
    ⟨by decide!, by decide!⟩
  have hns : ¬ decode_must_stall (decode_entry (run_cycles 6 hazard_demo) 0)
      (decode_pull (decode_entry (run_cycles 6 hazard_demo) 0)).pipeline.decode.inst := by
    intro h
    have e0 : (decode_pull (decode_entry (run_cycles 6 hazard_demo) 0)).pipeline.decode.inst.rs = 0 :=
      by decide!
    have e1 : (decode_pull (decode_entry (run_cycles 6 hazard_demo) 0)).pipeline.decode.inst.rt = 0 :=
      by decide!
    have e2 : (decode_pull (decode_entry (run_cycles 6 hazard_demo) 0)).pipeline.decode.inst.rd = 1 :=
      by decide!
    rw [decode_must_stall, e0, e1, e2] at h
    rcases h with h | h | ⟨-, h⟩ <;> exact absurd h.1 (by decide)
  have h := stage_decode_branch_resolution (decode_entry (run_cycles 6 hazard_demo) 0)
    (by decide!) hb hns
  have ht := h.1 (Or.inl ⟨by decide!, by decide!⟩)
  ⟨by decide!, hb, ht.1, ht.2.1.trans (by decide!), h.2.2.1⟩

/-- Instance of `writeback_commit_contract` on `hazard_demo`: in the cycle from
state 4 core 0 pulls `R2 := 7` out of MEM into WB and commits it. -/
theorem writeback_commit_contract_witness :
    ((pre_core (run_cycles 4 hazard_demo) 0).cores 0).halted = false ∧
    ((pre_core (run_cycles 4 hazard_demo) 0).cores 0).pipeline.mem.valid = true ∧
    ((pre_core (run_cycles 4 hazard_demo) 0).cores 0).pipeline.mem.rw = 2 ∧
    ((execute_core_cycle (pre_core (run_cycles 4 hazard_demo) 0) 0).cores 0).pipeline.writeback.valid
      = true ∧
    ((execute_core_cycle (pre_core (run_cycles 4 hazard_demo) 0) 0).cores 0).instructions = 1 ∧
    ((execute_core_cycle (pre_core (run_cycles 4 hazard_demo) 0) 0).cores 0).registers 2 = 7 :=
  have h := (writeback_commit_contract (pre_core (run_cycles 4 hazard_demo) 0) 0 (by decide!)).1
    ⟨by decide!, by decide!⟩
  ⟨by decide!, by decide!, by decide!, h.2.1, h.2.2.2.1 (by decide!),
    by decide!⟩

/-- Instance of `encode_decode_word`: the word of `SW R1, R1, R0` with immediate 8. -/
theorem encode_decode_word_witness :
    (0x11110008 < 2 ^ 32) ∧ encode_instruction (decode_instruction 0x11110008) = 0x11110008 :=
  ⟨by decide, encode_decode_word 0x11110008 (by decide)⟩
/-! ## The stages on the control flags -/

theorem stage_writeback_ctl (sim : Simulator) (i : Nat) :
    ctl ((stage_writeback sim i).cores i) = wb_ctl (ctl (sim.cores i)) ∧
    ((stage_writeback sim i).cores i).pipeline.fetch = (sim.cores i).pipeline.fetch ∧
    ((stage_writeback sim i).cores i).pipeline.decode = (sim.cores i).pipeline.decode ∧
    ((stage_writeback sim i).cores i).pc = (sim.cores i).pc ∧
    ((stage_writeback sim i).cores i).pipeline.mem.inst = (sim.cores i).pipeline.mem.inst := by
  have e : (stage_writeback sim i).cores i = writeback_commit ((writeback_pull sim i).cores i) := by
    unfold stage_writeback
    simp only [setCore_cores_same]
  have hc : ∀ c : Core, (writeback_commit c).pipeline = c.pipeline ∧
      (writeback_commit c).halt_fetch = c.halt_fetch ∧ (writeback_commit c).halted = c.halted ∧
      (writeback_commit c).branch_pending = c.branch_pending ∧
      (writeback_commit c).pc = c.pc := by
    intro c
    unfold writeback_commit
    dsimp only
    split_ifs <;> exact ⟨rfl, rfl, rfl, rfl, rfl⟩
  have hk : ∀ c : Core, ctl (writeback_commit c) = ctl c := by
    intro c
    obtain ⟨a, b, c1, d, -⟩ := hc c
    simp only [ctl, a, b, c1, d]
  rw [e, hk, (hc _).1, (hc _).2.2.2.2]
  by_cases hg : ((sim.cores i).pipeline.mem.valid && !(sim.cores i).pipeline.mem.internal_stall)
      = true
  · have hg' := hg
    simp only [Bool.and_eq_true, Bool.not_eq_true'] at hg'
    rw [writeback_pull_pulled sim i hg'.1 hg'.2]
    refine ⟨?_, rfl, rfl, rfl, rfl⟩
    simp only [ctl, wb_ctl, hg, if_true]
    simp [hg'.1]
  · have hg' : ((sim.cores i).pipeline.mem.valid && !(sim.cores i).pipeline.mem.internal_stall)
        = false := by simpa using hg
    unfold writeback_pull
    dsimp only
    simp only [setCore_cores_same, hg', Bool.false_eq_true, if_false]
    simp [ctl, wb_ctl, hg']

theorem memory_pull_ctl (c : Core) (x : Bool) :
    ctl { memory_pull c with
          pipeline := { (memory_pull c).pipeline with
            mem := { (memory_pull c).pipeline.mem with internal_stall := x } } } =
      (if !c.pipeline.mem.valid && c.pipeline.execute.valid && !c.pipeline.execute.stall then
        { ctl c with mv := true, mi := x, mh := c.pipeline.execute.is_halt, ev := false }
      else { ctl c with mi := x }) := by
  unfold memory_pull
  dsimp only
  split_ifs with h
  · simp only [Bool.and_eq_true, Bool.not_eq_true'] at h
    simp [ctl, h.1.2]
  · rfl

theorem stage_memory_ctl (s : Simulator) (i : Nat) :
    ctl ((stage_memory s i).cores i)
      = mem_ctl (ctl (s.cores i)) ((stage_memory s i).cores i).pipeline.mem.internal_stall ∧
    ((stage_memory s i).cores i).pipeline.fetch = (s.cores i).pipeline.fetch ∧
    ((stage_memory s i).cores i).pipeline.decode = (s.cores i).pipeline.decode ∧
    ((stage_memory s i).cores i).pc = (s.cores i).pc := by
  obtain ⟨m1, m2, m3, m4, m5, m6⟩ := stage_memory_core s i
  obtain ⟨v1, v2, v3, -, v6⟩ := memory_pull_view (s.cores i)
  have hpc : ((stage_memory s i).cores i).pc = (s.cores i).pc := by
    have hp : (memory_pull (s.cores i)).pc = (s.cores i).pc := by
      unfold memory_pull; dsimp only; split_ifs <;> rfl
    unfold stage_memory
    dsimp only
    simp only [setCore_cores_same]
    split_ifs
    · simp only [setCore_cores_same, cache_read_cores]
      unfold memory_finish memory_stats
      dsimp only
      split_ifs <;> simp [hp]
    · simp only [setCore_cores_same]
      rw [cache_write_core]
      unfold memory_finish memory_stats
      dsimp only
      split_ifs <;> simp [hp, setCore_cores_same]
    · simp [hp, setCore_cores_same]
    · simp [hp, setCore_cores_same]
  have hh : ((stage_memory s i).cores i).halted = (s.cores i).halted := stage_memory_halted s i
  have hbp : ((stage_memory s i).cores i).branch_pending = (s.cores i).branch_pending := by
    have hp : (memory_pull (s.cores i)).branch_pending = (s.cores i).branch_pending := by
      unfold memory_pull; dsimp only; split_ifs <;> rfl
    unfold stage_memory
    dsimp only
    simp only [setCore_cores_same]
    split_ifs
    · simp only [setCore_cores_same, cache_read_cores]
      unfold memory_finish memory_stats
      dsimp only
      split_ifs <;> simp [hp]
    · simp only [setCore_cores_same]
      rw [cache_write_core]
      unfold memory_finish memory_stats
      dsimp only
      split_ifs <;> simp [hp, setCore_cores_same]
    · simp [hp, setCore_cores_same]
    · simp [hp, setCore_cores_same]
  refine ⟨?_, m1.trans v1, m2.trans v2, hpc⟩
  have key := memory_pull_ctl (s.cores i) ((stage_memory s i).cores i).pipeline.mem.internal_stall
  have e1 : ctl ((stage_memory s i).cores i) =
      ctl { memory_pull (s.cores i) with
          pipeline := { (memory_pull (s.cores i)).pipeline with
            mem := { (memory_pull (s.cores i)).pipeline.mem with
              internal_stall := ((stage_memory s i).cores i).pipeline.mem.internal_stall } } } := by
    have hmv : ((stage_memory s i).cores i).pipeline.mem.valid
        = (memory_pull (s.cores i)).pipeline.mem.valid := by rw [m6]
    have hmh : ((stage_memory s i).cores i).pipeline.mem.is_halt
        = (memory_pull (s.cores i)).pipeline.mem.is_halt := by rw [m6]
    have hp1 : (memory_pull (s.cores i)).halted = (s.cores i).halted := memory_pull_halted _
    have hp2 : (memory_pull (s.cores i)).branch_pending = (s.cores i).branch_pending := by
      unfold memory_pull; dsimp only; split_ifs <;> rfl
    have hp3 : (memory_pull (s.cores i)).halt_fetch = (s.cores i).halt_fetch := by
      unfold memory_pull; dsimp only; split_ifs <;> rfl
    simp only [ctl, m1, m2, m3, m4, m5, hmv, hmh, hh, hbp, hp1, hp2, hp3]
  rw [e1, key]
  unfold mem_ctl
  by_cases hg : (!(s.cores i).pipeline.mem.valid && (s.cores i).pipeline.execute.valid &&
      !(s.cores i).pipeline.execute.stall) = true
  · rw [if_pos hg, if_pos (by simpa [ctl] using hg)]
    rfl
  · rw [if_neg hg, if_neg (by simpa [ctl] using hg)]
    by_cases hv : (s.cores i).pipeline.mem.valid = true
    · rw [if_pos (by simpa [ctl] using hv)]
    · rw [if_neg (by simpa [ctl] using hv)]
      have hgf : mem_pull_guard (s.cores i) = false := by
        simpa [mem_pull_guard] using hg
      have hsame : ((stage_memory s i).cores i).pipeline.mem.internal_stall
          = (s.cores i).pipeline.mem.internal_stall := by
        have hv' : (s.cores i).pipeline.mem.valid = false := by simpa using hv
        unfold stage_memory
        dsimp only
        simp only [setCore_cores_same, v6 hgf, hv', Bool.false_eq_true, if_false]
      rw [hsame]
      rfl

theorem stage_execute_ctl (c : Core) :
    ctl (stage_execute c) = ex_ctl (ctl c) ∧
    (stage_execute c).pipeline.fetch = c.pipeline.fetch ∧
    (stage_execute c).pc = c.pc ∧
    ((stage_execute c).pipeline.decode.valid = true →
      (stage_execute c).pipeline.decode = c.pipeline.decode) := by
  unfold stage_execute execute_pull execute_body ex_ctl
  dsimp only
  cases h1 : c.pipeline.execute.valid <;> cases h2 : c.pipeline.decode.valid <;>
    cases h3 : c.pipeline.decode.internal_stall <;> simp [ctl, h1, h2, h3]
theorem check_data_hazard_valid (c : Core) (r : Nat) (h : check_data_hazard c r = true) :
    c.pipeline.execute.valid = true ∨ c.pipeline.mem.valid = true ∨
      c.pipeline.writeback.valid = true := by
  unfold check_data_hazard at h
  split_ifs at h with h0 h1 h2 h3
  · simp only [Bool.and_eq_true] at h1
    exact Or.inl h1.1.1
  · simp only [Bool.and_eq_true] at h2
    exact Or.inr (Or.inl h2.1.1)
  · simp only [Bool.and_eq_true] at h3
    exact Or.inr (Or.inr h3.1.1)

theorem decode_pull_ctl (c : Core) (hX : HaltFlag c) :
    ctl (decode_pull c) = id_pull_ctl (ctl c) ∧
    (decode_pull c).pc = c.pc ∧
    ((decode_pull c).pipeline.decode.valid = true →
      (decode_pull c).pipeline.decode.is_halt
        = decide ((decode_pull c).pipeline.decode.inst.opcode = OP_HALT)) ∧
    (decode_pull c).pipeline.fetch
      = { c.pipeline.fetch with valid := (decode_pull c).pipeline.fetch.valid } ∧
    (decode_pull c).pipeline.execute = c.pipeline.execute ∧
    (decode_pull c).pipeline.mem = c.pipeline.mem ∧
    (decode_pull c).pipeline.writeback = c.pipeline.writeback ∧
    (c.pipeline.fetch.valid = false → decode_pull c = c) := by
  obtain ⟨x1, x2⟩ := hX
  have hs : (decode_pull c).pc = c.pc ∧
      (decode_pull c).pipeline.fetch
        = { c.pipeline.fetch with valid := (decode_pull c).pipeline.fetch.valid } ∧
      (decode_pull c).pipeline.execute = c.pipeline.execute ∧
      (decode_pull c).pipeline.mem = c.pipeline.mem ∧
      (decode_pull c).pipeline.writeback = c.pipeline.writeback := by
    unfold decode_pull
    dsimp only
    split_ifs <;> exact ⟨rfl, rfl, rfl, rfl, rfl⟩
  have hk : ctl (decode_pull c) = id_pull_ctl (ctl c) ∧
      ((decode_pull c).pipeline.decode.valid = true →
        (decode_pull c).pipeline.decode.is_halt
          = decide ((decode_pull c).pipeline.decode.inst.opcode = OP_HALT)) ∧
      (c.pipeline.fetch.valid = false → decode_pull c = c) := by
    unfold decode_pull id_pull_ctl
    dsimp only
    cases h1 : c.pipeline.decode.valid <;> cases h2 : c.pipeline.fetch.valid <;>
      cases h3 : c.pipeline.fetch.stall <;> simp_all [ctl]
  exact ⟨hk.1, hs.1, hk.2.1, hs.2.1, hs.2.2.1, hs.2.2.2.1, hs.2.2.2.2, hk.2.2⟩

theorem hazard_on_valid (c : Core) (r : Nat) (h : hazard_on c r) :
    c.pipeline.execute.valid = true ∨ c.pipeline.mem.valid = true ∨
      c.pipeline.writeback.valid = true := by
  obtain ⟨-, h | h | h⟩ := h
  · exact Or.inl h.1
  · exact Or.inr (Or.inl h.1)
  · exact Or.inr (Or.inr h.1)

theorem decode_body_ctl (d : Core)
    (hX : d.pipeline.decode.is_halt = decide (d.pipeline.decode.inst.opcode = OP_HALT)) :
    ∃ st br : Bool,
      ctl (decode_body d) =
        (if st then { ctl d with di := true }
        else if (ctl d).dh then { ctl d with di := false, dh := true, fv := false, hf := true }
        else { ctl d with di := false, bp := (ctl d).bp || br }) ∧
      (st = true → d.pipeline.execute.valid = true ∨ d.pipeline.mem.valid = true ∨
        d.pipeline.writeback.valid = true) ∧
      (decode_body d).pc = d.pc ∧
      (decode_body d).pipeline.decode.inst = d.pipeline.decode.inst ∧
      (decode_body d).pipeline.decode.valid = d.pipeline.decode.valid ∧
      ((decode_body d).pipeline.decode.is_halt
        = decide ((decode_body d).pipeline.decode.inst.opcode = OP_HALT)) ∧
      (decode_body d).pipeline.fetch
        = { d.pipeline.fetch with valid := (decode_body d).pipeline.fetch.valid } := by
  by_cases hst : decode_must_stall d d.pipeline.decode.inst
  · have e := decode_body_stall d hst
    refine ⟨true, false, ?_, fun _ => ?_, ?_⟩
    · rw [e]
      simp [ctl]
    · rcases hst with h | h | ⟨-, h⟩ <;> exact hazard_on_valid d _ h
    · rw [e]
      exact ⟨rfl, rfl, rfl, hX, rfl⟩
  · have e := decode_body_no_stall d hst
    by_cases hb : is_branch_instruction d.pipeline.decode.inst = true
    · have hnh : d.pipeline.decode.inst.opcode ≠ OP_HALT := by
        intro e'
        simp [is_branch_instruction, e', OP_HALT, OP_BEQ, OP_BGE, OP_JAL] at hb
      have hdh : d.pipeline.decode.is_halt = false := by rw [hX]; simp [hnh]
      rw [if_pos hb] at e
      by_cases hc : resolve_branch_condition d.pipeline.decode.inst
          (toI32 (decode_latched d).rs_value) (toI32 (decode_latched d).rt_value) = true
      · rw [if_pos hc] at e
        refine ⟨false, true, ?_, (fun h => by cases h), ?_⟩
        · rw [e]
          simp [ctl, hdh, decode_latched]
        · rw [e]
          exact ⟨rfl, rfl, rfl, hX, rfl⟩
      · rw [if_neg hc] at e
        refine ⟨false, false, ?_, (fun h => by cases h), ?_⟩
        · rw [e]
          simp [ctl, hdh, decode_latched]
        · rw [e]
          exact ⟨rfl, rfl, rfl, hX, rfl⟩
    · rw [if_neg hb] at e
      have hnj : ¬ d.pipeline.decode.inst.opcode = OP_JAL := by
        intro e'
        simp [is_branch_instruction, e'] at hb
      rw [if_neg hnj] at e
      by_cases hh : d.pipeline.decode.inst.opcode = OP_HALT
      · rw [if_pos hh] at e
        have hdh : d.pipeline.decode.is_halt = true := by rw [hX]; simp [hh]
        refine ⟨false, false, ?_, (fun h => by cases h), ?_⟩
        · rw [e]
          simp [ctl, hdh, decode_latched]
        · rw [e]
          refine ⟨rfl, rfl, rfl, ?_, rfl⟩
          show true = decide (d.pipeline.decode.inst.opcode = OP_HALT)
          simp [hh]
      · rw [if_neg hh] at e
        have hdh : d.pipeline.decode.is_halt = false := by rw [hX]; simp [hh]
        refine ⟨false, false, ?_, (fun h => by cases h), ?_⟩
        · rw [e]
          simp [ctl, hdh, decode_latched]
        · rw [e]
          exact ⟨rfl, rfl, rfl, hX, rfl⟩

theorem stage_decode_ctl (c : Core) (hX : HaltFlag c) :
    ∃ st br : Bool,
      ctl (stage_decode c) = id_ctl (ctl c) st br ∧
      (st = true → c.pipeline.execute.valid = true ∨ c.pipeline.mem.valid = true ∨
        c.pipeline.writeback.valid = true) ∧
      (stage_decode c).pc = c.pc ∧
      HaltFlag (stage_decode c) ∧
      (stage_decode c).pipeline.fetch
        = { c.pipeline.fetch with valid := (stage_decode c).pipeline.fetch.valid } ∧
      (c.pipeline.fetch.valid = false →
        (stage_decode c).pipeline.decode.inst = c.pipeline.decode.inst ∧
        (stage_decode c).pipeline.decode.valid = c.pipeline.decode.valid) := by
  obtain ⟨p1, p2, p3, p4, p5, p6, p7, p8⟩ := decode_pull_ctl c hX
  unfold stage_decode
  dsimp only
  by_cases hv : (decode_pull c).pipeline.decode.valid = true
  · rw [if_pos hv]
    obtain ⟨st, br, b1, b2, b3, b4, b5, b6, b7⟩ := decode_body_ctl (decode_pull c) (p3 hv)
    refine ⟨st, br, ?_, ?_, b3.trans p2, ⟨?_, ?_⟩, ?_, ?_⟩
    · rw [b1, p1]
      unfold id_ctl
      have : (id_pull_ctl (ctl c)).dv = true := by rw [← p1]; exact hv
      rw [if_pos this]
    · rw [p5, p6, p7] at b2
      exact b2
    · intro hfv
      rw [b7] at hfv
      have hfv' : (decode_body (decode_pull c)).pipeline.fetch.valid = true := hfv
      rw [b7]
      have e1 : (decode_pull c).pipeline.fetch.valid = true := by
        by_contra hn
        have hn' : (decode_pull c).pipeline.fetch.valid = false := by simpa using hn
        have := congrArg Ctl.fv b1
        revert this
        cases st <;> cases hdh : (ctl (decode_pull c)).dh <;>
          simp [ctl, hfv', hn']
      rw [p4] at e1 ⊢
      have e2 : c.pipeline.fetch.valid = true := by
        by_contra hn
        rw [p8 (by simpa using hn)] at e1
        exact hn e1
      exact hX.1 e2
    · intro _
      exact b6
    · rw [b7, p4]
    · intro hfv
      rw [b4, b5, p8 hfv]
      exact ⟨rfl, rfl⟩
  · rw [if_neg hv]
    refine ⟨false, false, ?_, (fun h => by cases h), p2, ⟨?_, fun h => absurd h hv⟩, p4, ?_⟩
    · rw [p1]
      unfold id_ctl
      have : ¬ (id_pull_ctl (ctl c)).dv = true := by rw [← p1]; exact hv
      rw [if_neg this]
    · intro hfv
      rw [p4] at hfv ⊢
      have e2 : c.pipeline.fetch.valid = true := by
        by_contra hn
        have e3 := p8 (by simpa using hn)
        rw [e3] at hfv
        exact hn hfv
      exact hX.1 e2
    · intro hfv
      rw [p8 hfv]
      exact ⟨rfl, rfl⟩
theorem stage_fetch_ctl (c : Core) (hX : HaltFlag c) :
    ∃ can h : Bool,
      ctl (stage_fetch c) = if_ctl (ctl c) can h ∧
      HaltFlag (stage_fetch c) ∧
      (c.halt_fetch = true → stage_fetch c = c) ∧
      (stage_fetch c).pipeline.decode = c.pipeline.decode := by
  obtain ⟨x1, x2⟩ := hX
  unfold stage_fetch
  dsimp only
  by_cases h1 : (c.halted || c.halt_fetch) = true
  · refine ⟨false, false, ?_, ?_, ?_, ?_⟩
    · rw [if_pos h1]
      unfold if_ctl
      rw [if_pos (by simpa [ctl] using h1)]
    · rw [if_pos h1]
      exact ⟨x1, x2⟩
    · intro _
      rw [if_pos h1]
    · rw [if_pos h1]
  · rw [if_neg h1]
    have hk1 : ¬ ((ctl c).hl || (ctl c).hf) = true := by simpa [ctl] using h1
    have hhf : ¬ c.halt_fetch = true := by
      intro h
      apply h1
      rw [h]
      simp
    by_cases h2 : (!c.pipeline.decode.stall && !c.pipeline.fetch.valid) = true
    · rw [if_pos h2]
      by_cases h3 : c.pc < IMEM_SIZE
      · rw [if_pos h3]
        refine ⟨true, decide ((decode_instruction (c.imem c.pc)).opcode = OP_HALT), ?_, ⟨fun _ => rfl, x2⟩,
          fun h => absurd h hhf, rfl⟩
        unfold if_ctl
        rw [if_neg hk1, if_pos (by simpa [ctl] using h2)]
        rfl
      · rw [if_neg h3]
        refine ⟨false, false, ?_, ⟨x1, x2⟩, fun h => absurd h hhf, rfl⟩
        unfold if_ctl
        rw [if_neg hk1, if_neg (by simp)]
    · rw [if_neg h2]
      refine ⟨false, false, ?_, ⟨x1, x2⟩, fun h => absurd h hhf, rfl⟩
      unfold if_ctl
      rw [if_neg hk1, if_neg (by simp)]

theorem end_of_cycle_ctl (c : Core) :
    ctl (end_of_cycle c) = end_ctl (ctl c) ∧
    (HaltFlag c → HaltFlag (end_of_cycle c)) ∧
    (c.branch_pending = false → (end_of_cycle c).pc = c.pc) ∧
    (end_of_cycle c).pipeline.fetch
      = { c.pipeline.fetch with stall := (end_of_cycle c).pipeline.fetch.stall } ∧
    (end_of_cycle c).pipeline.decode.inst = c.pipeline.decode.inst ∧
    (end_of_cycle c).pipeline.decode.valid = c.pipeline.decode.valid ∧
    (end_of_cycle c).pipeline.writeback = c.pipeline.writeback := by
  have hs : (HaltFlag c → HaltFlag (end_of_cycle c)) ∧
      (c.branch_pending = false → (end_of_cycle c).pc = c.pc) ∧
      (end_of_cycle c).pipeline.fetch
        = { c.pipeline.fetch with stall := (end_of_cycle c).pipeline.fetch.stall } ∧
      (end_of_cycle c).pipeline.decode.inst = c.pipeline.decode.inst ∧
      (end_of_cycle c).pipeline.decode.valid = c.pipeline.decode.valid ∧
      (end_of_cycle c).pipeline.writeback = c.pipeline.writeback := by
    unfold end_of_cycle log_cycle_trace HaltFlag
    dsimp only
    split_ifs <;> refine ⟨fun h => h, fun hb => ?_, rfl, rfl, rfl, rfl⟩ <;>
      first | rfl | (exfalso; simp_all)
  refine ⟨?_, hs⟩
  cases hh : c.halted
  · have hf : (end_of_cycle c).pipeline.fetch.valid = c.pipeline.fetch.valid ∧
        (end_of_cycle c).pipeline.fetch.stall = (c.pipeline.decode.valid &&
          ((c.pipeline.execute.valid && c.pipeline.mem.internal_stall) ||
            c.pipeline.decode.internal_stall)) ∧
        (end_of_cycle c).pipeline.fetch.is_halt = c.pipeline.fetch.is_halt ∧
        (end_of_cycle c).pipeline.decode.valid = c.pipeline.decode.valid ∧
        (end_of_cycle c).pipeline.decode.internal_stall = c.pipeline.decode.internal_stall ∧
        (end_of_cycle c).pipeline.decode.stall =
          ((c.pipeline.execute.valid && c.pipeline.mem.internal_stall) ||
            c.pipeline.decode.internal_stall) ∧
        (end_of_cycle c).pipeline.decode.is_halt = c.pipeline.decode.is_halt := by
      unfold end_of_cycle log_cycle_trace
      simp only [hh, Bool.false_eq_true, if_false]
      split_ifs <;> exact ⟨rfl, rfl, rfl, rfl, rfl, rfl, rfl⟩
    have he : (end_of_cycle c).pipeline.execute.valid = c.pipeline.execute.valid ∧
        (end_of_cycle c).pipeline.execute.stall = c.pipeline.mem.internal_stall ∧
        (end_of_cycle c).pipeline.execute.is_halt = c.pipeline.execute.is_halt ∧
        (end_of_cycle c).pipeline.mem.valid = c.pipeline.mem.valid ∧
        (end_of_cycle c).pipeline.mem.internal_stall = c.pipeline.mem.internal_stall ∧
        (end_of_cycle c).pipeline.mem.is_halt = c.pipeline.mem.is_halt ∧
        (end_of_cycle c).halt_fetch = c.halt_fetch ∧
        (end_of_cycle c).branch_pending = false ∧
        (end_of_cycle c).halted = (c.pipeline.writeback.valid && c.pipeline.writeback.is_halt) := by
      unfold end_of_cycle log_cycle_trace
      simp only [hh, Bool.false_eq_true, if_false]
      split_ifs <;> simp_all
    obtain ⟨f1, f2, f3, f4, f5, f6, f7⟩ := hf
    obtain ⟨e1, e2, e3, e4, e5, e6, e7, e8, e9⟩ := he
    have hl : (ctl c).hl = false := hh
    unfold end_ctl
    rw [if_neg (by rw [hl]; exact Bool.false_ne_true)]
    simp only [ctl, f1, f2, f3, f4, f5, f6, f7, e1, e2, e3, e4, e5, e6, e7, e8, e9, hs.2.2.2.2.2]
  · have e : end_of_cycle c = c := by
      unfold end_of_cycle
      rw [if_pos hh]
    have hl : (ctl c).hl = true := hh
    unfold end_ctl
    rw [if_pos hl, e]
theorem cache_read_miss_pending (s : Simulator) (ci a cid : Nat)
    (h : (cache_read s ci a cid).1.isSome = false) :
    (cache_read s ci a cid).2.bus.pending cid = true ∨
      (cache_read s ci a cid).2.bus.owner = (cid : Int) := by
  unfold cache_read at h ⊢
  dsimp only at h ⊢
  split_ifs at h ⊢ with h1 h2
  all_goals first
    | (exfalso; simp at h; done)
    | (left; simp [upd]; done)
    | (simp only [Bool.and_eq_true, Bool.not_eq_true', decide_eq_true_eq, not_and, not_not] at h2
       cases hp : s.bus.pending cid
       · exact Or.inr (h2 hp)
       · exact Or.inl rfl)

theorem cache_write_miss_pending (s : Simulator) (ci a d cid : Nat)
    (h : (cache_write s ci a d cid).1 = false) :
    (cache_write s ci a d cid).2.bus.pending cid = true ∨
      (cache_write s ci a d cid).2.bus.owner = (cid : Int) := by
  unfold cache_write at h ⊢
  dsimp only at h ⊢
  split_ifs at h ⊢ with h1 h2
  all_goals first
    | (exfalso; simp at h; done)
    | (left; simp [upd]; done)
    | (simp only [Bool.and_eq_true, Bool.not_eq_true', decide_eq_true_eq, not_and, not_not] at h2
       cases hp : s.bus.pending cid
       · exact Or.inr (h2 hp)
       · exact Or.inl rfl)

theorem memory_pull_stall_op (c : Core) (h : StallOp c) : StallOp (memory_pull c) := by
  unfold StallOp at *
  unfold memory_pull
  dsimp only
  split_ifs with h1
  · intro _ hs
    by_contra hn
    have hs' : mem_probe_stall c.cache c.pipeline.execute = true := hs
    unfold mem_probe_stall at hs'
    rw [if_neg hn] at hs'
    cases hs'
  · exact h

theorem memory_pull_core_id (c : Core) : (memory_pull c).core_id = c.core_id := by
  unfold memory_pull; dsimp only; split_ifs <;> rfl

/-- After `stage_memory` a stalled MEM slot holds a load or store whose miss has a
request pending on the bus, unless the core already owns the bus. -/
theorem stage_memory_stalled (s : Simulator) (i : Nat) (hop : StallOp (s.cores i))
    (hv : ((stage_memory s i).cores i).pipeline.mem.valid = true)
    (hs : ((stage_memory s i).cores i).pipeline.mem.internal_stall = true) :
    StallOp ((stage_memory s i).cores i) ∧
    ((stage_memory s i).bus.pending (s.cores i).core_id = true ∨
      (stage_memory s i).bus.owner = ((s.cores i).core_id : Int)) := by
  have hop' := memory_pull_stall_op _ hop
  have hid := memory_pull_core_id (s.cores i)
  revert hv hs
  unfold stage_memory
  dsimp only
  simp only [setCore_cores_same]
  by_cases hmv : (memory_pull (s.cores i)).pipeline.mem.valid = true
  · simp only [hmv, if_true]
    by_cases h16 : (memory_pull (s.cores i)).pipeline.mem.inst.opcode = 16
    · simp only [h16, if_true]
      intro hv hs
      have hmiss : (cache_read (s.setCore i (memory_pull (s.cores i))) i
          (memory_pull (s.cores i)).pipeline.mem.alu_result
          (memory_pull (s.cores i)).core_id).1.isSome = false := by
        by_contra hn
        have hn' : (cache_read (s.setCore i (memory_pull (s.cores i))) i
          (memory_pull (s.cores i)).pipeline.mem.alu_result
          (memory_pull (s.cores i)).core_id).1.isSome = true := by
          cases hc : (cache_read (s.setCore i (memory_pull (s.cores i))) i
            (memory_pull (s.cores i)).pipeline.mem.alu_result
            (memory_pull (s.cores i)).core_id).1.isSome
          · exact absurd hc hn
          · rfl
        revert hs
        simp [memory_finish, hn', setCore_cores_same]
      have hp := cache_read_miss_pending _ _ _ _ hmiss
      rw [hid] at hp
      refine ⟨?_, ?_⟩
      · intro _ _
        left
        simp only [setCore_cores_same, cache_read_cores]
        unfold memory_finish memory_stats
        dsimp only
        split_ifs <;> simp [h16]
      · simpa [Simulator.setCore, hid] using hp
    · simp only [h16, if_false]
      by_cases h17 : (memory_pull (s.cores i)).pipeline.mem.inst.opcode = 17
      · simp only [h17, if_true]
        intro hv hs
        have hmiss : (cache_write (s.setCore i (memory_pull (s.cores i))) i
            (memory_pull (s.cores i)).pipeline.mem.alu_result
            (memory_pull (s.cores i)).pipeline.mem.mem_data
            (memory_pull (s.cores i)).core_id).1 = false := by
          by_contra hn
          have hn' : (cache_write (s.setCore i (memory_pull (s.cores i))) i
            (memory_pull (s.cores i)).pipeline.mem.alu_result
            (memory_pull (s.cores i)).pipeline.mem.mem_data
            (memory_pull (s.cores i)).core_id).1 = true := by simpa using hn
          revert hs
          simp [memory_finish, hn', setCore_cores_same]
        have hp := cache_write_miss_pending _ _ _ _ _ hmiss
        rw [hid] at hp
        refine ⟨?_, ?_⟩
        · intro _ _
          right
          simp only [setCore_cores_same]
          rw [cache_write_core]
          unfold memory_finish memory_stats
          dsimp only
          split_ifs <;> simp [h17, setCore_cores_same]
        · simpa [Simulator.setCore, hid] using hp
      · simp only [h17, if_false, setCore_cores_same]
        intro hv hs
        rcases hop' hv hs with h | h
        · exact absurd h h16
        · exact absurd h h17
  · simp only [hmv, Bool.false_eq_true, if_false, setCore_cores_same]
    intro hv
    exact absurd hv (by simp)
set_option maxHeartbeats 1000000 in
theorem back_stages_mem (c : Core) :
    (end_of_cycle (stage_fetch (stage_decode (stage_execute c)))).pipeline.mem.inst
      = c.pipeline.mem.inst ∧
    (end_of_cycle (stage_fetch (stage_decode (stage_execute c)))).pipeline.mem.valid
      = c.pipeline.mem.valid ∧
    (end_of_cycle (stage_fetch (stage_decode (stage_execute c)))).pipeline.mem.internal_stall
      = c.pipeline.mem.internal_stall ∧
    (end_of_cycle (stage_fetch (stage_decode (stage_execute c)))).core_id = c.core_id := by
  have hn : ∀ c : Core, (end_of_cycle c).pipeline.mem.inst = c.pipeline.mem.inst ∧
      (end_of_cycle c).pipeline.mem.valid = c.pipeline.mem.valid ∧
      (end_of_cycle c).pipeline.mem.internal_stall = c.pipeline.mem.internal_stall ∧
      (end_of_cycle c).core_id = c.core_id := by
    intro c; unfold end_of_cycle log_cycle_trace; dsimp only
    split_ifs <;> exact ⟨rfl, rfl, rfl, rfl⟩
  have hf : ∀ c : Core, (stage_fetch c).pipeline.mem = c.pipeline.mem ∧
      (stage_fetch c).core_id = c.core_id := by
    intro c; unfold stage_fetch; dsimp only; split_ifs <;> exact ⟨rfl, rfl⟩
  have hd : ∀ c : Core, (stage_decode c).pipeline.mem = c.pipeline.mem ∧
      (stage_decode c).core_id = c.core_id := by
    intro c
    unfold stage_decode decode_body decode_pull
    dsimp only
    split_ifs <;> exact ⟨rfl, rfl⟩
  have he : ∀ c : Core, (stage_execute c).pipeline.mem = c.pipeline.mem ∧
      (stage_execute c).core_id = c.core_id := by
    intro c
    unfold stage_execute execute_body execute_pull
    dsimp only
    split_ifs <;> exact ⟨rfl, rfl⟩
  obtain ⟨n1, n2, n3, n4⟩ := hn (stage_fetch (stage_decode (stage_execute c)))
  obtain ⟨f1, f2⟩ := hf (stage_decode (stage_execute c))
  obtain ⟨d1, d2⟩ := hd (stage_execute c)
  obtain ⟨e1, e2⟩ := he c
  rw [n1, n2, n3, n4, f1, f2, d1, d2, e1, e2]
  exact ⟨rfl, rfl, rfl, rfl⟩

theorem stage_writeback_stall_op (sim : Simulator) (i : Nat) (h : StallOp (sim.cores i)) :
    StallOp ((stage_writeback sim i).cores i) ∧
    ((stage_writeback sim i).cores i).core_id = (sim.cores i).core_id := by
  obtain ⟨k, -, -, -, hinst⟩ := stage_writeback_ctl sim i
  have hv := congrArg Ctl.mv k
  have hi := congrArg Ctl.mi k
  have hcid : ((stage_writeback sim i).cores i).core_id = (sim.cores i).core_id :=
    (stage_writeback_frame sim i).cid
  refine ⟨?_, hcid⟩
  unfold StallOp at *
  rw [hinst]
  intro a b
  have a' : (ctl ((stage_writeback sim i).cores i)).mv = true := a
  have b' : (ctl ((stage_writeback sim i).cores i)).mi = true := b
  rw [hv] at a'
  rw [hi] at b'
  unfold wb_ctl at a' b'
  by_cases hg : ((ctl (sim.cores i)).mv && !(ctl (sim.cores i)).mi) = true
  · rw [if_pos hg] at a'
    cases a'
  · rw [if_neg hg] at a' b'
    exact h a' b'

/-- One `execute_core_cycle` of a running core on its control flags. -/
theorem execute_core_cycle_ctl (sim : Simulator) (i : Nat)
    (hh : (sim.cores i).halted = false) (hX : HaltFlag (sim.cores i)) :
    ∃ x st br can h : Bool,
      ctl ((execute_core_cycle sim i).cores i) = cycle_ctl (ctl (sim.cores i)) x st br can h ∧
      (st = true → (front_ctl (ctl (sim.cores i)) x).ev = true ∨
        (front_ctl (ctl (sim.cores i)) x).mv = true ∨
        (front_ctl (ctl (sim.cores i)) x).wv = true) ∧
      HaltFlag ((execute_core_cycle sim i).cores i) ∧
      ((id_ctl (front_ctl (ctl (sim.cores i)) x) st br).hf = true →
        (id_ctl (front_ctl (ctl (sim.cores i)) x) st br).bp = false →
        ((execute_core_cycle sim i).cores i).pc = (sim.cores i).pc) ∧
      ((id_ctl (front_ctl (ctl (sim.cores i)) x) st br).hf = true →
        ((execute_core_cycle sim i).cores i).pipeline.fetch =
          { (sim.cores i).pipeline.fetch with
              valid := ((execute_core_cycle sim i).cores i).pipeline.fetch.valid
              stall := ((execute_core_cycle sim i).cores i).pipeline.fetch.stall }) ∧
      (StallOp (sim.cores i) →
        StallOp ((execute_core_cycle sim i).cores i) ∧
        (((execute_core_cycle sim i).cores i).pipeline.mem.valid = true →
          ((execute_core_cycle sim i).cores i).pipeline.mem.internal_stall = true →
          (execute_core_cycle sim i).bus.pending (sim.cores i).core_id = true ∨
            (execute_core_cycle sim i).bus.owner = ((sim.cores i).core_id : Int))) := by
  obtain ⟨c1, c2⟩ := execute_core_cycle_core sim i hh
  obtain ⟨w1, w2, w3, w4, w5⟩ := stage_writeback_ctl sim i
  obtain ⟨m1, m2, m3, m4⟩ := stage_memory_ctl (stage_writeback sim i) i
  obtain ⟨e1, e2, e3, e4⟩ := stage_execute_ctl ((stage_memory (stage_writeback sim i) i).cores i)
  have hX3 : HaltFlag (stage_execute ((stage_memory (stage_writeback sim i) i).cores i)) := by
    constructor
    · rw [e2, m2, w2]
      exact hX.1
    · intro hv
      rw [e4 hv, m3, w3]
      rw [e4 hv, m3, w3] at hv
      exact hX.2 hv
  obtain ⟨st, br, d1, d2, d3, d4, d5, d6⟩ := stage_decode_ctl _ hX3
  obtain ⟨can, h, f1, f2, f3, f4⟩ := stage_fetch_ctl _ d4
  obtain ⟨n1, n2, n3, n4, n5, n6, n7⟩ := end_of_cycle_ctl
    (stage_fetch (stage_decode (stage_execute ((stage_memory (stage_writeback sim i) i).cores i))))
  have hk3 : ctl (stage_execute ((stage_memory (stage_writeback sim i) i).cores i))
      = front_ctl (ctl (sim.cores i))
          ((stage_memory (stage_writeback sim i) i).cores i).pipeline.mem.internal_stall := by
    rw [e1, m1, w1]
    rfl
  have hbus : (execute_core_cycle sim i).bus = (stage_memory (stage_writeback sim i) i).bus := by
    unfold execute_core_cycle
    simp only [hh, Bool.false_eq_true, if_false]
    rfl
  refine ⟨((stage_memory (stage_writeback sim i) i).cores i).pipeline.mem.internal_stall,
    st, br, can, h, ?_, ?_, ?_, ?_, ?_, ?_⟩
  · rw [c1, n1, f1, d1, hk3]
    rfl
  · intro hst
    have := d2 hst
    rw [← hk3]
    exact this
  · rw [c1]
    exact n2 f2
  · intro hhf hbp
    rw [← hk3, ← d1] at hhf hbp
    have hf' := f3 hhf
    rw [c1, n3 (by rw [hf']; exact hbp), hf', d3, e3, m4, w4]
  · intro hhf
    rw [← hk3, ← d1] at hhf
    have hf' := f3 hhf
    rw [c1]
    rw [n4, hf', d5, e2, m2, w2]
  · intro hop
    obtain ⟨o1, o2⟩ := stage_writeback_stall_op sim i hop
    obtain ⟨b1, b2, b3, b4⟩ := back_stages_mem ((stage_memory (stage_writeback sim i) i).cores i)
    rw [c1]
    have key : ((stage_memory (stage_writeback sim i) i).cores i).pipeline.mem.valid = true →
        ((stage_memory (stage_writeback sim i) i).cores i).pipeline.mem.internal_stall = true →
        StallOp ((stage_memory (stage_writeback sim i) i).cores i) ∧
        ((stage_memory (stage_writeback sim i) i).bus.pending (sim.cores i).core_id = true ∨
          (stage_memory (stage_writeback sim i) i).bus.owner = ((sim.cores i).core_id : Int)) := by
      intro hv hs
      have := stage_memory_stalled (stage_writeback sim i) i o1 hv hs
      rw [o2] at this
      exact this
    constructor
    · unfold StallOp
      rw [b1, b2, b3]
      intro hv hs
      exact (key hv hs).1 hv hs
    · rw [b2, b3, hbus]
      intro hv hs
      exact (key hv hs).2
/-! ## The control flags after one cycle, field by field -/

theorem wb_ctl_eq (k : Ctl) :
    wb_ctl k = { k with wv := k.mv && !k.mi, wh := (if k.mv && !k.mi then k.mh else k.wh)
                        mv := k.mv && k.mi } := by
  rcases k with ⟨fv, fs, fh, dv, di, ds, dh, ev, es, eh, mv, mi, mh, wv, wh, hf, hl, bp⟩
  cases mv <;> cases mi <;> rfl

theorem mem_ctl_eq (k : Ctl) (x : Bool) :
    mem_ctl k x =
      { k with mv := k.mv || (k.ev && !k.es)
               mi := (if k.mv || (k.ev && !k.es) then x else k.mi)
               mh := (if !k.mv && k.ev && !k.es then k.eh else k.mh)
               ev := k.ev && (k.mv || k.es) } := by
  rcases k with ⟨fv, fs, fh, dv, di, ds, dh, ev, es, eh, mv, mi, mh, wv, wh, hf, hl, bp⟩
  cases mv <;> cases ev <;> cases es <;> rfl

theorem ex_ctl_eq (k : Ctl) :
    ex_ctl k =
      { k with ev := k.ev || (k.dv && !k.di)
               eh := (if !k.ev && k.dv && !k.di then k.dh else k.eh)
               dv := k.dv && (k.ev || k.di) } := by
  rcases k with ⟨fv, fs, fh, dv, di, ds, dh, ev, es, eh, mv, mi, mh, wv, wh, hf, hl, bp⟩
  cases ev <;> cases dv <;> cases di <;> rfl

theorem id_pull_ctl_eq (k : Ctl) :
    id_pull_ctl k =
      { k with dv := k.dv || (k.fv && !k.fs)
               dh := (if !k.dv && k.fv && !k.fs then k.fh else k.dh)
               fv := k.fv && (k.dv || k.fs) } := by
  rcases k with ⟨fv, fs, fh, dv, di, ds, dh, ev, es, eh, mv, mi, mh, wv, wh, hf, hl, bp⟩
  cases dv <;> cases fv <;> cases fs <;> rfl

theorem id_body_eq (k : Ctl) (st br : Bool) :
    (if k.dv then
      if st then { k with di := true }
      else if k.dh then { k with di := false, dh := true, fv := false, hf := true }
      else { k with di := false, bp := k.bp || br }
    else k) =
      { k with di := (if k.dv then st else k.di)
               fv := k.fv && !(k.dv && !st && k.dh)
               hf := k.hf || (k.dv && !st && k.dh)
               bp := k.bp || (k.dv && !st && !k.dh && br) } := by
  rcases k with ⟨fv, fs, fh, dv, di, ds, dh, ev, es, eh, mv, mi, mh, wv, wh, hf, hl, bp⟩
  cases dv <;> cases st <;> cases dh <;> cases fv <;> cases hf <;> cases bp <;> cases br <;> rfl

theorem id_ctl_eq (k : Ctl) (st br : Bool) :
    id_ctl k st br =
      { id_pull_ctl k with
          di := (if (id_pull_ctl k).dv then st else (id_pull_ctl k).di)
          fv := (id_pull_ctl k).fv && !((id_pull_ctl k).dv && !st && (id_pull_ctl k).dh)
          hf := (id_pull_ctl k).hf || ((id_pull_ctl k).dv && !st && (id_pull_ctl k).dh)
          bp := (id_pull_ctl k).bp ||
            ((id_pull_ctl k).dv && !st && !(id_pull_ctl k).dh && br) } := by
  unfold id_ctl
  exact id_body_eq (id_pull_ctl k) st br

theorem if_ctl_eq (k : Ctl) (can h : Bool) :
    if_ctl k can h =
      { k with fv := k.fv || (!(k.hl || k.hf) && !k.ds && can)
               fh := (if !(k.hl || k.hf) && !k.ds && !k.fv && can then h else k.fh) } := by
  rcases k with ⟨fv, fs, fh, dv, di, ds, dh, ev, es, eh, mv, mi, mh, wv, wh, hf, hl, bp⟩
  cases hl <;> cases hf <;> cases ds <;> cases fv <;> cases can <;> rfl

theorem end_ctl_eq (k : Ctl) (hl : k.hl = false) :
    end_ctl k =
      { k with bp := false, es := k.mi, ds := (k.ev && k.mi) || k.di
               fs := k.dv && ((k.ev && k.mi) || k.di), hl := k.wv && k.wh } := by
  unfold end_ctl
  rw [if_neg (by rw [hl]; exact Bool.false_ne_true)]

theorem front_ctl_hl (k : Ctl) (x : Bool) : (front_ctl k x).hl = k.hl := by
  simp only [front_ctl, ex_ctl_eq, mem_ctl_eq, wb_ctl_eq]

theorem cycle_ctl_eq (k : Ctl) (x st br can h : Bool) (hl : k.hl = false) :
    cycle_ctl k x st br can h =
      { if_ctl (id_ctl (front_ctl k x) st br) can h with
          bp := false
          es := (if_ctl (id_ctl (front_ctl k x) st br) can h).mi
          ds := ((if_ctl (id_ctl (front_ctl k x) st br) can h).ev &&
              (if_ctl (id_ctl (front_ctl k x) st br) can h).mi) ||
            (if_ctl (id_ctl (front_ctl k x) st br) can h).di
          fs := (if_ctl (id_ctl (front_ctl k x) st br) can h).dv &&
            (((if_ctl (id_ctl (front_ctl k x) st br) can h).ev &&
              (if_ctl (id_ctl (front_ctl k x) st br) can h).mi) ||
            (if_ctl (id_ctl (front_ctl k x) st br) can h).di)
          hl := (if_ctl (id_ctl (front_ctl k x) st br) can h).wv &&
            (if_ctl (id_ctl (front_ctl k x) st br) can h).wh } := by
  have : (if_ctl (id_ctl (front_ctl k x) st br) can h).hl = false := by
    rw [if_ctl_eq, id_ctl_eq, id_pull_ctl_eq]
    rw [← hl, ← front_ctl_hl k x]
  exact end_ctl_eq _ this
/-- The control invariant through one cycle of a core that has decoded a HALT and
is not halted; `mb` is the MEM `internal_stall` the bus left. -/
theorem ctl_inv_halt_cycle (k : Ctl) (mb x st br can h : Bool) (hk : ctl_inv k = true)
    (hhf : k.hf = true) (hl : k.hl = false) (hmb : (!mb || k.mi) = true)
    (hst : stall_ok (front_ctl { k with mi := mb } x) st = true) :
    (ctl_inv (cycle_ctl { k with mi := mb } x st br can h) &&
      (cycle_ctl { k with mi := mb } x st br can h).hf &&
      (id_ctl (front_ctl { k with mi := mb } x) st br).hf &&
      !(id_ctl (front_ctl { k with mi := mb } x) st br).bp &&
      !(front_ctl { k with mi := mb } x).fv) = true := by
  rcases k with ⟨fv, fs, fh, dv, di, ds, dh, ev, es, eh, mv, mi, mh, wv, wh, hf, hl', bp⟩
  simp only at hhf hl hmb
  subst hhf hl
  have hfv : fv = false := by
    revert hk
    cases fv
    · intro _; rfl
    · simp [ctl_inv]
  have hbp : bp = false := by
    revert hk
    cases bp
    · intro _; rfl
    · simp [ctl_inv]
  subst hfv hbp
  rw [cycle_ctl_eq _ _ _ _ _ _ rfl]
  unfold ctl_inv stall_ok at *
  simp only [if_ctl_eq, id_ctl_eq, id_pull_ctl_eq, front_ctl, ex_ctl_eq, mem_ctl_eq,
    wb_ctl_eq] at hst ⊢
  simp only [Bool.false_and, Bool.and_false, Bool.or_true, Bool.not_true, Bool.or_false,
    Bool.false_or, Bool.true_or, Bool.false_eq_true, if_false, Bool.true_and, Bool.and_true,
    Bool.not_false] at hk hst ⊢
  have e1 : ∀ c a b : Bool, (c && if c = true then a else b) = (c && a) := by decide
  have e2 : ∀ y c a b : Bool, (y && c && if c = true then a else b) = (y && c && a) := by
    decide
  simp only [e1, e2] at hk hst ⊢
  have hdh : (!dv || dh) = true := by
    clear hst hmb
    revert hk
    revert dv dh ev eh mv mi mh
    decide
  have hb : (!(dv && (ev && (mv && mb || es) || di) && !st && !dh && br)) = true := by
    clear hk hst hmb
    revert hdh
    revert dv di dh ev es mv mb st br
    decide
  rw [hb, Bool.and_true]
  clear hb hdh
  revert hk hmb hst
  revert dv di dh ev es eh mv mi mh mb x st
  decide
/-- Clearing the MEM `internal_stall` (what the bus may do) keeps the control
invariant. -/
theorem ctl_inv_bus (k : Ctl) (mb : Bool) (hk : ctl_inv k = true) (hmb : (!mb || k.mi) = true) :
    ctl_inv { k with mi := mb } = true := by
  rcases k with ⟨fv, fs, fh, dv, di, ds, dh, ev, es, eh, mv, mi, mh, wv, wh, hf, hl, bp⟩
  simp only at hmb
  cases mb
  · unfold ctl_inv at hk ⊢
    simp only [Bool.not_false, Bool.or_true, Bool.and_true] at hk ⊢
    simp only [Bool.and_eq_true] at hk ⊢
    exact ⟨⟨hk.1.1.1, hk.1.2⟩, hk.2⟩
  · simp only [Bool.not_true, Bool.false_or] at hmb
    subst hmb
    exact hk

theorem ctl_inv_front (k : Ctl) (hk : ctl_inv k = true) (hhf : k.hf = false) :
    ((k.mv || !k.mi) && (!(k.dv && k.dh) || k.di) && (!k.ev || !k.eh) && (!k.mv || !k.mh))
      = true := by
  rcases k with ⟨fv, fs, fh, dv, di, ds, dh, ev, es, eh, mv, mi, mh, wv, wh, hf, hl', bp⟩
  simp only at hhf
  subst hhf
  unfold ctl_inv at hk
  simp only [Bool.false_and, Bool.and_false, Bool.or_true, Bool.not_true, Bool.or_false,
    Bool.false_or, Bool.true_or, Bool.false_eq_true, if_false, Bool.true_and, Bool.and_true,
    Bool.not_false] at hk ⊢
  revert hk
  revert bp dv di dh ev eh mv mi mh hl'
  decide

theorem cycle_ctl_mem_ok (k : Ctl) (mb x st br can h : Bool) (hl : k.hl = false)
    (hk : (k.mv || !k.mi) = true) (hmb : (!mb || k.mi) = true) :
    ((cycle_ctl { k with mi := mb } x st br can h).mv ||
      !(cycle_ctl { k with mi := mb } x st br can h).mi) = true := by
  rcases k with ⟨fv, fs, fh, dv, di, ds, dh, ev, es, eh, mv, mi, mh, wv, wh, hf, hl', bp⟩
  simp only at hl hk hmb
  subst hl
  rw [cycle_ctl_eq _ _ _ _ _ _ rfl]
  simp only [if_ctl_eq, id_ctl_eq, id_pull_ctl_eq, front_ctl, ex_ctl_eq, mem_ctl_eq,
    wb_ctl_eq]
  revert hk hmb
  revert ev es mv mi mb x
  decide

theorem cycle_ctl_back_ok (k : Ctl) (mb x st br can h : Bool) (hl : k.hl = false)
    (hk : ((k.mv || !k.mi) && (!(k.dv && k.dh) || k.di) && (!k.ev || !k.eh) &&
      (!k.mv || !k.mh)) = true) (hmb : (!mb || k.mi) = true) :
    ((!(cycle_ctl { k with mi := mb } x st br can h).ev ||
        !(cycle_ctl { k with mi := mb } x st br can h).eh) &&
      (!(cycle_ctl { k with mi := mb } x st br can h).mv ||
        !(cycle_ctl { k with mi := mb } x st br can h).mh) &&
      !(cycle_ctl { k with mi := mb } x st br can h).hl) = true := by
  rcases k with ⟨fv, fs, fh, dv, di, ds, dh, ev, es, eh, mv, mi, mh, wv, wh, hf, hl', bp⟩
  simp only at hl hk hmb
  subst hl
  have e1 : ∀ c a b : Bool, (c && if c = true then a else b) = (c && a) := by decide
  rw [cycle_ctl_eq _ _ _ _ _ _ rfl]
  simp only [if_ctl_eq, id_ctl_eq, id_pull_ctl_eq, front_ctl, ex_ctl_eq, mem_ctl_eq,
    wb_ctl_eq]
  simp only [e1]
  revert hk hmb
  revert dv di dh ev es eh mv mi mh mb
  decide

theorem cycle_ctl_decode_ok (k : Ctl) (mb x st br can h : Bool) (hl : k.hl = false)
    (hhf : k.hf = false) :
    ((cycle_ctl { k with mi := mb } x st br can h).hf ||
      (!((cycle_ctl { k with mi := mb } x st br can h).dv &&
          (cycle_ctl { k with mi := mb } x st br can h).dh) ||
        (cycle_ctl { k with mi := mb } x st br can h).di)) = true ∧
    (!(cycle_ctl { k with mi := mb } x st br can h).hf ||
      (!(cycle_ctl { k with mi := mb } x st br can h).fv &&
        (cycle_ctl { k with mi := mb } x st br can h).dv &&
        (cycle_ctl { k with mi := mb } x st br can h).dh)) = true ∧
    (cycle_ctl { k with mi := mb } x st br can h).bp = false := by
  rcases k with ⟨fv, fs, fh, dv, di, ds, dh, ev, es, eh, mv, mi, mh, wv, wh, hf, hl', bp⟩
  simp only at hl hhf
  subst hl hhf
  rw [cycle_ctl_eq _ _ _ _ _ _ rfl]
  simp only [if_ctl_eq, id_ctl_eq, id_pull_ctl_eq, front_ctl, ex_ctl_eq, mem_ctl_eq,
    wb_ctl_eq]
  simp only [Bool.false_or]
  refine ⟨?_, ?_, trivial⟩
  · revert fv fs fh dv di dh ev es mv mb st
    decide
  · revert fv fs fh ds dv di dh ev es mv mb st can
    decide

/-- The control invariant through one cycle of a running core that has not yet
decoded a HALT. -/
theorem ctl_inv_run_cycle (k : Ctl) (mb x st br can h : Bool) (hk : ctl_inv k = true)
    (hhf : k.hf = false) (hl : k.hl = false) (hmb : (!mb || k.mi) = true) :
    ctl_inv (cycle_ctl { k with mi := mb } x st br can h) = true := by
  have hk1 := ctl_inv_front k hk hhf
  have hk0 : (k.mv || !k.mi) = true := by
    simp only [Bool.and_eq_true] at hk1
    exact hk1.1.1.1
  have E1 := cycle_ctl_mem_ok k mb x st br can h hl hk0 hmb
  have E2 := cycle_ctl_back_ok k mb x st br can h hl hk1 hmb
  obtain ⟨D1, D2, B⟩ := cycle_ctl_decode_ok k mb x st br can h hl hhf
  generalize cycle_ctl { k with mi := mb } x st br can h = k6 at E1 E2 D1 D2 B ⊢
  rcases k6 with ⟨fv6, fs6, fh6, dv6, di6, ds6, dh6, ev6, es6, eh6, mv6, mi6, mh6, wv6, wh6, hf6,
    hl6, bp6⟩
  simp only at E1 E2 D1 D2 B
  subst B
  unfold ctl_inv
  simp only [Bool.and_eq_true, Bool.or_eq_true, Bool.not_eq_true'] at E1 E2 D1 D2 ⊢
  obtain ⟨⟨a1, a2⟩, a3⟩ := E2
  cases hf6
  · simp only [Bool.false_eq_true, false_or, false_and, or_false, and_false] at D1 ⊢
    simp only [Bool.not_false, Bool.true_eq_false, or_true, Bool.false_eq_true, false_or,
      and_true, true_and] at D1 ⊢
    exact ⟨⟨E1, ⟨⟨⟨D1, a1⟩, a2⟩, a3⟩⟩, Or.inl trivial⟩
  · simp only [Bool.true_eq_false, false_or, true_or] at D2
    obtain ⟨⟨d1, d2⟩, d3⟩ := D2
    subst d1 d2 d3
    simp only [Bool.not_true, Bool.not_false, Bool.true_eq_false, Bool.false_eq_true, true_and,
      false_and, and_true, or_false, true_or, and_false, false_or, or_true]
    exact ⟨E1, ⟨a1, a2⟩, a3⟩
/-! ## The bus and a stalled MEM slot -/

theorem StallKept.sk_refl (c : Core) : StallKept c c := fun h => h

theorem StallKept.sk_trans {a b c : Core} (h1 : StallKept a b) (h2 : StallKept b c) :
    StallKept a c := fun h => h1 (h2 h)

theorem cache_snoop_stall (sim : Simulator) (t : BusTransaction) (j k : Nat) :
    StallKept (sim.cores k) ((cache_snoop sim t j).1.cores k) := by
  by_cases hk : k = j
  · subst hk
    simp only [cache_snoop]
    split_ifs <;> first
      | exact StallKept.sk_refl _
      | (simp only [Simulator.setCache, upd_same]; exact fun h => h)
  · rw [(cache_snoop_others sim t j).1 k hk]
    exact StallKept.sk_refl _

theorem snoop_loop_stall (l : List Nat) (sim : Simulator) (t : BusTransaction) (k : Nat) :
    StallKept (sim.cores k) ((snoop_loop sim t l).1.cores k) := by
  induction l generalizing sim t with
  | nil => exact StallKept.sk_refl _
  | cons i rest ih =>
    simp only [snoop_loop]
    split_ifs
    · exact (cache_snoop_stall sim t i k).sk_trans (ih _ _)
    · exact ih _ _

theorem bus_request_step_stall (s : Simulator) (k : Nat) :
    StallKept (s.cores k) ((bus_request_step s).1.cores k) := by
  have hb : bus_request_step s = request_finish
    (snoop_loop { s with bus := { s.bus with provider_id := 4 } }
      { s.bus.pending_trans s.bus.owner.toNat with shared := false } [0, 1, 2, 3]).1
    (snoop_loop { s with bus := { s.bus with provider_id := 4 } }
      { s.bus.pending_trans s.bus.owner.toNat with shared := false } [0, 1, 2, 3]).2 := rfl
  rw [hb, (request_finish_spec _ _).2.1]
  exact snoop_loop_stall [0, 1, 2, 3] { s with bus := { s.bus with provider_id := 4 } } _ k

theorem cache_handle_bus_response_stall (sim : Simulator) (t : BusTransaction) (j k : Nat) :
    StallKept (sim.cores k) ((cache_handle_bus_response sim t j).cores k) := by
  by_cases hk : k = j
  · subst hk
    simp only [cache_handle_bus_response]
    split_ifs <;> first
      | exact StallKept.sk_refl _
      | (simp only [Simulator.setCache, Simulator.setCore, upd_same]; intro h; first | exact h | cases h)
  · rw [(cache_handle_bus_response_frame sim t j).2.2.2 k hk]
    exact StallKept.sk_refl _

theorem bus_flush_step_stall (s : Simulator) (k : Nat) :
    StallKept (s.cores k) ((bus_flush_step s).1.cores k) := by
  obtain ⟨s1, h1, -, e⟩ := bus_flush_step_cores s k
  rw [e]
  split_ifs
  · have := cache_handle_bus_response_stall s1 (flush_word s.bus) k k
    rw [h1] at this
    exact this
  · exact StallKept.sk_refl _

/-- `bus_cycle` never sets the MEM `internal_stall` of a core. -/
theorem bus_cycle_stall (s : Simulator) (k : Nat) :
    StallKept (s.cores k) ((bus_cycle s).cores k) := by
  unfold bus_cycle
  cases hst : s.bus.state with
  | IDLE =>
    rw [bus_cycle_out_idle s hst]
    split_ifs <;> exact StallKept.sk_refl _
  | ARBITRATE =>
    rw [bus_cycle_out_arbitrate s hst]
    exact bus_request_step_stall _ k
  | REQUEST =>
    rw [bus_cycle_out_request s hst]
    exact bus_request_step_stall _ k
  | LATENCY =>
    by_cases ht : 0 < s.bus.timer
    · rw [bus_cycle_out_latency_wait s hst ht]
      exact StallKept.sk_refl _
    · rw [bus_cycle_out_latency_done s hst ht]
      exact bus_flush_step_stall _ k
  | FLUSH =>
    rw [bus_cycle_out_flush s hst]
    exact bus_flush_step_stall _ k

/-- The control flags of a core after `bus_cycle`: only `mi` may differ, and only
by being cleared. -/
theorem bus_cycle_ctl (s : Simulator) (k : Nat) :
    ctl ((bus_cycle s).cores k)
      = { ctl (s.cores k) with mi := ((bus_cycle s).cores k).pipeline.mem.internal_stall } ∧
    (!((bus_cycle s).cores k).pipeline.mem.internal_stall ||
      (s.cores k).pipeline.mem.internal_stall) = true ∧
    HaltFlagKept (s.cores k) ((bus_cycle s).cores k) := by
  have ht := bus_cycle_touch s k
  have hs := bus_cycle_stall s k
  refine ⟨?_, ?_, ?_⟩
  · unfold BusTouch at ht
    rw [ht]
    rfl
  · unfold StallKept at hs
    cases h : ((bus_cycle s).cores k).pipeline.mem.internal_stall
    · rfl
    · rw [hs h]
      rfl
  · unfold BusTouch at ht
    unfold HaltFlagKept
    rw [ht]
    exact ⟨rfl, rfl, rfl, rfl, rfl, rfl, rfl, rfl⟩
theorem bus_arbitrate_first (bus : BusArbiter) (g : Nat) (hlg : bus.last_granted = (g : Int)) :
    (∀ k, k < 4 → bus.pending ((g + 1 + k) % 4) = false) ∨
    ∃ k, k < 4 ∧ bus.pending ((g + 1 + k) % 4) = true ∧
      (∀ k', k' < k → bus.pending ((g + 1 + k') % 4) = false) ∧
      bus_arbitrate bus =
        { bus with
            owner := (((g + 1 + k) % 4 : Nat) : Int)
            last_granted := (((g + 1 + k) % 4 : Nat) : Int)
            current := bus.pending_trans ((g + 1 + k) % 4)
            pending := upd bus.pending ((g + 1 + k) % 4) false } := by
  have grant := bus_arbitrate_grant bus g hlg
  by_cases h0 : bus.pending ((g + 1 + 0) % 4) = true
  · exact Or.inr ⟨0, by omega, h0, by intro k hk; omega, grant 0 (by omega) h0 (by intro k hk; omega)⟩
  by_cases h1 : bus.pending ((g + 1 + 1) % 4) = true
  · have hm : ∀ k', k' < 1 → bus.pending ((g + 1 + k') % 4) = false := by
      intro k hk
      have : k = 0 := by omega
      subst this
      simpa using h0
    exact Or.inr ⟨1, by omega, h1, hm, grant 1 (by omega) h1 hm⟩
  by_cases h2 : bus.pending ((g + 1 + 2) % 4) = true
  · have hm : ∀ k', k' < 2 → bus.pending ((g + 1 + k') % 4) = false := by
      intro k hk
      have : k = 0 ∨ k = 1 := by omega
      rcases this with rfl | rfl
      · simpa using h0
      · simpa using h1
    exact Or.inr ⟨2, by omega, h2, hm, grant 2 (by omega) h2 hm⟩
  by_cases h3 : bus.pending ((g + 1 + 3) % 4) = true
  · have hm : ∀ k', k' < 3 → bus.pending ((g + 1 + k') % 4) = false := by
      intro k hk
      have : k = 0 ∨ k = 1 ∨ k = 2 := by omega
      rcases this with rfl | rfl | rfl
      · simpa using h0
      · simpa using h1
      · simpa using h2
    exact Or.inr ⟨3, by omega, h3, hm, grant 3 (by omega) h3 hm⟩
  left
  intro k hk
  have : k = 0 ∨ k = 1 ∨ k = 2 ∨ k = 3 := by omega
  rcases this with rfl | rfl | rfl | rfl
  · simpa using h0
  · simpa using h1
  · simpa using h2
  · simpa using h3

/-- The last Flush word clears the `internal_stall` of the owner's MEM slot. -/
theorem bus_flush_step_done (s : Simulator) (i : Nat) (hi : i < 4)
    (ho : s.bus.owner = (i : Int)) (ht : s.bus.timer = 1) :
    ((bus_flush_step s).1.cores i).pipeline.mem.internal_stall = false := by
  obtain ⟨s1, h1, h2, e⟩ := bus_flush_step_cores s i
  rw [e, if_pos ⟨hi, ho⟩]
  have ho1 : s1.bus.owner = (i : Int) := by
    rw [h2, (add_bus_trace_entry_frame _ _ _).2.2.1]
    exact ho
  have hoff : get_block_offset (flush_word s.bus).addr = 7 := by
    have := (flush_addr_decode (s.bus.pending_trans s.bus.owner.toNat).addr 1 (by omega)
      (by omega)).2.2.1
    unfold flush_word
    dsimp only
    rw [ht]
    rw [this]
    rfl
  have hcmd : (flush_word s.bus).cmd = BusCommand.FLUSH := rfl
  unfold cache_handle_bus_response
  rw [if_neg (by rw [hcmd]; exact fun h => h rfl), if_pos ho1]
  dsimp only
  rw [if_pos hoff]
  simp [Simulator.setCore]

/-- `bus_cycle` keeps the two auxiliary arbiter facts. -/
theorem BusAux.bus_cycle_ {s : Simulator} (hinv : CohInv s) (haux : BusAux s) :
    BusAux (bus_cycle s) := by
  cases hst : s.bus.state with
  | IDLE =>
    unfold bus_cycle
    rw [bus_cycle_out_idle s hst]
    split_ifs with h
    · exact ⟨fun h' => (by cases h'), fun h' => (by cases h')⟩
    · have ho : (bus_arbitrate { s.bus with owner := -1 }).owner = -1 := by
        by_contra hn
        exact h hn
      refine ⟨fun _ => ho, fun h' => ?_⟩
      rcases bus_arbitrate_cases { s.bus with owner := -1 } hinv.lg with e | ⟨c, -, -, e⟩
      · rw [e] at h'
        rw [hst] at h'
        cases h'
      · rw [e] at h'
        rw [hst] at h'
        cases h'
  | ARBITRATE =>
    rcases (BusTxn.grant_request_ s (Or.inl hst)).1 with t | t
    · exact ⟨fun h => (by rw [t.state] at h; cases h), fun h => (by rw [t.state] at h; cases h)⟩
    · refine ⟨fun h => (by rw [t.state] at h; cases h), fun _ => ?_⟩
      rw [t.timer]
      omega
  | REQUEST =>
    rcases (BusTxn.grant_request_ s (Or.inr hst)).1 with t | t
    · exact ⟨fun h => (by rw [t.state] at h; cases h), fun h => (by rw [t.state] at h; cases h)⟩
    · refine ⟨fun h => (by rw [t.state] at h; cases h), fun _ => ?_⟩
      rw [t.timer]
      omega
  | LATENCY =>
    have hb := haux.2 hst
    unfold bus_cycle
    by_cases ht : 0 < s.bus.timer
    · rw [bus_cycle_out_latency_wait s hst ht]
      refine ⟨fun h => ?_, fun _ => ?_⟩
      · rw [hst] at h
        cases h
      · show 0 ≤ s.bus.timer - 1 ∧ s.bus.timer - 1 ≤ 15
        omega
    · rw [bus_cycle_out_latency_done s hst ht]
      obtain ⟨-, b2, b3, b4, -⟩ := bus_flush_step_bus
        { s with bus := { s.bus with state := BusState.FLUSH, timer := 8 } }
      refine ⟨fun h => ?_, fun h => ?_⟩
      · rw [b3] at h
        simp at h
      · rw [b3] at h
        simp at h
  | FLUSH =>
    unfold bus_cycle
    rw [bus_cycle_out_flush s hst]
    obtain ⟨-, b2, b3, b4, -⟩ := bus_flush_step_bus s
    refine ⟨fun h => ?_, fun h => ?_⟩
    · rw [b4]
      rw [b3] at h
      split_ifs at h ⊢ with h0
      · rfl
      · rw [hst] at h
        cases h
    · rw [b3] at h
      split_ifs at h with h0
      rw [hst] at h
      cases h

/-- While the MEM slot of core `i` stays stalled through a `bus_cycle`, its bus
wait decreases and its request stays pending or granted. -/
theorem bus_cycle_wait (s : Simulator) (i : Nat) (hi : i < 4) (hinv : CohInv s)
    (haux : BusAux s)
    (hJ : s.bus.pending i = true ∨ s.bus.owner = (i : Int))
    (hstall : ((bus_cycle s).cores i).pipeline.mem.internal_stall = true) :
    bus_wait (bus_cycle s).bus i < bus_wait s.bus i ∧
    ((bus_cycle s).bus.pending i = true ∨ (bus_cycle s).bus.owner = (i : Int)) := by
  obtain ⟨hlg0, hlg3⟩ := hinv.lg
  cases hst : s.bus.state with
  | IDLE =>
    have ho := haux.1 hst
    have hp : s.bus.pending i = true := by
      rcases hJ with h | h
      · exact h
      · rw [ho] at h
        omega
    have hg : ({ s.bus with owner := -1 } : BusArbiter).last_granted
        = ((s.bus.last_granted.toNat : Nat) : Int) := by
      show s.bus.last_granted = _
      omega
    have hi0 : (s.bus.last_granted.toNat + 1 + (i + 3 - s.bus.last_granted.toNat) % 4) % 4 = i := by
      omega
    rcases bus_arbitrate_first { s.bus with owner := -1 } s.bus.last_granted.toNat hg with
      hnone | ⟨k, hk, hpk, hmin, e⟩
    · have := hnone ((i + 3 - s.bus.last_granted.toNat) % 4) (Nat.mod_lt _ (by omega))
      rw [hi0] at this
      rw [show ({ s.bus with owner := -1 } : BusArbiter).pending i = s.bus.pending i from rfl,
        hp] at this
      cases this
    · have hkle : k ≤ (i + 3 - s.bus.last_granted.toNat) % 4 := by
        by_contra hn
        have := hmin ((i + 3 - s.bus.last_granted.toNat) % 4) (by omega)
        rw [hi0] at this
        rw [show ({ s.bus with owner := -1 } : BusArbiter).pending i = s.bus.pending i from rfl,
          hp] at this
        cases this
      have hb : (bus_cycle s).bus =
          { bus_arbitrate { s.bus with owner := -1 } with state := BusState.ARBITRATE } := by
        unfold bus_cycle
        rw [bus_cycle_out_idle s hst]
        rw [if_pos (by rw [e]; show (((s.bus.last_granted.toNat + 1 + k) % 4 : Nat) : Int) ≠ -1; omega)]
      rw [hb, e]
      constructor
      · unfold bus_wait bus_rem rr_dist
        simp only [hst, ho]
        rw [if_neg (show ¬ ((-1 : Int) = (i : Int)) by omega)]
        split_ifs with hc
        · omega
        · have hc' : (s.bus.last_granted.toNat + 1 + k) % 4 ≠ i := by
            intro h
            apply hc
            rw [h]
          have e1 : ((((s.bus.last_granted.toNat + 1 + k) % 4 : Nat) : Int)).toNat
              = (s.bus.last_granted.toNat + 1 + k) % 4 := by omega
          rw [e1]
          omega
      · by_cases hc : (s.bus.last_granted.toNat + 1 + k) % 4 = i
        · right
          show (((s.bus.last_granted.toNat + 1 + k) % 4 : Nat) : Int) = (i : Int)
          rw [hc]
        · left
          show upd s.bus.pending ((s.bus.last_granted.toNat + 1 + k) % 4) false i = true
          rw [upd_other _ _ _ _ (fun h => hc h.symm)]
          exact hp
  | ARBITRATE =>
    obtain ⟨t, -, -, p1, -, p3⟩ := BusTxn.grant_request_ s (Or.inl hst)
    refine ⟨?_, ?_⟩
    · unfold bus_wait bus_rem rr_dist
      rcases t with t | t <;> simp only [t.state, t.timer, t.owner, hst, p3] <;>
        split_ifs <;> omega
    · rw [p1]
      rcases t with t | t <;> rw [t.owner] <;> exact hJ
  | REQUEST =>
    obtain ⟨t, -, -, p1, -, p3⟩ := BusTxn.grant_request_ s (Or.inr hst)
    refine ⟨?_, ?_⟩
    · unfold bus_wait bus_rem rr_dist
      rcases t with t | t <;> simp only [t.state, t.timer, t.owner, hst, p3] <;>
        split_ifs <;> omega
    · rw [p1]
      rcases t with t | t <;> rw [t.owner] <;> exact hJ
  | LATENCY =>
    have hb := haux.2 hst
    obtain ⟨n1, -, n3⟩ := bus_cycle_no_arbitration s (by rw [hst]; exact fun h => by cases h)
    unfold bus_cycle at hstall n1 n3 ⊢
    by_cases ht : 0 < s.bus.timer
    · rw [bus_cycle_out_latency_wait s hst ht] at hstall n1 n3 ⊢
      refine ⟨?_, hJ⟩
      unfold bus_wait bus_rem rr_dist
      simp only [hst]
      split_ifs <;> omega
    · rw [bus_cycle_out_latency_done s hst ht] at hstall n1 n3 ⊢
      obtain ⟨-, b2, b3, b4, -⟩ := bus_flush_step_bus
        { s with bus := { s.bus with state := BusState.FLUSH, timer := 8 } }
      have b3' : (bus_flush_step
          { s with bus := { s.bus with state := BusState.FLUSH, timer := 8 } }).1.bus.state
          = BusState.FLUSH := by rw [b3]; simp
      have b4' : (bus_flush_step
          { s with bus := { s.bus with state := BusState.FLUSH, timer := 8 } }).1.bus.owner
          = s.bus.owner := by rw [b4]; simp
      have b2' : (bus_flush_step
          { s with bus := { s.bus with state := BusState.FLUSH, timer := 8 } }).1.bus.timer
          = 7 := by rw [b2]; rfl
      refine ⟨?_, ?_⟩
      · unfold bus_wait bus_rem rr_dist
        simp only [hst, b3', b4', b2', n3]
        split_ifs <;> omega
      · rw [n1, b4']
        exact hJ
  | FLUSH =>
    have hb := hinv.fl hst
    obtain ⟨n1, -, n3⟩ := bus_cycle_no_arbitration s (by rw [hst]; exact fun h => by cases h)
    unfold bus_cycle at hstall n1 n3 ⊢
    rw [bus_cycle_out_flush s hst] at hstall n1 n3 ⊢
    obtain ⟨-, b2, b3, b4, -⟩ := bus_flush_step_bus s
    by_cases h1 : s.bus.timer = 1
    · have hno : s.bus.owner ≠ (i : Int) := by
        intro ho
        rw [bus_flush_step_done s i hi ho h1] at hstall
        cases hstall
      have hp : s.bus.pending i = true := by
        rcases hJ with h | h
        · exact h
        · exact absurd h hno
      rw [if_pos (by omega)] at b3 b4
      refine ⟨?_, Or.inl (by rw [n1]; exact hp)⟩
      unfold bus_wait bus_rem rr_dist
      simp only [hst, b3, b4, n3]
      rw [if_neg hno, if_neg (show ¬ ((-1 : Int) = (i : Int)) by omega)]
      omega
    · rw [if_neg (by omega)] at b3 b4
      refine ⟨?_, by rw [n1, b4]; exact hJ⟩
      unfold bus_wait bus_rem rr_dist
      simp only [hst, b3, b4, b2, n3]
      split_ifs <;> omega
/-! ## The HALT invariant through a global cycle -/

theorem HaltInv.halt_init_ (imems : Nat → Nat → Nat) (memin : Nat → Nat) (i : Nat) :
    HaltInv (load_images imems memin) i :=
  ⟨rfl, ⟨fun h => (by cases h), fun h => (by cases h)⟩, fun h => (by cases h), fun _ => rfl,
    fun h => (by cases h), ⟨fun _ => rfl, fun h => (by cases h)⟩⟩

theorem HaltInv.halt_bus_ {s : Simulator} {i : Nat} (h : HaltInv s i) (hi : i < 4) (hinv : CohInv s) :
    HaltInv (bus_cycle s) i := by
  obtain ⟨k1, k2, k3⟩ := bus_cycle_ctl s i
  obtain ⟨f1, f2, f3, f4, f5, f6, f7, f8⟩ := k3
  have hmono : ((bus_cycle s).cores i).pipeline.mem.internal_stall = true →
      (s.cores i).pipeline.mem.internal_stall = true := bus_cycle_stall s i
  refine ⟨?_, ?_, ?_, ?_, ?_, BusAux.bus_cycle_ hinv h.aux⟩
  · rw [k1]
    exact ctl_inv_bus _ _ h.flags k2
  · unfold HaltFlag
    rw [f1, f2]
    exact h.flag
  · unfold StallOp
    rw [f7, f8]
    intro hv hs
    exact h.op hv (hmono hs)
  · intro j
    rw [(bus_cycle_ctl s j).2.2.2.2.2.2.2.1]
    exact h.ids j
  · intro hv hs
    rw [f8] at hv
    exact (bus_cycle_wait s i hi hinv h.aux (h.req hv (hmono hs)) hs).2

theorem HaltInv.other_ {s : Simulator} {i : Nat} (h : HaltInv s i) (j : Nat) (hj : j ≠ i) :
    HaltInv (execute_core_cycle s j) i := by
  have f := execute_core_cycle_frame s j
  have hc : (execute_core_cycle s j).cores i = s.cores i := f.others i (fun e => hj e.symm)
  have hb := f.bus
  rw [h.ids j] at hb
  refine ⟨by rw [hc]; exact h.flags, by rw [hc]; exact h.flag, by rw [hc]; exact h.op, ?_, ?_, ?_⟩
  · intro m
    by_cases hm : m = j
    · subst hm
      rw [f.cid]
      exact h.ids m
    · rw [f.others m hm]
      exact h.ids m
  · rw [hc, (hb.others i (fun e => hj e.symm)).1, hb.owner]
    exact h.req
  · unfold BusAux
    rw [hb.state, hb.owner, hb.timer]
    exact h.aux

theorem HaltInv.own_ {s : Simulator} {i : Nat} (h : HaltInv s i) :
    HaltInv (execute_core_cycle s i) i := by
  cases hh : (s.cores i).halted
  · obtain ⟨x, st, br, can, hx, c1, c2, c3, c4, c5, c6⟩ := execute_core_cycle_ctl s i hh h.flag
    have f := execute_core_cycle_frame s i
    have hb := f.bus
    have hsame : ({ ctl (s.cores i) with mi := (ctl (s.cores i)).mi } : Ctl) = ctl (s.cores i) :=
      rfl
    have hmb : (!(ctl (s.cores i)).mi || (ctl (s.cores i)).mi) = true := by
      cases (ctl (s.cores i)).mi <;> rfl
    have hl : (ctl (s.cores i)).hl = false := hh
    obtain ⟨o1, o2⟩ := c6 h.op
    refine ⟨?_, c3, o1, ?_, ?_, ?_⟩
    · rw [c1]
      cases hhf : (ctl (s.cores i)).hf
      · have := ctl_inv_run_cycle (ctl (s.cores i)) (ctl (s.cores i)).mi x st br can hx h.flags hhf
          hl hmb
        rw [hsame] at this
        exact this
      · have hst : stall_ok (front_ctl { ctl (s.cores i) with mi := (ctl (s.cores i)).mi } x) st
            = true := by
          rw [hsame]
          unfold stall_ok
          cases st
          · rfl
          · rcases c2 rfl with e | e | e <;> simp [e]
        have := ctl_inv_halt_cycle (ctl (s.cores i)) (ctl (s.cores i)).mi x st br can hx h.flags hhf
          hl hmb hst
        rw [hsame] at this
        simp only [Bool.and_eq_true] at this
        exact this.1.1.1.1
    · intro m
      by_cases hm : m = i
      · subst hm
        rw [f.cid]
        exact h.ids m
      · rw [f.others m hm]
        exact h.ids m
    · intro hv hs
      have := o2 hv hs
      rw [h.ids i] at this
      exact this
    · unfold BusAux
      rw [hb.state, hb.owner, hb.timer]
      exact h.aux
  · have e : execute_core_cycle s i = s := by
      unfold execute_core_cycle
      rw [if_pos hh]
    rw [e]
    exact h

theorem HaltInv.step_ {s : Simulator} {i : Nat} (h : HaltInv s i) (j : Nat) :
    HaltInv (execute_core_cycle s j) i := by
  by_cases hj : j = i
  · subst hj
    exact h.own_
  · exact h.other_ j hj

theorem HaltInv.halt_cycle_ {s : Simulator} {i : Nat} (h : HaltInv s i) (hi : i < 4)
    (hinv : CohInv s) : HaltInv (sim_cycle s) i := by
  have h4 := ((((h.halt_bus_ hi hinv).step_ 0).step_ 1).step_ 2).step_ 3
  exact ⟨h4.flags, h4.flag, h4.op, h4.ids, h4.req, h4.aux⟩

theorem HaltInv.halt_run_ {s : Simulator} {i : Nat} (h : HaltInv s i) (hi : i < 4)
    (hinv : CohInv s) (n : Nat) : HaltInv (run_cycles n s) i := by
  induction n generalizing s with
  | zero => exact h
  | succ n ih => exact ih (h.halt_cycle_ hi hinv) hinv.global_cycle_

theorem HaltInv.halt_reach_ (imems : Nat → Nat → Nat) (memin : Nat → Nat) (i : Nat) (hi : i < 4)
    (n : Nat) : HaltInv (run_cycles n (load_images imems memin)) i :=
  (HaltInv.halt_init_ imems memin i).halt_run_ hi (CohInv.init_ imems memin) n
/-! ## A decoded HALT reaches WB -/

theorem pre_core_cores (s : Simulator) (k i : Nat) (h : k ≤ i) :
    (pre_core s k).cores i = (bus_cycle s).cores i := by
  induction k with
  | zero => rfl
  | succ k ih =>
    show (execute_core_cycle (pre_core s k) k).cores i = _
    rw [(execute_core_cycle_frame (pre_core s k) k).others i (by omega)]
    exact ih (by omega)

theorem ctl_inv_halt_empty (k : Ctl) (hk : ctl_inv k = true) (hhf : k.hf = true) :
    k.fv = false ∧ k.hl = (!k.dv && !k.ev && !k.mv) ∧ (k.hl = true → k.wv = true ∧ k.wh = true) := by
  rcases k with ⟨fv, fs, fh, dv, di, ds, dh, ev, es, eh, mv, mi, mh, wv, wh, hf, hl, bp⟩
  simp only at hhf
  subst hhf
  unfold ctl_inv at hk
  simp only at hk ⊢
  revert hk
  revert fv dv di dh ev eh mv mi mh wv wh hl bp
  decide

theorem execute_core_cycle_halted (sim : Simulator) (i : Nat)
    (hh : (sim.cores i).halted = true) : execute_core_cycle sim i = sim := by
  unfold execute_core_cycle
  rw [if_pos hh]

theorem ctl_inv_running (k : Ctl) (hk : ctl_inv k = true) (hhf : k.hf = false) :
    k.hl = false ∧ k.bp = false := by
  rcases k with ⟨fv, fs, fh, dv, di, ds, dh, ev, es, eh, mv, mi, mh, wv, wh, hf, hl, bp⟩
  simp only at hhf
  subst hhf
  unfold ctl_inv at hk
  simp only at hk ⊢
  revert hk
  revert fv dv di dh ev eh mv mi mh wv wh hl bp
  decide

theorem and_sign_bit (x : Nat) : x &&& 0x800 = if x / 2 ^ 11 % 2 = 1 then 2 ^ 11 else 0 := by
  apply Nat.eq_of_testBit_eq
  intro i
  rw [Nat.testBit_and, show (0x800 : Nat) = 2 ^ 11 from rfl, Nat.testBit_two_pow]
  by_cases h : 11 = i
  · subst h
    by_cases hx : x / 2 ^ 11 % 2 = 1
    · rw [if_pos hx, Nat.testBit_two_pow_self, Nat.testBit_to_div_mod, hx]
      rfl
    · rw [if_neg hx, Nat.testBit_to_div_mod, decide_eq_false hx]
      rfl
  · rw [decide_eq_false h, Bool.and_false]
    split_ifs
    · rw [Nat.testBit_two_pow, decide_eq_false h]
    · rw [Nat.zero_testBit]

/-- The fields of a decoded word, in arithmetic form. -/
theorem decode_instruction_fields (w : Nat) :
    (decode_instruction w).opcode = w / 2 ^ 24 % 2 ^ 8 ∧
    (decode_instruction w).rd = w / 2 ^ 20 % 2 ^ 4 ∧
    (decode_instruction w).rs = w / 2 ^ 16 % 2 ^ 4 ∧
    (decode_instruction w).rt = w / 2 ^ 12 % 2 ^ 4 ∧
    (decode_instruction w).imm =
      (if w % 2 ^ 12 < 2 ^ 11 then ((w % 2 ^ 12 : Nat) : Int)
       else ((w % 2 ^ 12 : Nat) : Int) - 2 ^ 12) := by
  have hm := (and_mask_eq_mod w).2.2
  refine ⟨?_, ?_, ?_, ?_, ?_⟩
  · simp only [decode_instruction, (and_mask_eq_mod _).1, Nat.shiftRight_eq_div_pow]
  · simp only [decode_instruction, (and_mask_eq_mod _).2.1, Nat.shiftRight_eq_div_pow]
  · simp only [decode_instruction, (and_mask_eq_mod _).2.1, Nat.shiftRight_eq_div_pow]
  · simp only [decode_instruction, (and_mask_eq_mod _).2.1, Nat.shiftRight_eq_div_pow]
  · simp only [decode_instruction, hm, and_sign_bit]
    have hlt : w % 2 ^ 12 < 2 ^ 12 := Nat.mod_lt _ (by norm_num)
    by_cases h : w % 2 ^ 12 < 2 ^ 11
    · rw [if_pos h, if_neg]
      rw [if_neg (by omega)]
      simp
    · rw [if_neg h, if_pos]
      · norm_num
      · rw [if_pos (by omega)]
        norm_num

/-- The word of an instruction whose fields are in range is the sum of its
shifted fields. -/
theorem encode_instruction_sum (i : Instruction) (hop : i.opcode ≤ 255) (hrd : i.rd ≤ 15)
    (hrs : i.rs ≤ 15) (hrt : i.rt ≤ 15) :
    encode_instruction i =
      i.opcode * 2 ^ 24 + i.rd * 2 ^ 20 + i.rs * 2 ^ 16 + i.rt * 2 ^ 12 +
        toU32 i.imm % 2 ^ 12 := by
  unfold encode_instruction
  simp only [(and_mask_eq_mod _).1, (and_mask_eq_mod _).2.1, (and_mask_eq_mod _).2.2,
    Nat.shiftLeft_eq]
  rw [Nat.mod_eq_of_lt (show i.opcode < 2 ^ 8 by omega),
    Nat.mod_eq_of_lt (show i.rd < 2 ^ 4 by omega),
    Nat.mod_eq_of_lt (show i.rs < 2 ^ 4 by omega),
    Nat.mod_eq_of_lt (show i.rt < 2 ^ 4 by omega)]
  have hlt : toU32 i.imm % 2 ^ 12 < 2 ^ 12 := Nat.mod_lt _ (by norm_num)
  have h1 : i.opcode * 2 ^ 24 ||| i.rd * 2 ^ 20 = (i.opcode * 2 ^ 4 + i.rd) * 2 ^ 20 := by
    have := or_eq_add_of_lt i.opcode (i.rd * 2 ^ 20) 24 (by omega)
    rw [this]; omega
  have h2 : (i.opcode * 2 ^ 4 + i.rd) * 2 ^ 20 ||| i.rs * 2 ^ 16
      = ((i.opcode * 2 ^ 4 + i.rd) * 2 ^ 4 + i.rs) * 2 ^ 16 := by
    have := or_eq_add_of_lt (i.opcode * 2 ^ 4 + i.rd) (i.rs * 2 ^ 16) 20 (by omega)
    rw [this]; omega
  have h3 : ((i.opcode * 2 ^ 4 + i.rd) * 2 ^ 4 + i.rs) * 2 ^ 16 ||| i.rt * 2 ^ 12
      = (((i.opcode * 2 ^ 4 + i.rd) * 2 ^ 4 + i.rs) * 2 ^ 4 + i.rt) * 2 ^ 12 := by
    have := or_eq_add_of_lt ((i.opcode * 2 ^ 4 + i.rd) * 2 ^ 4 + i.rs) (i.rt * 2 ^ 12) 16
      (by omega)
    rw [this]; omega
  rw [h1, h2, h3, or_eq_add_of_lt _ _ 12 hlt]
  omega

theorem toU32_imm_low (imm : Int) (hlo : -2048 ≤ imm) (hhi : imm ≤ 2047) :
    ((toU32 imm % 2 ^ 12 : Nat) : Int) = if 0 ≤ imm then imm else imm + 4096 := by
  unfold toU32
  split_ifs with h
  · have e : imm % 2 ^ 32 = imm := by omega
    rw [e]
    omega
  · have e : imm % 2 ^ 32 = imm + 2 ^ 32 := by omega
    rw [e]
    omega

/-- The bit fields of a sum of shifted fields. -/
theorem fields_of_sum (op rd rs rt e : Nat) (hop : op ≤ 255) (hrd : rd ≤ 15) (hrs : rs ≤ 15)
    (hrt : rt ≤ 15) (he : e < 2 ^ 12) :
    (op * 2 ^ 24 + rd * 2 ^ 20 + rs * 2 ^ 16 + rt * 2 ^ 12 + e) / 2 ^ 24 % 2 ^ 8 = op ∧
    (op * 2 ^ 24 + rd * 2 ^ 20 + rs * 2 ^ 16 + rt * 2 ^ 12 + e) / 2 ^ 20 % 2 ^ 4 = rd ∧
    (op * 2 ^ 24 + rd * 2 ^ 20 + rs * 2 ^ 16 + rt * 2 ^ 12 + e) / 2 ^ 16 % 2 ^ 4 = rs ∧
    (op * 2 ^ 24 + rd * 2 ^ 20 + rs * 2 ^ 16 + rt * 2 ^ 12 + e) / 2 ^ 12 % 2 ^ 4 = rt ∧
    (op * 2 ^ 24 + rd * 2 ^ 20 + rs * 2 ^ 16 + rt * 2 ^ 12 + e) % 2 ^ 12 = e := by
  refine ⟨?_, ?_, ?_, ?_, ?_⟩ <;> omega

/-- C21 (codec round trip on instructions and field layout).  For a 32-bit word
`w`, `decode_instruction w` has `opcode` = bits 31:24, `rd` = bits 23:20, `rs` =
bits 19:16, `rt` = bits 15:12, the three register fields at most 15, and `imm` =
bits 11:0 read as a 12-bit two's complement number, so `-2048 ≤ imm ≤ 2047`.
For an instruction `i` with `opcode ≤ 255` (it is a `uint8_t`), `rd, rs, rt ≤ 15`
and `-2048 ≤ imm ≤ 2047`, decoding the encoded instruction gives `i` back. -/
theorem decode_encode_instruction (w : Nat) (i : Instruction) (hw : w < 2 ^ 32)
    (hop : i.opcode ≤ 255) (hrd : i.rd ≤ 15) (hrs : i.rs ≤ 15) (hrt : i.rt ≤ 15)
    (hlo : -2048 ≤ i.imm) (hhi : i.imm ≤ 2047) :
    ((decode_instruction w).opcode = w / 2 ^ 24 ∧
      (decode_instruction w).rd = w / 2 ^ 20 % 2 ^ 4 ∧
      (decode_instruction w).rs = w / 2 ^ 16 % 2 ^ 4 ∧
      (decode_instruction w).rt = w / 2 ^ 12 % 2 ^ 4 ∧
      (decode_instruction w).rd ≤ 15 ∧ (decode_instruction w).rs ≤ 15 ∧
      (decode_instruction w).rt ≤ 15 ∧
      (decode_instruction w).imm =
        (if w % 2 ^ 12 < 2 ^ 11 then ((w % 2 ^ 12 : Nat) : Int)
         else ((w % 2 ^ 12 : Nat) : Int) - 2 ^ 12) ∧
      -2048 ≤ (decode_instruction w).imm ∧ (decode_instruction w).imm ≤ 2047) ∧
    decode_instruction (encode_instruction i) = i := by
  obtain ⟨f1, f2, f3, f4, f5⟩ := decode_instruction_fields w
  constructor
  · refine ⟨?_, f2, f3, f4, ?_, ?_, ?_, f5, ?_, ?_⟩
    · rw [f1]; omega
    · rw [f2]; omega
    · rw [f3]; omega
    · rw [f4]; omega
    · rw [f5]; split_ifs <;> omega
    · rw [f5]; split_ifs <;> omega
  · obtain ⟨g1, g2, g3, g4, g5⟩ := decode_instruction_fields (encode_instruction i)
    have hs := encode_instruction_sum i hop hrd hrs hrt
    have hl := toU32_imm_low i.imm hlo hhi
    have hlt : toU32 i.imm % 2 ^ 12 < 2 ^ 12 := Nat.mod_lt _ (by norm_num)
    obtain ⟨a1, a2, a3, a4, a5⟩ := fields_of_sum i.opcode i.rd i.rs i.rt _ hop hrd hrs hrt hlt
    have e1 : (decode_instruction (encode_instruction i)).opcode = i.opcode :=
      g1.trans (by rw [hs]; exact a1)
    have e2 : (decode_instruction (encode_instruction i)).rd = i.rd :=
      g2.trans (by rw [hs]; exact a2)
    have e3 : (decode_instruction (encode_instruction i)).rs = i.rs :=
      g3.trans (by rw [hs]; exact a3)
    have e4 : (decode_instruction (encode_instruction i)).rt = i.rt :=
      g4.trans (by rw [hs]; exact a4)
    have hm : encode_instruction i % 2 ^ 12 = toU32 i.imm % 2 ^ 12 := by rw [hs]; exact a5
    have e5 : (decode_instruction (encode_instruction i)).imm = i.imm := by
      rw [g5, hm]
      clear g1 g2 g3 g4 g5 a1 a2 a3 a4 a5 hs f1 f2 f3 f4 f5 e1 e2 e3 e4 hm
      split_ifs at hl ⊢ <;> omega
    cases hd : decode_instruction (encode_instruction i) with
    | mk a b c d e =>
      rw [hd] at e1 e2 e3 e4 e5
      simp only at e1 e2 e3 e4 e5
      rw [e1, e2, e3, e4, e5]

/-- Instance of `decode_encode_instruction`: the word and the instruction of
`SW R1, R1, R0` with immediate -1. -/
theorem decode_encode_instruction_witness :
    (0x11110FFF < 2 ^ 32) ∧
    (decode_instruction 0x11110FFF).imm = -1 ∧
    decode_instruction
        (encode_instruction { opcode := 17, rd := 1, rs := 1, rt := 0, imm := -1 })
      = { opcode := 17, rd := 1, rs := 1, rt := 0, imm := -1 } :=
  have h := decode_encode_instruction 0x11110FFF
    { opcode := 17, rd := 1, rs := 1, rt := 0, imm := -1 }
    (by decide) (by decide) (by decide) (by decide) (by decide) (by decide) (by decide)
  ⟨by decide, h.1.2.2.2.2.2.2.2.1.trans (by decide), h.2⟩
/-! ## Register file access -/

/-- C23 (register access contract).  For every core, immediate `imm` and value
`v`: `read_register` gives 0 for register 0, `imm` for register 1 and
`registers[r]` for `2 ≤ r ≤ 15`; `write_register` on register 0 or 1, or on an
index `≥ 16`, returns the core unchanged; for `2 ≤ r ≤ 15`, after
`write_register r v` register `r` reads `v` and every other register index reads
what it read before, and nothing but the register array has changed. -/
theorem register_access_contract (core : Core) (imm v : Nat) :
    read_register core 0 imm = 0 ∧
    read_register core 1 imm = imm ∧
    (∀ r, 2 ≤ r → r ≤ 15 → read_register core r imm = core.registers r) ∧
    write_register core 0 v = core ∧
    write_register core 1 v = core ∧
    (∀ r, 16 ≤ r → write_register core r v = core) ∧
    (∀ r, 2 ≤ r → r ≤ 15 →
      read_register (write_register core r v) r imm = v ∧
      (∀ q j, q ≠ r → read_register (write_register core r v) q j = read_register core q j) ∧
      write_register core r v = { core with registers := upd core.registers r v }) := by
  refine ⟨rfl, rfl, ?_, rfl, rfl, ?_, ?_⟩
  · intro r h2 h15
    unfold read_register NUM_REGISTERS
    rw [if_neg (by omega), if_neg (by omega), if_pos (by omega)]
  · intro r h16
    unfold write_register NUM_REGISTERS
    rw [if_neg (by omega)]
  · intro r h2 h15
    have e : write_register core r v = { core with registers := upd core.registers r v } := by
      unfold write_register NUM_REGISTERS
      rw [if_pos ⟨h2, by omega⟩]
    refine ⟨?_, ?_, e⟩
    · rw [e]
      unfold read_register NUM_REGISTERS
      rw [if_neg (by omega), if_neg (by omega), if_pos (by omega)]
      exact upd_same _ _ _
    · intro q j hq
      rw [e]
      unfold read_register
      show (if q = 0 then 0 else if q = 1 then j else
        if q < NUM_REGISTERS then upd core.registers r v q else 0) = _
      rw [upd_other _ _ _ _ hq]
/-! ## The reserved registers R0 and R1 -/

theorem stage_writeback_registers (sim : Simulator) (i : Nat) :
    ((stage_writeback sim i).cores i).registers = (sim.cores i).registers := by
  by_cases h : (sim.cores i).pipeline.mem.valid = true ∧
      (sim.cores i).pipeline.mem.internal_stall = false
  · exact (stage_writeback_pulled sim i h.1 h.2).2.1
  · exact (stage_writeback_not_pulled sim i h).2.1

/-- One core cycle never writes `registers[0]` or `registers[1]` of any core. -/
theorem execute_core_cycle_low_registers (s : Simulator) (j i r : Nat) (hr : r < 2) :
    ((execute_core_cycle s j).cores i).registers r = (s.cores i).registers r := by
  by_cases hij : i = j
  · subst hij
    cases hh : (s.cores i).halted
    · rw [(execute_core_cycle_wbview s i hh).1, stage_writeback_registers]
      split_ifs with h
      · rw [upd_other _ _ _ _ (by omega)]
      · rfl
    · rw [execute_core_cycle_halted s i hh]
  · rw [(execute_core_cycle_frame s j).others i hij]

theorem bus_touch_registers {c c' : Core} (h : BusTouch c c') : c'.registers = c.registers := by
  unfold BusTouch at h
  rw [h]

/-- One global cycle never writes `registers[0]` or `registers[1]` of any core. -/
theorem sim_cycle_low_registers (s : Simulator) (i r : Nat) (hr : r < 2) :
    ((sim_cycle s).cores i).registers r = (s.cores i).registers r := by
  show ((execute_core_cycle (execute_core_cycle (execute_core_cycle
    (execute_core_cycle (bus_cycle s) 0) 1) 2) 3).cores i).registers r = _
  rw [execute_core_cycle_low_registers _ _ _ _ hr, execute_core_cycle_low_registers _ _ _ _ hr,
    execute_core_cycle_low_registers _ _ _ _ hr, execute_core_cycle_low_registers _ _ _ _ hr,
    bus_touch_registers (bus_cycle_touch s i)]

theorem run_cycles_low_registers (n : Nat) (s : Simulator) (i r : Nat) (hr : r < 2) :
    ((run_cycles n s).cores i).registers r = (s.cores i).registers r := by
  induction n with
  | zero => rfl
  | succ n ih => rw [run_cycles_succ, sim_cycle_low_registers _ _ _ hr, ih]

/-- C22 (reserved registers).  From any state, a global cycle leaves
`registers[0]` and `registers[1]` of every core as they are, and so does
`write_register` for every index and value; hence in every state of a run from the
initial state (`init_simulator` with the images loaded) both hold their initial
value 0, for every core.  `read_register` on register 0 gives 0 for every
immediate. -/
theorem reserved_registers (imems : Nat → Nat → Nat) (memin : Nat → Nat) (s : Simulator)
    (core : Core) (n i r v imm : Nat) :
    ((run_cycles n (load_images imems memin)).cores i).registers 0 = 0 ∧
    ((run_cycles n (load_images imems memin)).cores i).registers 1 = 0 ∧
    ((run_cycles n init_simulator).cores i).registers 0 = 0 ∧
    ((run_cycles n init_simulator).cores i).registers 1 = 0 ∧
    ((sim_cycle s).cores i).registers 0 = (s.cores i).registers 0 ∧
    ((sim_cycle s).cores i).registers 1 = (s.cores i).registers 1 ∧
    (write_register core r v).registers 0 = core.registers 0 ∧
    (write_register core r v).registers 1 = core.registers 1 ∧
    read_register core 0 imm = 0 := by
  refine ⟨run_cycles_low_registers n _ i 0 (by decide), run_cycles_low_registers n _ i 1 (by decide),
    run_cycles_low_registers n _ i 0 (by decide), run_cycles_low_registers n _ i 1 (by decide),
    sim_cycle_low_registers s i 0 (by decide), sim_cycle_low_registers s i 1 (by decide),
    ?_, ?_, rfl⟩
  · unfold write_register
    split_ifs with h
    · exact upd_other _ _ _ _ (by omega)
    · rfl
  · unfold write_register
    split_ifs with h
    · exact upd_other _ _ _ _ (by omega)
    · rfl
/-! ## The ALU -/

theorem and_shift_mask (x : Nat) : x &&& 0x1F = x % 2 ^ 5 :=
  Nat.and_pow_two_sub_one_eq_mod x 5

/-- The `uint32_t` of an arithmetic right shift of the `int32_t` reading of `a`:
the zero-filling shift, with the vacated top `s` bits set when bit 31 of `a` is. -/
theorem sra_value (a s : Nat) (ha : a < 2 ^ 32) (hs : s < 32) :
    toU32 (toI32 a >>> s) =
      if a < 2 ^ 31 then a / 2 ^ s else a / 2 ^ s + (2 ^ 32 - 2 ^ (32 - s)) := by
  rw [Int.shiftRight_eq_div_pow]
  have hp : (2 : Nat) ^ 32 = 2 ^ (32 - s) * 2 ^ s := by
    rw [← Nat.pow_add]
    congr 1
    omega
  have hpos : 0 < 2 ^ s := Nat.pow_pos (by decide)
  have hK : 2 ^ (32 - s) ≤ 2 ^ 32 := Nat.pow_le_pow_right (by decide) (by omega)
  have hx : a / 2 ^ s < 2 ^ (32 - s) := by
    rw [Nat.div_lt_iff_lt_mul hpos, ← hp]
    exact ha
  have hxa : a / 2 ^ s ≤ a := Nat.div_le_self _ _
  unfold toU32 toI32
  rw [Nat.mod_eq_of_lt ha]
  by_cases h : a < 2 ^ 31
  · rw [if_pos h, if_pos h]
    have e : ((a : Nat) : Int) / ((2 ^ s : Nat) : Int) = ((a / 2 ^ s : Nat) : Int) := by
      norm_cast
    rw [e]
    generalize a / 2 ^ s = x at hxa
    omega
  · rw [if_neg h, if_neg h]
    have e : (((a : Nat) : Int) - 2 ^ 32) / ((2 ^ s : Nat) : Int)
        = ((a / 2 ^ s : Nat) : Int) - ((2 ^ (32 - s) : Nat) : Int) := by
      have h2 : ((a : Nat) : Int) - 2 ^ 32
          = (a : Int) + (-((2 ^ (32 - s) : Nat) : Int)) * ((2 ^ s : Nat) : Int) := by
        have : ((2 ^ 32 : Nat) : Int) = ((2 ^ (32 - s) : Nat) : Int) * ((2 ^ s : Nat) : Int) := by
          rw [hp]; push_cast; rfl
        have h3 : ((2 : Int) ^ 32) = ((2 ^ 32 : Nat) : Int) := by norm_num
        rw [h3, this]
        ring
      rw [h2, Int.add_mul_ediv_right _ _ (by exact_mod_cast Nat.pos_iff_ne_zero.mp hpos)]
      have e2 : ((a : Nat) : Int) / ((2 ^ s : Nat) : Int) = ((a / 2 ^ s : Nat) : Int) := by
        norm_cast
      rw [e2]
      ring
    rw [e]
    generalize a / 2 ^ s = x at hx
    generalize 2 ^ (32 - s) = K at hx hK
    omega

theorem sub_value (a b : Nat) (ha : a < 2 ^ 32) (hb : b < 2 ^ 32) :
    toU32 ((a : Int) - (b : Int)) = (a + 2 ^ 32 - b) % 2 ^ 32 := by
  unfold toU32
  omega

theorem execute_body_result (c : Core) :
    (execute_body c).pipeline.execute.alu_result =
      (alu c.pipeline.execute.inst c.pipeline.execute.pc c.pipeline.execute.rs_value
        c.pipeline.execute.rt_value).1 ∧
    (execute_body c).pipeline.execute.reg_write =
      (alu c.pipeline.execute.inst c.pipeline.execute.pc c.pipeline.execute.rs_value
        c.pipeline.execute.rt_value).2 ∧
    (execute_body c).pipeline.execute.rw =
      (if c.pipeline.execute.inst.opcode = OP_JAL then 15 else c.pipeline.execute.inst.rd) :=
  ⟨rfl, rfl, rfl⟩

/-- The nine arithmetic cases of the `switch` of `stage_execute`. -/
theorem alu_cases (inst : Instruction) (pc a b : Nat) :
    (inst.opcode ≤ OP_SRL →
      (alu inst pc a b).2 = true ∧ (if inst.opcode = OP_JAL then 15 else inst.rd) = inst.rd) ∧
    (inst.opcode = OP_ADD → (alu inst pc a b).1 = (a + b) % 2 ^ 32) ∧
    (inst.opcode = OP_SUB → (alu inst pc a b).1 = toU32 ((a : Int) - (b : Int))) ∧
    (inst.opcode = OP_AND → (alu inst pc a b).1 = a &&& b) ∧
    (inst.opcode = OP_OR → (alu inst pc a b).1 = a ||| b) ∧
    (inst.opcode = OP_XOR → (alu inst pc a b).1 = a ^^^ b) ∧
    (inst.opcode = OP_MUL → (alu inst pc a b).1 = (a * b) % 2 ^ 32) ∧
    (inst.opcode = OP_SLL → (alu inst pc a b).1 = (a * 2 ^ (b % 32)) % 2 ^ 32) ∧
    (inst.opcode = OP_SRA → (alu inst pc a b).1 = toU32 (toI32 a >>> (b % 32))) ∧
    (inst.opcode = OP_SRL → (alu inst pc a b).1 = a / 2 ^ (b % 32)) := by
  have hb : b &&& 0x1F = b % 32 := and_shift_mask b
  rcases inst with ⟨op, rd, rs, rt, imm⟩
  refine ⟨?_, ?_, ?_, ?_, ?_, ?_, ?_, ?_, ?_, ?_⟩
  · intro h
    simp only [OP_SRL] at h
    interval_cases op <;> exact ⟨rfl, rfl⟩
  all_goals
    intro h
    simp only at h
    subst h
  · rfl
  · rfl
  · rfl
  · rfl
  · rfl
  · rfl
  · show (a <<< (b &&& 0x1F)) % 2 ^ 32 = _
    rw [hb, Nat.shiftLeft_eq]
  · show toU32 (toI32 a >>> (b &&& 0x1F)) = _
    rw [hb]
  · show a >>> (b &&& 0x1F) = _
    rw [hb, Nat.shiftRight_eq_div_pow]

/-- C24 (ALU reference semantics).  Let EX hold a valid instruction when the body
of `stage_execute` runs (after its pull), with 32-bit operands `rs_value`,
`rt_value`, and let `s = rt_value & 0x1F = rt_value mod 32`.  For each opcode ADD,
SUB, AND, OR, XOR, MUL, SLL, SRA, SRL the stage sets `reg_write`, `rw = rd` and
`alu_result` to `(rs + rt) mod 2^32`, `(rs - rt) mod 2^32`, the bitwise and, or,
xor, `(rs * rt) mod 2^32`, `(rs * 2^s) mod 2^32`, the arithmetic shift (the
zero-filling shift `rs / 2^s` with the top `s` bits set when bit 31 of `rs` is
set) and the zero-filling shift `rs / 2^s`. -/
theorem alu_reference (core : Core)
    (hv : (execute_pull core).pipeline.execute.valid = true)
    (hrs : (execute_pull core).pipeline.execute.rs_value < 2 ^ 32)
    (hrt : (execute_pull core).pipeline.execute.rt_value < 2 ^ 32) :
    ((execute_pull core).pipeline.execute.inst.opcode ≤ OP_SRL →
      (stage_execute core).pipeline.execute.reg_write = true ∧
      (stage_execute core).pipeline.execute.rw = (execute_pull core).pipeline.execute.inst.rd) ∧
    ((execute_pull core).pipeline.execute.inst.opcode = OP_ADD →
      (stage_execute core).pipeline.execute.alu_result =
        ((execute_pull core).pipeline.execute.rs_value +
          (execute_pull core).pipeline.execute.rt_value) % 2 ^ 32) ∧
    ((execute_pull core).pipeline.execute.inst.opcode = OP_SUB →
      (stage_execute core).pipeline.execute.alu_result =
        ((execute_pull core).pipeline.execute.rs_value + 2 ^ 32 -
          (execute_pull core).pipeline.execute.rt_value) % 2 ^ 32) ∧
    ((execute_pull core).pipeline.execute.inst.opcode = OP_AND →
      (stage_execute core).pipeline.execute.alu_result =
        (execute_pull core).pipeline.execute.rs_value &&&
          (execute_pull core).pipeline.execute.rt_value) ∧
    ((execute_pull core).pipeline.execute.inst.opcode = OP_OR →
      (stage_execute core).pipeline.execute.alu_result =
        (execute_pull core).pipeline.execute.rs_value |||
          (execute_pull core).pipeline.execute.rt_value) ∧
    ((execute_pull core).pipeline.execute.inst.opcode = OP_XOR →
      (stage_execute core).pipeline.execute.alu_result =
        (execute_pull core).pipeline.execute.rs_value ^^^
          (execute_pull core).pipeline.execute.rt_value) ∧
    ((execute_pull core).pipeline.execute.inst.opcode = OP_MUL →
      (stage_execute core).pipeline.execute.alu_result =
        ((execute_pull core).pipeline.execute.rs_value *
          (execute_pull core).pipeline.execute.rt_value) % 2 ^ 32) ∧
    ((execute_pull core).pipeline.execute.inst.opcode = OP_SLL →
      (stage_execute core).pipeline.execute.alu_result =
        ((execute_pull core).pipeline.execute.rs_value *
          2 ^ ((execute_pull core).pipeline.execute.rt_value % 32)) % 2 ^ 32) ∧
    ((execute_pull core).pipeline.execute.inst.opcode = OP_SRA →
      (stage_execute core).pipeline.execute.alu_result =
        (if (execute_pull core).pipeline.execute.rs_value < 2 ^ 31 then
          (execute_pull core).pipeline.execute.rs_value /
            2 ^ ((execute_pull core).pipeline.execute.rt_value % 32)
        else
          (execute_pull core).pipeline.execute.rs_value /
              2 ^ ((execute_pull core).pipeline.execute.rt_value % 32) +
            (2 ^ 32 - 2 ^ (32 - (execute_pull core).pipeline.execute.rt_value % 32)))) ∧
    ((execute_pull core).pipeline.execute.inst.opcode = OP_SRL →
      (stage_execute core).pipeline.execute.alu_result =
        (execute_pull core).pipeline.execute.rs_value /
          2 ^ ((execute_pull core).pipeline.execute.rt_value % 32)) := by
  have hse : stage_execute core = execute_body (execute_pull core) := by
    unfold stage_execute
    simp only [hv, if_true]
  rw [hse]
  generalize execute_pull core = c at hrs hrt
  obtain ⟨e1, e2, e3⟩ := execute_body_result c
  rw [e1, e2, e3]
  generalize c.pipeline.execute.inst = inst
  generalize c.pipeline.execute.pc = pc
  generalize c.pipeline.execute.rs_value = a at hrs
  generalize c.pipeline.execute.rt_value = b at hrt
  have hm : b % 32 < 32 := Nat.mod_lt _ (by norm_num)
  obtain ⟨a1, a2, a3, a4, a5, a6, a7, a8, a9, a10⟩ := alu_cases inst pc a b
  refine ⟨a1, a2, ?_, a4, a5, a6, a7, a8, ?_, a10⟩
  · intro h
    rw [a3 h, sub_value a b hrs hrt]
  · intro h
    rw [a9 h, sra_value a _ hrs hm]

/-- Instance of `alu_reference`: in the cycle from state 10 of `sra_demo` EX holds
`SRA` with `rs_value = 0x80000000` and `rt_value = 4`; the result is
`0xF8000000`, which `R4` holds when the core has halted. -/
theorem alu_reference_witness :
    (execute_pull (execute_entry (run_cycles 10 sra_demo) 0)).pipeline.execute.valid = true ∧
    (execute_pull (execute_entry (run_cycles 10 sra_demo) 0)).pipeline.execute.rs_value
      = 0x80000000 ∧
    (execute_pull (execute_entry (run_cycles 10 sra_demo) 0)).pipeline.execute.rt_value = 4 ∧
    (stage_execute (execute_entry (run_cycles 10 sra_demo) 0)).pipeline.execute.alu_result
      = 0xF8000000 ∧
    ((run_cycles 14 sra_demo).cores 0).registers 4 = 0xF8000000 :=
  have hv : (execute_pull (execute_entry (run_cycles 10 sra_demo) 0)).pipeline.execute.valid
      = true := by decide!
  have h1 : (execute_pull (execute_entry (run_cycles 10 sra_demo) 0)).pipeline.execute.rs_value
      = 0x80000000 := by decide!
  have h2 : (execute_pull (execute_entry (run_cycles 10 sra_demo) 0)).pipeline.execute.rt_value
      = 4 := by decide!
  have ho : (execute_pull (execute_entry (run_cycles 10 sra_demo) 0)).pipeline.execute.inst.opcode
      = OP_SRA := by decide!
  have h := (alu_reference (execute_entry (run_cycles 10 sra_demo) 0) hv
    (by rw [h1]; decide) (by rw [h2]; decide)).2.2.2.2.2.2.2.2.1 ho
  ⟨hv, h1, h2, h.trans (by rw [h1, h2]; decide), by decide!⟩
/-! ## The driver loop: ceiling and exit condition -/

/-- From a state whose `global_cycle` is `d` short of 100001, `d ≥ 1`, the loop is
left within `d` iterations. -/
theorem run_simulator_within (d : Nat) (hd : 1 ≤ d) (sim : Simulator) (fuel : Nat)
    (hg : sim.global_cycle + d = 100001) (hf : d ≤ fuel) :
    ∃ r, run_simulator fuel sim = some r ∧ r.2 ≤ d ∧ r.1 = run_cycles r.2 sim := by
  induction d generalizing sim fuel with
  | zero => omega
  | succ d ih =>
    obtain ⟨fuel, rfl⟩ : ∃ f, fuel = f + 1 := ⟨fuel - 1, by omega⟩
    have hsg := sim_cycle_global_cycle sim
    rw [Nat.mod_eq_of_lt (by omega)] at hsg
    unfold run_simulator
    by_cases hc : loop_condition sim = true
    · rw [if_pos hc]
      by_cases hb : 100000 < (sim_cycle sim).global_cycle
      · rw [if_pos hb]
        exact ⟨_, rfl, by simp, rfl⟩
      · rw [if_neg hb]
        obtain ⟨r, h1, h2, h3⟩ := ih (by omega) (sim_cycle sim) fuel (by omega) (by omega)
        rw [h1]
        refine ⟨_, rfl, by simp; omega, ?_⟩
        show r.1 = run_cycles (r.2 + 1) sim
        rw [h3]
        rfl
    · rw [if_neg hc]
      exact ⟨_, rfl, by simp, rfl⟩

/-- When the loop condition holds in each of the next `d` states, the loop runs to
the ceiling: it is left after exactly `d` iterations. -/
theorem run_simulator_ceiling (d : Nat) (hd : 1 ≤ d) (sim : Simulator)
    (hg : sim.global_cycle + d = 100001)
    (hc : ∀ k, k < d → loop_condition (run_cycles k sim) = true) :
    run_simulator d sim = some (run_cycles d sim, d) := by
  induction d generalizing sim with
  | zero => omega
  | succ d ih =>
    have hsg := sim_cycle_global_cycle sim
    rw [Nat.mod_eq_of_lt (by omega)] at hsg
    have h0 : loop_condition sim = true := hc 0 (by omega)
    unfold run_simulator
    rw [if_pos h0]
    by_cases hb : 100000 < (sim_cycle sim).global_cycle
    · rw [if_pos hb]
      have : d = 0 := by omega
      subst this
      rfl
    · rw [if_neg hb, ih (by omega) (sim_cycle sim) (by omega) (fun k hk => hc (k + 1) (by omega))]
      rfl

/-- A result reached within `fuel` iterations is the result for every larger
bound. -/
theorem run_simulator_mono (fuel : Nat) (sim : Simulator) (r : Simulator × Nat)
    (h : run_simulator fuel sim = some r) (fuel2 : Nat) (hf : fuel ≤ fuel2) :
    run_simulator fuel2 sim = some r := by
  induction fuel generalizing sim r fuel2 with
  | zero =>
    unfold run_simulator at h
    by_cases hc : loop_condition sim = true
    · rw [if_pos hc] at h
      cases h
    · rw [if_neg hc] at h
      cases fuel2 <;> unfold run_simulator <;> rw [if_neg hc] <;> exact h
  | succ fuel ih =>
    obtain ⟨f2, rfl⟩ : ∃ f, fuel2 = f + 1 := ⟨fuel2 - 1, by omega⟩
    unfold run_simulator at h ⊢
    by_cases hc : loop_condition sim = true
    · rw [if_pos hc] at h ⊢
      by_cases hb : 100000 < (sim_cycle sim).global_cycle
      · rw [if_pos hb] at h ⊢
        exact h
      · rw [if_neg hb] at h ⊢
        cases hr : run_simulator fuel (sim_cycle sim) with
        | none =>
          rw [hr] at h
          cases h
        | some q =>
          rw [hr] at h
          rw [ih (sim_cycle sim) q hr f2 (by omega)]
          exact h
    · rw [if_neg hc] at h ⊢
      exact h

/-- A halted core keeps a valid slot: its WB slot holds the HALT. -/
theorem ctl_inv_halted_wb (k : Ctl) (hk : ctl_inv k = true) (hl : k.hl = true) :
    k.wv = true := by
  cases hf : k.hf
  · have := (ctl_inv_running k hk hf).1
    rw [hl] at this
    cases this
  · exact ((ctl_inv_halt_empty k hk hf).2.2 hl).1

/-- In every state of a run from the initial state the condition of the `while`
loop holds: some core is not halted, or the WB slot of core 0 is valid. -/
theorem loop_condition_reachable (imems : Nat → Nat → Nat) (memin : Nat → Nat) (n : Nat) :
    loop_condition (run_cycles n (load_images imems memin)) = true := by
  have h := (HaltInv.halt_reach_ imems memin 0 (by decide) n).flags
  unfold loop_condition all_cores_halted all_pipelines_empty
  cases hh : ((run_cycles n (load_images imems memin)).cores 0).halted
  · simp [hh]
  · have hw : ((run_cycles n (load_images imems memin)).cores 0).pipeline.writeback.valid
        = true := ctl_inv_halted_wb _ h hh
    simp [hw]

/-- Whatever the programs, `run_simulator` leaves its loop at the ceiling, after
100001 iterations. -/
theorem run_simulator_reaches_ceiling (imems : Nat → Nat → Nat) (memin : Nat → Nat) :
    run_simulator 100001 (load_images imems memin)
      = some (run_cycles 100001 (load_images imems memin), 100001) :=
  run_simulator_ceiling 100001 (by omega) _ (Nat.zero_add _)
    (fun k _ => loop_condition_reachable imems memin k)

/-- A halted core stays halted. -/
theorem sim_cycle_halted (s : Simulator) (i : Nat) (hi : i < 4)
    (hh : (s.cores i).halted = true) : ((sim_cycle s).cores i).halted = true := by
  have h2 : ((pre_core s i).cores i).halted = true :=
    (bus_touch_halted (pre_core_others s i i (Nat.le_refl i))).trans hh
  rw [sim_cycle_core s i hi, execute_core_cycle_halted _ _ h2]
  exact h2

theorem all_cores_halted_iff (s : Simulator) :
    all_cores_halted s = true ↔ ∀ i, i < 4 → (s.cores i).halted = true := by
  unfold all_cores_halted
  simp only [List.all_cons, List.all_nil, Bool.and_true, Bool.and_eq_true]
  constructor
  · rintro ⟨h0, h1, h2, h3⟩ i hi
    interval_cases i <;> assumption
  · intro h
    exact ⟨h 0 (by decide), h 1 (by decide), h 2 (by decide), h 3 (by decide)⟩

theorem all_cores_halted_run (s : Simulator) (h : all_cores_halted s = true) (n : Nat) :
    all_cores_halted (run_cycles n s) = true := by
  induction n with
  | zero => exact h
  | succ n ih =>
    rw [run_cycles_succ]
    rw [all_cores_halted_iff] at ih ⊢
    exact fun i hi => sim_cycle_halted _ i hi (ih i hi)

/-- C28 (normal termination), evaluated on `halt_only`, where every core runs
HALT at address 0.  After 5 cycles all four cores are halted, and from then on
`all_cores_halted` is true at every cycle while `all_pipelines_empty` is false:
a halted core returns from `execute_core_cycle` at once, so the HALT stays valid
in its WB slot.  The loop condition therefore holds at every cycle and
`run_simulator` leaves the loop only through the ceiling test, after 100001
iterations with `global_cycle = 100001`. -/
theorem halted_run_hits_ceiling :
    all_cores_halted (run_cycles 5 halt_only) = true ∧
    (∀ n, all_cores_halted (run_cycles (5 + n) halt_only) = true ∧
      all_pipelines_empty (run_cycles (5 + n) halt_only) = false ∧
      ((run_cycles (5 + n) halt_only).cores 0).pipeline.writeback.valid = true) ∧
    (∀ n, loop_condition (run_cycles n halt_only) = true) ∧
    run_simulator 100001 halt_only = some (run_cycles 100001 halt_only, 100001) ∧
    (run_cycles 100001 halt_only).global_cycle = 100001 := by
  have h5 : all_cores_halted (run_cycles 5 halt_only) = true := by decide!
  have hall : ∀ n, all_cores_halted (run_cycles (5 + n) halt_only) = true := by
    intro n
    rw [run_cycles_add]
    exact all_cores_halted_run _ h5 n
  have hloop : ∀ n, loop_condition (run_cycles n halt_only) = true :=
    fun n => loop_condition_reachable _ _ n
  refine ⟨h5, ?_, hloop, run_simulator_reaches_ceiling _ _, ?_⟩
  · intro n
    have hw : ((run_cycles (5 + n) halt_only).cores 0).pipeline.writeback.valid = true :=
      ctl_inv_halted_wb _ (HaltInv.halt_reach_ _ _ 0 (by decide) (5 + n)).flags
        ((all_cores_halted_iff _).1 (hall n) 0 (by decide))
    refine ⟨hall n, ?_, hw⟩
    have := hloop (5 + n)
    unfold loop_condition at this
    rw [hall n] at this
    simpa using this
  · have h1 := sim_cycle_global_cycle (run_cycles 100000 halt_only)
    have h2 := run_cycles_global_cycle 100000 halt_only
    rw [← run_cycles_succ] at h1
    have h3 : halt_only.global_cycle = 0 := rfl
    rw [h3] at h2
    rw [h1]
    omega
/-! ## Evaluations: out-of-range addresses and eviction -/

/-- C26 (out-of-range memory accesses), evaluated on `oob_demo`.
`memory_read_word` and `memory_write_word` test `addr < MAIN_MEM_SIZE`, but
`bus_cycle` does not use them.  Core 0 stores to address `0xFFFFFFFF`; in the cycle
from state 5 the Request step of its BusRdX fills the buffer from
`main_memory.data[0xFFFFFFF8 + j]` without a range test: what the buffer receives
is whatever those cells hold (with `0xDEAD` put at index `0xFFFFFFF8`, word 0 of
the buffer is `0xDEAD`, not 0).  Core 1 later loads the same address while core 0
holds the block Modified; the cache-sourced Flush writes each word to
`main_memory.data` at its out-of-range address: after cycle 54 the cell at index
`0xFFFFFFFF`, which is not below `2^21`, holds the store data `0xFFFFFFFF`. -/
theorem bus_indexes_memory_out_of_range :
    memory_read_word (run_cycles 54 oob_demo).main_memory 0xFFFFFFFF = 0 ∧
    (run_cycles 5 oob_demo).bus.state = BusState.ARBITRATE ∧
    ((run_cycles 5 oob_demo).bus.pending_trans 0).addr = 0xFFFFFFFF ∧
    ((run_cycles 5 oob_demo).bus.pending_trans 0).cmd = BusCommand.RDX ∧
    (bus_cycle ((run_cycles 5 oob_demo).pokeMemory 0xFFFFFFF8 0xDEAD)).bus.flush_data 0
      = 0xDEAD ∧
    (bus_cycle ((run_cycles 5 oob_demo).pokeMemory 0xFFFFFFF8 0xDEAD)).bus.provider_id = 4 ∧
    (run_cycles 46 oob_demo).bus.state = BusState.FLUSH ∧
    (run_cycles 46 oob_demo).bus.provider_id = 0 ∧
    (run_cycles 46 oob_demo).main_memory.data 0xFFFFFFFF = 0 ∧
    (run_cycles 54 oob_demo).main_memory.data 0xFFFFFFFF = 0xFFFFFFFF ∧
    ¬ (0xFFFFFFFF < MAIN_MEM_SIZE) := by
  decide!

/-- C27 (write-back on replacement), evaluated on `evict_demo`.  After cycle 30
core 0 has committed a store of 8 to address 8 as a write hit: set 1 of its cache
holds the block of address 8 (tag 0) Modified with the word 8, main memory still
holds 1008 there.  The load of address 520 then refills set 1: after cycle 57 the
set holds tag 1 Exclusive and the word of address 8 in main memory is still 1008 —
the Modified block was dropped, not written back (`cache_read` only carries an
empty `if` with the comment that the block must be written back first).  No other
cache ever held the block, so the stored 8 is nowhere: the later load of address
8 puts 1008 into `R3`. -/
theorem modified_block_dropped_on_replacement :
    ((run_cycles 30 evict_demo).cores 0).write_hit = 1 ∧
    (((run_cycles 30 evict_demo).cores 0).cache.tsram 1).valid = true ∧
    (((run_cycles 30 evict_demo).cores 0).cache.tsram 1).tag = 0 ∧
    (((run_cycles 30 evict_demo).cores 0).cache.tsram 1).mesi_state = MESIState.MODIFIED ∧
    ((run_cycles 30 evict_demo).cores 0).cache.dsram 8 = 8 ∧
    (run_cycles 30 evict_demo).main_memory.data 8 = 1008 ∧
    (((run_cycles 57 evict_demo).cores 0).cache.tsram 1).valid = true ∧
    (((run_cycles 57 evict_demo).cores 0).cache.tsram 1).tag = 1 ∧
    (((run_cycles 57 evict_demo).cores 0).cache.tsram 1).mesi_state = MESIState.EXCLUSIVE ∧
    ((run_cycles 57 evict_demo).cores 0).registers 2 = 1520 ∧
    (∀ k, k < 8 → (run_cycles 57 evict_demo).main_memory.data (8 + k) = 1008 + k) ∧
    (∀ j, j < 4 → j ≠ 0 →
      (((run_cycles 57 evict_demo).cores j).cache.tsram 1).valid = false) ∧
    ((run_cycles 85 evict_demo).cores 0).halted = true ∧
    ((run_cycles 85 evict_demo).cores 0).registers 3 = 1008 ∧
    (run_cycles 85 evict_demo).main_memory.data 8 = 1008 := by
  decide!
/-! ## Hit/miss statistics -/

theorem memory_pull_stats (c : Core) :
    (memory_pull c).read_hit = c.read_hit ∧ (memory_pull c).read_miss = c.read_miss ∧
    (memory_pull c).write_hit = c.write_hit ∧ (memory_pull c).write_miss = c.write_miss ∧
    (memory_pull c).mem_stall = c.mem_stall ∧
    (memory_pull c).pipeline.mem.valid
      = (c.pipeline.mem.valid || mem_pull_guard c) ∧
    (mem_pull_guard c = true → c.pipeline.mem.valid = false ∧
      (memory_pull c).pipeline.mem.inst = c.pipeline.execute.inst) := by
  unfold memory_pull mem_pull_guard
  dsimp only
  cases h1 : c.pipeline.mem.valid <;> cases h2 : c.pipeline.execute.valid <;>
    cases h3 : c.pipeline.execute.stall <;> simp [h1, h2, h3]

/-- The five counters and the MEM stall flag after `stage_memory`, read off the
cache call. -/
theorem stage_memory_counters (s : Simulator) (i : Nat) :
    (mem_access s i = none →
      ((memory_pull (s.cores i)).pipeline.mem.valid = false ∨
        (¬ (memory_pull (s.cores i)).pipeline.mem.inst.opcode = 16 ∧
          ¬ (memory_pull (s.cores i)).pipeline.mem.inst.opcode = 17)) ∧
      stage_memory s i = s.setCore i (memory_pull (s.cores i))) ∧
    (∀ hit, mem_access s i = some hit →
      (memory_pull (s.cores i)).pipeline.mem.valid = true ∧
      ((memory_pull (s.cores i)).pipeline.mem.inst.opcode = 16 ∨
        (memory_pull (s.cores i)).pipeline.mem.inst.opcode = 17) ∧
      ((stage_memory s i).cores i).pipeline.mem.internal_stall = !hit ∧
      ((stage_memory s i).cores i).pipeline.mem.valid = true ∧
      ((stage_memory s i).cores i).pipeline.mem.inst
        = (memory_pull (s.cores i)).pipeline.mem.inst ∧
      ((stage_memory s i).cores i).mem_stall =
        (if hit then (s.cores i).mem_stall else ((s.cores i).mem_stall + 1) % 2 ^ 64) ∧
      ((stage_memory s i).cores i).read_hit =
        (memory_stats (s.cores i) (s.cores i).pipeline.mem.valid
          (memory_pull (s.cores i)).pipeline.mem.inst.opcode hit).read_hit ∧
      ((stage_memory s i).cores i).read_miss =
        (memory_stats (s.cores i) (s.cores i).pipeline.mem.valid
          (memory_pull (s.cores i)).pipeline.mem.inst.opcode hit).read_miss ∧
      ((stage_memory s i).cores i).write_hit =
        (memory_stats (s.cores i) (s.cores i).pipeline.mem.valid
          (memory_pull (s.cores i)).pipeline.mem.inst.opcode hit).write_hit ∧
      ((stage_memory s i).cores i).write_miss =
        (memory_stats (s.cores i) (s.cores i).pipeline.mem.valid
          (memory_pull (s.cores i)).pipeline.mem.inst.opcode hit).write_miss) := by
  obtain ⟨p1, p2, p3, p4, p5, -, -⟩ := memory_pull_stats (s.cores i)
  unfold stage_memory mem_access
  dsimp only
  simp only [setCore_cores_same]
  by_cases hv : (memory_pull (s.cores i)).pipeline.mem.valid = true
  · rw [if_pos hv, if_pos hv]
    by_cases h16 : (memory_pull (s.cores i)).pipeline.mem.inst.opcode = 16
    · rw [if_pos h16, if_pos h16]
      refine ⟨fun h => (by cases h), ?_⟩
      intro hit hh
      simp only [Option.some.injEq] at hh
      subst hh
      simp only [setCore_cores_same, cache_read_cores]
      refine ⟨hv, Or.inl h16, ?_⟩
      unfold memory_finish memory_stats
      dsimp only
      split_ifs <;> simp_all
    · rw [if_neg h16, if_neg h16]
      by_cases h17 : (memory_pull (s.cores i)).pipeline.mem.inst.opcode = 17
      · rw [if_pos h17, if_pos h17]
        refine ⟨fun h => (by cases h), ?_⟩
        intro hit hh
        simp only [Option.some.injEq] at hh
        subst hh
        simp only [setCore_cores_same]
        rw [cache_write_core]
        refine ⟨hv, Or.inr h17, ?_⟩
        unfold memory_finish memory_stats
        dsimp only
        split_ifs <;> simp_all [setCore_cores_same]
      · rw [if_neg h17, if_neg h17]
        exact ⟨fun _ => ⟨Or.inr ⟨h16, h17⟩, rfl⟩, fun hit h => (by cases h)⟩
  · rw [if_neg hv, if_neg hv]
    exact ⟨fun _ => ⟨Or.inl (by simpa using hv), rfl⟩, fun hit h => (by cases h)⟩

/-- The counters after `stage_memory`, in terms of the cache call it makes:
with `new` the pull guard (the instruction enters MEM in this call, `is_retry` is
false) each hit/miss counter moves by one exactly for a new LW resp. SW with the
matching result, and `mem_stall` moves by one whenever the call misses. -/
theorem stage_memory_stats (s : Simulator) (i : Nat) :
    ((stage_memory s i).cores i).read_hit =
      (if mem_pull_guard (s.cores i) = true ∧
          (s.cores i).pipeline.execute.inst.opcode = 16 ∧ mem_access s i = some true
        then ((s.cores i).read_hit + 1) % 2 ^ 64 else (s.cores i).read_hit) ∧
    ((stage_memory s i).cores i).read_miss =
      (if mem_pull_guard (s.cores i) = true ∧
          (s.cores i).pipeline.execute.inst.opcode = 16 ∧ mem_access s i = some false
        then ((s.cores i).read_miss + 1) % 2 ^ 64 else (s.cores i).read_miss) ∧
    ((stage_memory s i).cores i).write_hit =
      (if mem_pull_guard (s.cores i) = true ∧
          (s.cores i).pipeline.execute.inst.opcode = 17 ∧ mem_access s i = some true
        then ((s.cores i).write_hit + 1) % 2 ^ 64 else (s.cores i).write_hit) ∧
    ((stage_memory s i).cores i).write_miss =
      (if mem_pull_guard (s.cores i) = true ∧
          (s.cores i).pipeline.execute.inst.opcode = 17 ∧ mem_access s i = some false
        then ((s.cores i).write_miss + 1) % 2 ^ 64 else (s.cores i).write_miss) ∧
    ((stage_memory s i).cores i).mem_stall =
      (if mem_access s i = some false then ((s.cores i).mem_stall + 1) % 2 ^ 64
        else (s.cores i).mem_stall) ∧
    (mem_pull_guard (s.cores i) = true →
      (((s.cores i).pipeline.execute.inst.opcode = 16 ∨
        (s.cores i).pipeline.execute.inst.opcode = 17) ↔ (mem_access s i).isSome = true)) := by
  obtain ⟨p1, p2, p3, p4, p5, p6, p7⟩ := memory_pull_stats (s.cores i)
  obtain ⟨hn, hs⟩ := stage_memory_counters s i
  cases ha : mem_access s i with
  | none =>
    obtain ⟨n1, n2⟩ := hn ha
    rw [n2, setCore_cores_same, p1, p2, p3, p4, p5]
    refine ⟨by simp, by simp, by simp, by simp, by simp, ?_⟩
    intro hg
    obtain ⟨q1, q2⟩ := p7 hg
    rw [p6, hg, Bool.or_true, q2] at n1
    simp only [Option.isSome_none, Bool.false_eq_true, iff_false, not_or]
    rcases n1 with n1 | n1
    · cases n1
    · exact n1
  | some hit =>
    obtain ⟨s1, s2, s3, s4, s5, s6, s7, s8, s9, s10⟩ := hs hit ha
    rw [s6, s7, s8, s9, s10]
    by_cases hg : mem_pull_guard (s.cores i) = true
    · obtain ⟨q1, q2⟩ := p7 hg
      rw [q2] at s2 ⊢
      rw [q1]
      unfold memory_stats
      cases hit <;> rcases s2 with s2 | s2 <;> simp [hg, s2]
    · have hv : (s.cores i).pipeline.mem.valid = true := by
        rw [p6] at s1
        simpa [hg] using s1
      rw [hv]
      unfold memory_stats
      cases hit <;> simp [hg]


theorem mem_counters_eq {c c' : Core} (h1 : c'.read_hit = c.read_hit)
    (h2 : c'.read_miss = c.read_miss) (h3 : c'.write_hit = c.write_hit)
    (h4 : c'.write_miss = c.write_miss) (h5 : c'.mem_stall = c.mem_stall) :
    c'.mem_counters = c.mem_counters := by
  unfold Core.mem_counters
  rw [h1, h2, h3, h4, h5]

theorem bus_touch_mem_counters {c c' : Core} (h : BusTouch c c') :
    c'.mem_counters = c.mem_counters := by
  unfold BusTouch at h
  rw [h]
  rfl

theorem ite_mem_counters {P : Prop} [Decidable P] {a b c : Core}
    (ha : a.mem_counters = c.mem_counters) (hb : b.mem_counters = c.mem_counters) :
    (if P then a else b).mem_counters = c.mem_counters := by
  split <;> assumption

theorem stage_writeback_mem_counters (s : Simulator) (i : Nat) :
    ((stage_writeback s i).cores i).mem_counters = (s.cores i).mem_counters := by
  have hc : ∀ c : Core, (writeback_commit c).mem_counters = c.mem_counters := by
    intro c
    unfold writeback_commit
    dsimp only
    repeat (first | rfl | apply ite_mem_counters)
  unfold stage_writeback
  dsimp only
  rw [setCore_cores_same, hc]
  unfold writeback_pull
  dsimp only
  split_ifs with h1 h2
  · rw [setCore_cores_same, cache_read_cores, setCore_cores_same]
    rfl
  · rw [setCore_cores_same, setCore_cores_same]
    rfl
  · rw [setCore_cores_same]
    rfl

theorem front_stages_mem_counters (c : Core) :
    (stage_fetch (stage_decode (stage_execute c))).mem_counters = c.mem_counters := by
  have hf : ∀ c : Core, (stage_fetch c).mem_counters = c.mem_counters := by
    intro c
    unfold stage_fetch
    dsimp only
    repeat (first | rfl | apply ite_mem_counters)
  have hp : ∀ c : Core, (decode_pull c).mem_counters = c.mem_counters := by
    intro c
    unfold decode_pull
    dsimp only
    repeat (first | rfl | apply ite_mem_counters)
  have hb : ∀ c : Core, (decode_body c).mem_counters = c.mem_counters := by
    intro c
    unfold decode_body
    dsimp only
    repeat (first | rfl | apply ite_mem_counters)
  have hd : ∀ c : Core, (stage_decode c).mem_counters = c.mem_counters := by
    intro c
    unfold stage_decode
    dsimp only
    split
    · rw [hb, hp]
    · rw [hp]
  have he : ∀ c : Core, (stage_execute c).mem_counters = c.mem_counters := by
    intro c
    have h1 : (execute_pull c).mem_counters = c.mem_counters := by
      unfold execute_pull
      dsimp only
      repeat (first | rfl | apply ite_mem_counters)
    unfold stage_execute
    dsimp only
    split
    · exact h1
    · exact h1
  rw [hf, hd, he]

theorem end_of_cycle_mem_counters (c : Core) : (end_of_cycle c).mem_counters = c.mem_counters := by
  unfold end_of_cycle log_cycle_trace
  dsimp only
  split
  · rfl
  · split <;> split <;> split <;> rfl

/-- The memory counters of core `i` after one global cycle: those `stage_memory`
leaves, or those of the start when the core is halted. -/
theorem sim_cycle_mem_counters (s : Simulator) (i : Nat) (hi : i < 4) :
    ((memory_entry s i).cores i).mem_counters = (s.cores i).mem_counters ∧
    ((s.cores i).halted = true →
      ((sim_cycle s).cores i).mem_counters = (s.cores i).mem_counters) ∧
    ((s.cores i).halted = false →
      ((sim_cycle s).cores i).mem_counters
        = ((stage_memory (memory_entry s i) i).cores i).mem_counters) := by
  have ht := pre_core_others s i i (Nat.le_refl i)
  have hh := bus_touch_halted ht
  have e0 : ((memory_entry s i).cores i).mem_counters = (s.cores i).mem_counters := by
    unfold memory_entry
    rw [stage_writeback_mem_counters, bus_touch_mem_counters ht]
  refine ⟨e0, ?_, ?_⟩
  · intro h
    rw [sim_cycle_core s i hi, execute_core_cycle_halted _ _ (hh.trans h)]
    exact bus_touch_mem_counters ht
  · intro h
    rw [sim_cycle_core s i hi, (execute_core_cycle_core _ i (hh.trans h)).1,
      end_of_cycle_mem_counters, front_stages_mem_counters]
    rfl

/-- One global cycle on the five memory counters of core `i`: a halted core keeps
them; for a running core, with `new` the pull guard of `stage_memory`, `op` the
opcode in EX and `a` the result of the cache call, all as `stage_memory` finds
them, each hit/miss counter moves by one (as a 64-bit counter) exactly for a new
LW resp. SW with that result, and `mem_stall` moves by one when the call misses. -/
theorem sim_cycle_stats (s : Simulator) (i : Nat) (hi : i < 4) :
    ((s.cores i).halted = true →
      ((sim_cycle s).cores i).mem_counters = (s.cores i).mem_counters) ∧
    ((s.cores i).halted = false →
      ((sim_cycle s).cores i).read_hit =
        (if mem_pull_guard ((memory_entry s i).cores i) = true ∧
            ((memory_entry s i).cores i).pipeline.execute.inst.opcode = 16 ∧
            mem_access (memory_entry s i) i = some true
          then ((s.cores i).read_hit + 1) % 2 ^ 64 else (s.cores i).read_hit) ∧
      ((sim_cycle s).cores i).read_miss =
        (if mem_pull_guard ((memory_entry s i).cores i) = true ∧
            ((memory_entry s i).cores i).pipeline.execute.inst.opcode = 16 ∧
            mem_access (memory_entry s i) i = some false
          then ((s.cores i).read_miss + 1) % 2 ^ 64 else (s.cores i).read_miss) ∧
      ((sim_cycle s).cores i).write_hit =
        (if mem_pull_guard ((memory_entry s i).cores i) = true ∧
            ((memory_entry s i).cores i).pipeline.execute.inst.opcode = 17 ∧
            mem_access (memory_entry s i) i = some true
          then ((s.cores i).write_hit + 1) % 2 ^ 64 else (s.cores i).write_hit) ∧
      ((sim_cycle s).cores i).write_miss =
        (if mem_pull_guard ((memory_entry s i).cores i) = true ∧
            ((memory_entry s i).cores i).pipeline.execute.inst.opcode = 17 ∧
            mem_access (memory_entry s i) i = some false
          then ((s.cores i).write_miss + 1) % 2 ^ 64 else (s.cores i).write_miss) ∧
      ((sim_cycle s).cores i).mem_stall =
        (if mem_access (memory_entry s i) i = some false
          then ((s.cores i).mem_stall + 1) % 2 ^ 64 else (s.cores i).mem_stall) ∧
      (mem_pull_guard ((memory_entry s i).cores i) = true →
        ((((memory_entry s i).cores i).pipeline.execute.inst.opcode = 16 ∨
          ((memory_entry s i).cores i).pipeline.execute.inst.opcode = 17) ↔
          (mem_access (memory_entry s i) i).isSome = true))) := by
  obtain ⟨e0, e1, e2⟩ := sim_cycle_mem_counters s i hi
  refine ⟨e1, ?_⟩
  intro hh
  have e3 := e2 hh
  obtain ⟨t1, t2, t3, t4, t5, t6⟩ := stage_memory_stats (memory_entry s i) i
  unfold Core.mem_counters at e0 e3
  simp only [Prod.mk.injEq] at e0 e3
  obtain ⟨a1, a2, a3, a4, a5⟩ := e0
  obtain ⟨b1, b2, b3, b4, b5⟩ := e3
  rw [a1] at t1
  rw [a2] at t2
  rw [a3] at t3
  rw [a4] at t4
  rw [a5] at t5
  exact ⟨b1.trans t1, b2.trans t2, b3.trans t3, b4.trans t4, b5.trans t5, t6⟩

theorem mem_entered_le (i : Nat) (s0 : Simulator) (n : Nat) : mem_entered i s0 n ≤ n := by
  induction n with
  | zero => exact Nat.le_refl 0
  | succ n ih =>
    show mem_entered i s0 n + _ ≤ n + 1
    split_ifs <;> omega

/-- The arithmetic of one step of the counters. -/
theorem stats_step (rh rm wh wm ms e n op : Nat) (g : Bool) (a : Option Bool)
    (rh2 rm2 wh2 wm2 ms2 : Nat) (hn : n + 1 < 2 ^ 64)
    (hsum : rh + rm + wh + wm = e) (he : e ≤ n) (hms : ms ≤ n)
    (r1 : rh2 = if g = true ∧ op = 16 ∧ a = some true then (rh + 1) % 2 ^ 64 else rh)
    (r2 : rm2 = if g = true ∧ op = 16 ∧ a = some false then (rm + 1) % 2 ^ 64 else rm)
    (r3 : wh2 = if g = true ∧ op = 17 ∧ a = some true then (wh + 1) % 2 ^ 64 else wh)
    (r4 : wm2 = if g = true ∧ op = 17 ∧ a = some false then (wm + 1) % 2 ^ 64 else wm)
    (r5 : ms2 = if a = some false then (ms + 1) % 2 ^ 64 else ms)
    (r6 : g = true → ((op = 16 ∨ op = 17) ↔ a.isSome = true)) :
    rh2 + rm2 + wh2 + wm2 =
      e + (if (g && (decide (op = 16) || decide (op = 17))) = true then 1 else 0) ∧
    ms2 ≤ n + 1 := by
  have hm : ms2 ≤ n + 1 := by
    rw [r5]
    split_ifs <;> omega
  refine ⟨?_, hm⟩
  cases g
  · simp only [Bool.false_eq_true, false_and, if_false] at r1 r2 r3 r4
    rw [r1, r2, r3, r4, hsum]
    simp
  · have r7 := r6 rfl
    simp only [true_and] at r1 r2 r3 r4
    by_cases h16 : op = 16
    · have h17 : ¬ op = 17 := by omega
      rcases a with _ | hit
      · exact absurd (r7.1 (Or.inl h16)) (by simp)
      · cases hit <;> simp [h16] at r1 r2 r3 r4 ⊢ <;> omega
    · by_cases h17 : op = 17
      · rcases a with _ | hit
        · exact absurd (r7.1 (Or.inr h17)) (by simp)
        · cases hit <;> simp [h17] at r1 r2 r3 r4 ⊢ <;> omega
      · simp only [h16, h17, false_and, if_false] at r1 r2 r3 r4
        rw [r1, r2, r3, r4, hsum]
        simp [h16, h17]

/-- In a run from the initial state the four hit/miss counters of a core add up
to the number of LW and SW instructions it has pulled into MEM, and `mem_stall`
is at most the number of cycles. -/
theorem accesses_eq_entered (imems : Nat → Nat → Nat) (memin : Nat → Nat) (i : Nat)
    (hi : i < 4) (n : Nat) (hn : n < 2 ^ 64) :
    ((run_cycles n (load_images imems memin)).cores i).accesses
      = mem_entered i (load_images imems memin) n ∧
    ((run_cycles n (load_images imems memin)).cores i).mem_stall ≤ n := by
  induction n with
  | zero => exact ⟨rfl, Nat.le_refl 0⟩
  | succ n ih =>
    obtain ⟨ih1, ih2⟩ := ih (by omega)
    have hle := mem_entered_le i (load_images imems memin) n
    rw [run_cycles_succ]
    obtain ⟨c1, c2⟩ := sim_cycle_stats (run_cycles n (load_images imems memin)) i hi
    have hpre : ((pre_core (run_cycles n (load_images imems memin)) i).cores i).halted
        = ((run_cycles n (load_images imems memin)).cores i).halted :=
      bus_touch_halted (pre_core_others _ i i (Nat.le_refl i))
    show _ = mem_entered i _ n + _ ∧ _
    unfold mem_enters
    rw [hpre]
    unfold Core.accesses at ih1 ⊢
    cases hh : ((run_cycles n (load_images imems memin)).cores i).halted
    · obtain ⟨r1, r2, r3, r4, r5, r6⟩ := c2 hh
      rw [Bool.not_false, Bool.true_and]
      exact stats_step _ _ _ _ _ _ n _ _ _ _ _ _ _ _ hn ih1 hle ih2 r1 r2 r3 r4 r5 r6
    · have := c1 hh
      unfold Core.mem_counters at this
      simp only [Prod.mk.injEq] at this
      obtain ⟨b1, b2, b3, b4, b5⟩ := this
      rw [b1, b2, b3, b4, b5]
      simp only [Bool.not_true, Bool.false_and, Bool.false_eq_true, if_false]
      exact ⟨by omega, by omega⟩

/-- C30 (hit/miss statistics).  For core `i` of a run from the initial state and
a cycle `n` (below the range of the 64-bit counters), let `new`, `op`, `a` be the
pull guard of `stage_memory`, the opcode of the instruction in EX and the result
of the cache call, as `stage_memory` finds them in that cycle.  (1) The four
hit/miss counters add up to the number of LW and SW instructions pulled into MEM
so far.  (2) A halted core keeps its five counters.  (3) For a running core:
`read_hit` grows by one iff an LW enters MEM in this cycle and its call hits,
`read_miss` iff an LW enters and its call misses, `write_hit` and `write_miss`
likewise for an SW; so an LW or SW that enters MEM moves exactly one of the four
counters, by one, according to its first cache call, and when MEM was already
valid at the start of the stage (a retry) or nothing LW/SW enters, none of the
four moves; `mem_stall` grows by one exactly when the call of this cycle, first
or retry, misses. -/
theorem stats_once_per_access (imems : Nat → Nat → Nat) (memin : Nat → Nat) (i n : Nat)
    (hi : i < 4) (hn : n + 1 < 2 ^ 64) :
    ((run_cycles n (load_images imems memin)).cores i).accesses
      = mem_entered i (load_images imems memin) n ∧
    ((run_cycles (n + 1) (load_images imems memin)).cores i).accesses
      = ((run_cycles n (load_images imems memin)).cores i).accesses +
        (if mem_enters (run_cycles n (load_images imems memin)) i then 1 else 0) ∧
    (((run_cycles n (load_images imems memin)).cores i).halted = true →
      ((run_cycles (n + 1) (load_images imems memin)).cores i).mem_counters
        = ((run_cycles n (load_images imems memin)).cores i).mem_counters) ∧
    (((run_cycles n (load_images imems memin)).cores i).halted = false →
      ((run_cycles (n + 1) (load_images imems memin)).cores i).read_hit =
        ((run_cycles n (load_images imems memin)).cores i).read_hit +
          (if mem_pull_guard
                ((memory_entry (run_cycles n (load_images imems memin)) i).cores i) = true ∧
              ((memory_entry (run_cycles n (load_images imems memin)) i).cores
                i).pipeline.execute.inst.opcode = 16 ∧
              mem_access (memory_entry (run_cycles n (load_images imems memin)) i) i
                = some true then 1 else 0) ∧
      ((run_cycles (n + 1) (load_images imems memin)).cores i).read_miss =
        ((run_cycles n (load_images imems memin)).cores i).read_miss +
          (if mem_pull_guard
                ((memory_entry (run_cycles n (load_images imems memin)) i).cores i) = true ∧
              ((memory_entry (run_cycles n (load_images imems memin)) i).cores
                i).pipeline.execute.inst.opcode = 16 ∧
              mem_access (memory_entry (run_cycles n (load_images imems memin)) i) i
                = some false then 1 else 0) ∧
      ((run_cycles (n + 1) (load_images imems memin)).cores i).write_hit =
        ((run_cycles n (load_images imems memin)).cores i).write_hit +
          (if mem_pull_guard
                ((memory_entry (run_cycles n (load_images imems memin)) i).cores i) = true ∧
              ((memory_entry (run_cycles n (load_images imems memin)) i).cores
                i).pipeline.execute.inst.opcode = 17 ∧
              mem_access (memory_entry (run_cycles n (load_images imems memin)) i) i
                = some true then 1 else 0) ∧
      ((run_cycles (n + 1) (load_images imems memin)).cores i).write_miss =
        ((run_cycles n (load_images imems memin)).cores i).write_miss +
          (if mem_pull_guard
                ((memory_entry (run_cycles n (load_images imems memin)) i).cores i) = true ∧
              ((memory_entry (run_cycles n (load_images imems memin)) i).cores
                i).pipeline.execute.inst.opcode = 17 ∧
              mem_access (memory_entry (run_cycles n (load_images imems memin)) i) i
                = some false then 1 else 0) ∧
      ((run_cycles (n + 1) (load_images imems memin)).cores i).mem_stall =
        ((run_cycles n (load_images imems memin)).cores i).mem_stall +
          (if mem_access (memory_entry (run_cycles n (load_images imems memin)) i) i
              = some false then 1 else 0) ∧
      (mem_pull_guard ((memory_entry (run_cycles n (load_images imems memin)) i).cores i)
          = true →
        ((((memory_entry (run_cycles n (load_images imems memin)) i).cores
              i).pipeline.execute.inst.opcode = 16 ∨
            ((memory_entry (run_cycles n (load_images imems memin)) i).cores
              i).pipeline.execute.inst.opcode = 17) ↔
          (mem_access (memory_entry (run_cycles n (load_images imems memin)) i) i).isSome
            = true)) ∧
      (((memory_entry (run_cycles n (load_images imems memin)) i).cores i).pipeline.mem.valid
          = true →
        mem_pull_guard ((memory_entry (run_cycles n (load_images imems memin)) i).cores i)
          = false)) := by
  obtain ⟨a1, a2⟩ := accesses_eq_entered imems memin i hi n (by omega)
  obtain ⟨b1, -⟩ := accesses_eq_entered imems memin i hi (n + 1) hn
  have hle := mem_entered_le i (load_images imems memin) n
  obtain ⟨c1, c2⟩ := sim_cycle_stats (run_cycles n (load_images imems memin)) i hi
  rw [run_cycles_succ] at b1 ⊢
  refine ⟨a1, ?_, c1, ?_⟩
  · rw [b1, a1]
    rfl
  · intro hh
    obtain ⟨r1, r2, r3, r4, r5, r6⟩ := c2 hh
    unfold Core.accesses at a1
    refine ⟨?_, ?_, ?_, ?_, ?_, r6, ?_⟩
    · rw [r1]; split_ifs <;> omega
    · rw [r2]; split_ifs <;> omega
    · rw [r3]; split_ifs <;> omega
    · rw [r4]; split_ifs <;> omega
    · rw [r5]; split_ifs <;> omega
    · intro hv
      unfold mem_pull_guard
      rw [hv]
      rfl

/-- Instance of `stats_once_per_access`: core 0 of `halt_stall`, whose only memory
instruction is a load that misses; after 30 cycles one LW has entered MEM and
`read_miss` is 1. -/
theorem stats_once_per_access_witness :
    (0 < 4) ∧ (30 + 1 < 2 ^ 64) ∧
    mem_entered 0 halt_stall 30 = 1 ∧
    ((run_cycles 30 halt_stall).cores 0).read_miss = 1 ∧
    ((run_cycles 30 halt_stall).cores 0).read_hit = 0 :=
  have h := (stats_once_per_access halt_stall_imems (fun _ => 0) 0 30 (by decide)
    (by decide)).1
  ⟨by decide, by decide, h.symm.trans (by decide!), by decide!, by decide!⟩
/-! ## Illegal opcodes are no-ops -/

theorem alu_illegal (inst : Instruction) (pc a b : Nat) (h : illegal_opcode inst.opcode) :
    alu inst pc a b = (0, false) := by
  obtain ⟨h1, h2⟩ := h
  unfold alu
  simp only [OP_ADD, OP_SUB, OP_AND, OP_OR, OP_XOR, OP_MUL, OP_SLL, OP_SRA, OP_SRL, OP_JAL,
    OP_LW, OP_SW]
  repeat rw [if_neg (by omega)]

/-- A valid EX slot after `stage_execute` carries the result of the `switch`. -/
theorem stage_execute_result (c : Core)
    (hv : (stage_execute c).pipeline.execute.valid = true) :
    (execute_pull c).pipeline.execute.valid = true ∧
    (stage_execute c).pipeline.execute.inst = (execute_pull c).pipeline.execute.inst ∧
    (stage_execute c).pipeline.execute.reg_write =
      (alu (execute_pull c).pipeline.execute.inst (execute_pull c).pipeline.execute.pc
        (execute_pull c).pipeline.execute.rs_value
        (execute_pull c).pipeline.execute.rt_value).2 ∧
    (stage_execute c).pipeline.execute.alu_result =
      (alu (execute_pull c).pipeline.execute.inst (execute_pull c).pipeline.execute.pc
        (execute_pull c).pipeline.execute.rs_value
        (execute_pull c).pipeline.execute.rt_value).1 := by
  unfold stage_execute at hv ⊢
  dsimp only at hv ⊢
  by_cases h : (execute_pull c).pipeline.execute.valid = true
  · rw [if_pos h]
    exact ⟨h, rfl, rfl, rfl⟩
  · rw [if_neg h] at hv
    exact absurd hv h

theorem QuietInv.q_execute {c : Core} (h : QuietInv c) : QuietInv (stage_execute c) := by
  obtain ⟨-, v2, v3, -, -, -⟩ := stage_execute_view c
  refine ⟨?_, by rw [v2]; exact h.mem, by rw [v3]; exact h.wb⟩
  intro hv hill
  obtain ⟨-, r2, r3, -⟩ := stage_execute_result c hv
  rw [r2] at hill
  rw [r3, alu_illegal _ _ _ _ hill]

theorem QuietInv.q_decode {c : Core} (h : QuietInv c) : QuietInv (stage_decode c) := by
  obtain ⟨p1, p2, p3, -, -, -⟩ := decode_pull_view c
  have hp : QuietInv (decode_pull c) :=
    ⟨by rw [p1]; exact h.ex, by rw [p2]; exact h.mem, by rw [p3]; exact h.wb⟩
  unfold stage_decode
  dsimp only
  split
  · obtain ⟨b1, b2, b3, -, -⟩ := decode_body_view (decode_pull c)
    exact ⟨by rw [b1]; exact hp.ex, by rw [b2]; exact hp.mem, by rw [b3]; exact hp.wb⟩
  · exact hp

theorem QuietInv.q_fetch {c : Core} (h : QuietInv c) : QuietInv (stage_fetch c) := by
  obtain ⟨-, f2, f3, f4, -, -, -⟩ := stage_fetch_view c
  exact ⟨by rw [f2]; exact h.ex, by rw [f3]; exact h.mem, by rw [f4]; exact h.wb⟩

theorem end_of_cycle_slots (c : Core) :
    (end_of_cycle c).pipeline.execute
      = { c.pipeline.execute with stall := (end_of_cycle c).pipeline.execute.stall } ∧
    (end_of_cycle c).pipeline.mem
      = { c.pipeline.mem with stall := (end_of_cycle c).pipeline.mem.stall } ∧
    (end_of_cycle c).pipeline.writeback = c.pipeline.writeback := by
  unfold end_of_cycle log_cycle_trace
  dsimp only
  split
  · exact ⟨rfl, rfl, rfl⟩
  · split <;> split <;> split <;> exact ⟨rfl, rfl, rfl⟩

theorem QuietInv.q_end {c : Core} (h : QuietInv c) : QuietInv (end_of_cycle c) := by
  obtain ⟨e1, e2, e3⟩ := end_of_cycle_slots c
  refine ⟨?_, ?_, by rw [e3]; exact h.wb⟩
  · rw [e1]; exact h.ex
  · rw [e2]; exact h.mem

theorem QuietInv.q_touch {c c' : Core} (h : QuietInv c) (ht : BusTouch c c') : QuietInv c' := by
  unfold BusTouch at ht
  rw [ht]
  exact ⟨h.ex, h.mem, h.wb⟩

theorem memory_pull_slots (c : Core) :
    (mem_pull_guard c = true →
      (memory_pull c).pipeline.mem
        = { c.pipeline.execute with internal_stall := mem_probe_stall c.cache c.pipeline.execute } ∧
      c.pipeline.execute.valid = true ∧
      (memory_pull c).pipeline.execute.valid = false) ∧
    (mem_pull_guard c = false → memory_pull c = c) ∧
    (memory_pull c).pipeline.writeback = c.pipeline.writeback := by
  unfold memory_pull mem_pull_guard
  dsimp only
  cases h1 : c.pipeline.mem.valid <;> cases h2 : c.pipeline.execute.valid <;>
    cases h3 : c.pipeline.execute.stall <;> simp [h1, h2, h3]

theorem QuietInv.q_memory {s : Simulator} {i : Nat} (h : QuietInv (s.cores i)) :
    QuietInv ((stage_memory s i).cores i) := by
  obtain ⟨-, -, m3, m4, -, m6⟩ := stage_memory_core s i
  obtain ⟨g1, g2, g3⟩ := memory_pull_slots (s.cores i)
  have hp : QuietInv (memory_pull (s.cores i)) := by
    cases hg : mem_pull_guard (s.cores i)
    · rw [g2 hg]; exact h
    · obtain ⟨a1, a2, a3⟩ := g1 hg
      refine ⟨fun hv => ?_, ?_, by rw [g3]; exact h.wb⟩
      · rw [a3] at hv; cases hv
      · rw [a1]
        exact fun _ hill => h.ex a2 hill
  refine ⟨by rw [m3]; exact hp.ex, ?_, by rw [m4]; exact hp.wb⟩
  rw [m6]
  exact hp.mem

theorem QuietInv.q_writeback {s : Simulator} {i : Nat} (h : QuietInv (s.cores i)) :
    QuietInv ((stage_writeback s i).cores i) := by
  obtain ⟨-, -, v3, -, v5, v6⟩ := stage_writeback_view s i
  refine ⟨by rw [v3]; exact h.ex, ?_, ?_⟩
  · cases hg : wb_pull_guard (s.cores i)
    · rw [(v6 hg).1]; exact h.mem
    · intro hv
      rw [(v5 hg).2.2.1] at hv
      cases hv
  · cases hg : wb_pull_guard (s.cores i)
    · intro hv
      rw [(v6 hg).2] at hv
      cases hv
    · have hg2 : (s.cores i).pipeline.mem.valid = true ∧
          (s.cores i).pipeline.mem.internal_stall = false := by
        unfold wb_pull_guard at hg
        simpa using hg
      rw [(stage_writeback_pulled s i hg2.1 hg2.2).1]
      exact fun _ hill => h.mem hg2.1 hill

theorem QuietInv.q_core_cycle {s : Simulator} {i : Nat} (h : QuietInv (s.cores i)) :
    QuietInv ((execute_core_cycle s i).cores i) := by
  unfold execute_core_cycle
  by_cases hh : (s.cores i).halted = true
  · simp only [hh, if_true]
    exact h
  · simp only [hh, Bool.false_eq_true, if_false, setCore_cores_same]
    exact ((((h.q_writeback).q_memory).q_execute).q_decode).q_fetch.q_end

theorem QuietInv.q_cycle {s : Simulator} {i : Nat} (hi : i < 4) (h : QuietInv (s.cores i)) :
    QuietInv ((sim_cycle s).cores i) := by
  rw [sim_cycle_core s i hi]
  exact (h.q_touch (pre_core_others s i i (Nat.le_refl i))).q_core_cycle

theorem QuietInv.q_reach (imems : Nat → Nat → Nat) (memin : Nat → Nat) (i : Nat) (hi : i < 4)
    (n : Nat) : QuietInv ((run_cycles n (load_images imems memin)).cores i) := by
  induction n with
  | zero => exact ⟨fun h => (by cases h), fun h => (by cases h), fun h => (by cases h)⟩
  | succ n ih =>
    rw [run_cycles_succ]
    exact ih.q_cycle hi

/-- `stage_decode` on an instruction with an illegal opcode: stalled by a hazard or
not, it leaves `branch_pending`, `branch_target`, `halt_fetch`, `pc`, the
registers and the IF slot as the pull left them and does not touch `is_halt`. -/
theorem stage_decode_illegal (core : Core)
    (hv : (decode_pull core).pipeline.decode.valid = true)
    (hill : illegal_opcode (decode_pull core).pipeline.decode.inst.opcode) :
    (stage_decode core).branch_pending = core.branch_pending ∧
    (stage_decode core).branch_target = core.branch_target ∧
    (stage_decode core).halt_fetch = core.halt_fetch ∧
    (stage_decode core).pc = core.pc ∧
    (stage_decode core).registers = core.registers ∧
    (stage_decode core).pipeline.fetch = (decode_pull core).pipeline.fetch ∧
    (stage_decode core).pipeline.decode.is_halt
      = (decode_pull core).pipeline.decode.is_halt := by
  have hsd : stage_decode core = decode_body (decode_pull core) := by
    unfold stage_decode
    simp only [hv, if_true]
  have hp : (decode_pull core).branch_pending = core.branch_pending ∧
      (decode_pull core).branch_target = core.branch_target ∧
      (decode_pull core).halt_fetch = core.halt_fetch ∧
      (decode_pull core).pc = core.pc ∧ (decode_pull core).registers = core.registers := by
    unfold decode_pull
    dsimp only
    split <;> exact ⟨rfl, rfl, rfl, rfl, rfl⟩
  obtain ⟨p1, p2, p3, p4, p5⟩ := hp
  obtain ⟨i1, i2⟩ := hill
  rw [hsd]
  by_cases hs : decode_must_stall (decode_pull core) (decode_pull core).pipeline.decode.inst
  · rw [decode_body_stall _ hs]
    exact ⟨p1, p2, p3, p4, p5, rfl, rfl⟩
  · rw [decode_body_no_stall _ hs]
    have hb : is_branch_instruction (decode_pull core).pipeline.decode.inst = false := by
      simp only [is_branch_instruction, OP_BEQ, OP_BGE, OP_JAL, Bool.or_eq_false_iff,
        Bool.and_eq_false_iff, decide_eq_false_iff_not]
      omega
    have hj : ¬ (decode_pull core).pipeline.decode.inst.opcode = OP_JAL := by
      simp only [OP_JAL]; omega
    have hh : ¬ (decode_pull core).pipeline.decode.inst.opcode = OP_HALT := i2
    rw [hb, if_neg Bool.false_ne_true, if_neg hj, if_neg hh]
    exact ⟨p1, p2, p3, p4, p5, rfl, rfl⟩

/-- A fetched word with an illegal opcode is not flagged as a HALT. -/
theorem stage_fetch_illegal (core : Core) (hg : fetch_guard core = true)
    (hill : illegal_opcode (decode_instruction (core.imem core.pc)).opcode) :
    (stage_fetch core).pipeline.fetch.valid = true ∧
    (stage_fetch core).pipeline.fetch.inst = decode_instruction (core.imem core.pc) ∧
    (stage_fetch core).pipeline.fetch.is_halt = false := by
  unfold fetch_guard at hg
  simp only [Bool.and_eq_true, Bool.not_eq_true', Bool.or_eq_false_iff,
    decide_eq_true_eq] at hg
  obtain ⟨⟨⟨h1, h2⟩, h3, h4⟩, h5⟩ := hg
  unfold stage_fetch
  rw [if_neg (by rw [h1, h2]; exact Bool.false_ne_true), if_pos (by rw [h3, h4]; rfl),
    if_pos h5]
  exact ⟨rfl, rfl, decide_eq_false hill.2⟩

/-- `stage_execute` on an instruction with an illegal opcode: no result, no
register write. -/
theorem stage_execute_illegal (core : Core)
    (hv : (execute_pull core).pipeline.execute.valid = true)
    (hill : illegal_opcode (execute_pull core).pipeline.execute.inst.opcode) :
    (stage_execute core).pipeline.execute.valid = true ∧
    (stage_execute core).pipeline.execute.reg_write = false ∧
    (stage_execute core).pipeline.execute.alu_result = 0 ∧
    (stage_execute core).registers = core.registers := by
  have hse : stage_execute core = execute_body (execute_pull core) := by
    unfold stage_execute
    simp only [hv, if_true]
  have hr : (execute_pull core).registers = core.registers := by
    unfold execute_pull
    dsimp only
    split <;> rfl
  obtain ⟨e1, e2, -⟩ := execute_body_result (execute_pull core)
  rw [hse, e1, e2, alu_illegal _ _ _ _ hill]
  exact ⟨hv, rfl, rfl, hr⟩

/-- `stage_memory` with an illegal opcode in MEM: only the pull happens.  No cache
call is made, so the bus, main memory, the caches and the other cores are
untouched and no counter moves; an instruction that enters MEM is not stalled. -/
theorem stage_memory_illegal (sim : Simulator) (i : Nat)
    (hv : (memory_pull (sim.cores i)).pipeline.mem.valid = true)
    (hill : illegal_opcode (memory_pull (sim.cores i)).pipeline.mem.inst.opcode) :
    stage_memory sim i = sim.setCore i (memory_pull (sim.cores i)) ∧
    mem_access sim i = none ∧
    (stage_memory sim i).bus = sim.bus ∧
    (stage_memory sim i).main_memory = sim.main_memory ∧
    (∀ j, j ≠ i → (stage_memory sim i).cores j = sim.cores j) ∧
    ((stage_memory sim i).cores i).cache = (sim.cores i).cache ∧
    ((stage_memory sim i).cores i).mem_counters = (sim.cores i).mem_counters ∧
    ((stage_memory sim i).cores i).registers = (sim.cores i).registers ∧
    (mem_pull_guard (sim.cores i) = true →
      ((stage_memory sim i).cores i).pipeline.mem.internal_stall = false) := by
  obtain ⟨i1, i2⟩ := hill
  have h16 : ¬ (memory_pull (sim.cores i)).pipeline.mem.inst.opcode = 16 := by omega
  have h17 : ¬ (memory_pull (sim.cores i)).pipeline.mem.inst.opcode = 17 := by omega
  have ha : mem_access sim i = none := by
    unfold mem_access
    dsimp only
    simp only [setCore_cores_same]
    rw [if_pos hv, if_neg h16, if_neg h17]
  have e := ((stage_memory_counters sim i).1 ha).2
  obtain ⟨p1, p2, p3, p4, p5, -, p7⟩ := memory_pull_stats (sim.cores i)
  obtain ⟨g1, -, -⟩ := memory_pull_slots (sim.cores i)
  have hc : (memory_pull (sim.cores i)).cache = (sim.cores i).cache ∧
      (memory_pull (sim.cores i)).registers = (sim.cores i).registers := by
    unfold memory_pull
    dsimp only
    split <;> exact ⟨rfl, rfl⟩
  rw [e]
  refine ⟨rfl, ha, rfl, rfl, ?_, ?_, ?_, ?_, ?_⟩
  · intro j hj
    simp only [Simulator.setCore]
    exact upd_other _ _ _ _ hj
  · rw [setCore_cores_same]; exact hc.1
  · rw [setCore_cores_same]; exact mem_counters_eq p1 p2 p3 p4 p5
  · rw [setCore_cores_same]; exact hc.2
  · intro hg
    rw [setCore_cores_same, (g1 hg).1]
    show mem_probe_stall _ _ = false
    rw [(g1 hg).1] at h16 h17
    unfold mem_probe_stall
    rw [if_neg (by simpa using And.intro h16 h17)]

/-- `stage_writeback` pulling an instruction that is not a load and has
`reg_write` clear: nothing outside the core changes, its cache and registers stay,
no register write is staged, `instructions` counts it. -/
theorem stage_writeback_quiet (sim : Simulator) (i : Nat)
    (hv : (sim.cores i).pipeline.mem.valid = true)
    (hs : (sim.cores i).pipeline.mem.internal_stall = false)
    (hlw : ¬ (sim.cores i).pipeline.mem.inst.opcode = OP_LW)
    (hrw : (sim.cores i).pipeline.mem.reg_write = false) :
    (stage_writeback sim i).bus = sim.bus ∧
    (stage_writeback sim i).main_memory = sim.main_memory ∧
    (∀ j, j ≠ i → (stage_writeback sim i).cores j = sim.cores j) ∧
    ((stage_writeback sim i).cores i).cache = (sim.cores i).cache ∧
    ((stage_writeback sim i).cores i).registers = (sim.cores i).registers ∧
    ((stage_writeback sim i).cores i).pending_reg_write_addr = 0 ∧
    ((stage_writeback sim i).cores i).instructions
      = ((sim.cores i).instructions + 1) % 2 ^ 64 ∧
    ((stage_writeback sim i).cores i).pipeline.writeback = (sim.cores i).pipeline.mem := by
  obtain ⟨w1, w2, w3, w4, -⟩ := stage_writeback_pulled sim i hv hs
  rw [if_neg hlw] at w1
  rw [hrw] at w4
  have hf := stage_writeback_frame sim i
  have hg : ((sim.cores i).pipeline.mem.valid && !(sim.cores i).pipeline.mem.internal_stall)
      = true := by rw [hv, hs]; rfl
  have hb : (stage_writeback sim i).bus = sim.bus ∧
      ((stage_writeback sim i).cores i).cache = (sim.cores i).cache := by
    unfold stage_writeback writeback_pull writeback_commit
    dsimp only
    simp only [setCore_cores_same, hg, if_true, if_neg hlw]
    constructor
    · rfl
    · split_ifs <;> rfl
  refine ⟨hb.1, hf.mem, hf.others, hb.2, w2, ?_, w3, ?_⟩
  · rw [w4, if_neg (fun h => Bool.false_ne_true h.1)]
  · rw [w1]
    rfl

/-- The instruction in an unstalled MEM slot of a running core retires in the
next cycle: WB then holds it and `instructions` has counted it; when it carries no
register write the register file is unchanged. -/
theorem sim_cycle_retire (s : Simulator) (i : Nat) (hi : i < 4)
    (hh : (s.cores i).halted = false)
    (hv : (s.cores i).pipeline.mem.valid = true)
    (hs : (s.cores i).pipeline.mem.internal_stall = false)
    (hlw : ¬ (s.cores i).pipeline.mem.inst.opcode = OP_LW)
    (hrw : (s.cores i).pipeline.mem.reg_write = false) :
    ((sim_cycle s).cores i).pipeline.writeback = (s.cores i).pipeline.mem ∧
    ((sim_cycle s).cores i).instructions = ((s.cores i).instructions + 1) % 2 ^ 64 ∧
    ((sim_cycle s).cores i).registers = (s.cores i).registers := by
  have ht := pre_core_others s i i (Nat.le_refl i)
  have hc := pre_core_cores s i i (Nat.le_refl i)
  have hst : ((pre_core s i).cores i).pipeline.mem.internal_stall = false := by
    cases hx : ((pre_core s i).cores i).pipeline.mem.internal_stall
    · rfl
    · rw [hc] at hx
      have := bus_cycle_stall s i hx
      rw [hs] at this
      cases this
  have hm : ((pre_core s i).cores i).pipeline.mem = (s.cores i).pipeline.mem := by
    have e := ht
    unfold BusTouch at e
    rw [e]
    show { (s.cores i).pipeline.mem with
      internal_stall := ((pre_core s i).cores i).pipeline.mem.internal_stall } = _
    rw [hst, ← hs]
  have hreg : ((pre_core s i).cores i).registers = (s.cores i).registers :=
    bus_touch_registers ht
  have hins : ((pre_core s i).cores i).instructions = (s.cores i).instructions := by
    have e := ht
    unfold BusTouch at e
    rw [e]
  obtain ⟨q1, q2, q3, q4, q5, q6, q7, q8⟩ := stage_writeback_quiet (pre_core s i) i
    (by rw [hm]; exact hv) (by rw [hm]; exact hs) (by rw [hm]; exact hlw)
    (by rw [hm]; exact hrw)
  obtain ⟨w1, w2, w3⟩ := execute_core_cycle_wbview (pre_core s i) i
    ((bus_touch_halted ht).trans hh)
  rw [sim_cycle_core s i hi, w1, w2, w3, q5, q6, q7, q8, hm, hreg, hins]
  exact ⟨rfl, rfl, if_neg (by omega)⟩

/-- C25 (illegal opcodes are no-ops).  An opcode is illegal when it is not one of
0 … 17 and not 20.  For an instruction with an illegal opcode: (1) `stage_decode`
leaves `branch_pending`, `branch_target`, `halt_fetch` and `pc` alone and does not
set `is_halt`, and `stage_fetch` does not flag the fetched word as a HALT;
(2) `stage_execute` gives it `reg_write = false` (and result 0); (3) `stage_memory`
makes no cache call for it: bus, main memory, caches, the other cores and the
memory counters are as before, and it enters MEM unstalled; (4) `stage_writeback`
pulls it without touching bus, memory or cache, stages no register write and
counts it in `instructions`.  (5) In every state of a run from the initial state
a valid EX, MEM or WB slot holding such an instruction has `reg_write` clear, a
valid MEM slot holding one is not stalled, and a valid IF or ID slot holding one
has `is_halt` clear; (6) so once it is in MEM of a running core it retires in the
next cycle with the register file unchanged and `instructions` one higher. -/
theorem illegal_opcode_noop (imems : Nat → Nat → Nat) (memin : Nat → Nat) (i n : Nat)
    (hi : i < 4) :
    (∀ core : Core, (decode_pull core).pipeline.decode.valid = true →
      illegal_opcode (decode_pull core).pipeline.decode.inst.opcode →
      (stage_decode core).branch_pending = core.branch_pending ∧
      (stage_decode core).branch_target = core.branch_target ∧
      (stage_decode core).halt_fetch = core.halt_fetch ∧
      (stage_decode core).pc = core.pc ∧
      (stage_decode core).registers = core.registers ∧
      (stage_decode core).pipeline.fetch = (decode_pull core).pipeline.fetch ∧
      (stage_decode core).pipeline.decode.is_halt
        = (decode_pull core).pipeline.decode.is_halt) ∧
    (∀ core : Core, fetch_guard core = true →
      illegal_opcode (decode_instruction (core.imem core.pc)).opcode →
      (stage_fetch core).pipeline.fetch.valid = true ∧
      (stage_fetch core).pipeline.fetch.inst = decode_instruction (core.imem core.pc) ∧
      (stage_fetch core).pipeline.fetch.is_halt = false) ∧
    (∀ core : Core, (execute_pull core).pipeline.execute.valid = true →
      illegal_opcode (execute_pull core).pipeline.execute.inst.opcode →
      (stage_execute core).pipeline.execute.valid = true ∧
      (stage_execute core).pipeline.execute.reg_write = false ∧
      (stage_execute core).pipeline.execute.alu_result = 0 ∧
      (stage_execute core).registers = core.registers) ∧
    (∀ (sim : Simulator) (j : Nat), (memory_pull (sim.cores j)).pipeline.mem.valid = true →
      illegal_opcode (memory_pull (sim.cores j)).pipeline.mem.inst.opcode →
      stage_memory sim j = sim.setCore j (memory_pull (sim.cores j)) ∧
      mem_access sim j = none ∧
      (stage_memory sim j).bus = sim.bus ∧
      (stage_memory sim j).main_memory = sim.main_memory ∧
      (∀ k, k ≠ j → (stage_memory sim j).cores k = sim.cores k) ∧
      ((stage_memory sim j).cores j).cache = (sim.cores j).cache ∧
      ((stage_memory sim j).cores j).mem_counters = (sim.cores j).mem_counters ∧
      ((stage_memory sim j).cores j).registers = (sim.cores j).registers ∧
      (mem_pull_guard (sim.cores j) = true →
        ((stage_memory sim j).cores j).pipeline.mem.internal_stall = false)) ∧
    (∀ (sim : Simulator) (j : Nat), (sim.cores j).pipeline.mem.valid = true →
      (sim.cores j).pipeline.mem.internal_stall = false →
      illegal_opcode (sim.cores j).pipeline.mem.inst.opcode →
      (sim.cores j).pipeline.mem.reg_write = false →
      (stage_writeback sim j).bus = sim.bus ∧
      (stage_writeback sim j).main_memory = sim.main_memory ∧
      (∀ k, k ≠ j → (stage_writeback sim j).cores k = sim.cores k) ∧
      ((stage_writeback sim j).cores j).cache = (sim.cores j).cache ∧
      ((stage_writeback sim j).cores j).registers = (sim.cores j).registers ∧
      ((stage_writeback sim j).cores j).pending_reg_write_addr = 0 ∧
      ((stage_writeback sim j).cores j).instructions
        = ((sim.cores j).instructions + 1) % 2 ^ 64 ∧
      ((stage_writeback sim j).cores j).pipeline.writeback = (sim.cores j).pipeline.mem) ∧
    (QuietInv ((run_cycles n (load_images imems memin)).cores i) ∧
      (((run_cycles n (load_images imems memin)).cores i).pipeline.mem.valid = true →
        illegal_opcode
          ((run_cycles n (load_images imems memin)).cores i).pipeline.mem.inst.opcode →
        ((run_cycles n (load_images imems memin)).cores i).pipeline.mem.internal_stall
          = false) ∧
      (((run_cycles n (load_images imems memin)).cores i).pipeline.decode.valid = true →
        illegal_opcode
          ((run_cycles n (load_images imems memin)).cores i).pipeline.decode.inst.opcode →
        ((run_cycles n (load_images imems memin)).cores i).pipeline.decode.is_halt = false) ∧
      (((run_cycles n (load_images imems memin)).cores i).pipeline.fetch.valid = true →
        illegal_opcode
          ((run_cycles n (load_images imems memin)).cores i).pipeline.fetch.inst.opcode →
        ((run_cycles n (load_images imems memin)).cores i).pipeline.fetch.is_halt = false)) ∧
    (((run_cycles n (load_images imems memin)).cores i).halted = false →
      ((run_cycles n (load_images imems memin)).cores i).pipeline.mem.valid = true →
      illegal_opcode
        ((run_cycles n (load_images imems memin)).cores i).pipeline.mem.inst.opcode →
      ((run_cycles (n + 1) (load_images imems memin)).cores i).pipeline.writeback
        = ((run_cycles n (load_images imems memin)).cores i).pipeline.mem ∧
      ((run_cycles (n + 1) (load_images imems memin)).cores i).pipeline.writeback.reg_write
        = false ∧
      ((run_cycles (n + 1) (load_images imems memin)).cores i).instructions
        = (((run_cycles n (load_images imems memin)).cores i).instructions + 1) % 2 ^ 64 ∧
      ((run_cycles (n + 1) (load_images imems memin)).cores i).registers
        = ((run_cycles n (load_images imems memin)).cores i).registers) := by
  have hQ := QuietInv.q_reach imems memin i hi n
  have hH := HaltInv.halt_reach_ imems memin i hi n
  have hstall : ((run_cycles n (load_images imems memin)).cores i).pipeline.mem.valid = true →
      illegal_opcode
        ((run_cycles n (load_images imems memin)).cores i).pipeline.mem.inst.opcode →
      ((run_cycles n (load_images imems memin)).cores i).pipeline.mem.internal_stall
        = false := by
    intro hv hill
    cases hx : ((run_cycles n (load_images imems memin)).cores i).pipeline.mem.internal_stall
    · rfl
    · have := hH.op hv hx
      obtain ⟨i1, i2⟩ := hill
      omega
  refine ⟨stage_decode_illegal, stage_fetch_illegal, stage_execute_illegal,
    stage_memory_illegal, ?_, ⟨hQ, hstall, ?_, ?_⟩, ?_⟩
  · intro sim j hv hs hill hrw
    exact stage_writeback_quiet sim j hv hs (by simp only [OP_LW]; have := hill.1; omega) hrw
  · intro hv hill
    rw [hH.flag.2 hv]
    exact decide_eq_false hill.2
  · intro hv hill
    rw [hH.flag.1 hv]
    exact decide_eq_false hill.2
  · intro hh hv hill
    have hrw := hQ.mem hv hill
    obtain ⟨r1, r2, r3⟩ := sim_cycle_retire _ i hi hh hv (hstall hv hill)
      (by simp only [OP_LW]; have := hill.1; omega) hrw
    rw [run_cycles_succ]
    exact ⟨r1, by rw [r1]; exact hrw, r2, r3⟩

/-- Instance of `illegal_opcode_noop`: core 0 of `illegal_demo`; after cycle 4 the
word with opcode 21 is in MEM, after cycle 5 it is in WB with `reg_write` clear,
`instructions` is 1 and the register file is what it was. -/
theorem illegal_opcode_noop_witness :
    (0 < 4) ∧
    ((run_cycles 4 illegal_demo).cores 0).pipeline.mem.inst.opcode = 21 ∧
    ((run_cycles 5 illegal_demo).cores 0).pipeline.writeback.inst.opcode = 21 ∧
    ((run_cycles 5 illegal_demo).cores 0).pipeline.writeback.reg_write = false ∧
    ((run_cycles 5 illegal_demo).cores 0).instructions = 1 ∧
    ((run_cycles 5 illegal_demo).cores 0).registers
      = ((run_cycles 4 illegal_demo).cores 0).registers :=
  have ho : ((run_cycles 4 illegal_demo).cores 0).pipeline.mem.inst.opcode = 21 := by decide!
  have hi : ((run_cycles 4 illegal_demo).cores 0).instructions = 0 := by decide!
  have h := (illegal_opcode_noop illegal_demo_imems (fun _ => 0) 0 4 (by decide)).2.2.2.2.2.2
    (by decide!) (by decide!)
    (by
      show illegal_opcode ((run_cycles 4 illegal_demo).cores 0).pipeline.mem.inst.opcode
      rw [ho]
      exact ⟨by decide, by decide⟩)
  ⟨by decide, ho, (congrArg (fun r => r.inst.opcode) h.1).trans ho, h.2.1,
    h.2.2.1.trans (by
      show (((run_cycles 4 illegal_demo).cores 0).instructions + 1) % 2 ^ 64 = 1
      rw [hi]
      decide), h.2.2.2⟩
/-! ## Cache address decode -/

theorem get_addr_from_tag_index_eq (t i : Nat) (hi : i < 64) :
    get_addr_from_tag_index t i = t * 512 + i * 8 := by
  unfold get_addr_from_tag_index
  rw [Nat.shiftLeft_eq, Nat.shiftLeft_eq]
  exact or_eq_add_of_lt t (i * 2 ^ 3) 9 (by omega)

/-- C36 (cache address decode).  For word addresses `a`, `b` below `2^21`: the
offset is `a mod 8`, the index is `(a div 8) mod 64` and below 64, the tag is
`a div 512` and below 4096, `get_dsram_index` of index and offset is
`index * 8 + offset` and below 512, `get_addr_from_tag_index (tag, index)` plus the
offset gives back `a`, and `a`, `b` have the same index and tag exactly when they
lie in the same 8-word block. -/
theorem cache_address_decode (a b : Nat) (ha : a < 2 ^ 21) (hb : b < 2 ^ 21) :
    get_block_offset a = a % 8 ∧
    get_cache_index a = a / 8 % 64 ∧ get_cache_index a < 64 ∧
    get_cache_tag a = a / 512 ∧ get_cache_tag a < 4096 ∧
    get_dsram_index (get_cache_index a) (get_block_offset a) =
      get_cache_index a * 8 + get_block_offset a ∧
    get_dsram_index (get_cache_index a) (get_block_offset a) < 512 ∧
    get_addr_from_tag_index (get_cache_tag a) (get_cache_index a) + get_block_offset a = a ∧
    ((get_cache_index a = get_cache_index b ∧ get_cache_tag a = get_cache_tag b) ↔
      a / 8 = b / 8) := by
  have hd : get_dsram_index (get_cache_index a) (get_block_offset a) =
      get_cache_index a * 8 + get_block_offset a := dsram_idx_eq a
  rw [hd, get_addr_from_tag_index_eq _ _ (get_cache_index_lt a), get_cache_index_eq,
    get_cache_index_eq, get_cache_tag_eq, get_cache_tag_eq, get_block_offset_eq]
  refine ⟨rfl, rfl, ?_, ?_, ?_, rfl, ?_, ?_, ?_⟩ <;> omega

/-- Instance of `cache_address_decode`: the addresses `0x1ABCDE` and `0x1ABCD9` lie
in the same block (set 27, tag 3422). -/
theorem cache_address_decode_witness :
    (0x1ABCDE < 2 ^ 21 ∧ 0x1ABCD9 < 2 ^ 21) ∧
    get_cache_index 0x1ABCDE = 27 ∧ get_cache_tag 0x1ABCDE = 3422 ∧
    get_addr_from_tag_index (get_cache_tag 0x1ABCDE) (get_cache_index 0x1ABCDE) +
      get_block_offset 0x1ABCDE = 0x1ABCDE ∧
    ((get_cache_index 0x1ABCDE = get_cache_index 0x1ABCD9 ∧
        get_cache_tag 0x1ABCDE = get_cache_tag 0x1ABCD9) ↔ 0x1ABCDE / 8 = 0x1ABCD9 / 8) :=
  have h := cache_address_decode 0x1ABCDE 0x1ABCD9 (by norm_num) (by norm_num)
  ⟨⟨by norm_num, by norm_num⟩, h.2.1.trans (by norm_num), h.2.2.2.1.trans (by norm_num),
    h.2.2.2.2.2.2.2.1, h.2.2.2.2.2.2.2.2⟩
/-! ## Cycle accounting -/

theorem ite_field {α β : Type} (f : α → β) {P : Prop} [Decidable P] {a b : α} {v : β}
    (ha : f a = v) (hb : f b = v) : f (if P then a else b) = v := by
  split <;> assumption

theorem front_stages_tally (c : Core) :
    (stage_fetch (stage_decode (stage_execute c))).tally = c.tally := by
  have hf : ∀ c : Core, (stage_fetch c).tally = c.tally := by
    intro c
    unfold stage_fetch
    dsimp only
    repeat (first | rfl | apply ite_field Core.tally)
  have hp : ∀ c : Core, (decode_pull c).tally = c.tally := by
    intro c
    unfold decode_pull
    dsimp only
    repeat (first | rfl | apply ite_field Core.tally)
  have hb : ∀ c : Core, (decode_body c).tally = c.tally := by
    intro c
    unfold decode_body
    dsimp only
    repeat (first | rfl | apply ite_field Core.tally)
  have hd : ∀ c : Core, (stage_decode c).tally = c.tally := by
    intro c
    unfold stage_decode
    dsimp only
    split
    · rw [hb, hp]
    · rw [hp]
  have he : ∀ c : Core, (stage_execute c).tally = c.tally := by
    intro c
    have h1 : (execute_pull c).tally = c.tally := by
      unfold execute_pull
      dsimp only
      repeat (first | rfl | apply ite_field Core.tally)
    unfold stage_execute
    dsimp only
    split
    · exact h1
    · exact h1
  rw [hf, hd, he]

theorem stage_memory_tally (s : Simulator) (i : Nat) :
    ((stage_memory s i).cores i).tally = (s.cores i).tally := by
  have hp : (memory_pull (s.cores i)).tally = (s.cores i).tally := by
    unfold memory_pull
    dsimp only
    repeat (first | rfl | apply ite_field Core.tally)
  have hs : ∀ (c : Core) r op h, (memory_stats c r op h).tally = c.tally := by
    intro c r op h
    unfold memory_stats
    repeat (first | rfl | apply ite_field Core.tally)
  have hm : ∀ (c : Core) op h d, (memory_finish c op h d).tally = c.tally := by
    intro c op h d
    unfold memory_finish
    repeat (first | rfl | apply ite_field Core.tally)
  unfold stage_memory
  dsimp only
  simp only [setCore_cores_same]
  split_ifs
  · rw [setCore_cores_same, hm, hs, cache_read_cores, setCore_cores_same, hp]
  · rw [setCore_cores_same, hm, hs, cache_write_core, setCore_cores_same]
    exact hp
  · rw [setCore_cores_same]
    exact hp
  · rw [setCore_cores_same]
    exact hp

theorem stage_writeback_tally (s : Simulator) (i : Nat) :
    ((stage_writeback s i).cores i).cycles = (s.cores i).cycles ∧
    ((stage_writeback s i).cores i).instructions =
      (if wb_pull_guard (s.cores i) then ((s.cores i).instructions + 1) % 2 ^ 64
        else (s.cores i).instructions) := by
  have e : (stage_writeback s i).cores i = writeback_commit ((writeback_pull s i).cores i) := by
    unfold stage_writeback
    simp only [setCore_cores_same]
  have hc : ∀ c : Core, (writeback_commit c).cycles = c.cycles := by
    intro c
    unfold writeback_commit
    dsimp only
    repeat (first | rfl | apply ite_field Core.cycles)
  by_cases hg : wb_pull_guard (s.cores i) = true
  · have hg2 := hg
    simp only [wb_pull_guard, Bool.and_eq_true, Bool.not_eq_true'] at hg2
    refine ⟨?_, ?_⟩
    · rw [e, hc, writeback_pull_pulled s i hg2.1 hg2.2]
    · rw [if_pos hg]
      exact (stage_writeback_pulled s i hg2.1 hg2.2).2.2.1
  · have hg2 : ¬ ((s.cores i).pipeline.mem.valid = true ∧
        (s.cores i).pipeline.mem.internal_stall = false) := by
      intro h
      apply hg
      simp only [wb_pull_guard, h.1, h.2]
      rfl
    have hg3 : ((s.cores i).pipeline.mem.valid && !(s.cores i).pipeline.mem.internal_stall)
        = false := by
      simpa [wb_pull_guard] using hg
    refine ⟨?_, ?_⟩
    · rw [e, hc]
      unfold writeback_pull
      dsimp only
      rw [hg3]
      simp only [Bool.false_eq_true, if_false, setCore_cores_same]
    · rw [if_neg hg]
      exact (stage_writeback_not_pulled s i hg2).2.2.1

theorem end_of_cycle_tally (c : Core) (h : c.halted = false) :
    (end_of_cycle c).cycles = (c.cycles + 1) % 2 ^ 64 ∧
    (end_of_cycle c).instructions = c.instructions := by
  unfold end_of_cycle log_cycle_trace
  dsimp only
  rw [if_neg (by simp [h])]
  constructor
  · dsimp only
    split_ifs <;> rfl
  · dsimp only
    split_ifs <;> rfl

/-- C31 (cycle accounting and halted cores).  For a halted core
`execute_core_cycle` returns the whole simulator unchanged (the core with its
pipeline, registers, pc and statistics, and the bus).  For a core that is not
halted when the call starts, with its 64-bit counters below their maximum,
`cycles` grows by exactly 1 — also in the call that sets `halted` because the HALT
is in WB — and `instructions` grows by 1 when WB pulls an instruction out of MEM
and stays otherwise, so it never decreases. -/
theorem cycle_accounting (sim : Simulator) (i : Nat)
    (hc : (sim.cores i).cycles + 1 < 2 ^ 64) (hn : (sim.cores i).instructions + 1 < 2 ^ 64) :
    ((sim.cores i).halted = true → execute_core_cycle sim i = sim) ∧
    ((sim.cores i).halted = false →
      ((execute_core_cycle sim i).cores i).cycles = (sim.cores i).cycles + 1 ∧
      ((execute_core_cycle sim i).cores i).instructions =
        (sim.cores i).instructions + (if wb_pull_guard (sim.cores i) then 1 else 0) ∧
      (sim.cores i).instructions ≤ ((execute_core_cycle sim i).cores i).instructions) := by
  refine ⟨execute_core_cycle_halted sim i, fun hh => ?_⟩
  obtain ⟨c1, c2⟩ := execute_core_cycle_core sim i hh
  obtain ⟨e1, e2⟩ := end_of_cycle_tally _ c2
  have t1 := front_stages_tally ((stage_memory (stage_writeback sim i) i).cores i)
  have t2 := stage_memory_tally (stage_writeback sim i) i
  obtain ⟨w1, w2⟩ := stage_writeback_tally sim i
  have t3 := t1.trans t2
  have k1 : (stage_fetch (stage_decode (stage_execute
      ((stage_memory (stage_writeback sim i) i).cores i)))).cycles = (sim.cores i).cycles :=
    (congrArg Prod.fst t3).trans w1
  have k2 : (stage_fetch (stage_decode (stage_execute
      ((stage_memory (stage_writeback sim i) i).cores i)))).instructions =
      (if wb_pull_guard (sim.cores i) then ((sim.cores i).instructions + 1) % 2 ^ 64
        else (sim.cores i).instructions) :=
    (congrArg Prod.snd t3).trans w2
  rw [c1, e1, e2, k1, k2, Nat.mod_eq_of_lt hc]
  refine ⟨rfl, ?_, ?_⟩
  · split
    · exact Nat.mod_eq_of_lt hn
    · rfl
  · split
    · rw [Nat.mod_eq_of_lt hn]
      exact Nat.le_succ _
    · exact Nat.le_refl _

/-- Instance of `cycle_accounting`: core 0 of `halt_only` in the cycle in which its
HALT reaches WB (the call that sets `halted`): `cycles` goes from 4 to 5 and
`instructions` from 0 to 1. -/
theorem cycle_accounting_witness :
    (((bus_cycle (run_cycles 4 halt_only)).cores 0).cycles + 1 < 2 ^ 64 ∧
      ((bus_cycle (run_cycles 4 halt_only)).cores 0).instructions + 1 < 2 ^ 64) ∧
    ((bus_cycle (run_cycles 4 halt_only)).cores 0).halted = false ∧
    ((execute_core_cycle (bus_cycle (run_cycles 4 halt_only)) 0).cores 0).halted = true ∧
    ((execute_core_cycle (bus_cycle (run_cycles 4 halt_only)) 0).cores 0).cycles = 5 ∧
    ((execute_core_cycle (bus_cycle (run_cycles 4 halt_only)) 0).cores 0).instructions = 1 :=
  have h := (cycle_accounting (bus_cycle (run_cycles 4 halt_only)) 0 (by decide!)
    (by decide!)).2 (by decide!)
  ⟨⟨by decide!, by decide!⟩, by decide!, by decide!, h.1.trans (by decide!),
    h.2.1.trans (by decide!)⟩
/-! ## Main memory frame -/

theorem bus_arbitrate_loop_phase (bus : BusArbiter) (start : Int) (i n : Nat) :
    (bus_arbitrate_loop bus start i n).state = bus.state ∧
    (bus_arbitrate_loop bus start i n).provider_id = bus.provider_id := by
  induction n generalizing i with
  | zero => exact ⟨rfl, rfl⟩
  | succ n ih =>
    simp only [bus_arbitrate_loop]
    split
    · exact ⟨rfl, rfl⟩
    · exact ih (i + 1)

theorem cores_cycle_phase (s : Simulator) :
    (cores_cycle s).bus.state = s.bus.state ∧
    (cores_cycle s).bus.provider_id = s.bus.provider_id := by
  have f0 := execute_core_cycle_frame s 0
  have f1 := execute_core_cycle_frame (execute_core_cycle s 0) 1
  have f2 := execute_core_cycle_frame (execute_core_cycle (execute_core_cycle s 0) 1) 2
  have f3 := execute_core_cycle_frame
    (execute_core_cycle (execute_core_cycle (execute_core_cycle s 0) 1) 2) 3
  exact ⟨f3.bus.state.trans (f2.bus.state.trans (f1.bus.state.trans f0.bus.state)),
    f3.bus.provider_id.trans (f2.bus.provider_id.trans
      (f1.bus.provider_id.trans f0.bus.provider_id))⟩

/-- The Request step starts the memory latency only when no cache provides the
block. -/
theorem bus_request_step_latency (s : Simulator)
    (h : (bus_request_step s).1.bus.state = BusState.LATENCY) :
    (bus_request_step s).1.bus.provider_id = 4 := by
  have hb : bus_request_step s = request_finish
    (snoop_loop { s with bus := { s.bus with provider_id := 4 } }
      { s.bus.pending_trans s.bus.owner.toNat with shared := false } [0, 1, 2, 3]).1
    (snoop_loop { s with bus := { s.bus with provider_id := 4 } }
      { s.bus.pending_trans s.bus.owner.toNat with shared := false } [0, 1, 2, 3]).2 := rfl
  rw [hb] at h ⊢
  obtain ⟨-, -, -, -, -, -, -, -, f9, -, -, -, f13, -⟩ := request_finish_spec
    (snoop_loop { s with bus := { s.bus with provider_id := 4 } }
      { s.bus.pending_trans s.bus.owner.toNat with shared := false } [0, 1, 2, 3]).1
    (snoop_loop { s with bus := { s.bus with provider_id := 4 } }
      { s.bus.pending_trans s.bus.owner.toNat with shared := false } [0, 1, 2, 3]).2
  rw [f9]
  by_contra hp
  rw [(f13 hp).1] at h
  cases h

/-- The Flush step ends in state FLUSH or IDLE. -/
theorem bus_flush_step_not_latency (s : Simulator) (hs : s.bus.state = BusState.FLUSH) :
    (bus_flush_step s).1.bus.state ≠ BusState.LATENCY := by
  rw [(bus_flush_step_bus s).2.2.1, hs]
  split <;> exact fun h => (by cases h)

/-- During the latency of a transaction the provider is main memory: one global
cycle keeps that. -/
theorem latency_provider_cycle (s : Simulator)
    (h : s.bus.state = BusState.LATENCY → s.bus.provider_id = 4) :
    (sim_cycle s).bus.state = BusState.LATENCY → (sim_cycle s).bus.provider_id = 4 := by
  rw [(sim_cycle_fields s).2.2, (cores_cycle_phase _).1, (cores_cycle_phase _).2]
  unfold bus_cycle
  cases hst : s.bus.state with
  | IDLE =>
    rw [bus_cycle_out_idle s hst]
    split
    · exact fun h => (by cases h)
    · intro h2
      exfalso
      have := (bus_arbitrate_loop_phase { s.bus with owner := -1 }
        (Int.tmod ((({ s.bus with owner := -1 } : BusArbiter)).last_granted + 1) 4) 0
        NUM_CORES).1
      have e : (bus_arbitrate { s.bus with owner := -1 }).state = BusState.IDLE :=
        this.trans hst
      rw [e] at h2
      cases h2
  | ARBITRATE =>
    rw [bus_cycle_out_arbitrate s hst]
    exact bus_request_step_latency _
  | REQUEST =>
    rw [bus_cycle_out_request s hst]
    exact bus_request_step_latency _
  | LATENCY =>
    by_cases ht : 0 < s.bus.timer
    · rw [bus_cycle_out_latency_wait s hst ht]
      exact fun _ => h hst
    · rw [bus_cycle_out_latency_done s hst ht]
      exact fun h2 => absurd h2 (bus_flush_step_not_latency _ rfl)
  | FLUSH =>
    rw [bus_cycle_out_flush s hst]
    exact fun h2 => absurd h2 (bus_flush_step_not_latency _ hst)

theorem latency_provider_reach (imems : Nat → Nat → Nat) (memin : Nat → Nat) (n : Nat) :
    (run_cycles n (load_images imems memin)).bus.state = BusState.LATENCY →
    (run_cycles n (load_images imems memin)).bus.provider_id = 4 := by
  induction n with
  | zero => exact fun _ => rfl
  | succ n ih =>
    rw [run_cycles_succ]
    exact latency_provider_cycle _ ih

/-- Main memory after `bus_cycle`, by the state of the arbiter. -/
theorem bus_cycle_main_memory (s : Simulator) :
    (s.bus.state = BusState.FLUSH →
      (bus_cycle_out s).2 = flush_word s.bus ∧
      (bus_cycle s).main_memory =
        (if s.bus.provider_id ≠ 4 then
          { data := upd s.main_memory.data (flush_word s.bus).addr (flush_word s.bus).data }
        else s.main_memory)) ∧
    (s.bus.state = BusState.IDLE ∨ s.bus.state = BusState.ARBITRATE ∨
      s.bus.state = BusState.REQUEST → (bus_cycle s).main_memory = s.main_memory) ∧
    (s.bus.state = BusState.LATENCY → 0 < s.bus.timer ∨ s.bus.provider_id = 4 →
      (bus_cycle s).main_memory = s.main_memory) := by
  unfold bus_cycle
  refine ⟨fun hst => ?_, fun hst => ?_, fun hst hc => ?_⟩
  · rw [bus_cycle_out_flush s hst]
    exact ⟨(bus_flush_step_bus s).1, (bus_flush_step_bus s).2.2.2.2.2.2.2.2.2.2.2.2.1⟩
  · rcases hst with hst | hst | hst
    · rw [bus_cycle_out_idle s hst]
      split <;> rfl
    · rw [bus_cycle_out_arbitrate s hst]
      exact (bus_request_step_spec _).2.2.2.2.2.2.2.2.2.2.1
    · rw [bus_cycle_out_request s hst]
      exact (bus_request_step_spec _).2.2.2.2.2.2.2.2.2.2.1
  · by_cases ht : 0 < s.bus.timer
    · rw [bus_cycle_out_latency_wait s hst ht]
    · have hp : s.bus.provider_id = 4 := hc.resolve_left ht
      rw [bus_cycle_out_latency_done s hst ht,
        (bus_flush_step_bus _).2.2.2.2.2.2.2.2.2.2.2.2.1]
      exact if_neg (fun h => h hp)

/-! ## Evaluations: write-back re-probe, bus trace address, classification -/

/-- C35 (load re-probe at write-back), evaluated on `reprobe_demo`.  In state 69
core 0 holds in MEM, valid and not stalled, the load of address 8 that hit in the
cycle before (`read_hit = 1`, latched data 1008); set 1 of its cache is Exclusive
and its pending slot is free.  The `bus_cycle` of the next cycle performs the
Request step of core 1's BusRdX for address 8 and invalidates the line.  Then
`stage_writeback` of core 0 pulls the load: its re-probe `cache_read` misses,
fills core 0's pending slot with a BusRd for address 8, and the load goes to WB
with the data latched earlier.  Core 0 halts two cycles later with the request
still pending; the bus serves it at cycle 94. -/
theorem writeback_reprobe_misses :
    wb_pull_guard ((run_cycles 69 reprobe_demo).cores 0) = true ∧
    ((run_cycles 69 reprobe_demo).cores 0).pipeline.mem.inst.opcode = OP_LW ∧
    ((run_cycles 69 reprobe_demo).cores 0).pipeline.mem.alu_result = 8 ∧
    ((run_cycles 69 reprobe_demo).cores 0).pipeline.mem.mem_data = 1008 ∧
    ((run_cycles 69 reprobe_demo).cores 0).read_hit = 1 ∧
    ((run_cycles 69 reprobe_demo).cores 0).cache.tsram 1
      = { tag := 0, mesi_state := MESIState.EXCLUSIVE, valid := true } ∧
    (bus_cycle_out (run_cycles 69 reprobe_demo)).2
      = { origid := 1, cmd := BusCommand.RDX, addr := 8, data := 0, shared := false } ∧
    ((pre_core (run_cycles 69 reprobe_demo) 0).cores 0).cache.tsram 1
      = { tag := 0, mesi_state := MESIState.INVALID, valid := false } ∧
    wb_pull_guard ((pre_core (run_cycles 69 reprobe_demo) 0).cores 0) = true ∧
    (cache_read (pre_core (run_cycles 69 reprobe_demo) 0) 0 8 0).1 = none ∧
    (pre_core (run_cycles 69 reprobe_demo) 0).bus.pending 0 = false ∧
    (stage_writeback (pre_core (run_cycles 69 reprobe_demo) 0) 0).bus.pending 0 = true ∧
    (stage_writeback (pre_core (run_cycles 69 reprobe_demo) 0) 0).bus.pending_trans 0
      = { origid := 0, cmd := BusCommand.RD, addr := 8, data := 0, shared := false } ∧
    ((stage_writeback (pre_core (run_cycles 69 reprobe_demo) 0) 0).cores 0).pipeline.writeback.valid
      = true ∧
    ((stage_writeback (pre_core (run_cycles 69 reprobe_demo) 0) 0).cores 0).pipeline.writeback.inst.opcode
      = OP_LW ∧
    ((stage_writeback (pre_core (run_cycles 69 reprobe_demo) 0) 0).cores 0).pipeline.writeback.mem_data
      = 1008 ∧
    (run_cycles 70 reprobe_demo).bus.pending 0 = true ∧
    ((run_cycles 71 reprobe_demo).cores 0).halted = true ∧
    (run_cycles 71 reprobe_demo).bus.pending 0 = true ∧
    (run_cycles 94 reprobe_demo).bus.owner = 0 ∧
    (bus_cycle_out (run_cycles 94 reprobe_demo)).2
      = { origid := 0, cmd := BusCommand.RD, addr := 8, data := 0, shared := true } := by
  decide!

/-- C37 (bus trace address), evaluated on `trace_demo`.  Core 0 loads the word at
address `0x100000`, which is below `2^21`.  In state 13 the arbiter has granted
the BusRd; the Request step drives a transaction with `addr = 0x100000`, and the
entry `add_bus_trace_entry` appends for it records address 0: the mask `0xFFFFF`
keeps 20 bits of the 21-bit address.  The eight Flush entries of the fill
likewise record addresses 0 … 7 (first one shown) with the data of words
`0x100000 …`; the load puts `1000 + 0x100000` into `R4`. -/
theorem bus_trace_drops_address_bit :
    (0x100000 < 2 ^ 21) ∧
    (add_bus_trace_entry init_bus_arbiter
        { origid := 0, cmd := BusCommand.RD, addr := 0x100000, data := 0, shared := false }
        13).trace_lines
      = [{ cycle := 13, origid := 0, cmd := BusCommand.RD, addr := 0, data := 0,
           shared := false }] ∧
    (run_cycles 13 trace_demo).bus.state = BusState.ARBITRATE ∧
    (run_cycles 13 trace_demo).bus.trace_lines = [] ∧
    (bus_cycle_out (run_cycles 13 trace_demo)).2
      = { origid := 0, cmd := BusCommand.RD, addr := 0x100000, data := 0, shared := false } ∧
    (run_cycles 14 trace_demo).bus.trace_lines
      = [{ cycle := 13, origid := 0, cmd := BusCommand.RD, addr := 0, data := 0,
           shared := false }] ∧
    (bus_cycle_out (run_cycles 29 trace_demo)).2
      = { origid := 4, cmd := BusCommand.FLUSH, addr := 0x100000, data := 1000 + 0x100000,
          shared := false } ∧
    (run_cycles 30 trace_demo).bus.trace_lines
      = [{ cycle := 13, origid := 0, cmd := BusCommand.RD, addr := 0, data := 0,
           shared := false },
         { cycle := 29, origid := 4, cmd := BusCommand.FLUSH, addr := 0,
           data := 1000 + 0x100000, shared := false }] ∧
    ((run_cycles 39 trace_demo).cores 0).registers 4 = 1000 + 0x100000 := by
  decide!

/-- C38 (classification predicates against the pipeline), evaluated on the word
`0x15210007` (opcode 21, `rd = 2`) that core 0 of `illegal_demo` runs.
`is_register_write` answers true and `get_dest_register` answers 2 for it, while
the `switch` of `stage_execute` takes the default arm: when the instruction is in
EX (cycle from state 2) `stage_execute` leaves `reg_write` false, and the run ends
with `R2` unchanged. -/
theorem register_write_predicate_disagrees :
    decode_instruction 0x15210007 = { opcode := 21, rd := 2, rs := 1, rt := 0, imm := 7 } ∧
    is_register_write (decode_instruction 0x15210007) = true ∧
    get_dest_register (decode_instruction 0x15210007) = 2 ∧
    (alu (decode_instruction 0x15210007) 0 7 0).2 = false ∧
    (stage_execute (execute_entry (run_cycles 2 illegal_demo) 0)).pipeline.execute.valid
      = true ∧
    (stage_execute (execute_entry (run_cycles 2 illegal_demo) 0)).pipeline.execute.inst
      = decode_instruction 0x15210007 ∧
    (stage_execute (execute_entry (run_cycles 2 illegal_demo) 0)).pipeline.execute.reg_write
      = false ∧
    ((run_cycles 9 illegal_demo).cores 0).halted = true ∧
    ((run_cycles 9 illegal_demo).cores 0).registers 2 = 0 := by
  decide!
/-! ## TSRAM consistency -/

/-- One arbitration with core `c` waiting: the granted core is at most as far as
`c` in the scan order, and `c` keeps its request unless it is the one granted. -/
theorem bus_arbitrate_waiting (b : BusArbiter) (g c : Nat) (hg : g < 4)
    (hlg : b.last_granted = (g : Int)) (hc : c < 4) (hp : b.pending c = true) :
    ∃ k, k ≤ (c + 3 - g) % 4 ∧
      (bus_arbitrate b).owner = (((g + 1 + k) % 4 : Nat) : Int) ∧
      (bus_arbitrate b).last_granted = (((g + 1 + k) % 4 : Nat) : Int) ∧
      (k < (c + 3 - g) % 4 → (bus_arbitrate b).pending c = true) := by
  have hcd : (g + 1 + (c + 3 - g) % 4) % 4 = c := by omega
  rcases bus_arbitrate_first b g hlg with hnone | ⟨k, hk, hpk, hmin, e⟩
  · have := hnone ((c + 3 - g) % 4) (Nat.mod_lt _ (by omega))
    rw [hcd, hp] at this
    cases this
  · have hkd : k ≤ (c + 3 - g) % 4 := by
      by_contra hlt
      have := hmin ((c + 3 - g) % 4) (by omega)
      rw [hcd, hp] at this
      cases this
    refine ⟨k, hkd, by rw [e], by rw [e], fun hlt => ?_⟩
    rw [e]
    show upd b.pending ((g + 1 + k) % 4) false c = true
    rw [upd_other _ _ _ _ (by omega)]
    exact hp

theorem arbitrations_succ (env : Nat → BusArbiter → BusArbiter) (m : Nat) (b : BusArbiter) :
    arbitrations env (m + 1) b =
      arbitrations (fun n => env (n + 1)) m (bus_arbitrate (env 0 b)) := by
  induction m with
  | zero => rfl
  | succ m ih =>
    show bus_arbitrate (env (m + 1) (arbitrations env (m + 1) b)) = _
    rw [ih]
    rfl

theorem scan_pos_cast (g x : Nat) : scan_pos g (x : Int) = (x + 3 - g) % 4 := by
  unfold scan_pos
  rw [Int.toNat_ofNat]

/-- The position of a core in the scan order after the core granted first. -/
theorem scan_pos_shift (g k d : Nat) (o : Int) (hg : g < 4) (hk : k < d) (hd : d < 4)
    (h : scan_pos ((g + 1 + k) % 4) o ≤ d - k - 1) :
    scan_pos g o = scan_pos ((g + 1 + k) % 4) o + k + 1 := by
  unfold scan_pos at h ⊢
  generalize o.toNat = x at h ⊢
  omega

/-- A waiting core at distance `d` in the scan order is granted within `d + 1`
arbitrations, and the cores granted before it come in scan order. -/
theorem arbitrations_waiting (d : Nat) :
    ∀ (env : Nat → BusArbiter → BusArbiter) (b : BusArbiter) (g c : Nat),
      (∀ n x, Enqueued c x (env n x)) → g < 4 → c < 4 → b.last_granted = (g : Int) →
      b.pending c = true → (c + 3 - g) % 4 = d →
      ∃ k, 1 ≤ k ∧ k ≤ d + 1 ∧ (arbitrations env k b).owner = (c : Int) ∧
        (∀ m, m < k → (arbitrations env m b).pending c = true) ∧
        (∀ m, 1 ≤ m → m ≤ k → scan_pos g (arbitrations env m b).owner ≤ d) ∧
        (∀ m m', 1 ≤ m → m < m' → m' ≤ k →
          scan_pos g (arbitrations env m b).owner < scan_pos g (arbitrations env m' b).owner) := by
  induction d using Nat.strong_induction_on with
  | _ d ih =>
    intro env b g c henv hg hc hlg hp hd
    have hd4 : d < 4 := by omega
    have hcd : (g + 1 + d) % 4 = c := by omega
    obtain ⟨k1, hk1, o1, l1, p1⟩ := bus_arbitrate_waiting (env 0 b) g c hg
      ((henv 0 b).1.trans hlg) hc ((henv 0 b).2.trans hp)
    rw [hd] at hk1 p1
    have e1 : arbitrations env 1 b = bus_arbitrate (env 0 b) := rfl
    have hpos1 : scan_pos g (bus_arbitrate (env 0 b)).owner = k1 := by
      rw [o1, scan_pos_cast]
      omega
    by_cases hkd : k1 = d
    · subst hkd
      refine ⟨1, Nat.le_refl _, by omega, ?_, ?_, ?_, ?_⟩
      · rw [e1, o1, hcd]
      · intro m hm
        have : m = 0 := by omega
        subst this
        exact hp
      · intro m h1 hm
        have : m = 1 := by omega
        subst this
        rw [e1, hpos1]
      · intro m m' h1 h2 h3
        omega
    · have hlt : k1 < d := by omega
      obtain ⟨k, a1, a2, a3, a4, a5, a6⟩ := ih (d - k1 - 1) (by omega)
        (fun n => env (n + 1)) (bus_arbitrate (env 0 b)) ((g + 1 + k1) % 4) c
        (fun n x => henv (n + 1) x) (Nat.mod_lt _ (by omega)) hc l1 (p1 hlt) (by omega)
      have shift : ∀ m, 1 ≤ m → m ≤ k →
          scan_pos g (arbitrations (fun n => env (n + 1)) m (bus_arbitrate (env 0 b))).owner =
            scan_pos ((g + 1 + k1) % 4)
              (arbitrations (fun n => env (n + 1)) m (bus_arbitrate (env 0 b))).owner + k1 + 1 :=
        fun m h1 h2 => scan_pos_shift g k1 d _ hg hlt hd4 (a5 m h1 h2)
      refine ⟨k + 1, by omega, by omega, ?_, ?_, ?_, ?_⟩
      · rw [arbitrations_succ]
        exact a3
      · intro m hm
        cases m with
        | zero => exact hp
        | succ m =>
          rw [arbitrations_succ]
          exact a4 m (by omega)
      · intro m h1 hm
        cases m with
        | zero => omega
        | succ m =>
          rw [arbitrations_succ]
          cases m with
          | zero =>
            show scan_pos g (bus_arbitrate (env 0 b)).owner ≤ d
            rw [hpos1]
            exact hk1
          | succ m =>
            rw [shift (m + 1) (by omega) (by omega)]
            have := a5 (m + 1) (by omega) (by omega)
            omega
      · intro m m' h1 h2 h3
        cases m' with
        | zero => omega
        | succ m' =>
          cases m with
          | zero => omega
          | succ m =>
            rw [arbitrations_succ, arbitrations_succ]
            cases m with
            | zero =>
              rw [shift m' (by omega) (by omega)]
              show scan_pos g (bus_arbitrate (env 0 b)).owner < _
              rw [hpos1]
              omega
            | succ m =>
              rw [shift (m + 1) (by omega) (by omega), shift m' (by omega) (by omega)]
              have := a6 (m + 1) m' (by omega) (by omega) (by omega)
              omega

/-- C39 (bounded waiting under round-robin).  Let the arbiter have
`last_granted = g` in `0..3` and let core `c` be pending.  If `bus_arbitrate` grants
another core, `c` is still pending afterwards.  Along any sequence of arbitrations
`arbitrations env`, where before each arbitration the other cores may fill their
pending slots in any way (`env` keeps only `last_granted` and the flag of `c`),
there is a `k` between 1 and 4 such that arbitration number `k` grants `c`, `c` is
pending before each of these arbitrations, and the cores granted by arbitrations
`1 … k` are pairwise different: no core is granted twice while `c` waits. -/
theorem round_robin_bounded_waiting (b : BusArbiter) (g c : Nat)
    (env : Nat → BusArbiter → BusArbiter) (hg : g < 4) (hlg : b.last_granted = (g : Int))
    (hc : c < 4) (hp : b.pending c = true) (henv : ∀ n x, Enqueued c x (env n x)) :
    ((bus_arbitrate b).owner ≠ (c : Int) → (bus_arbitrate b).pending c = true) ∧
    ∃ k, 1 ≤ k ∧ k ≤ 4 ∧ (arbitrations env k b).owner = (c : Int) ∧
      (∀ m, m < k → (arbitrations env m b).pending c = true) ∧
      (∀ m, 1 ≤ m → m < k → (arbitrations env m b).owner ≠ (c : Int)) ∧
      (∀ m m', 1 ≤ m → m < m' → m' ≤ k →
        (arbitrations env m b).owner ≠ (arbitrations env m' b).owner) := by
  constructor
  · intro hne
    obtain ⟨k, hk, o, -, p⟩ := bus_arbitrate_waiting b g c hg hlg hc hp
    by_cases hkd : k = (c + 3 - g) % 4
    · exfalso
      apply hne
      rw [o, hkd]
      congr 1
      omega
    · exact p (by omega)
  · obtain ⟨k, a1, a2, a3, a4, -, a6⟩ :=
      arbitrations_waiting ((c + 3 - g) % 4) env b g c henv hg hc hlg hp rfl
    refine ⟨k, a1, by omega, a3, a4, ?_, ?_⟩
    · intro m h1 h2 he
      have := a6 m k h1 h2 (Nat.le_refl _)
      rw [he, a3] at this
      exact Nat.lt_irrefl _ this
    · intro m m' h1 h2 h3 he
      have := a6 m m' h1 h2 h3
      rw [he] at this
      exact Nat.lt_irrefl _ this

/-- Instance of `round_robin_bounded_waiting`: from `arb_demo` (`last_granted = 3`,
all four cores pending) core 3 is last in the scan order; with the other cores
requesting again before every arbitration it is granted by the fourth
arbitration, after cores 0, 1 and 2. -/
theorem round_robin_bounded_waiting_witness :
    (arb_demo.last_granted = 3 ∧ arb_demo.pending 3 = true) ∧
    (arbitrations (others_request 3) 1 arb_demo).owner = 0 ∧
    (arbitrations (others_request 3) 2 arb_demo).owner = 1 ∧
    (arbitrations (others_request 3) 3 arb_demo).owner = 2 ∧
    (arbitrations (others_request 3) 4 arb_demo).owner = 3 ∧
    ∃ k, 1 ≤ k ∧ k ≤ 4 ∧ (arbitrations (others_request 3) k arb_demo).owner = 3 :=
  have h := round_robin_bounded_waiting arb_demo 3 3 (others_request 3) (by decide) (by decide)
    (by decide) (by decide) (fun _ _ => ⟨rfl, rfl⟩)
  ⟨⟨by decide, by decide⟩, by decide, by decide, by decide, by decide,
    h.2.elim fun k hk => ⟨k, hk.1, hk.2.1, hk.2.2.1⟩⟩
/-! ## The order of the cores within a cycle -/

theorem SameView.sv_setCore_ {i cid : Nat} {s t : Simulator} (h : SameView i cid s t) (c : Core) :
    SameView i cid (s.setCore i c) (t.setCore i c) :=
  ⟨by rw [setCore_cores_same, setCore_cores_same], h.pend, h.ptrans, h.owner⟩

theorem cache_read_view {i cid : Nat} {s t : Simulator} (h : SameView i cid s t) (a : Nat) :
    (cache_read s i a cid).1 = (cache_read t i a cid).1 ∧
    SameView i cid (cache_read s i a cid).2 (cache_read t i a cid).2 := by
  obtain ⟨h1, h2, h3, h4⟩ := h
  unfold cache_read
  dsimp only
  rw [h1, h2, h4]
  split_ifs
  · exact ⟨rfl, h1, h2, h3, h4⟩
  · refine ⟨rfl, h1, ?_, ?_, rfl⟩
    · exact (upd_same _ _ _).trans (upd_same _ _ _).symm
    · show upd _ _ _ cid = upd _ _ _ cid
      rw [upd_same, upd_same, h3]
  · exact ⟨rfl, h1, h2, h3, h4⟩

theorem cache_write_view {i cid : Nat} {s t : Simulator} (h : SameView i cid s t) (a d : Nat) :
    (cache_write s i a d cid).1 = (cache_write t i a d cid).1 ∧
    SameView i cid (cache_write s i a d cid).2 (cache_write t i a d cid).2 := by
  obtain ⟨h1, h2, h3, h4⟩ := h
  unfold cache_write
  dsimp only
  rw [h1, h2, h4]
  split_ifs
  · refine ⟨rfl, ?_, h2, h3, h4⟩
    simp only [Simulator.setCache, upd_same, h1]
  · refine ⟨rfl, h1, ?_, ?_, rfl⟩
    · exact (upd_same _ _ _).trans (upd_same _ _ _).symm
    · show upd _ _ _ cid = upd _ _ _ cid
      rw [upd_same, upd_same, h3]
  · exact ⟨rfl, h1, h2, h3, h4⟩

theorem stage_memory_view {i cid : Nat} {s t : Simulator} (h : SameView i cid s t)
    (hid : (s.cores i).core_id = cid) :
    SameView i cid (stage_memory s i) (stage_memory t i) := by
  have hp : (memory_pull (t.cores i)).core_id = cid := by
    rw [(memory_pull_cache _).2, ← h.core]
    exact hid
  have v1 := h.sv_setCore_ (memory_pull (t.cores i))
  unfold stage_memory
  dsimp only
  simp only [setCore_cores_same]
  rw [h.core, hp]
  split_ifs
  · obtain ⟨r1, r2⟩ := cache_read_view v1 (memory_pull (t.cores i)).pipeline.mem.alu_result
    rw [r1, r2.core]
    exact r2.sv_setCore_ _
  · obtain ⟨r1, r2⟩ := cache_write_view v1 (memory_pull (t.cores i)).pipeline.mem.alu_result
      (memory_pull (t.cores i)).pipeline.mem.mem_data
    rw [r1, r2.core]
    exact r2.sv_setCore_ _
  · exact v1
  · exact v1

theorem writeback_pull_view {i cid : Nat} {s t : Simulator} (h : SameView i cid s t)
    (hid : (s.cores i).core_id = cid) :
    SameView i cid (writeback_pull s i) (writeback_pull t i) := by
  subst hid
  have hc := h.core
  rw [hc] at h ⊢
  have v1 := h.sv_setCore_
    { t.cores i with wb_reg_written := 0, pending_reg_write_addr := 0 }
  unfold writeback_pull
  dsimp only
  rw [hc]
  split_ifs
  · obtain ⟨r1, r2⟩ := cache_read_view v1 (t.cores i).pipeline.mem.alu_result
    have rc := r2.core
    dsimp only at r1 rc ⊢
    rw [r1, rc]
    exact r2.sv_setCore_ _
  · simp only [setCore_cores_same]
    exact v1.sv_setCore_ _
  · exact v1.sv_setCore_ _

theorem stage_writeback_view2 {i cid : Nat} {s t : Simulator} (h : SameView i cid s t)
    (hid : (s.cores i).core_id = cid) :
    SameView i cid (stage_writeback s i) (stage_writeback t i) := by
  have v := writeback_pull_view h hid
  unfold stage_writeback
  dsimp only
  rw [v.core]
  exact v.sv_setCore_ _

/-- `execute_core_cycle` for core `i` reads nothing but core `i`, its own pending
slot and the bus owner. -/
theorem execute_core_cycle_view {i cid : Nat} {s t : Simulator} (h : SameView i cid s t)
    (hid : (s.cores i).core_id = cid) :
    SameView i cid (execute_core_cycle s i) (execute_core_cycle t i) := by
  have v1 := stage_writeback_view2 h hid
  have hid1 : ((stage_writeback s i).cores i).core_id = cid :=
    (stage_writeback_frame s i).cid.trans hid
  have v2 := stage_memory_view v1 hid1
  unfold execute_core_cycle
  dsimp only
  rw [h.core]
  split_ifs
  · exact h
  · rw [v2.core]
    exact v2.sv_setCore_ _

theorem execute_core_cycle_running (s : Simulator) (i : Nat) :
    (execute_core_cycle s i).running = s.running := by
  have hr : ∀ (x : Simulator) a cid, (cache_read x i a cid).2.running = x.running := by
    intro x a cid
    unfold cache_read
    dsimp only
    split_ifs <;> rfl
  have hw : ∀ (x : Simulator) a d cid, (cache_write x i a d cid).2.running = x.running := by
    intro x a d cid
    unfold cache_write
    dsimp only
    split_ifs <;> rfl
  have hm : ∀ x : Simulator, (stage_memory x i).running = x.running := by
    intro x
    unfold stage_memory
    dsimp only
    split_ifs
    · exact hr _ _ _
    · exact hw _ _ _ _
    · rfl
    · rfl
  have hp : ∀ x : Simulator, (writeback_pull x i).running = x.running := by
    intro x
    unfold writeback_pull
    dsimp only
    split_ifs
    · exact hr _ _ _
    · rfl
    · rfl
  have hb : ∀ x : Simulator, (stage_writeback x i).running = x.running := fun x => hp x
  unfold execute_core_cycle
  dsimp only
  split_ifs
  · rfl
  · exact (hm _).trans (hb _)

/-- A core cycle does not index main memory: the fault flag is left as it is. -/
theorem execute_core_cycle_mem_fault (s : Simulator) (i : Nat) :
    (execute_core_cycle s i).mem_fault = s.mem_fault := by
  have hr : ∀ (x : Simulator) a cid, (cache_read x i a cid).2.mem_fault = x.mem_fault := by
    intro x a cid
    unfold cache_read
    dsimp only
    split_ifs <;> rfl
  have hw : ∀ (x : Simulator) a d cid, (cache_write x i a d cid).2.mem_fault = x.mem_fault := by
    intro x a d cid
    unfold cache_write
    dsimp only
    split_ifs <;> rfl
  have hm : ∀ x : Simulator, (stage_memory x i).mem_fault = x.mem_fault := by
    intro x
    unfold stage_memory
    dsimp only
    split_ifs
    · exact hr _ _ _
    · exact hw _ _ _ _
    · rfl
    · rfl
  have hp : ∀ x : Simulator, (writeback_pull x i).mem_fault = x.mem_fault := by
    intro x
    unfold writeback_pull
    dsimp only
    split_ifs
    · exact hr _ _ _
    · rfl
    · rfl
  have hb : ∀ x : Simulator, (stage_writeback x i).mem_fault = x.mem_fault := fun x => hp x
  unfold execute_core_cycle
  dsimp only
  split_ifs
  · rfl
  · exact (hm _).trans (hb _)

theorem Simulator.ext_fields {s t : Simulator} (h1 : s.cores = t.cores)
    (h2 : s.main_memory = t.main_memory) (h3 : s.bus = t.bus)
    (h4 : s.global_cycle = t.global_cycle) (h5 : s.running = t.running)
    (h6 : s.mem_fault = t.mem_fault) : s = t := by
  cases s
  cases t
  simp only at h1 h2 h3 h4 h5 h6
  subst h1 h2 h3 h4 h5 h6
  rfl

/-- The cycles of two cores with different ids commute. -/
theorem execute_core_cycle_comm (sim : Simulator) (i j : Nat) (hij : i ≠ j)
    (hid : (sim.cores i).core_id ≠ (sim.cores j).core_id) :
    execute_core_cycle (execute_core_cycle sim i) j
      = execute_core_cycle (execute_core_cycle sim j) i := by
  have fA1 := execute_core_cycle_frame sim i
  have fB1 := execute_core_cycle_frame sim j
  have fA := execute_core_cycle_frame (execute_core_cycle sim i) j
  have fB := execute_core_cycle_frame (execute_core_cycle sim j) i
  have cAj : ((execute_core_cycle sim i).cores j).core_id = (sim.cores j).core_id := by
    rw [fA1.others j (Ne.symm hij)]
  have cBi : ((execute_core_cycle sim j).cores i).core_id = (sim.cores i).core_id := by
    rw [fB1.others i hij]
  have busA := fA.bus
  have busB := fB.bus
  rw [cAj] at busA
  rw [cBi] at busB
  -- what core `i` sees is the same before and after the cycle of core `j`
  have V1 : SameView i (sim.cores i).core_id (execute_core_cycle sim i)
      (execute_core_cycle (execute_core_cycle sim j) i) :=
    execute_core_cycle_view
      ⟨(fB1.others i hij).symm, (fB1.bus.others _ hid).1.symm, (fB1.bus.others _ hid).2.symm,
        fB1.bus.owner.symm⟩ rfl
  have V2 : SameView j (sim.cores j).core_id (execute_core_cycle sim j)
      (execute_core_cycle (execute_core_cycle sim i) j) :=
    execute_core_cycle_view
      ⟨(fA1.others j (Ne.symm hij)).symm, (fA1.bus.others _ (Ne.symm hid)).1.symm,
        (fA1.bus.others _ (Ne.symm hid)).2.symm, fA1.bus.owner.symm⟩ rfl
  apply Simulator.ext_fields
  · funext k
    by_cases hki : k = i
    · subst hki
      rw [fA.others k hij]
      exact V1.core
    · by_cases hkj : k = j
      · subst hkj
        rw [fB.others k hki]
        exact V2.core.symm
      · rw [fA.others k hkj, fA1.others k hki, fB.others k hki, fB1.others k hkj]
  · exact (fA.mem.trans fA1.mem).trans (fB.mem.trans fB1.mem).symm
  · have hpend : ∀ m,
        (execute_core_cycle (execute_core_cycle sim i) j).bus.pending m =
          (execute_core_cycle (execute_core_cycle sim j) i).bus.pending m ∧
        (execute_core_cycle (execute_core_cycle sim i) j).bus.pending_trans m =
          (execute_core_cycle (execute_core_cycle sim j) i).bus.pending_trans m := by
      intro m
      by_cases hmi : m = (sim.cores i).core_id
      · subst hmi
        obtain ⟨a1, a2⟩ := busA.others _ hid
        rw [a1, a2]
        exact ⟨V1.pend, V1.ptrans⟩
      · by_cases hmj : m = (sim.cores j).core_id
        · subst hmj
          obtain ⟨a1, a2⟩ := busB.others _ hmi
          rw [a1, a2]
          exact ⟨V2.pend.symm, V2.ptrans.symm⟩
        · obtain ⟨a1, a2⟩ := busA.others m hmj
          obtain ⟨a3, a4⟩ := fA1.bus.others m hmi
          obtain ⟨b1, b2⟩ := busB.others m hmi
          obtain ⟨b3, b4⟩ := fB1.bus.others m hmj
          rw [a1, a2, a3, a4, b1, b2, b3, b4]
          exact ⟨rfl, rfl⟩
    have e1 := (busA.current.trans fA1.bus.current).trans (busB.current.trans fB1.bus.current).symm
    have e2 := (busA.last_granted.trans fA1.bus.last_granted).trans
      (busB.last_granted.trans fB1.bus.last_granted).symm
    have e3 := (busA.owner.trans fA1.bus.owner).trans (busB.owner.trans fB1.bus.owner).symm
    have e4 := (busA.state.trans fA1.bus.state).trans (busB.state.trans fB1.bus.state).symm
    have e5 := (busA.timer.trans fA1.bus.timer).trans (busB.timer.trans fB1.bus.timer).symm
    have e6 := (busA.provider_id.trans fA1.bus.provider_id).trans
      (busB.provider_id.trans fB1.bus.provider_id).symm
    have e7 := (busA.shared_at_request.trans fA1.bus.shared_at_request).trans
      (busB.shared_at_request.trans fB1.bus.shared_at_request).symm
    have e8 := (busA.flush_data.trans fA1.bus.flush_data).trans
      (busB.flush_data.trans fB1.bus.flush_data).symm
    have e9 := (busA.trace_lines.trans fA1.bus.trace_lines).trans
      (busB.trace_lines.trans fB1.bus.trace_lines).symm
    have e10 := (busA.trace_count.trans fA1.bus.trace_count).trans
      (busB.trace_count.trans fB1.bus.trace_count).symm
    have e11 : (execute_core_cycle (execute_core_cycle sim i) j).bus.pending =
        (execute_core_cycle (execute_core_cycle sim j) i).bus.pending :=
      funext fun m => (hpend m).1
    have e12 : (execute_core_cycle (execute_core_cycle sim i) j).bus.pending_trans =
        (execute_core_cycle (execute_core_cycle sim j) i).bus.pending_trans :=
      funext fun m => (hpend m).2
    generalize (execute_core_cycle (execute_core_cycle sim i) j).bus = x at *
    generalize (execute_core_cycle (execute_core_cycle sim j) i).bus = y at *
    cases x
    cases y
    simp only at e1 e2 e3 e4 e5 e6 e7 e8 e9 e10 e11 e12
    subst e1 e2 e3 e4 e5 e6 e7 e8 e9 e10 e11 e12
    rfl
  · exact (fA.cyc.trans fA1.cyc).trans (fB.cyc.trans fB1.cyc).symm
  · exact ((execute_core_cycle_running _ j).trans (execute_core_cycle_running _ i)).trans
      ((execute_core_cycle_running _ i).trans (execute_core_cycle_running _ j)).symm
  · exact ((execute_core_cycle_mem_fault _ j).trans (execute_core_cycle_mem_fault _ i)).trans
      ((execute_core_cycle_mem_fault _ i).trans (execute_core_cycle_mem_fault _ j)).symm

/-- Nothing in a global cycle changes the id of a core. -/
theorem pre_core_core_id (s : Simulator) (k j : Nat) :
    ((pre_core s k).cores j).core_id = (s.cores j).core_id := by
  induction k with
  | zero =>
    have h := bus_cycle_touch s j
    unfold BusTouch at h
    show ((bus_cycle s).cores j).core_id = _
    rw [h]
  | succ k ih =>
    show ((execute_core_cycle (pre_core s k) k).cores j).core_id = _
    by_cases hjk : j = k
    · subst hjk
      rw [(execute_core_cycle_frame (pre_core s j) j).cid]
      exact ih
    · rw [(execute_core_cycle_frame (pre_core s k) k).others j hjk]
      exact ih

/-- C34 (core order within a cycle).  For two different cores `i`, `j` that carry
different `core_id`s (as `init_core` gives them), running `execute_core_cycle` for
`i` and then for `j` gives exactly the same simulator state as running `j` and
then `i`.  `execute_core_cycle` for `i` keeps main memory, the cycle counter,
every other core, and every arbiter field except the pending slot of `i`'s own
id (`CoreFrame`, `BusStep`).  In a run from the initial state every core carries
its index as id, so there the two orders agree for any two different cores, at
every point of every cycle (`pre_core … k`: after `bus_cycle` and the cycles of cores
`0 … k-1`). -/
theorem core_order_irrelevant (sim : Simulator) (i j : Nat) (hij : i ≠ j)
    (hid : (sim.cores i).core_id ≠ (sim.cores j).core_id) :
    execute_core_cycle (execute_core_cycle sim i) j
      = execute_core_cycle (execute_core_cycle sim j) i ∧
    CoreFrame i sim (execute_core_cycle sim i) ∧
    (∀ k, k ≠ i → (execute_core_cycle sim i).cores k = sim.cores k) ∧
    (∀ m, m ≠ (sim.cores i).core_id →
      (execute_core_cycle sim i).bus.pending m = sim.bus.pending m ∧
      (execute_core_cycle sim i).bus.pending_trans m = sim.bus.pending_trans m) ∧
    (∀ (imems : Nat → Nat → Nat) (memin : Nat → Nat) (n k : Nat),
      execute_core_cycle
          (execute_core_cycle (pre_core (run_cycles n (load_images imems memin)) k) i) j
        = execute_core_cycle
          (execute_core_cycle (pre_core (run_cycles n (load_images imems memin)) k) j) i) := by
  have f := execute_core_cycle_frame sim i
  refine ⟨execute_core_cycle_comm sim i j hij hid, f, f.others, f.bus.others, ?_⟩
  intro imems memin n k
  have ids := (HaltInv.halt_reach_ imems memin 0 (by decide) n).ids
  apply execute_core_cycle_comm _ i j hij
  rw [pre_core_core_id, pre_core_core_id, ids i, ids j]
  exact hij

/-- Instance of `core_order_irrelevant`: in `all_load` the loads of all cores reach
MEM in the cycle that starts from state 3; after the `bus_cycle` of that cycle
cores 0 and 1 both fill their pending slot, in either order with the same
result. -/
theorem core_order_irrelevant_witness :
    ((0 : Nat) ≠ 1 ∧
      ((bus_cycle (run_cycles 3 all_load)).cores 0).core_id
        ≠ ((bus_cycle (run_cycles 3 all_load)).cores 1).core_id) ∧
    (bus_cycle (run_cycles 3 all_load)).bus.pending 0 = false ∧
    (bus_cycle (run_cycles 3 all_load)).bus.pending 1 = false ∧
    (execute_core_cycle (execute_core_cycle (bus_cycle (run_cycles 3 all_load)) 0) 1).bus.pending 0
      = true ∧
    (execute_core_cycle (execute_core_cycle (bus_cycle (run_cycles 3 all_load)) 0) 1).bus.pending 1
      = true ∧
    execute_core_cycle (execute_core_cycle (bus_cycle (run_cycles 3 all_load)) 0) 1
      = execute_core_cycle (execute_core_cycle (bus_cycle (run_cycles 3 all_load)) 1) 0 :=
  ⟨⟨by decide, by decide!⟩, by decide!, by decide!, by decide!, by decide!,
    (core_order_irrelevant (bus_cycle (run_cycles 3 all_load)) 0 1 (by decide) (by decide!)).1⟩
/-! ## The fault flag: bus steps that index main memory outside the array -/

theorem cache_snoop_mem_fault (sim : Simulator) (trans : BusTransaction) (core_id : Nat) :
    (cache_snoop sim trans core_id).1.mem_fault = sim.mem_fault := by
  unfold cache_snoop
  dsimp only
  split_ifs <;> rfl

theorem snoop_loop_mem_fault (l : List Nat) (sim : Simulator) (out : BusTransaction) :
    (snoop_loop sim out l).1.mem_fault = sim.mem_fault := by
  induction l generalizing sim out with
  | nil => rfl
  | cons i rest ih =>
    unfold snoop_loop
    split_ifs
    · rw [ih, cache_snoop_mem_fault]
    · exact ih _ _

theorem cache_handle_bus_response_mem_fault (sim : Simulator) (out : BusTransaction) (i : Nat) :
    (cache_handle_bus_response sim out i).mem_fault = sim.mem_fault := by
  unfold cache_handle_bus_response
  dsimp only
  split_ifs <;> rfl

theorem response_loop_mem_fault (l : List Nat) (sim : Simulator) (out : BusTransaction) :
    (response_loop sim out l).mem_fault = sim.mem_fault := by
  induction l generalizing sim with
  | nil => rfl
  | cons i rest ih =>
    show (response_loop (cache_handle_bus_response sim out i) out rest).mem_fault = _
    rw [ih, cache_handle_bus_response_mem_fault]

theorem request_finish_mem_fault (s2 : Simulator) (out : BusTransaction) :
    (request_finish s2 out).1.mem_fault =
      (s2.mem_fault ||
        (decide ((request_finish s2 out).1.bus.provider_id = 4) &&
          decide (MAIN_MEM_SIZE ≤ (out.addr &&& 0xFFFFFFF8) + 7))) := by
  have t6 := (add_bus_trace_entry_frame { s2.bus with shared_at_request := out.shared } out
    s2.global_cycle).2.2.2.2.2.1
  have hp := (request_finish_spec s2 out).2.2.2.2.2.2.2.2.1
  rw [hp]
  unfold request_finish
  dsimp only
  rw [t6]
  split_ifs with h
  · simp [h]
  · have h4 : s2.bus.provider_id = 4 := not_not.mp h
    simp [h4]

/-- The Request step sets the fault flag exactly when memory provides the block
and the block does not lie inside the array. -/
theorem bus_request_step_mem_fault (s : Simulator) :
    (bus_request_step s).1.mem_fault =
      (s.mem_fault ||
        (decide ((bus_request_step s).1.bus.provider_id = 4) &&
          decide (MAIN_MEM_SIZE ≤
            ((s.bus.pending_trans s.bus.owner.toNat).addr &&& 0xFFFFFFF8) + 7))) := by
  have ha := (bus_request_step_spec s).2.1
  have hb : bus_request_step s = request_finish
    (snoop_loop { s with bus := { s.bus with provider_id := 4 } }
      { s.bus.pending_trans s.bus.owner.toNat with shared := false } [0, 1, 2, 3]).1
    (snoop_loop { s with bus := { s.bus with provider_id := 4 } }
      { s.bus.pending_trans s.bus.owner.toNat with shared := false } [0, 1, 2, 3]).2 := rfl
  have hf := request_finish_mem_fault
    (snoop_loop { s with bus := { s.bus with provider_id := 4 } }
      { s.bus.pending_trans s.bus.owner.toNat with shared := false } [0, 1, 2, 3]).1
    (snoop_loop { s with bus := { s.bus with provider_id := 4 } }
      { s.bus.pending_trans s.bus.owner.toNat with shared := false } [0, 1, 2, 3]).2
  rw [hb] at ha ⊢
  rw [hf, snoop_loop_mem_fault, (request_finish_spec _ _).1] at *
  rw [ha]

/-- The Flush step sets the fault flag exactly when a cache provides the block and
the address of the word is outside the array. -/
theorem bus_flush_step_mem_fault (s : Simulator) :
    (bus_flush_step s).1.mem_fault =
      (s.mem_fault ||
        (decide (s.bus.provider_id ≠ 4) && decide (MAIN_MEM_SIZE ≤ (flush_word s.bus).addr))) := by
  have t6 := (add_bus_trace_entry_frame s.bus (flush_word s.bus) s.global_cycle).2.2.2.2.2.1
  unfold bus_flush_step
  dsimp only
  split_ifs <;> simp only [response_loop_mem_fault, t6]


/-- The fault flag after `bus_cycle`, state by state. -/
theorem bus_cycle_mem_fault (s : Simulator) :
    (bus_cycle s).mem_fault =
      (s.mem_fault ||
        match s.bus.state with
        | BusState.IDLE => false
        | BusState.ARBITRATE | BusState.REQUEST =>
          decide ((bus_cycle s).bus.provider_id = 4) &&
            decide (MAIN_MEM_SIZE ≤
              ((s.bus.pending_trans s.bus.owner.toNat).addr &&& 0xFFFFFFF8) + 7)
        | BusState.LATENCY =>
          !decide (0 < s.bus.timer) && (decide (s.bus.provider_id ≠ 4) &&
            decide (MAIN_MEM_SIZE ≤ (bus_cycle_out s).2.addr))
        | BusState.FLUSH =>
          decide (s.bus.provider_id ≠ 4) && decide (MAIN_MEM_SIZE ≤ (bus_cycle_out s).2.addr)) := by
  unfold bus_cycle
  cases hst : s.bus.state with
  | IDLE =>
    rw [bus_cycle_out_idle s hst]
    split <;> simp
  | ARBITRATE =>
    rw [bus_cycle_out_arbitrate s hst, bus_request_step_mem_fault]
  | REQUEST =>
    rw [bus_cycle_out_request s hst, bus_request_step_mem_fault]
  | LATENCY =>
    by_cases ht : 0 < s.bus.timer
    · rw [bus_cycle_out_latency_wait s hst ht]
      simp [ht]
    · rw [bus_cycle_out_latency_done s hst ht, bus_flush_step_mem_fault,
        (bus_flush_step_bus _).1]
      simp [ht]
  | FLUSH =>
    rw [bus_cycle_out_flush s hst, bus_flush_step_mem_fault, (bus_flush_step_bus _).1]

/-- The fault flag is never cleared by the bus. -/
theorem bus_cycle_mem_fault_mono (s : Simulator) (h : (bus_cycle s).mem_fault = false) :
    s.mem_fault = false := by
  rw [bus_cycle_mem_fault] at h
  exact (Bool.or_eq_false_iff.mp h).1

theorem cores_cycle_mem_fault (s : Simulator) : (cores_cycle s).mem_fault = s.mem_fault := by
  unfold cores_cycle
  rw [execute_core_cycle_mem_fault, execute_core_cycle_mem_fault, execute_core_cycle_mem_fault,
    execute_core_cycle_mem_fault]

/-- A global cycle changes the fault flag in its bus step only. -/
theorem sim_cycle_mem_fault (s : Simulator) : (sim_cycle s).mem_fault = (bus_cycle s).mem_fault :=
  cores_cycle_mem_fault (bus_cycle s)

/-- Once set the fault flag stays set: a state with a clear flag has a clear flag
in all earlier states of the run. -/
theorem run_cycles_mem_fault_mono (n k : Nat) (s : Simulator)
    (h : (run_cycles (n + k) s).mem_fault = false) : (run_cycles n s).mem_fault = false := by
  induction k with
  | zero => exact h
  | succ k ih =>
    apply ih
    rw [show n + (k + 1) = (n + k) + 1 by omega, run_cycles_succ, sim_cycle_mem_fault] at h
    exact bus_cycle_mem_fault_mono _ h

/-- A clear flag at cycle `n` means a clear flag at every earlier cycle. -/
theorem run_cycles_mem_fault_le (m n : Nat) (hmn : m ≤ n) (s : Simulator)
    (h : (run_cycles n s).mem_fault = false) : (run_cycles m s).mem_fault = false := by
  obtain ⟨k, rfl⟩ := Nat.exists_eq_add_of_le hmn
  exact run_cycles_mem_fault_mono m k s h

/-- A state in which every core is halted, the bus is idle and no request is
pending: a global cycle changes `bus.owner` and `global_cycle` at most. -/
theorem quiet_cycle (s : Simulator) (hh : all_cores_halted s = true)
    (hst : s.bus.state = BusState.IDLE) (hp : ∀ i, i < 4 → s.bus.pending i = false)
    (hlg : 0 ≤ s.bus.last_granted) :
    all_cores_halted (sim_cycle s) = true ∧ (sim_cycle s).bus.state = BusState.IDLE ∧
    (∀ i, i < 4 → (sim_cycle s).bus.pending i = false) ∧
    0 ≤ (sim_cycle s).bus.last_granted ∧ (sim_cycle s).mem_fault = s.mem_fault := by
  obtain ⟨g, hg⟩ := Int.eq_ofNat_of_zero_le hlg
  have ha : bus_arbitrate { s.bus with owner := -1 } = { s.bus with owner := -1 } :=
    bus_arbitrate_none _ g hg hp
  have hb : bus_cycle s = { s with bus := { s.bus with owner := -1 } } := by
    unfold bus_cycle
    rw [bus_cycle_out_idle s hst, ha, if_neg (fun h => h rfl)]
  have hc : ∀ t : Simulator, all_cores_halted t = true → cores_cycle t = t := by
    intro t ht
    rw [all_cores_halted_iff] at ht
    unfold cores_cycle
    rw [execute_core_cycle_halted t 0 (ht 0 (by decide)),
      execute_core_cycle_halted t 1 (ht 1 (by decide)),
      execute_core_cycle_halted t 2 (ht 2 (by decide)),
      execute_core_cycle_halted t 3 (ht 3 (by decide))]
  have hs : sim_cycle s =
      { s with bus := { s.bus with owner := -1 }
               global_cycle := (s.global_cycle + 1) % 2 ^ 64 } := by
    show ({ cores_cycle (memory_cycle (bus_cycle s)) with
      global_cycle := ((cores_cycle (memory_cycle (bus_cycle s))).global_cycle + 1) % 2 ^ 64 }
        : Simulator) = _
    have : memory_cycle (bus_cycle s) = bus_cycle s := rfl
    have hh2 : all_cores_halted ({ s with bus := { s.bus with owner := -1 } } : Simulator)
        = true := hh
    rw [this, hb, hc _ hh2]
  rw [hs]
  exact ⟨hh, hst, hp, hlg, rfl⟩

/-- In a quiet state the fault flag keeps its value for the rest of the run. -/
theorem quiet_run (n : Nat) (s : Simulator) (hh : all_cores_halted s = true)
    (hst : s.bus.state = BusState.IDLE) (hp : ∀ i, i < 4 → s.bus.pending i = false)
    (hlg : 0 ≤ s.bus.last_granted) : (run_cycles n s).mem_fault = s.mem_fault := by
  induction n generalizing s with
  | zero => rfl
  | succ n ih =>
    obtain ⟨a1, a2, a3, a4, a5⟩ := quiet_cycle s hh hst hp hlg
    show (run_cycles n (sim_cycle s)).mem_fault = _
    rw [ih _ a1 a2 a3 a4, a5]

/-- MESI coherence of a run that stays inside the memory array.  Start from the
initial simulator with any instruction images and any memory image loaded, run
`n` global cycles and the bus step of the next cycle, and let no bus step up to
there have indexed `main_memory.data` at or above `MAIN_MEM_SIZE`.  Then at the
cycle boundary, after that bus step and after each of the four core steps that
follow it, for every set index and tag (in particular for the index and tag of
any block address) the states in which the four caches hold that block are all
Invalid, or exactly one Modified with the others Invalid, or exactly one
Exclusive with the others Invalid, or one or more Shared with the others
Invalid. -/
theorem mesi_coherence_in_range (imems : Nat → Nat → Nat) (memin : Nat → Nat)
    (n idx tag : Nat)
    (_hf : (bus_cycle (run_cycles n (load_images imems memin))).mem_fault = false) :
    mesi_coherent (block_states (run_cycles n (load_images imems memin)) idx tag) ∧
    mesi_coherent
      (block_states (bus_cycle (run_cycles n (load_images imems memin))) idx tag) ∧
    mesi_coherent
      (block_states
        (execute_core_cycle (memory_cycle (bus_cycle (run_cycles n (load_images imems memin)))) 0)
        idx tag) ∧
    mesi_coherent
      (block_states
        (execute_core_cycle (execute_core_cycle
          (memory_cycle (bus_cycle (run_cycles n (load_images imems memin)))) 0) 1)
        idx tag) ∧
    mesi_coherent
      (block_states
        (execute_core_cycle (execute_core_cycle (execute_core_cycle
          (memory_cycle (bus_cycle (run_cycles n (load_images imems memin)))) 0) 1) 2)
        idx tag) ∧
    mesi_coherent
      (block_states
        (cores_cycle (memory_cycle (bus_cycle (run_cycles n (load_images imems memin)))))
        idx tag) ∧
    (∀ A : Nat, mesi_coherent
      (block_states (run_cycles n (load_images imems memin))
        (get_cache_index A) (get_cache_tag A))) := by
  have h := (CohInv.init_ imems memin).run_ n
  have hb : CohInv (memory_cycle (bus_cycle (run_cycles n (load_images imems memin)))) :=
    h.bus_
  exact ⟨h.coherent_ idx tag, h.bus_.coherent_ idx tag, (hb.core_step_ 0).coherent_ idx tag,
    ((hb.core_step_ 0).core_step_ 1).coherent_ idx tag,
    (((hb.core_step_ 0).core_step_ 1).core_step_ 2).coherent_ idx tag,
    ((((hb.core_step_ 0).core_step_ 1).core_step_ 2).core_step_ 3).coherent_ idx tag,
    fun A => h.coherent_ _ _⟩

/-- Cache-to-cache transfer inside the memory array.  Let `s` be a reachable state
at the start of a global cycle T whose `bus_cycle` executes the Request step of a
BusRd of core `r` for address `A` (block base `b = A & ~7`), while another core
`p` holds the block Modified, and let no bus step up to the end of cycle T+8 have
indexed `main_memory.data` at or above `MAIN_MEM_SIZE` (so `b + 7` is below
it).  Then the Request step drives the BusRd with `shared = 1`; the `bus_cycle`
of cycle T+1+k, `k = 0 … 7`, drives the Flush word with `origid = p`,
`addr = b + k`, `data` = word `k` of `p`'s block in its DSRAM at cycle T and
`shared = 1` (there is no latency phase); and after the `bus_cycle` of cycle T+8
the arbiter is IDLE with `owner = -1`, main memory holds at `b … b+7` the eight
words `p` held at cycle T, and both `p` and `r` hold the block Shared.  The same
holds at the end of cycle T+8 (state `run_cycles (8 + 1) s`).  `run_cycles k s` is
the state at the start of cycle T+k. -/
theorem cache_to_cache_transfer_in_range (s : Simulator) (imems : Nat → Nat → Nat)
    (memin : Nat → Nat)
    (n r p : Nat) (hreach : s = run_cycles n (load_images imems memin))
    (hst : s.bus.state = BusState.ARBITRATE ∨ s.bus.state = BusState.REQUEST)
    (hr : s.bus.owner = (r : Int)) (hp4 : p < 4) (hpr : p ≠ r)
    (hcmd : (s.bus.pending_trans r).cmd = BusCommand.RD)
    (hM : line_state (s.cores p).cache (get_cache_index (s.bus.pending_trans r).addr)
      (get_cache_tag (s.bus.pending_trans r).addr) = MESIState.MODIFIED)
    (_hf : (run_cycles (8 + 1) s).mem_fault = false) :
    (bus_cycle_out s).2 = { s.bus.pending_trans r with shared := true } ∧
    (∀ k, k < 8 →
      (bus_cycle_out (run_cycles (k + 1) s)).2 =
        { origid := p, cmd := BusCommand.FLUSH
          addr := ((s.bus.pending_trans r).addr &&& 0xFFFFFFF8) + k
          data := (s.cores p).cache.dsram
            (get_cache_index (s.bus.pending_trans r).addr * 8 + k)
          shared := true }) ∧
    (bus_cycle (run_cycles 8 s)).bus.state = BusState.IDLE ∧
    (bus_cycle (run_cycles 8 s)).bus.owner = -1 ∧
    (∀ i, i < 8 →
      (bus_cycle (run_cycles 8 s)).main_memory.data
          (((s.bus.pending_trans r).addr &&& 0xFFFFFFF8) + i) =
        (s.cores p).cache.dsram (get_cache_index (s.bus.pending_trans r).addr * 8 + i)) ∧
    line_state ((bus_cycle (run_cycles 8 s)).cores p).cache
      (get_cache_index (s.bus.pending_trans r).addr)
      (get_cache_tag (s.bus.pending_trans r).addr) = MESIState.SHARED ∧
    line_state ((bus_cycle (run_cycles 8 s)).cores r).cache
      (get_cache_index (s.bus.pending_trans r).addr)
      (get_cache_tag (s.bus.pending_trans r).addr) = MESIState.SHARED ∧
    (∀ i, i < 8 →
      (run_cycles (8 + 1) s).main_memory.data (((s.bus.pending_trans r).addr &&& 0xFFFFFFF8) + i) =
        (s.cores p).cache.dsram (get_cache_index (s.bus.pending_trans r).addr * 8 + i)) ∧
    line_state ((run_cycles (8 + 1) s).cores p).cache
      (get_cache_index (s.bus.pending_trans r).addr)
      (get_cache_tag (s.bus.pending_trans r).addr) = MESIState.SHARED ∧
    line_state ((run_cycles (8 + 1) s).cores r).cache
      (get_cache_index (s.bus.pending_trans r).addr)
      (get_cache_tag (s.bus.pending_trans r).addr) = MESIState.SHARED := by
  have hinv : CohInv s := by rw [hreach]; exact (CohInv.init_ imems memin).run_ n
  have hne : s.bus.state ≠ BusState.IDLE := by
    rcases hst with h | h <;> rw [h] <;> decide
  have hr4 : r < 4 := by
    have := (hinv.own hne).2.1
    rw [hr] at this
    omega
  have hU : ∀ j : Nat, j < 4 → j ≠ p → j ≠ r →
      line_state (s.cores j).cache (get_cache_index (s.bus.pending_trans r).addr)
        (get_cache_tag (s.bus.pending_trans r).addr) ≠ MESIState.MODIFIED := by
    intro j hj hjp _ hjM
    have := hinv.pair p j hp4 hj (fun e => hjp e.symm) _ _ (Or.inl hM)
    rw [this] at hjM
    cases hjM
  have req := CacheTxn.c2c_request_ s r p hst hr hp4 hpr hcmd hM hU
  have ph := cache_txn_phase s r p hst hr hr4 hp4 hpr hcmd hM hU
  have h7 := ph 7 (by omega)
  rw [show (8 : Int) - ((7 : Nat) : Int) = 1 by norm_num, show 7 + 1 = 8 by rfl] at h7
  obtain ⟨-, -, w3⟩ := h7.c2c_flush_ hr4 hp4 hpr (by omega) (by omega)
  obtain ⟨e1, e2, e3, e4, e5⟩ := w3 rfl
  have h9 : run_cycles (8 + 1) s = sim_cycle (run_cycles 8 s) := run_cycles_succ 8 s
  refine ⟨req.2.1, ?_, e1, e2, e3, e4, e5, ?_, ?_, ?_⟩
  · intro k hk
    have h := ph k hk
    have w := (h.c2c_flush_ hr4 hp4 hpr (by omega) (by omega)).1
    have e : ((8 : Int) - (8 - (k : Int))).toNat = k := by omega
    rw [e] at w
    exact w
  · intro i hi
    rw [h9, (sim_cycle_fields _).2.1, (cores_cycle_memory _).1]
    exact e3 i hi
  · rw [h9, (sim_cycle_fields _).1]
    exact line_state_shared_cores_cycle _ _ _ _ e4
  · rw [h9, (sim_cycle_fields _).1]
    exact line_state_shared_cores_cycle _ _ _ _ e5

/-- Instance of `cache_to_cache_transfer_in_range` on `c2c_demo`: at state 45
core 1 has been granted a BusRd for address 8 while core 0 holds the block
Modified with word 8 equal to 8, and the run has indexed main memory in range
up to state 54. -/
theorem cache_to_cache_transfer_in_range_witness :
    (run_cycles (8 + 1) (run_cycles 45 c2c_demo)).mem_fault = false ∧
    ((run_cycles 45 c2c_demo).bus.state = BusState.ARBITRATE ∨
      (run_cycles 45 c2c_demo).bus.state = BusState.REQUEST) ∧
    (run_cycles 45 c2c_demo).bus.owner = ((1 : Nat) : Int) ∧ (0 < 4) ∧ (0 ≠ 1) ∧
    ((run_cycles 45 c2c_demo).bus.pending_trans 1).cmd = BusCommand.RD ∧
    ((run_cycles 45 c2c_demo).bus.pending_trans 1).addr = 8 ∧
    ((run_cycles 45 c2c_demo).cores 0).cache.dsram 8 = 8 ∧
    line_state ((run_cycles 45 c2c_demo).cores 0).cache
      (get_cache_index ((run_cycles 45 c2c_demo).bus.pending_trans 1).addr)
      (get_cache_tag ((run_cycles 45 c2c_demo).bus.pending_trans 1).addr) = MESIState.MODIFIED ∧
    (bus_cycle (run_cycles 8 (run_cycles 45 c2c_demo))).bus.state = BusState.IDLE ∧
    (bus_cycle (run_cycles 8 (run_cycles 45 c2c_demo))).bus.owner = -1 ∧
    line_state ((run_cycles (8 + 1) (run_cycles 45 c2c_demo)).cores 0).cache
      (get_cache_index ((run_cycles 45 c2c_demo).bus.pending_trans 1).addr)
      (get_cache_tag ((run_cycles 45 c2c_demo).bus.pending_trans 1).addr) = MESIState.SHARED ∧
    line_state ((run_cycles (8 + 1) (run_cycles 45 c2c_demo)).cores 1).cache
      (get_cache_index ((run_cycles 45 c2c_demo).bus.pending_trans 1).addr)
      (get_cache_tag ((run_cycles 45 c2c_demo).bus.pending_trans 1).addr) = MESIState.SHARED :=
  have hf : (run_cycles (8 + 1) (run_cycles 45 c2c_demo)).mem_fault = false := by decide!
  have h := cache_to_cache_transfer_in_range (run_cycles 45 c2c_demo) c2c_demo_imems
    (fun a => 1000 + a) 45 1 0 rfl (Or.inl (by decide!)) (by decide!) (by decide) (by decide)
    (by decide!) (by decide!) hf
  ⟨hf, Or.inl (by decide!), by decide!, by decide, by decide, by decide!, by decide!, by decide!,
    by decide!, h.2.2.1, h.2.2.2.1, h.2.2.2.2.2.2.2.2.1, h.2.2.2.2.2.2.2.2.2⟩

/-- A bus grant is final in a run that stays inside the memory array.  Let `s` be
a reachable state at the start of a global cycle G in which the IDLE arbiter
grants the bus (`bus_cycle s` leaves an owner), let `c` be the granted core and
`tr` its pending request, and let no bus step of the run up to the end of cycle
G+24 have indexed `main_memory.data` at or above `MAIN_MEM_SIZE`.  Then there is
a length `L` (9 when a cache provides the block, 24 when memory does) such that
the `bus_cycle` of cycle G+L drives the eighth Flush word of the block of `tr`
and returns the arbiter to IDLE, and for every cycle G+k, `1 ≤ k ≤ L`, at its
start the arbiter is not IDLE, the owner is `c` and `pending_trans[c]` is still
`tr` (command and address included); this is also so after the `bus_cycle` of
every cycle G+k with `k < L`.  From the cycle after the Request step
(`2 ≤ k ≤ L`) the latched `shared_at_request` and `provider_id` keep the values
the Request step gave them.  Core cycles never touch these fields while the bus
has an owner, and outside IDLE a `bus_cycle` that indexes memory in range does
not arbitrate: pending flags, pending requests and `last_granted` are left as
they are.  `run_cycles k s` is the state at the start of cycle G+k. -/
theorem bus_grant_final_in_range (s : Simulator) (imems : Nat → Nat → Nat) (memin : Nat → Nat)
    (n : Nat)
    (hreach : s = run_cycles n (load_images imems memin))
    (hidle : s.bus.state = BusState.IDLE) (hgrant : (bus_cycle s).bus.owner ≠ -1)
    (_hf : (run_cycles 25 s).mem_fault = false) :
    ∃ (c L : Nat),
      c < 4 ∧ s.bus.pending c = true ∧ (bus_cycle s).bus.owner = (c : Int) ∧
      (bus_cycle s).bus.state = BusState.ARBITRATE ∧
      (bus_cycle s).bus.pending_trans c = s.bus.pending_trans c ∧
      (L = 9 ∨ L = 24) ∧
      (∀ k, 1 ≤ k → k ≤ L →
        (run_cycles k s).bus.state ≠ BusState.IDLE ∧
        (run_cycles k s).bus.owner = (c : Int) ∧
        (run_cycles k s).bus.pending_trans c = s.bus.pending_trans c ∧
        (k < L →
          (bus_cycle (run_cycles k s)).bus.state ≠ BusState.IDLE ∧
          (bus_cycle (run_cycles k s)).bus.owner = (c : Int) ∧
          (bus_cycle (run_cycles k s)).bus.pending_trans c = s.bus.pending_trans c)) ∧
      (∀ k, 2 ≤ k → k ≤ L →
        (run_cycles k s).bus.shared_at_request
          = (bus_cycle (run_cycles 1 s)).bus.shared_at_request ∧
        (run_cycles k s).bus.provider_id = (bus_cycle (run_cycles 1 s)).bus.provider_id ∧
        (bus_cycle (run_cycles k s)).bus.shared_at_request
          = (bus_cycle (run_cycles 1 s)).bus.shared_at_request ∧
        (bus_cycle (run_cycles k s)).bus.provider_id
          = (bus_cycle (run_cycles 1 s)).bus.provider_id) ∧
      (bus_cycle_out (run_cycles 1 s)).2.cmd = (s.bus.pending_trans c).cmd ∧
      (bus_cycle_out (run_cycles 1 s)).2.addr = (s.bus.pending_trans c).addr ∧
      (bus_cycle_out (run_cycles L s)).2.cmd = BusCommand.FLUSH ∧
      (bus_cycle_out (run_cycles L s)).2.addr = ((s.bus.pending_trans c).addr &&& 0xFFFFFFF8) + 7 ∧
      (bus_cycle (run_cycles L s)).bus.state = BusState.IDLE ∧
      (∀ (t : Simulator) (i : Nat), 0 ≤ t.bus.owner →
        (execute_core_cycle t i).bus.owner = t.bus.owner ∧
        (execute_core_cycle t i).bus.state = t.bus.state ∧
        (execute_core_cycle t i).bus.shared_at_request = t.bus.shared_at_request ∧
        (execute_core_cycle t i).bus.provider_id = t.bus.provider_id ∧
        (execute_core_cycle t i).bus.pending_trans t.bus.owner.toNat
          = t.bus.pending_trans t.bus.owner.toNat) ∧
      (∀ t : Simulator, t.bus.state ≠ BusState.IDLE → (bus_cycle t).mem_fault = false →
        (bus_cycle t).bus.pending = t.bus.pending ∧
        (bus_cycle t).bus.pending_trans = t.bus.pending_trans ∧
        (bus_cycle t).bus.last_granted = t.bus.last_granted) := by
  have hinv : CohInv s := by rw [hreach]; exact (CohInv.init_ imems memin).run_ n
  obtain ⟨c, hc4, hpend, g, -, -, -⟩ := bus_cycle_grant s hinv.lg hidle hgrant
  have hc0 : (0 : Int) ≤ (c : Int) := by omega
  have hview : ∀ {sh pv st} {t : Int} {u : Simulator},
      BusTxn (c : Int) (s.bus.pending_trans c) sh pv st t u → st ≠ BusState.IDLE →
      u.bus.state ≠ BusState.IDLE ∧ u.bus.owner = (c : Int) ∧
        u.bus.pending_trans c = s.bus.pending_trans c := by
    intro sh pv st t u h hne
    refine ⟨by rw [h.state]; exact hne, h.owner, ?_⟩
    have := h.trans
    rwa [Int.toNat_ofNat] at this
  have g1 := g.grant_sim_cycle_ hc0
  have hs1 : run_cycles 1 s = sim_cycle s := rfl
  rw [← hs1] at g1
  have g1t := (hview g1 (by decide)).2.2
  obtain ⟨req, o1, o2, -⟩ := BusTxn.grant_request_ (run_cycles 1 s) (Or.inl g1.state)
  rw [g1.owner, Int.toNat_ofNat, g1t] at req o1 o2
  have hcore : ∀ (t : Simulator) (i : Nat), 0 ≤ t.bus.owner →
      (execute_core_cycle t i).bus.owner = t.bus.owner ∧
      (execute_core_cycle t i).bus.state = t.bus.state ∧
      (execute_core_cycle t i).bus.shared_at_request = t.bus.shared_at_request ∧
      (execute_core_cycle t i).bus.provider_id = t.bus.provider_id ∧
      (execute_core_cycle t i).bus.pending_trans t.bus.owner.toNat
        = t.bus.pending_trans t.bus.owner.toNat := by
    intro t i ho
    obtain ⟨a1, a2, -, a4, a5, -, -, -, a9, -⟩ := execute_core_cycle_grant t i ho
    exact ⟨a1, a2, a4, a5, a9⟩
  have hpt : (bus_cycle s).bus.pending_trans c = s.bus.pending_trans c :=
    (hview g (by decide)).2.2
  have h2eq : ∀ j, run_cycles (2 + j) s = run_cycles j (sim_cycle (run_cycles 1 s)) := by
    intro j
    rw [show 2 + j = 1 + (1 + j) by omega, run_cycles_add 1 (1 + j) s, run_cycles_add 1 j]
    rfl
  rcases req with req | req
  · -- a cache provides the block: eight Flush cycles follow the Request step
    have ph : ∀ j : Nat, j < 8 → BusTxn (c : Int) (s.bus.pending_trans c)
        (bus_cycle (run_cycles 1 s)).bus.shared_at_request
        (bus_cycle (run_cycles 1 s)).bus.provider_id BusState.FLUSH (8 - (j : Int))
        (run_cycles (2 + j) s) := by
      intro j hj
      rw [h2eq]
      exact (req.grant_sim_cycle_ hc0).flush_phase_ hc0 j hj
    have hem := fun (j : Nat) hj => BusTxn.grant_emit_ (Or.inr (ph j hj)) (by omega) (by omega)
    refine ⟨c, 2 + 7, hc4, hpend, g.owner, g.state, hpt, Or.inl rfl, ?_, ?_, o1, o2,
      (hem 7 (by omega)).1, ?_,
      ((hem 7 (by omega)).2.2.2.2.2.1 (by norm_num)).1, hcore,
      fun t ht _ => bus_cycle_no_arbitration t ht⟩
    · intro k h1 h9
      by_cases hk1 : k = 1
      · subst hk1
        exact ⟨(hview g1 (by decide)).1, (hview g1 (by decide)).2.1, g1t,
          fun _ => hview req (by decide)⟩
      · obtain ⟨j, rfl⟩ : ∃ j, k = 2 + j := ⟨k - 2, by omega⟩
        have h := ph j (by omega)
        refine ⟨(hview h (by decide)).1, (hview h (by decide)).2.1, (hview h (by decide)).2.2, ?_⟩
        intro hlt
        exact hview ((hem j (by omega)).2.2.2.2.1 (by omega)) (by decide)
    · intro k h2 h9
      obtain ⟨j, rfl⟩ : ∃ j, k = 2 + j := ⟨k - 2, by omega⟩
      have h := ph j (by omega)
      exact ⟨h.shared, h.provider, (hem j (by omega)).2.2.2.2.2.2.1,
        (hem j (by omega)).2.2.2.2.2.2.2⟩
    · rw [(hem 7 (by omega)).2.1]
      have e : ((8 : Int) - (8 - ((7 : Nat) : Int))).toNat = 7 := by omega
      rw [e]
  · -- memory provides the block: 15 waiting cycles, then eight Flush cycles
    have hu := req.grant_sim_cycle_ hc0
    have ph1 : ∀ j : Nat, j < 16 → BusTxn (c : Int) (s.bus.pending_trans c)
        (bus_cycle (run_cycles 1 s)).bus.shared_at_request
        (bus_cycle (run_cycles 1 s)).bus.provider_id BusState.LATENCY (15 - (j : Int))
        (run_cycles (2 + j) s) := by
      intro j hj
      rw [h2eq]
      exact hu.latency_phase_ hc0 j hj
    have ph2 : ∀ j : Nat, j < 7 → BusTxn (c : Int) (s.bus.pending_trans c)
        (bus_cycle (run_cycles 1 s)).bus.shared_at_request
        (bus_cycle (run_cycles 1 s)).bus.provider_id BusState.FLUSH (7 - (j : Int))
        (run_cycles (2 + (16 + j)) s) := by
      intro j hj
      rw [h2eq]
      exact hu.late_flush_phase_ hc0 j hj
    have hw := fun (j : Nat) (hj : j < 15) => (ph1 j (by omega)).grant_wait_ (by omega)
    have h15 := ph1 15 (by omega)
    rw [show (15 : Int) - ((15 : Nat) : Int) = 0 by norm_num] at h15
    have hem0 := BusTxn.grant_emit_ (t := 8) (Or.inl ⟨h15, rfl⟩) (by omega) (by omega)
    have hem := fun (j : Nat) hj => BusTxn.grant_emit_ (Or.inr (ph2 j hj)) (by omega) (by omega)
    refine ⟨c, 2 + (16 + 6), hc4, hpend, g.owner, g.state, hpt, Or.inr rfl, ?_, ?_, o1, o2,
      (hem 6 (by omega)).1, ?_,
      ((hem 6 (by omega)).2.2.2.2.2.1 (by norm_num)).1, hcore,
      fun t ht _ => bus_cycle_no_arbitration t ht⟩
    · intro k h1 h24
      by_cases hk1 : k = 1
      · subst hk1
        exact ⟨(hview g1 (by decide)).1, (hview g1 (by decide)).2.1, g1t,
          fun _ => hview req (by decide)⟩
      · by_cases hk : k < 17
        · obtain ⟨j, rfl⟩ : ∃ j, k = 2 + j := ⟨k - 2, by omega⟩
          have h := ph1 j (by omega)
          refine ⟨(hview h (by decide)).1, (hview h (by decide)).2.1,
            (hview h (by decide)).2.2, ?_⟩
          intro _
          exact hview (hw j (by omega)).1 (by decide)
        · by_cases hk17 : k = 2 + 15
          · subst hk17
            refine ⟨(hview h15 (by decide)).1, (hview h15 (by decide)).2.1,
              (hview h15 (by decide)).2.2, ?_⟩
            intro _
            exact hview (hem0.2.2.2.2.1 (by omega)) (by decide)
          · obtain ⟨j, rfl⟩ : ∃ j, k = 2 + (16 + j) := ⟨k - 18, by omega⟩
            have h := ph2 j (by omega)
            refine ⟨(hview h (by decide)).1, (hview h (by decide)).2.1,
              (hview h (by decide)).2.2, ?_⟩
            intro hlt
            exact hview ((hem j (by omega)).2.2.2.2.1 (by omega)) (by decide)
    · intro k h2 h24
      by_cases hk : k < 17
      · obtain ⟨j, rfl⟩ : ∃ j, k = 2 + j := ⟨k - 2, by omega⟩
        have h := ph1 j (by omega)
        exact ⟨h.shared, h.provider, (hw j (by omega)).1.shared, (hw j (by omega)).1.provider⟩
      · by_cases hk17 : k = 2 + 15
        · subst hk17
          exact ⟨h15.shared, h15.provider, hem0.2.2.2.2.2.2.1, hem0.2.2.2.2.2.2.2⟩
        · obtain ⟨j, rfl⟩ : ∃ j, k = 2 + (16 + j) := ⟨k - 18, by omega⟩
          have h := ph2 j (by omega)
          exact ⟨h.shared, h.provider, (hem j (by omega)).2.2.2.2.2.2.1,
            (hem j (by omega)).2.2.2.2.2.2.2⟩
    · rw [(hem 6 (by omega)).2.1]
      have e : ((8 : Int) - (7 - ((6 : Nat) : Int))).toNat = 7 := by omega
      rw [e]

/-- Instance of `bus_grant_final_in_range` on `demo_lw`: at state 4 the arbiter is
IDLE and the `bus_cycle` grants the pending request; the run has indexed main
memory in range up to state 29. -/
theorem bus_grant_final_in_range_witness :
    (run_cycles 25 (run_cycles 4 demo_lw)).mem_fault = false ∧
    (run_cycles 4 demo_lw).bus.state = BusState.IDLE ∧
    (bus_cycle (run_cycles 4 demo_lw)).bus.owner ≠ -1 ∧
    ∃ (c L : Nat), c < 4 ∧ (bus_cycle (run_cycles 4 demo_lw)).bus.owner = (c : Int) ∧
      (L = 9 ∨ L = 24) ∧
      (bus_cycle (run_cycles L (run_cycles 4 demo_lw))).bus.state = BusState.IDLE :=
  have hf : (run_cycles 25 (run_cycles 4 demo_lw)).mem_fault = false := by decide!
  have h := bus_grant_final_in_range (run_cycles 4 demo_lw) demo_lw_imems (fun a => 1000 + a) 4
    rfl (by decide!) (by decide!) hf
  ⟨hf, by decide!, by decide!,
    h.elim fun c h1 => h1.elim fun L h2 =>
      ⟨c, L, h2.1, h2.2.2.1, h2.2.2.2.2.2.1, h2.2.2.2.2.2.2.2.2.2.2.2.2.1⟩⟩

/-- The safety ceiling for a run that stays inside the memory array.
`run_simulator fuel sim` is the `while` loop of `run_simulator` cut off after
`fuel` iterations; one iteration is `sim_cycle` (`bus_cycle`, `memory_cycle`, the
four `execute_core_cycle` calls, `global_cycle++`) and the ceiling test.  From a
state with `global_cycle = 0` whose first 100001 cycles never index
`main_memory.data` at or above `MAIN_MEM_SIZE`, the loop is left after at most
100001 iterations, in the state `run_cycles` gives for that number of
iterations, with the fault flag clear, and a larger bound gives the same
result. -/
theorem safety_ceiling_in_range (sim : Simulator) (fuel : Nat) (hg : sim.global_cycle = 0)
    (hf : 100001 ≤ fuel) (hnf : (run_cycles 100001 sim).mem_fault = false) :
    ∃ r, run_simulator 100001 sim = some r ∧ r.2 ≤ 100001 ∧ r.1 = run_cycles r.2 sim ∧
      r.1.mem_fault = false ∧ run_simulator fuel sim = some r := by
  obtain ⟨r, h1, h2, h3⟩ :=
    run_simulator_within 100001 (by omega) sim 100001 (by omega) (Nat.le_refl _)
  refine ⟨r, h1, h2, h3, ?_, ?_⟩
  · rw [h3]
    exact run_cycles_mem_fault_le r.2 100001 h2 sim hnf
  · exact run_simulator_mono 100001 sim r h1 fuel hf

/-- No bus step of `halt_only` indexes main memory out of range. -/
theorem halt_only_no_fault (n : Nat) : (run_cycles n halt_only).mem_fault = false := by
  have h0 : (run_cycles 5 halt_only).mem_fault = false := by decide!
  have h1 : all_cores_halted (run_cycles 5 halt_only) = true := by decide!
  have h2 : (run_cycles 5 halt_only).bus.state = BusState.IDLE := by decide!
  have h3 : ∀ i, i < 4 → (run_cycles 5 halt_only).bus.pending i = false := by decide!
  have h4 : 0 ≤ (run_cycles 5 halt_only).bus.last_granted := by decide!
  by_cases h : n ≤ 5
  · exact run_cycles_mem_fault_le n 5 h halt_only h0
  · obtain ⟨k, rfl⟩ := Nat.exists_eq_add_of_le (Nat.le_of_not_le h)
    rw [run_cycles_add, quiet_run k (run_cycles 5 halt_only) h1 h2 h3 h4]
    exact h0

/-- Instance of `safety_ceiling_in_range`: the run of `halt_only`. -/
theorem safety_ceiling_in_range_witness :
    halt_only.global_cycle = 0 ∧ 100001 ≤ 100001 ∧
    (run_cycles 100001 halt_only).mem_fault = false ∧
    ∃ r, run_simulator 100001 halt_only = some r ∧ r.2 ≤ 100001 ∧ r.1.mem_fault = false :=
  ⟨rfl, Nat.le_refl _, halt_only_no_fault 100001,
    (safety_ceiling_in_range halt_only 100001 rfl (Nat.le_refl _)
      (halt_only_no_fault 100001)).elim
      fun r h => ⟨r, h.1, h.2.1, h.2.2.2.1⟩⟩

/-- Main memory frame for bus steps that stay inside the memory array.
`execute_core_cycle`, `cache_read` and `cache_write` never change main memory.
A `bus_cycle` that does not index `main_memory.data` at or above `MAIN_MEM_SIZE`
changes main memory only in state FLUSH with a cache as provider
(`provider_id ≠ 4`): it then drives a Flush word whose address is below
`MAIN_MEM_SIZE`, and main memory afterwards is the old one with the word at that
address replaced by the driven data.  In state FLUSH with memory as provider, in
IDLE, ARBITRATE and REQUEST, and in LATENCY while the timer runs or the provider
is memory, it leaves main memory unchanged.  In every state of a run from the
initial state in which no bus step has left the array, a LATENCY phase has
memory as provider, so there `bus_cycle` in state LATENCY leaves main memory
unchanged. -/
theorem main_memory_frame_in_range (imems : Nat → Nat → Nat) (memin : Nat → Nat) (n : Nat) :
    (∀ sim i, (execute_core_cycle sim i).main_memory = sim.main_memory) ∧
    (∀ sim ci a cid, (cache_read sim ci a cid).2.main_memory = sim.main_memory) ∧
    (∀ sim ci a d cid, (cache_write sim ci a d cid).2.main_memory = sim.main_memory) ∧
    (∀ sim, (bus_cycle sim).mem_fault = false →
      (sim.bus.state = BusState.FLUSH → sim.bus.provider_id ≠ 4 →
        (bus_cycle_out sim).2.cmd = BusCommand.FLUSH ∧
        (bus_cycle_out sim).2.addr < MAIN_MEM_SIZE ∧
        (bus_cycle sim).main_memory.data =
          upd sim.main_memory.data (bus_cycle_out sim).2.addr (bus_cycle_out sim).2.data) ∧
      (sim.bus.state = BusState.FLUSH → sim.bus.provider_id = 4 →
        (bus_cycle sim).main_memory = sim.main_memory) ∧
      (sim.bus.state = BusState.IDLE ∨ sim.bus.state = BusState.ARBITRATE ∨
        sim.bus.state = BusState.REQUEST → (bus_cycle sim).main_memory = sim.main_memory) ∧
      (sim.bus.state = BusState.LATENCY → 0 < sim.bus.timer ∨ sim.bus.provider_id = 4 →
        (bus_cycle sim).main_memory = sim.main_memory)) ∧
    ((run_cycles n (load_images imems memin)).mem_fault = false →
      (run_cycles n (load_images imems memin)).bus.state = BusState.LATENCY →
      (run_cycles n (load_images imems memin)).bus.provider_id = 4 ∧
      (bus_cycle (run_cycles n (load_images imems memin))).main_memory =
        (run_cycles n (load_images imems memin)).main_memory) := by
  refine ⟨fun sim i => (execute_core_cycle_frame sim i).mem, ?_, ?_, ?_, ?_⟩
  · intro sim ci a cid
    unfold cache_read
    dsimp only
    split_ifs <;> rfl
  · intro sim ci a d cid
    unfold cache_write
    dsimp only
    split_ifs <;> rfl
  · intro sim hnf
    refine ⟨?_, ?_, (bus_cycle_main_memory sim).2.1, (bus_cycle_main_memory sim).2.2⟩
    · intro hst hp
      obtain ⟨e1, e2⟩ := (bus_cycle_main_memory sim).1 hst
      have hlt : (bus_cycle_out sim).2.addr < MAIN_MEM_SIZE := by
        rw [bus_cycle_mem_fault, hst] at hnf
        have h2 := (Bool.or_eq_false_iff.mp hnf).2
        simp only [hp, ne_eq, not_false_eq_true, decide_True, Bool.true_and,
          decide_eq_false_iff_not, not_le] at h2
        exact h2
      refine ⟨?_, hlt, ?_⟩
      · rw [e1]
        rfl
      · rw [e2, if_pos hp, e1]
    · intro hst hp
      rw [((bus_cycle_main_memory sim).1 hst).2]
      exact if_neg (fun h => h hp)
  · intro _ hst
    have hp := latency_provider_reach imems memin n hst
    exact ⟨hp, (bus_cycle_main_memory _).2.2 hst (Or.inr hp)⟩

/-! ## Evaluations: bus transactions for blocks outside the memory array -/

/-- C1 (MESI coherence invariant), evaluated on `shared_alias`.  Up to state 18
no bus step has indexed main memory out of range.  The `bus_cycle` of the cycle
from state 18 performs the Request step of core 0's BusRdX for address
`0x200010 = MAIN_MEM_SIZE + 16`; no cache holds the block, so memory is the
provider and the fill buffer is loaded from `main_memory.data[0x200010 … 0x200017]`,
outside the array: the fault flag is set.  The block is cached in set 2 under
tag 0 (the tag has 12 bits).  At state 68 core 0 holds it Modified with words 0,
1, 2 equal to 8, 0, 0, and the bus has been granted to core 1 for a BusRd of the
same address.  The Request step of that cycle finds core 0 Modified
(`provider_id = 0`, `shared = 1`), and the Flush steps of cycles 69, 70, 71
drive words 0, 1, 2: with a cache as provider each executes
`main_memory.data[addr] = data`, with `addr = 0x200010, 0x200011, 0x200012`, all
outside the array.  In the C struct the words that follow the array and the rest
of `MainMemory` are the arbiter fields, and the third store, of the value 0,
falls on the word holding `shared_at_request`, latched as 1 by the Request
step. -/
theorem shared_alias_store_past_memory :
    (run_cycles 18 shared_alias).mem_fault = false ∧
    (bus_cycle_out (run_cycles 18 shared_alias)).2
      = { origid := 0, cmd := BusCommand.RDX, addr := 0x200010, data := 0, shared := false } ∧
    (bus_cycle (run_cycles 18 shared_alias)).bus.provider_id = 4 ∧
    (bus_cycle (run_cycles 18 shared_alias)).mem_fault = true ∧
    MAIN_MEM_SIZE ≤ 0x200010 ∧
    get_cache_index 0x200010 = 2 ∧ get_cache_tag 0x200010 = 0 ∧
    line_state ((run_cycles 68 shared_alias).cores 0).cache 2 0 = MESIState.MODIFIED ∧
    line_state ((run_cycles 68 shared_alias).cores 1).cache 2 0 = MESIState.INVALID ∧
    ((run_cycles 68 shared_alias).cores 0).cache.dsram 16 = 8 ∧
    ((run_cycles 68 shared_alias).cores 0).cache.dsram 17 = 0 ∧
    ((run_cycles 68 shared_alias).cores 0).cache.dsram 18 = 0 ∧
    (run_cycles 68 shared_alias).bus.owner = 1 ∧
    (bus_cycle_out (run_cycles 68 shared_alias)).2
      = { origid := 1, cmd := BusCommand.RD, addr := 0x200010, data := 0, shared := true } ∧
    (bus_cycle (run_cycles 68 shared_alias)).bus.provider_id = 0 ∧
    (bus_cycle (run_cycles 68 shared_alias)).bus.shared_at_request = true ∧
    (bus_cycle_out (run_cycles 69 shared_alias)).2
      = { origid := 0, cmd := BusCommand.FLUSH, addr := 0x200010, data := 8, shared := true } ∧
    (bus_cycle_out (run_cycles 70 shared_alias)).2
      = { origid := 0, cmd := BusCommand.FLUSH, addr := 0x200011, data := 0, shared := true } ∧
    (bus_cycle_out (run_cycles 71 shared_alias)).2
      = { origid := 0, cmd := BusCommand.FLUSH, addr := 0x200012, data := 0, shared := true } ∧
    (run_cycles 71 shared_alias).bus.state = BusState.FLUSH ∧
    (run_cycles 71 shared_alias).bus.provider_id = 0 := by
  decide!

/-- C11 (cache-to-cache transfer), evaluated on `arbiter_alias`.  At state 48 the
bus has been granted to core 1 for a BusRd of address `0x200008 =
MAIN_MEM_SIZE + 8` while core 0 holds the block (set 1, tag 0) Modified: the
premises of the claim hold with `r = 1`, `p = 0`, `T = 48`.  The Request step
drives the BusRd with `shared = 1` and makes core 0 the provider.  The Flush
steps of cycles 49 … 56 drive the eight words with `origid = 0` and
`addr = 0x200008 + k`, and with a cache as provider each executes
`main_memory.data[addr] = data`: every one of the eight stores is outside the
array, so none of them writes a word of main memory. -/
theorem transfer_stores_past_memory :
    (run_cycles 48 arbiter_alias).bus.state = BusState.ARBITRATE ∧
    (run_cycles 48 arbiter_alias).bus.owner = 1 ∧
    (run_cycles 48 arbiter_alias).bus.pending_trans 1
      = { origid := 1, cmd := BusCommand.RD, addr := 0x200008, data := 0, shared := false } ∧
    get_cache_index 0x200008 = 1 ∧ get_cache_tag 0x200008 = 0 ∧
    line_state ((run_cycles 48 arbiter_alias).cores 0).cache 1 0 = MESIState.MODIFIED ∧
    (bus_cycle_out (run_cycles 48 arbiter_alias)).2
      = { origid := 1, cmd := BusCommand.RD, addr := 0x200008, data := 0, shared := true } ∧
    (bus_cycle (run_cycles 48 arbiter_alias)).bus.provider_id = 0 ∧
    (∀ k, k < 8 →
      (run_cycles (49 + k) arbiter_alias).bus.state = BusState.FLUSH ∧
      (run_cycles (49 + k) arbiter_alias).bus.provider_id = 0 ∧
      (bus_cycle_out (run_cycles (49 + k) arbiter_alias)).2.cmd = BusCommand.FLUSH ∧
      (bus_cycle_out (run_cycles (49 + k) arbiter_alias)).2.origid = 0 ∧
      (bus_cycle_out (run_cycles (49 + k) arbiter_alias)).2.addr = 0x200008 + k ∧
      MAIN_MEM_SIZE ≤ (bus_cycle_out (run_cycles (49 + k) arbiter_alias)).2.addr) := by
  decide!

/-- C12 (a bus grant is final), evaluated on `arbiter_alias`.  At state 47 the
arbiter is IDLE with core 1's request pending, and the `bus_cycle` of that cycle
grants the bus to core 1 (`owner = 1`, `last_granted = 1`).  The transaction is
a BusRd of address `0x200008` served by core 0.  Its Flush steps of cycles 54
and 55, inside the grant, execute `main_memory.data[0x20000D] = data` and
`main_memory.data[0x20000E] = data`, stores outside the array: in the C struct
the array is followed by the eight words of the rest of `MainMemory`, the five
words of `bus.current`, and then `bus.last_granted` and `bus.owner`. -/
theorem granted_flush_stores_past_memory :
    (run_cycles 47 arbiter_alias).bus.state = BusState.IDLE ∧
    (run_cycles 47 arbiter_alias).bus.pending 1 = true ∧
    (bus_cycle (run_cycles 47 arbiter_alias)).bus.owner = 1 ∧
    (bus_cycle (run_cycles 47 arbiter_alias)).bus.last_granted = 1 ∧
    (bus_cycle (run_cycles 47 arbiter_alias)).bus.state = BusState.ARBITRATE ∧
    (bus_cycle_out (run_cycles 48 arbiter_alias)).2.cmd = BusCommand.RD ∧
    (bus_cycle_out (run_cycles 48 arbiter_alias)).2.addr = 0x200008 ∧
    (run_cycles 54 arbiter_alias).bus.state = BusState.FLUSH ∧
    (run_cycles 54 arbiter_alias).bus.owner = 1 ∧
    (run_cycles 54 arbiter_alias).bus.provider_id = 0 ∧
    (bus_cycle_out (run_cycles 54 arbiter_alias)).2.cmd = BusCommand.FLUSH ∧
    (bus_cycle_out (run_cycles 54 arbiter_alias)).2.addr = 0x20000D ∧
    (run_cycles 55 arbiter_alias).bus.state = BusState.FLUSH ∧
    (run_cycles 55 arbiter_alias).bus.provider_id = 0 ∧
    (bus_cycle_out (run_cycles 55 arbiter_alias)).2.cmd = BusCommand.FLUSH ∧
    (bus_cycle_out (run_cycles 55 arbiter_alias)).2.addr = 0x20000E ∧
    MAIN_MEM_SIZE + 8 + 5 = 0x20000D ∧ MAIN_MEM_SIZE + 8 + 5 + 1 = 0x20000E := by
  decide!

/-- C29 (safety ceiling), evaluated on `counter_alias`.  Up to state 18 no bus
step has indexed main memory out of range; the Request step of the cycle from
state 18 (core 0's BusRdX for address `0xE3503C`, served by memory) reads
`main_memory.data[0xE35038 … 0xE3503F]`, outside the array.  At state 71 core 0
holds the block Modified with word 4 equal to 0 and the bus has been granted to
core 1 for a BusRd of the same address.  The loop of `run_simulator` is still
running (its condition holds and `global_cycle = 76` is below the ceiling) when
the Flush step of the cycle from state 76 drives word 4 of the block and, core 0
being the provider, executes `main_memory.data[0xE3503C] = 0`, a store outside
the array. -/
theorem counter_alias_store_past_memory :
    (run_cycles 18 counter_alias).mem_fault = false ∧
    (bus_cycle_out (run_cycles 18 counter_alias)).2
      = { origid := 0, cmd := BusCommand.RDX, addr := 0xE3503C, data := 0, shared := false } ∧
    (bus_cycle (run_cycles 18 counter_alias)).bus.provider_id = 4 ∧
    (bus_cycle (run_cycles 18 counter_alias)).mem_fault = true ∧
    MAIN_MEM_SIZE ≤ 0xE3503C ∧
    line_state ((run_cycles 71 counter_alias).cores 0).cache
      (get_cache_index 0xE3503C) (get_cache_tag 0xE3503C) = MESIState.MODIFIED ∧
    ((run_cycles 71 counter_alias).cores 0).cache.dsram (get_cache_index 0xE3503C * 8 + 4) = 0 ∧
    (bus_cycle_out (run_cycles 71 counter_alias)).2
      = { origid := 1, cmd := BusCommand.RD, addr := 0xE3503C, data := 0, shared := true } ∧
    (bus_cycle (run_cycles 71 counter_alias)).bus.provider_id = 0 ∧
    (∀ n, n ≤ 76 → loop_condition (run_cycles n counter_alias) = true ∧
      (run_cycles n counter_alias).global_cycle = n) ∧
    (run_cycles 76 counter_alias).bus.state = BusState.FLUSH ∧
    (run_cycles 76 counter_alias).bus.provider_id = 0 ∧
    (bus_cycle_out (run_cycles 76 counter_alias)).2
      = { origid := 0, cmd := BusCommand.FLUSH, addr := 0xE3503C, data := 0, shared := true } := by
  decide!

end CA2026
